import Mathlib

/-!
Natron, `Engine/EffectInstanceRenderRoI.cpp`: a shallow embedding of `EffectInstance::renderRoI`.

The request resolver `renderRoI` is embedded as an explicit state-passing function.

* Every C++ local of `renderRoI` is a field of the record `St`; each section of the source is one
  function `St → Flow` and `renderRoIBody` chains them in source order.
* Everything `renderRoI` calls that lives outside `EffectInstanceRenderRoI.cpp` (effect hooks, the
  image cache, the trimap coordinator, image primitives, rectangle conversions, thread local
  storage) is a field of `Env`: a function of an external state `σ` that the call may read and
  change. Nothing is assumed about these functions.
* Every such call, and every `renderRoI` call made by an activation, is appended to the activation's
  own `trace`. The events of a nested activation are its own and are not copied to the caller.
* Recursion (`renderRoI` on this node or on another node) goes through the parameter `recCall`;
  `renderRoI` ties the knot with fuel, `none` meaning that the fuel ran out.
* `double` times and canonical coordinates are only stored, passed on and compared for equality by
  this file; they are embedded as `Int`.
-/

namespace Natron

/-! ## Enumerations -/

/-- `EffectInstance::RenderRoIRetCode`. -/
inductive RenderRoIRetCode where
  | eRenderRoIRetCodeOk
  | eRenderRoIRetCodeAborted
  | eRenderRoIRetCodeFailed
deriving DecidableEq, Repr, Inhabited

/-- `EffectInstance::RenderRoIStatusEnum`. -/
inductive RenderRoIStatusEnum where
  | eRenderRoIStatusImageAlreadyRendered
  | eRenderRoIStatusImageRendered
  | eRenderRoIStatusRenderFailed
  | eRenderRoIStatusRenderOutOfGPUMemory
deriving DecidableEq, Repr, Inhabited

/-- `EffectInstance::RenderingFunctorRetEnum`. -/
inductive RenderingFunctorRetEnum where
  | eRenderingFunctorRetFailed
  | eRenderingFunctorRetOK
  | eRenderingFunctorRetTakeImageLock
  | eRenderingFunctorRetAborted
  | eRenderingFunctorRetOutOfGPUMemory
deriving DecidableEq, Repr, Inhabited

inductive StorageModeEnum where
  | eStorageModeRAM
  | eStorageModeDisk
  | eStorageModeGLTex
deriving DecidableEq, Repr, Inhabited

inductive PluginOpenGLRenderSupport where
  | ePluginOpenGLRenderSupportNone
  | ePluginOpenGLRenderSupportYes
  | ePluginOpenGLRenderSupportNeeded
deriving DecidableEq, Repr, Inhabited

inductive SupportsEnum where
  | eSupportsNo
  | eSupportsYes
  | eSupportsMaybe
deriving DecidableEq, Repr, Inhabited

inductive ViewInvarianceLevel where
  | eViewInvarianceAllViewsVariant
  | eViewInvarianceOnlyPassThroughPlanesVariant
  | eViewInvarianceAllViewsInvariant
deriving DecidableEq, Repr, Inhabited

inductive StatusEnum where
  | eStatusOK
  | eStatusFailed
  | eStatusOutOfMemory
  | eStatusReplyDefault
deriving DecidableEq, Repr, Inhabited

inductive RenderSafetyEnum where
  | eRenderSafetyUnsafe
  | eRenderSafetyInstanceSafe
  | eRenderSafetyFullySafe
  | eRenderSafetyFullySafeFrame
deriving DecidableEq, Repr, Inhabited

inductive ImagePremultiplicationEnum where
  | eImagePremultiplicationOpaque
  | eImagePremultiplicationPremultiplied
  | eImagePremultiplicationUnPremultiplied
deriving DecidableEq, Repr, Inhabited

inductive ImageBitDepthEnum where
  | eImageBitDepthNone
  | eImageBitDepthByte
  | eImageBitDepthShort
  | eImageBitDepthHalf
  | eImageBitDepthFloat
deriving DecidableEq, Repr, Inhabited

inductive SequentialPreferenceEnum where
  | eSequentialPreferenceNotSequential
  | eSequentialPreferenceOnlySequential
  | eSequentialPreferencePreferSequential
deriving DecidableEq, Repr, Inhabited

/-! ## Rectangles, planes, images -/

/-- Modelled from the spec: `RectI` ("integer rectangle"); `Engine/RectI.h` is not among the
sources. Only the four coordinates, emptiness and the two extents are given a meaning here;
intersection and the conversions to canonical coordinates are parameters of `Env`. -/
structure RectI where
  x1 : Int
  y1 : Int
  x2 : Int
  y2 : Int
deriving DecidableEq, Repr, Inhabited

/-- `RectI::isNull`: the rectangle holds no pixel. -/
def RectI.isNull (r : RectI) : Bool := decide (r.x2 ≤ r.x1) || decide (r.y2 ≤ r.y1)

/-- `RectI::width`. -/
def RectI.width (r : RectI) : Int := r.x2 - r.x1

/-- `RectI::height`. -/
def RectI.height (r : RectI) : Int := r.y2 - r.y1

/-- Modelled from the spec: `RectD` ("canonical float rectangle"); `Engine/RectD.h` is not among
the sources. Coordinates are embedded as `Int`. -/
structure RectD where
  x1 : Int
  y1 : Int
  x2 : Int
  y2 : Int
deriving DecidableEq, Repr, Inhabited

/-- `RectD::isNull`. -/
def RectD.isNull (r : RectD) : Bool := decide (r.x2 ≤ r.x1) || decide (r.y2 ≤ r.y1)

/-- `RectD::clear()`, what `preComputedRoD.clear()` leaves. -/
def RectD.cleared : RectD := ⟨0, 0, 0, 0⟩

/-- The layer name of the colour plane (`kNatronColorPlaneName`), as a layer identifier. -/
def kNatronColorPlaneName : Nat := 0

/-- Modelled from the spec: `ImageComponents` ("a logical layer of an image and its component
list"); `Engine/ImageComponents.h` is not among the sources. Layer and component names are
identifiers. The ordering `operator<` used by `std::map` is a parameter of `Env`. -/
structure ImageComponents where
  layerName : Nat
  componentNames : List Nat
deriving DecidableEq, Repr, Inhabited

/-- `ImageComponents::isColorPlane`. -/
def ImageComponents.isColorPlane (c : ImageComponents) : Bool := c.layerName == kNatronColorPlaneName

/-- `ImageComponents::getNumComponents`. -/
def ImageComponents.getNumComponents (c : ImageComponents) : Nat := c.componentNames.length

/-- An `ImagePtr` that is not null: the address of the image and the attributes fixed when the
image is constructed. What can change during the life of an image (bounds, region of definition,
bitmap, pixels) stays in the external state and is reached through `Env`. -/
structure Image where
  ptr : Nat
  components : ImageComponents
  bitDepth : ImageBitDepthEnum
  storage : StorageModeEnum
  mipMapLevel : Nat
deriving DecidableEq, Repr, Inhabited

/-- `ImageKey`, the fields `renderRoI` passes to its constructor. -/
structure ImageKey where
  holder : Nat
  nodeHashKey : Nat
  frameVaryingOrAnimated : Bool
  time : Int
  view : Nat
  draftMode : Bool
  fullScaleWithDownscaleInputs : Bool
deriving DecidableEq, Repr, Inhabited

/-- `std::map<ImageComponents, V>` as the list of its entries in iteration order. -/
abbrev PlaneMap (V : Type) := List (ImageComponents × V)

/-- `std::map::insert(std::make_pair(k, v))` for the ordering `lt`: the entry is put at its place
in the order, and the map is left as it is when it already holds an equivalent key. -/
def PlaneMap.insertNew {V : Type} (lt : ImageComponents → ImageComponents → Bool) :
    PlaneMap V → ImageComponents → V → PlaneMap V
  | [], k, v => [(k, v)]
  | (k0, v0) :: rest, k, v =>
    if lt k k0 then (k, v) :: (k0, v0) :: rest
    else if lt k0 k then (k0, v0) :: PlaneMap.insertNew lt rest k v
    else (k0, v0) :: rest

/-- `std::map::operator[](k) = v`: as `insertNew`, but an equivalent key gets the new value. -/
def PlaneMap.assign {V : Type} (lt : ImageComponents → ImageComponents → Bool) :
    PlaneMap V → ImageComponents → V → PlaneMap V
  | [], k, v => [(k, v)]
  | (k0, v0) :: rest, k, v =>
    if lt k k0 then (k, v) :: (k0, v0) :: rest
    else if lt k0 k then (k0, v0) :: PlaneMap.assign lt rest k v
    else (k0, v) :: rest

/-- `std::map::insert(first, last)`: every entry of `src`, in order, through `insertNew`. -/
def PlaneMap.insertRange {V : Type} (lt : ImageComponents → ImageComponents → Bool)
    (m : PlaneMap V) (src : List (ImageComponents × V)) : PlaneMap V :=
  src.foldl (fun acc kv => PlaneMap.insertNew lt acc kv.1 kv.2) m

/-! ## Requests, render contexts, working state of a render -/

/-- A node of the graph together with its effect instance. -/
abbrev NodeId := Nat

/-- `RenderScale`, kept as an identifier: the file never computes with it. -/
abbrev RenderScale := Nat

/-- `EffectInstance::RenderRoIArgs`. -/
structure RenderRoIArgs where
  time : Int
  scale : RenderScale
  mipMapLevel : Nat
  view : Nat
  byPassCache : Bool
  roi : RectI
  preComputedRoD : RectD
  components : List ImageComponents
  bitdepth : ImageBitDepthEnum
  calledFromGetImage : Bool
  caller : Option NodeId
  returnStorage : StorageModeEnum
  callerRenderTime : Int
  allowGPURendering : Bool
  inputImagesList : List Image
deriving DecidableEq, Repr, Inhabited

/-- `ParallelRenderArgs`, the fields `renderRoI` and `renderRoIInternal` read. The three pointer
fields hold what `lock()` gives (`none` for null). -/
structure ParallelRenderArgs where
  time : Int
  nodeHash : Nat
  view : Nat
  visitsCount : Int
  isSequentialRender : Bool
  isRenderResponseToUserInteraction : Bool
  tilesSupported : Bool
  currentOpenglSupport : PluginOpenGLRenderSupport
  currentThreadSafety : RenderSafetyEnum
  draftMode : Bool
  isAnalysis : Bool
  treeRoot : Option NodeId
  openGLContext : Option Nat
  abortInfo : Option Nat
  request : Option Nat
deriving DecidableEq, Repr, Inhabited

/-- `FrameViewRequest::globalData`, what the pre-pass computed for one (time, view). -/
structure FrameViewRequest where
  rod : RectD
  isProjectFormat : Bool
  isIdentity : Bool
  identityInputNb : Int
  inputIdentityTime : Int
  identityView : Nat
  transforms : Nat
  transformsEmpty : Bool
  frameViewsNeeded : Nat
deriving DecidableEq, Repr, Inhabited

/-- `EffectInstance::PlaneToRender`. `originalCachedImage` is the raw address the source keeps
"only to compare". -/
structure PlaneToRender where
  fullscaleImage : Option Image := none
  downscaleImage : Option Image := none
  cacheSwapImage : Option Image := none
  originalCachedImage : Option Nat := none
  isAllocatedOnTheFly : Bool := false
deriving DecidableEq, Repr, Inhabited

/-- `EffectInstance::RectToRender`; `imgs` is the identifier of the input images fetched for it. -/
structure RectToRender where
  rect : RectI
  isIdentity : Bool
  identityInput : Option NodeId := none
  identityTime : Int := 0
  identityView : Nat := 0
  imgs : Nat := 0
deriving DecidableEq, Repr, Inhabited

/-- How a call of `renderRoI` ends: it returns a code, it throws `std::runtime_error`, or it reads
an iterator at or past the end of its container. -/
inductive Outcome where
  | returned (code : RenderRoIRetCode)
  | raised
  | undefinedBehaviour
deriving DecidableEq, Repr, Inhabited

/-- The places of `renderRoI` that call `renderRoI`. -/
inductive CallSite where
  | mainInstance
  | passThroughPlane
  | identitySelf
  | identityInput
  | viewZero
  | gpuRetry
deriving DecidableEq, Repr, Inhabited

/-- What an activation of `renderRoI` does towards the outside, in the order it does it. -/
inductive Event where
  | tlsPushFrameArgs
  | getRegionOfDefinition (node : NodeId) (time : Int) (view : Nat)
  | getComponentsNeededAndProduced
  | getComponentsAvailable
  | renderRoI (site : CallSite) (callee : NodeId) (args : RenderRoIArgs) (outcome : Outcome)
  | isIdentity (node : NodeId) (rect : RectI) (time : Int) (view : Nat)
  | getFrameRange
  | tryConcatenateTransforms
  | setPersistentMessage
  | glContextLockerCreated
  | glContextLockerReset
  | glContextLockerAttach
  | glContextLockerDettach
  | getImageFromCacheAndConvertIfNeeded (key : ImageKey) (plane : ImageComponents)
      (found : Option Image)
  | removeFromNodeCacheByHash (key : ImageKey)
  | removeFromNodeCache (img : Option Image)
  | getRestToRender (img : Image) (roi : RectI)
  | getRestToRender_trimap (img : Image) (roi : RectI)
  | getFramesNeeded
  | clearLastPaintStrokeRoD
  | clearBitmap (img : Option Image) (r : RectI)
  | setBitmapDirtyZone (img : Option Image) (r : RectI)
  | renderInputImagesForRoI (rect : RectI) (outcome : Outcome)
  | allocateImagePlane (components : ImageComponents) (downscaledBounds upscaledBounds : RectI)
      (storage : StorageModeEnum) (createInCache : Bool)
  | setRoD (img : Image)
  | copyAndResizeIfNeeded (img : Image) (bounds : RectI)
  | ensureBounds (img : Image) (bounds : RectI)
  | newImage (img : Image) (bounds : RectI)
  | downscaleMipMap (src : Image) (dst : Option Image)
  | markImageAsBeingRendered (img : Option Image)
  | unmarkImageAsBeingRendered (img : Option Image) (failed : Bool)
  | waitForImageBeingRenderedElsewhereAndUnmark (roi : RectI) (img : Option Image) (ok : Bool)
  | getOrCreateRenderInstance
  | releaseRenderInstance
  | attachOpenGLContext (stat : StatusEnum)
  | dettachOpenGLContext
  | beginSequenceRender
  | tiledRenderingFunctor (rect : RectToRender) (ret : RenderingFunctorRetEnum)
  | endSequenceRender
  | renderRoIInternal (status : RenderRoIStatusEnum)
  | aborted (value : Bool)
  | removeAllImagesFromCache
  | swapOrInsert
  | convertToFormat (src dst : Image) (alpha0 : Bool)
  | convertRAMImageToOpenGLTexture
  | convertOpenGLTextureToCachedRAMImage
deriving DecidableEq, Repr, Inhabited

/-- What a finished activation of `renderRoI` leaves: how it ended, `*outputPlanes`, its own trace
and the external state. -/
structure Result (σ : Type) where
  outcome : Outcome
  planes : PlaneMap Image
  trace : List Event
  ext : σ
deriving DecidableEq, Repr

/-- The type of `renderRoI` as a callee: effect instance, `args`, `*outputPlanes` on entry,
external state on entry; `none` when the fuel ran out. -/
abbrev RecCall (σ : Type) := NodeId → RenderRoIArgs → PlaneMap Image → σ → Option (Result σ)

/-! ## The environment: everything `renderRoI` calls outside its own file -/

/-- The collaborators of `renderRoI`. A field that takes `σ` reads the external state; one that
returns `σ` may change it. An effect hook that can throw returns `none` when it throws. -/
structure Env (σ : Type) where
  -- the graph and the declared properties of each effect
  mainInstance : NodeId → Option NodeId
  getInput : NodeId → Int → Option NodeId
  getMaxInputCount : NodeId → Nat
  isInputMask : NodeId → Int → Bool
  isInputRotoBrush : NodeId → Int → Bool
  hasAttachedRotoItem : NodeId → Bool
  isViewInvariant : NodeId → ViewInvarianceLevel
  isDiskCacheNode : NodeId → Bool
  isWriter : NodeId → Bool
  isReader : NodeId → Bool
  isRotoPaintNode : NodeId → Bool
  supportsRenderScaleMaybe : NodeId → σ → SupportsEnum
  supportsMultiResolution : NodeId → Bool
  supportsConcurrentOpenGLRenders : NodeId → Bool
  getAspectRatio : NodeId → Int
  getPremult : NodeId → ImagePremultiplicationEnum
  getBitDepth : NodeId → ImageBitDepthEnum
  getComponents : NodeId → ImageComponents
  isSupportedComponent : NodeId → ImageComponents → Bool
  hasChannelSelectorKnob : NodeId → Int → Bool
  usesAlpha0ToConvertFromRGBToRGBA : NodeId → Bool
  isPluginOpenGLEnabled : NodeId → Bool
  isForceCachingEnabled : NodeId → Bool
  isDraftModeUsed : NodeId → Bool
  useScaleOneImagesWhenRenderScaleSupportIsDisabled : NodeId → Bool
  getCurrentSequentialRenderSupport : NodeId → SequentialPreferenceEnum
  isFrameVaryingOrAnimated_Recursive : NodeId → σ → Bool
  shouldCacheOutput : NodeId → Bool → Int → Nat → Int → σ → Bool
  getOutputsCount : NodeId → σ → Int
  getHash : NodeId → σ → Nat
  -- `ImageComponents::operator<`, the order of every `std::map` keyed by planes
  compLess : ImageComponents → ImageComponents → Bool
  -- rectangle primitives (`RectI.h`, `RectD.h`); `none` is a `false` result, output untouched
  getScaleFromMipMapLevel : Nat → RenderScale
  toPixelEnclosing : RectD → Nat → Int → RectI
  toCanonical : RectI → Nat → Int → RectD → RectD
  rectIIntersect : RectI → RectI → Option RectI
  rectIIntersects : RectI → RectI → Bool
  rectDIntersect : RectD → RectD → Option RectD
  rectDMerge : RectD → RectD → RectD
  splitIntoSmallerRects : RectI → List RectI
  -- thread local storage and the frame render context
  tlsFrameArgs : NodeId → σ → Option ParallelRenderArgs
  newParallelRenderArgs : ParallelRenderArgs
  tlsPushFrameArgs : NodeId → ParallelRenderArgs → σ → σ
  isCurrentFrameRenderNotAbortable : ParallelRenderArgs → Bool
  getFrameViewRequest : Nat → Int → Nat → Option FrameViewRequest
  statsInDepthProfiling : ParallelRenderArgs → Bool
  -- application and settings
  isTransformConcatenationEnabled : σ → Bool
  getCurrentOpenGLRendererMaxTextureSize : σ → Int
  isNodeCacheAlmostFull : σ → Bool
  isDuringPaintStrokeCreationThreadLocal : NodeId → σ → Bool
  isLastPaintStrokeBitmapCleared : NodeId → σ → Bool
  getLastPaintStrokeBbox : σ → RectD
  clearLastPaintStrokeRoD : NodeId → σ → σ
  getPaintStrokeRoD : NodeId → Int → σ → RectD
  aborted : NodeId → σ → Bool
  setPersistentMessage : NodeId → σ → σ
  getNumberOfThreads : σ → Int
  getHardwareIdealThreadCount : σ → Int
  threadPoolIsSaturated : σ → Bool
  -- effect hooks
  getRegionOfDefinition : NodeId → Nat → Int → RenderScale → Nat → σ → (StatusEnum × RectD × Bool) × σ
  getComponentsNeededAndProduced : NodeId → Int → Nat → σ →
    (List (Int × List ImageComponents) × Bool) × σ
  getComponentsAvailable : NodeId → Int → σ → List (ImageComponents × Option NodeId) × σ
  /-- `isIdentity_public(useIdentityCache, hash, time, scale, rect, view, &inputTime, &inputView,
  &inputNb)`: the three last arguments are the values the out-parameters hold before the call,
  the result is the returned `bool` and the values they hold after it. -/
  isIdentity : NodeId → Bool → Nat → Int → RenderScale → RectI → Nat → Int → Nat → Int → σ →
    Option (Bool × Int × Nat × Int) × σ
  getFrameRange : NodeId → Nat → σ → σ
  tryConcatenateTransforms : NodeId → Int → Nat → RenderScale → σ → Nat × σ
  getFramesNeeded : NodeId → Nat → Int → Nat → Nat → σ → Nat × σ
  -- image cache
  getImageFromCacheAndConvertIfNeeded : NodeId → Bool → StorageModeEnum → StorageModeEnum →
    ImageKey → Nat → RectI → RectD → RectI → ImageBitDepthEnum → ImageComponents → List Image →
    σ → Option Image × σ
  removeFromNodeCacheByHash : ImageKey → σ → σ
  removeFromNodeCache : Option Image → σ → σ
  removeAllImagesFromCache : NodeId → σ → σ
  swapOrInsert : Image → Option Image → σ → σ
  imageIsInCache : Image → σ → Bool
  -- images
  getRestToRender : Image → RectI → σ → List RectI
  getRestToRender_trimap : Image → RectI → σ → List RectI × Bool
  clearBitmap : Option Image → RectI → σ → σ
  setBitmapDirtyZone : Option Image → RectI → σ → σ
  allocateImagePlane : NodeId → ImageKey → RectD → RectI → RectI → Bool → ImageComponents →
    ImageBitDepthEnum → ImagePremultiplicationEnum → Int → Nat → Bool → StorageModeEnum → Bool →
    σ → (Option Image × Option Image) × σ
  getRoD : Image → σ → RectD
  setRoD : Image → RectD → σ → σ
  getBounds : Image → σ → RectI
  copyAndResizeIfNeeded : Image → RectI → Bool → σ → (Bool × Option Image) × σ
  ensureBounds : Image → RectI → Bool → σ → Bool × σ
  freshImagePtr : σ → Nat × σ
  downscaleMipMap : Image → RectD → RectI → Nat → Nat → Bool → Option Image → σ → σ
  convertToFormat : Image → RectI → Bool → Bool → Image → σ → σ
  convertRAMImageToOpenGLTexture : Image → σ → Image × σ
  convertOpenGLTextureToCachedRAMImage : Image → σ → Image × σ
  -- trimap coordinator
  markImageAsBeingRendered : NodeId → Option Image → σ → σ
  unmarkImageAsBeingRendered : NodeId → Option Image → Bool → σ → σ
  waitForImageBeingRenderedElsewhereAndUnmark : NodeId → RectI → Option Image → σ → Bool × σ
  -- rendering
  /-- `renderInputImagesForRoI`: how it ends and the identifier of the images it fetched. -/
  renderInputImagesForRoI : NodeId → Option FrameViewRequest → Bool → StorageModeEnum → Int →
    Nat → RectD → RectD → Nat → RenderScale → Bool → Bool → Nat → σ → (Outcome × Nat) × σ
  getOrCreateRenderInstance : NodeId → σ → NodeId × σ
  releaseRenderInstance : NodeId → NodeId → σ → σ
  attachOpenGLContext : NodeId → Nat → σ → StatusEnum × σ
  glContextDataMustDettach : NodeId → σ → Bool
  dettachOpenGLContext : NodeId → Nat → σ → σ
  beginSequenceRender : NodeId → Int → RenderScale → Bool → Bool → Bool → Nat → Bool → σ →
    StatusEnum × σ
  endSequenceRender : NodeId → Int → RenderScale → Bool → Bool → Bool → Nat → Bool → σ →
    StatusEnum × σ
  tiledRenderingFunctor : NodeId → RectToRender → Bool → Nat → Nat → Int → Nat → Bool →
    PlaneMap PlaneToRender → σ → RenderingFunctorRetEnum × σ

/-! ## The locals of `renderRoI` -/

/-- The state of one activation of `renderRoI`: the external state, the activation's trace,
`*outputPlanes`, and every local variable of the function under its source name
(`planes`, `useOpenGL`, `rectsToRender`, `isBeingRenderedElsewhere` and `outputPremult` are the
fields of `planesToRender`). -/
structure St (σ : Type) where
  ext : σ
  trace : List Event := []
  out : PlaneMap Image := []
  frameArgs : ParallelRenderArgs := default
  glContext : Option Nat := none
  abortInfo : Option Nat := none
  byPassCache : Bool := false
  nodeHash : Nat := 0
  par : Int := 0
  thisEffectOutputPremult : ImagePremultiplicationEnum := default
  supportsRS : SupportsEnum := default
  renderFullScaleThenDownscale : Bool := false
  renderMappedMipMapLevel : Nat := 0
  requestPassData : Option FrameViewRequest := none
  rod : RectD := default
  isProjectFormat : Bool := false
  roi : RectI := default
  neededComps : List (Int × List ImageComponents) := []
  outputComponents : List ImageComponents := []
  requestedComponents : List ImageComponents := []
  viewInvariance : ViewInvarianceLevel := default
  useTransforms : Bool := false
  transformRedirections : Option Nat := none
  downscaledImageBoundsNc : RectI := default
  upscaledImageBoundsNc : RectI := default
  originalRoI : RectI := default
  openGLSupport : PluginOpenGLRenderSupport := default
  storage : StorageModeEnum := .eStorageModeRAM
  glContextLocker : Bool := false
  draftModeSupported : Bool := false
  isFrameVaryingOrAnimated : Bool := false
  createInCache : Bool := false
  renderScaleOneUpstreamIfRenderScaleSupportDisabled : Bool := false
  key : ImageKey := default
  nonDraftKey : ImageKey := default
  outputDepth : ImageBitDepthEnum := default
  outputClipPrefComps : ImageComponents := default
  planes : PlaneMap PlaneToRender := []
  useOpenGL : Bool := false
  rectsToRender : List RectToRender := []
  isBeingRenderedElsewhere : Bool := false
  outputPremult : ImagePremultiplicationEnum := default
  framesNeeded : Nat := 0
  redoCacheLookup : Bool := false
  cacheAlmostFull : Bool := false
  isPlaneCached : Option Image := none
  rectsLeftToRender : List RectI := []
  isDuringPaintStroke : Bool := false
  fillGrownBoundsWithZeroes : Bool := false
  lastStrokePixelRoD : RectI := default
  tryIdentityOptim : Bool := false
  inputsRoDIntersectionPixel : RectI := default
  hasSomethingToRender : Bool := false
  renderRetCode : RenderRoIStatusEnum := .eRenderRoIStatusImageAlreadyRendered
  renderAborted : Bool := false
deriving DecidableEq, Repr

/-- Where a section of `renderRoI` leaves the activation: it goes on, it is over, or a nested
call ran out of fuel. -/
inductive Flow (σ : Type) where
  | next (s : St σ)
  | done (r : Result σ)
  | outOfFuel
deriving DecidableEq, Repr

/-- Sequencing of sections. -/
def Flow.andThen {σ : Type} (f : Flow σ) (k : St σ → Flow σ) : Flow σ :=
  match f with
  | .next s => k s
  | .done r => .done r
  | .outOfFuel => .outOfFuel

/-- What the caller of the activation gets. -/
def Flow.result {σ : Type} : Flow σ → Option (Result σ)
  | .next s => some ⟨.returned .eRenderRoIRetCodeOk, s.out, s.trace, s.ext⟩
  | .done r => some r
  | .outOfFuel => none

/-- Append an event to the trace. -/
def St.emit {σ : Type} (s : St σ) (e : Event) : St σ := { s with trace := s.trace ++ [e] }

/-- A `return code;` statement. -/
def St.returns {σ : Type} (s : St σ) (code : RenderRoIRetCode) : Flow σ :=
  .done ⟨.returned code, s.out, s.trace, s.ext⟩

/-- An activation that ends otherwise than by `return` (`throw`, or a read past the end). -/
def St.endsWith {σ : Type} (s : St σ) (o : Outcome) : Flow σ :=
  .done ⟨o, s.out, s.trace, s.ext⟩

/-- A statement `return callee->renderRoI(a, outputPlanes);`. -/
def tailCall {σ : Type} (recCall : RecCall σ) (site : CallSite) (callee : NodeId)
    (a : RenderRoIArgs) (s : St σ) : Flow σ :=
  match recCall callee a s.out s.ext with
  | none => .outOfFuel
  | some r => .done ⟨r.outcome, r.planes, s.trace ++ [Event.renderRoI site callee a r.outcome], r.ext⟩

/-! ## `convertPlanesFormatsIfNeeded` (lines 166-219) -/

/-- `EffectInstance::convertPlanesFormatsIfNeeded`. The image made by `new Image(...)` gets the
target components and depth, the mip-map level of the input, and the storage that constructor
gives when none is named (system memory). -/
def convertPlanesFormatsIfNeeded {σ : Type} (env : Env σ) (inputImage : Image) (roi : RectI)
    (targetComponents : ImageComponents) (targetDepth : ImageBitDepthEnum)
    (useAlpha0ForRGBToRGBAConversion : Bool) (outputPremult : ImagePremultiplicationEnum)
    (s : St σ) : Image × St σ :=
  if inputImage.storage = .eStorageModeGLTex then (inputImage, s)
  else
    let imageConversionNeeded :=
      targetComponents.getNumComponents != inputImage.components.getNumComponents
        || targetDepth != inputImage.bitDepth
    if !imageConversionNeeded then (inputImage, s)
    else
      let bounds := env.getBounds inputImage s.ext
      let p := env.freshImagePtr s.ext
      let tmp : Image :=
        { ptr := p.1, components := targetComponents, bitDepth := targetDepth,
          storage := .eStorageModeRAM, mipMapLevel := inputImage.mipMapLevel }
      let clippedRoi := (env.rectIIntersect roi bounds).getD default
      let unPremultIfNeeded :=
        outputPremult == .eImagePremultiplicationPremultiplied
          && inputImage.components.getNumComponents == 4 && tmp.components.getNumComponents == 3
      let ext := env.convertToFormat inputImage clippedRoi useAlpha0ForRGBToRGBAConversion
        unPremultIfNeeded tmp p.2
      (tmp, { s with ext := ext,
                     trace := s.trace ++ [Event.newImage tmp bounds,
                       Event.convertToFormat inputImage tmp useAlpha0ForRGBToRGBAConversion] })

/-! ## `renderRoI`, lines 221-479: early-out, render context, scale, RoD, RoI, planes -/

/-- Lines 225-241: nothing requested, or the call is forwarded to the main instance. -/
def earlyOut {σ : Type} (env : Env σ) (recCall : RecCall σ) (self : NodeId)
    (args : RenderRoIArgs) (s : St σ) : Flow σ :=
  if args.components.isEmpty then s.returns .eRenderRoIRetCodeOk
  else if args.roi.isNull then s.returns .eRenderRoIRetCodeOk
  else
    match env.mainInstance self with
    | some main => tailCall recCall .mainInstance main args s
    | none => .next s

/-- Lines 243-274: the frame render context, from thread local storage or made up. -/
def setupFrameArgs {σ : Type} (env : Env σ) (self : NodeId) (args : RenderRoIArgs)
    (s : St σ) : Flow σ :=
  match env.tlsFrameArgs self s.ext with
  | none =>
    let frameArgs : ParallelRenderArgs :=
      { env.newParallelRenderArgs with
          visitsCount := env.getOutputsCount self s.ext
          time := args.time
          nodeHash := env.getHash self s.ext
          view := args.view
          isSequentialRender := false
          isRenderResponseToUserInteraction := true }
    .next { s with frameArgs := frameArgs, glContext := none, abortInfo := none,
                   ext := env.tlsPushFrameArgs self frameArgs s.ext,
                   trace := s.trace ++ [Event.tlsPushFrameArgs] }
  | some frameArgs =>
    .next { s with frameArgs := frameArgs,
                   glContext := if frameArgs.abortInfo.isNone then none else frameArgs.openGLContext,
                   abortInfo := frameArgs.abortInfo }

/-- Lines 276-304: render-scale policy and the pre-pass data of this (time, view). -/
def scalePolicy {σ : Type} (env : Env σ) (self : NodeId) (args : RenderRoIArgs)
    (s : St σ) : Flow σ :=
  let supportsRS := env.supportsRenderScaleMaybe self s.ext
  let renderFullScaleThenDownscale := supportsRS == .eSupportsNo && args.mipMapLevel != 0
  .next { s with
    byPassCache := args.byPassCache
    nodeHash := s.frameArgs.nodeHash
    par := env.getAspectRatio self
    thisEffectOutputPremult := env.getPremult self
    supportsRS := supportsRS
    renderFullScaleThenDownscale := renderFullScaleThenDownscale
    renderMappedMipMapLevel := if renderFullScaleThenDownscale then 0 else args.mipMapLevel
    requestPassData :=
      match s.frameArgs.request with
      | some request => env.getFrameViewRequest request args.time args.view
      | none => none }

/-- Lines 306-342: the region of definition. -/
def getRoD {σ : Type} (env : Env σ) (self : NodeId) (args : RenderRoIArgs) (s : St σ) : Flow σ :=
  if !args.preComputedRoD.isNull then .next { s with rod := args.preComputedRoD }
  else
    match s.requestPassData with
    | some requestPassData =>
      .next { s with rod := requestPassData.rod, isProjectFormat := requestPassData.isProjectFormat }
    | none =>
      let r := env.getRegionOfDefinition self s.nodeHash args.time
        (env.getScaleFromMipMapLevel s.renderMappedMipMapLevel) args.view s.ext
      let s1 : St σ :=
        { s with ext := r.2, rod := r.1.2.1, isProjectFormat := r.1.2.2,
                 trace := s.trace ++ [Event.getRegionOfDefinition self args.time args.view] }
      if r.1.1 = .eStatusFailed then s1.returns .eRenderRoIRetCodeOk
      else if s1.rod.isNull then s1.returns .eRenderRoIRetCodeOk
      else if s1.supportsRS == .eSupportsMaybe && s1.renderMappedMipMapLevel != 0 then
        let supportsRS := env.supportsRenderScaleMaybe self s1.ext
        let renderFullScaleThenDownscale := supportsRS == .eSupportsNo && args.mipMapLevel != 0
        .next { s1 with
          supportsRS := supportsRS
          renderFullScaleThenDownscale := renderFullScaleThenDownscale
          renderMappedMipMapLevel :=
            if renderFullScaleThenDownscale then 0 else s1.renderMappedMipMapLevel }
      else .next s1

/-- Lines 345-356: the region of interest in the coordinates of the image that is rendered. -/
def computeRoI {σ : Type} (env : Env σ) (args : RenderRoIArgs) (s : St σ) : Flow σ :=
  if s.renderFullScaleThenDownscale then
    let canonicalRoI := env.toCanonical args.roi args.mipMapLevel s.par s.rod
    .next { s with roi := env.toPixelEnclosing canonicalRoI 0 s.par }
  else .next { s with roi := args.roi }

/-- Lines 378-394: the needed components of the output once "process all" is requested: for each
requested plane, the first colour plane of the output when the plane is the colour plane (and
there is one), the plane itself otherwise. -/
def processAllCompVec (requested outputNeeded : List ImageComponents) : List ImageComponents :=
  requested.map fun c =>
    match outputNeeded.find? (fun c2 => c2.isColorPlane && c.isColorPlane) with
    | some c2 => c2
    | none => c

/-- Lines 358-400: needed planes. -/
def neededPlanes {σ : Type} (env : Env σ) (self : NodeId) (args : RenderRoIArgs)
    (s : St σ) : Flow σ :=
  let r := env.getComponentsNeededAndProduced self args.time args.view s.ext
  let s1 : St σ := { s with ext := r.2, trace := s.trace ++ [Event.getComponentsNeededAndProduced] }
  match r.1.1.lookup (-1) with
  | none => s1.returns .eRenderRoIRetCodeOk
  | some foundOutputNeededComps =>
    if r.1.2 then
      let compVec := processAllCompVec args.components foundOutputNeededComps
      .next { s1 with neededComps := r.1.1.map (fun e => (e.1, compVec)), outputComponents := compVec }
    else .next { s1 with neededComps := r.1.1, outputComponents := foundOutputNeededComps }

/-- Lines 429-444: the entry of the components-available map that serves the requested plane
`c`: the first entry, in iteration order, that equals `c` or, when `c` is the colour plane, is a
supported colour plane. The result is `(foundComponent, foundNode)`. -/
def findAvailable {σ : Type} (env : Env σ) (self : NodeId) (c : ImageComponents) :
    List (ImageComponents × Option NodeId) → Option (ImageComponents × Option NodeId)
  | [] => none
  | (k, node) :: rest =>
    if k = c then some (c, node)
    else if c.isColorPlane && k.isColorPlane && env.isSupportedComponent self k then some (k, node)
    else findAvailable env self c rest

/-- Lines 419-455: the requested planes split into `requestedComponents` (rendered here) and
`componentsToFetchUpstream`. -/
def negotiatePlanes {σ : Type} (env : Env σ) (self : NodeId)
    (componentsAvailables : List (ImageComponents × Option NodeId)) :
    List ImageComponents → List ImageComponents × List (ImageComponents × Option NodeId)
  | [] => ([], [])
  | c :: cs =>
    let rest := negotiatePlanes env self componentsAvailables cs
    match findAvailable env self c componentsAvailables with
    | none => rest
    | some (foundComponent, foundNode) =>
      if foundNode = some self then (foundComponent :: rest.1, rest.2)
      else (rest.1, (foundComponent, foundNode) :: rest.2)

/-- Lines 457-473: render upstream the planes this node does not produce. -/
def fetchUpstream {σ : Type} (env : Env σ) (recCall : RecCall σ) (args : RenderRoIArgs) :
    List (ImageComponents × Option NodeId) → St σ → Flow σ
  | [], s => .next s
  | (_, none) :: rest, s => fetchUpstream env recCall args rest s
  | (comp, some node) :: rest, s =>
    let inArgs : RenderRoIArgs := { args with preComputedRoD := RectD.cleared, components := [comp] }
    match recCall node inArgs [] s.ext with
    | none => .outOfFuel
    | some r =>
      let s1 : St σ :=
        { s with ext := r.ext,
                 trace := s.trace ++ [Event.renderRoI .passThroughPlane node inArgs r.outcome] }
      match r.outcome with
      | .returned inputRetCode =>
        if inputRetCode = .eRenderRoIRetCodeAborted ∨ inputRetCode = .eRenderRoIRetCodeFailed then
          s1.returns inputRetCode
        else
          match r.planes with
          | [] => s1.returns inputRetCode
          | (_, img) :: _ =>
            fetchUpstream env recCall args rest
              { s1 with out := PlaneMap.insertNew env.compLess s1.out comp img }
      | o => s1.endsWith o

/-- Lines 402-479: pass-through for planes. -/
def passThroughPlanes {σ : Type} (env : Env σ) (recCall : RecCall σ) (self : NodeId)
    (args : RenderRoIArgs) (s : St σ) : Flow σ :=
  let r := env.getComponentsAvailable self args.time s.ext
  let s1 : St σ := { s with ext := r.2, trace := s.trace ++ [Event.getComponentsAvailable] }
  let split := negotiatePlanes env self r.1 args.components
  (fetchUpstream env recCall args split.2 { s1 with requestedComponents := split.1 }).andThen
    fun s2 => if s2.requestedComponents.isEmpty then s2.returns .eRenderRoIRetCodeOk else .next s2

/-! ## `renderRoI`, lines 481-654: identity -/

/-- Lines 487-513: is the effect an identity over the whole region of definition? The result is
`(identity, inputTimeIdentity, inputIdentityView, inputNbIdentity)`, or `none` when the hook
threw. `inputNbIdentity` is not initialised by the source before the hook is called; the hook is
given 0 for it. -/
def identityQuery {σ : Type} (env : Env σ) (self : NodeId) (args : RenderRoIArgs)
    (s : St σ) : Option (Bool × Int × Nat × Int) × St σ :=
  if args.view != 0 && s.viewInvariance == .eViewInvarianceAllViewsInvariant then
    (some (true, args.time, args.view, -2), s)
  else
    match s.requestPassData with
    | some requestPassData =>
      (some (requestPassData.isIdentity, requestPassData.inputIdentityTime,
             requestPassData.identityView, requestPassData.identityInputNb), s)
    | none =>
      let pixelRod := env.toPixelEnclosing s.rod args.mipMapLevel s.par
      let r := env.isIdentity self true s.nodeHash args.time
        (env.getScaleFromMipMapLevel s.renderMappedMipMapLevel) pixelRod args.view
        0 args.view 0 s.ext
      (r.1, { s with ext := r.2,
                     trace := s.trace ++ [Event.isIdentity self pixelRod args.time args.view] })

/-- Lines 611-629: the planes fetched through the identity input, converted to the requested
format. The planes of `*outputPlanes` and the requested components are walked together;
`none` when `*compIt` is read at the end of `args.components` or `outputComponents.front()` is
read on an empty vector. -/
def convertIdentityPlanes {σ : Type} (env : Env σ) (args : RenderRoIArgs)
    (useAlpha0ForRGBToRGBAConversion : Bool) :
    List (ImageComponents × Image) → List ImageComponents → PlaneMap Image → St σ →
      Option (PlaneMap Image × St σ)
  | [], _, convertedPlanes, s => some (convertedPlanes, s)
  | _ :: _, [], _, _ => none
  | (k, img) :: rest, comp :: comps, convertedPlanes, s =>
    match s.outputComponents.head? with
    | none => none
    | some outComp =>
      let premult :=
        if outComp.isColorPlane then s.thisEffectOutputPremult
        else ImagePremultiplicationEnum.eImagePremultiplicationOpaque
      let r := convertPlanesFormatsIfNeeded env img args.roi comp args.bitdepth
        useAlpha0ForRGBToRGBAConversion premult s
      convertIdentityPlanes env args useAlpha0ForRGBToRGBAConversion rest comps
        (PlaneMap.assign env.compLess convertedPlanes k r.1) r.2

/-- `args.caller ? args.caller->getNode()->usesAlpha0ToConvertFromRGBToRGBA() : false`. -/
def useAlpha0 {σ : Type} (env : Env σ) (args : RenderRoIArgs) : Bool :=
  match args.caller with
  | some caller => env.usesAlpha0ToConvertFromRGBToRGBA caller
  | none => false

/-- Lines 548-638: the effect is an identity of input `inputNbIdentity`: the request is handed
to that input. -/
def identityRedirect {σ : Type} (env : Env σ) (recCall : RecCall σ) (self : NodeId)
    (args : RenderRoIArgs) (inputTimeIdentity : Int) (inputIdentityView : Nat)
    (inputNbIdentity : Int) (s : St σ) : Flow σ :=
  let s1 : St σ :=
    { s with ext := env.getFrameRange self s.nodeHash s.ext, trace := s.trace ++ [Event.getFrameRange] }
  match env.getInput self inputNbIdentity with
  | none => s1.returns .eRenderRoIRetCodeOk
  | some inputEffectIdentity =>
    let fetchUserSelectedComponentsUpstream := env.hasChannelSelectorKnob self inputNbIdentity
    let components :=
      if fetchUserSelectedComponentsUpstream then
        match s1.neededComps.lookup inputNbIdentity with
        | some foundCompsNeeded => foundCompsNeeded.filter (fun c => c.getNumComponents != 0)
        | none => args.components
      else s1.requestedComponents
    let inputArgs : RenderRoIArgs :=
      { args with time := inputTimeIdentity, view := inputIdentityView,
                  preComputedRoD := RectD.cleared, components := components }
    match recCall inputEffectIdentity inputArgs [] s1.ext with
    | none => .outOfFuel
    | some r =>
      let s2 : St σ :=
        { s1 with ext := r.ext,
                  trace := s1.trace ++
                    [Event.renderRoI .identityInput inputEffectIdentity inputArgs r.outcome] }
      match r.outcome with
      | .returned .eRenderRoIRetCodeOk =>
        let s3 : St σ := { s2 with out := PlaneMap.insertRange env.compLess s2.out r.planes }
        if fetchUserSelectedComponentsUpstream then
          match convertIdentityPlanes env args (useAlpha0 env args) s3.out args.components [] s3 with
          | none => s3.endsWith .undefinedBehaviour
          | some (convertedPlanes, s4) =>
            ({ s4 with out := convertedPlanes } : St σ).returns .eRenderRoIRetCodeOk
        else s3.returns .eRenderRoIRetCodeOk
      | .returned ret => s2.returns ret
      | o => s2.endsWith o

/-- Lines 515-520: an effect whose render-scale support is still "maybe" after the identity
check renders at full scale. -/
def scaleAfterIdentity {σ : Type} (args : RenderRoIArgs) (s : St σ) : St σ :=
  if s.supportsRS == .eSupportsMaybe && args.mipMapLevel != 0 then
    { s with renderFullScaleThenDownscale := true, renderMappedMipMapLevel := 0 }
  else s

/-- Lines 484-654: identity check, then the redirection to view 0 of an effect whose
pass-through planes only depend on the view. -/
def identityPhase {σ : Type} (env : Env σ) (recCall : RecCall σ) (self : NodeId)
    (args : RenderRoIArgs) (s : St σ) : Flow σ :=
  let s0 : St σ := { s with viewInvariance := env.isViewInvariant self }
  let q := identityQuery env self args s0
  match q.1 with
  | none => q.2.returns .eRenderRoIRetCodeFailed
  | some (identity, inputTimeIdentity, inputIdentityView, inputNbIdentity) =>
    let s1 : St σ := scaleAfterIdentity args q.2
    if identity then
      if inputNbIdentity = -1 then s1.returns .eRenderRoIRetCodeOk
      else if inputNbIdentity = -2 ∧
          (inputTimeIdentity ≠ args.time
            ∨ s1.viewInvariance = .eViewInvarianceAllViewsInvariant) then
        tailCall recCall .identitySelf self
          { args with
              time := inputTimeIdentity
              view := if s1.viewInvariance = .eViewInvarianceAllViewsInvariant then 0
                      else inputIdentityView
              preComputedRoD := RectD.cleared } s1
      else identityRedirect env recCall self args inputTimeIdentity inputIdentityView
        inputNbIdentity s1
    else if args.view != 0
        && s1.viewInvariance == .eViewInvarianceOnlyPassThroughPlanesVariant then
      tailCall recCall .viewZero self { args with view := 0, preComputedRoD := RectD.cleared } s1
    else .next s1

/-! ## `renderRoI`, lines 656-806: transforms, image bounds, storage -/

/-- Lines 656-671: transform concatenation. -/
def concatenateTransforms {σ : Type} (env : Env σ) (self : NodeId) (args : RenderRoIArgs)
    (s : St σ) : Flow σ :=
  match s.requestPassData with
  | some requestPassData =>
    .next { s with transformRedirections := some requestPassData.transforms,
                   useTransforms := !requestPassData.transformsEmpty }
  | none =>
    if env.isTransformConcatenationEnabled s.ext then
      let r := env.tryConcatenateTransforms self args.time args.view args.scale s.ext
      .next { s with useTransforms := true, transformRedirections := some r.1, ext := r.2,
                     trace := s.trace ++ [Event.tryConcatenateTransforms] }
    else .next { s with useTransforms := false }

/-- Lines 677-729: the bounds of the image at both scales and the working region of interest. -/
def computeBounds {σ : Type} (env : Env σ) (args : RenderRoIArgs) (s : St σ) : Flow σ :=
  let downscaledImageBoundsNc := env.toPixelEnclosing s.rod args.mipMapLevel s.par
  let upscaledImageBoundsNc := env.toPixelEnclosing s.rod 0 s.par
  if s.frameArgs.tilesSupported then
    match env.rectIIntersect s.roi
        (if s.renderFullScaleThenDownscale then upscaledImageBoundsNc
         else downscaledImageBoundsNc) with
    | none => s.returns .eRenderRoIRetCodeOk
    | some roi =>
      .next { s with
        roi := roi
        originalRoI := roi
        upscaledImageBoundsNc := (env.rectIIntersect upscaledImageBoundsNc roi).getD upscaledImageBoundsNc
        downscaledImageBoundsNc :=
          (env.rectIIntersect downscaledImageBoundsNc args.roi).getD downscaledImageBoundsNc }
  else
    .next { s with
      originalRoI := s.roi
      roi := if s.renderFullScaleThenDownscale then upscaledImageBoundsNc
             else downscaledImageBoundsNc
      upscaledImageBoundsNc := upscaledImageBoundsNc
      downscaledImageBoundsNc := downscaledImageBoundsNc }

/-- Lines 760-789: an effect that can also render on CPU (`ePluginOpenGLRenderSupportYes`) goes
back to system memory when caching is forced, when the node is visited more than once or the
request is not at the caller's time, or when the region of interest does not fit a texture. The
result is the storage and one `glContextLocker.reset()` event for the fallback taken. -/
def cpuFallback {σ : Type} (env : Env σ) (self : NodeId) (args : RenderRoIArgs) (s : St σ) :
    StorageModeEnum × List Event :=
  let a : StorageModeEnum × List Event :=
    if env.isForceCachingEnabled self then (.eStorageModeRAM, [Event.glContextLockerReset])
    else (.eStorageModeGLTex, [])
  let b : StorageModeEnum × List Event :=
    if a.1 = .eStorageModeGLTex ∧
        (s.frameArgs.visitsCount > 1 ∨ args.time ≠ args.callerRenderTime) then
      (.eStorageModeRAM, a.2 ++ [Event.glContextLockerReset])
    else a
  if b.1 = .eStorageModeGLTex ∧
      (s.roi.width ≥ env.getCurrentOpenGLRendererMaxTextureSize s.ext
        ∨ s.roi.height ≥ env.getCurrentOpenGLRendererMaxTextureSize s.ext) then
    (.eStorageModeRAM, b.2 ++ [Event.glContextLockerReset])
  else b

/-- Lines 732-789: storage selection. -/
def chooseStorage {σ : Type} (env : Env σ) (self : NodeId) (args : RenderRoIArgs)
    (s : St σ) : Flow σ :=
  let openGLSupport := s.frameArgs.currentOpenglSupport
  let s0 : St σ :=
    { s with openGLSupport := openGLSupport, storage := .eStorageModeRAM, glContextLocker := false }
  if env.isDiskCacheNode self then .next { s0 with storage := .eStorageModeDisk }
  else if s0.glContext.isSome ∧
      (openGLSupport = .ePluginOpenGLRenderSupportNeeded
        ∨ (openGLSupport = .ePluginOpenGLRenderSupportYes ∧ args.allowGPURendering = true)) then
    if openGLSupport = .ePluginOpenGLRenderSupportNeeded ∧ env.isPluginOpenGLEnabled self = false then
      ({ s0 with ext := env.setPersistentMessage self s0.ext,
                 trace := s0.trace ++ [Event.setPersistentMessage] } : St σ).returns
        .eRenderRoIRetCodeFailed
    else
      let s1 : St σ :=
        { s0 with glContextLocker := true, storage := .eStorageModeGLTex,
                  trace := s0.trace ++ [Event.glContextLockerCreated] }
      if openGLSupport = .ePluginOpenGLRenderSupportYes then
        let f := cpuFallback env self args s1
        .next { s1 with storage := f.1, glContextLocker := decide (f.1 = .eStorageModeGLTex),
                        trace := s1.trace ++ f.2 }
      else .next s1
  else .next s0

/-- Lines 790-805: an OpenGL render always supports render scale. -/
def openGLRenderScale {σ : Type} (env : Env σ) (args : RenderRoIArgs) (s : St σ) : Flow σ :=
  if s.storage = .eStorageModeGLTex ∧ s.renderFullScaleThenDownscale = true then
    let s1 : St σ :=
      { s with renderFullScaleThenDownscale := false, renderMappedMipMapLevel := args.mipMapLevel }
    if s1.frameArgs.tilesSupported then
      match env.rectIIntersect args.roi s1.downscaledImageBoundsNc with
      | none => ({ s1 with roi := args.roi } : St σ).returns .eRenderRoIRetCodeOk
      | some roi => .next { s1 with roi := roi }
    else .next { s1 with roi := s1.downscaledImageBoundsNc }
  else .next s

/-! ## `renderRoI`, lines 809-957: cache look-up -/

/-- The `components` pointer of lines 872-882, 1279-1289 and 1395-1408: the plane itself when it
is not the colour plane, else the first colour plane of `outputComponents`, null when there is
none. -/
def findComponents (plane : ImageComponents) (outputComponents : List ImageComponents) :
    Option ImageComponents :=
  if !plane.isColorPlane then some plane else outputComponents.find? (fun c => c.isColorPlane)

/-- Lines 809-855: what the cache look-up needs: caching policy and the two keys. -/
def prepareLookup {σ : Type} (env : Env σ) (self : NodeId) (args : RenderRoIArgs)
    (s : St σ) : Flow σ :=
  let draftModeSupported := env.isDraftModeUsed self
  let isFrameVaryingOrAnimated := env.isFrameVaryingOrAnimated_Recursive self s.ext
  let createInCache :=
    if s.storage = .eStorageModeGLTex then false
    else if s.frameArgs.isAnalysis
        && (match s.frameArgs.treeRoot with
            | some root => decide (args.caller = some root)
            | none => false) then true
    else env.shouldCacheOutput self isFrameVaryingOrAnimated args.time args.view
      s.frameArgs.visitsCount s.ext
  let renderScaleOneUpstreamIfRenderScaleSupportDisabled :=
    if s.renderFullScaleThenDownscale then
      if !env.useScaleOneImagesWhenRenderScaleSupportIsDisabled self
          && !env.supportsMultiResolution self then true
      else env.useScaleOneImagesWhenRenderScaleSupportIsDisabled self
    else false
  let fullScaleWithDownscaleInputs :=
    s.renderMappedMipMapLevel == 0 && args.mipMapLevel != 0
      && !renderScaleOneUpstreamIfRenderScaleSupportDisabled
  .next { s with
    draftModeSupported := draftModeSupported
    isFrameVaryingOrAnimated := isFrameVaryingOrAnimated
    createInCache := createInCache
    renderScaleOneUpstreamIfRenderScaleSupportDisabled :=
      renderScaleOneUpstreamIfRenderScaleSupportDisabled
    key := ⟨self, s.nodeHash, isFrameVaryingOrAnimated, args.time, args.view,
            draftModeSupported && s.frameArgs.draftMode, fullScaleWithDownscaleInputs⟩
    nonDraftKey := ⟨self, s.nodeHash, isFrameVaryingOrAnimated, args.time, args.view, false,
                    fullScaleWithDownscaleInputs⟩
    outputDepth := env.getBitDepth self
    outputClipPrefComps := env.getComponents self
    planes := []
    useOpenGL := decide (s.storage = .eStorageModeGLTex)
    rectsToRender := []
    isBeingRenderedElsewhere := false }

/-- One call of `getImageFromCacheAndConvertIfNeeded` with the arguments of lines 893-900 and
1295-1299. -/
def cacheLookupOnce {σ : Type} (env : Env σ) (self : NodeId) (args : RenderRoIArgs)
    (k : ImageKey) (plane : ImageComponents) (s : St σ) : Option Image × St σ :=
  let r := env.getImageFromCacheAndConvertIfNeeded self s.createInCache s.storage args.returnStorage
    k s.renderMappedMipMapLevel
    (if s.renderFullScaleThenDownscale then s.upscaledImageBoundsNc else s.downscaledImageBoundsNc)
    s.rod s.roi args.bitdepth plane args.inputImagesList s.ext
  (r.1, { s with ext := r.2,
                 trace := s.trace ++ [Event.getImageFromCacheAndConvertIfNeeded k plane r.1] })

/-- Line 893, `n == 0 ? *nonDraftKey : *key`. -/
def lookupKey {σ : Type} (n : Nat) (s : St σ) : ImageKey :=
  if n = 0 then s.nonDraftKey else s.key

/-- Lines 892-904, `for (int n = 0; n < nLookups; ++n)`: `remaining` is `nLookups - n`. -/
def cacheLookups {σ : Type} (env : Env σ) (self : NodeId) (args : RenderRoIArgs)
    (plane : ImageComponents) : Nat → Nat → St σ → Option Image × St σ
  | 0, _, s => (none, s)
  | remaining + 1, n, s =>
    let r := cacheLookupOnce env self args (lookupKey n s) plane s
    if r.1.isSome then r else cacheLookups env self args plane remaining (n + 1) r.2

/-- Lines 887-905: the look-up of one plane. -/
def lookupPlane {σ : Type} (env : Env σ) (self : NodeId) (args : RenderRoIArgs)
    (plane : ImageComponents) (s : St σ) : Option Image × St σ :=
  let doCacheLookup := !env.isWriter self || !s.frameArgs.isSequentialRender
  if doCacheLookup then
    let nLookups := if s.draftModeSupported && s.frameArgs.draftMode then 2 else 1
    cacheLookups env self args plane nLookups 0 s
  else (none, s)

/-- Lines 929-947: a plane is missing, so the planes found before it are either complete over
the region of interest, and go to the output, or are dropped from the cache and rendered again. -/
def recheckPlanes {σ : Type} (env : Env σ) :
    List (ImageComponents × PlaneToRender) → PlaneMap PlaneToRender → St σ →
      PlaneMap PlaneToRender × St σ
  | [], newPlanes, s => (newPlanes, s)
  | (k, plane) :: rest, newPlanes, s =>
    match plane.fullscaleImage with
    | some img =>
      let s1 := s.emit (Event.getRestToRender img s.roi)
      if !(env.getRestToRender img s.roi s.ext).isEmpty then
        recheckPlanes env rest
          (PlaneMap.insertNew env.compLess newPlanes k
            { plane with fullscaleImage := none, downscaleImage := none })
          { s1 with ext := env.removeFromNodeCache (some img) s1.ext,
                    trace := s1.trace ++ [Event.removeFromNodeCache (some img)] }
      else
        recheckPlanes env rest newPlanes
          { s1 with out := PlaneMap.insertNew env.compLess s1.out k img }
    | none => recheckPlanes env rest (PlaneMap.insertNew env.compLess newPlanes k plane) s

/-- Lines 907-912: with `byPassCache`, what was found is removed from the cache and dropped. -/
def dropIfByPass {σ : Type} (env : Env σ) (found : Option Image × St σ) : Option Image × St σ :=
  if found.2.byPassCache && found.1.isSome then
    (none, { found.2 with ext := env.removeFromNodeCacheByHash found.2.key found.2.ext,
                          trace := found.2.trace ++ [Event.removeFromNodeCacheByHash found.2.key] })
  else found

/-- Lines 951-953: the plane enters `planesToRender->planes` with the image found, if any. -/
def insertPlane {σ : Type} (env : Env σ) (plane : ImageComponents) (img : Option Image)
    (s : St σ) : St σ :=
  { s with planes := PlaneMap.insertNew env.compLess s.planes plane
              { fullscaleImage := img, downscaleImage := img, isAllocatedOnTheFly := false } }

/-- Lines 865-953: one round of the look-up loop, for the requested plane `plane`; the result
is the flag `missingPlane` of line 862 and the state after the round. -/
def lookupStep {σ : Type} (env : Env σ) (self : NodeId) (args : RenderRoIArgs)
    (plane : ImageComponents) (missingPlane : Bool) (s : St σ) : Bool × St σ :=
  match findComponents plane s.outputComponents with
  | none => (missingPlane, s)
  | some _ =>
    let found := dropIfByPass env (lookupPlane env self args plane s)
    match found.1 with
    | some img =>
      if missingPlane then
        if !(env.getRestToRender img found.2.roi found.2.ext).isEmpty then
          (missingPlane,
           insertPlane env plane none
            { found.2 with
                ext := env.removeFromNodeCache (some img) found.2.ext
                trace := found.2.trace ++ [Event.getRestToRender img found.2.roi,
                                           Event.removeFromNodeCache (some img)] })
        else
          (missingPlane,
           { found.2 with
               out := PlaneMap.insertNew env.compLess found.2.out plane img
               trace := found.2.trace ++ [Event.getRestToRender img found.2.roi] })
      else (missingPlane, insertPlane env plane (some img) found.2)
    | none =>
      if !missingPlane then
        let r := recheckPlanes env found.2.planes [] found.2
        (true, insertPlane env plane none { r.2 with planes := r.1 })
      else (missingPlane, insertPlane env plane none found.2)

/-- Lines 864-954: the look-up loop over `requestedComponents`; `missingPlane` is the flag of
line 862. -/
def lookupLoop {σ : Type} (env : Env σ) (self : NodeId) (args : RenderRoIArgs) :
    List ImageComponents → Bool → St σ → St σ
  | [], _, s => s
  | plane :: rest, missingPlane, s =>
    lookupLoop env self args rest (lookupStep env self args plane missingPlane s).1
      (lookupStep env self args plane missingPlane s).2

/-- Lines 857-957: look-up the cache. -/
def cacheLookup {σ : Type} (env : Env σ) (self : NodeId) (args : RenderRoIArgs)
    (s : St σ) : Flow σ :=
  .next (lookupLoop env self args s.requestedComponents false s)

/-! ## `optimizeRectsToRender` (lines 92-164) -/

/-- How the walk along an identity branch ends. -/
inductive WalkResult (σ : Type) where
  | stopped (identityInput : Option NodeId) (identityInputTime : Int) (inputIdentityView : Nat)
      (s : St σ)
  | threw (s : St σ)
  | outOfFuel

/-- Lines 131-145, the `for (;;)` loop: walk along the identity branch from `identityInput`
until a node is not an identity, is an identity of itself (-2), names itself as its identity
input, or names a missing input. One unit of fuel is one round of the loop. -/
def identityChainWalk {σ : Type} (env : Env σ) (time : Int) (renderMappedScale : RenderScale)
    (split : RectI) (view : Nat) :
    Nat → NodeId → Int → Nat → Int → St σ → WalkResult σ
  | 0, _, _, _, _, _ => .outOfFuel
  | fuel + 1, identityInput, identityInputTime, inputIdentityView, identityInputNb, s =>
    let r := env.isIdentity identityInput false 0 time renderMappedScale split view
      identityInputTime inputIdentityView identityInputNb s.ext
    let s1 : St σ :=
      { s with ext := r.2, trace := s.trace ++ [Event.isIdentity identityInput split time view] }
    match r.1 with
    | none => .threw s1
    | some (identity, t, v, nb) =>
      if !identity || nb == -2 then .stopped (some identityInput) t v s1
      else
        match env.getInput identityInput nb with
        | none => .stopped none t v s1
        | some subIdentityInput =>
          if subIdentityInput = identityInput then .stopped (some identityInput) t v s1
          else identityChainWalk env time renderMappedScale split view fuel subIdentityInput t v nb s1

/-- `INT_MAX` and `INT_MIN` of the platform (32-bit `int`). -/
def INT_MAX : Int := 2147483647

/-- See `INT_MAX`. -/
def INT_MIN : Int := -2147483648

/-- How the loop over the sub-rectangles of one rectangle ends. -/
inductive SplitsResult (σ : Type) where
  | finished (identityRects : List RectToRender) (nonIdentityRectSet : Bool)
      (nonIdentityRect : RectI) (s : St σ)
  | threw (s : St σ)
  | outOfFuel

/-- Line 151, `finalRectsToRender->push_back(r)` for an identity rectangle: it comes before
the rectangles pushed by the rest of the loop. -/
def SplitsResult.push {σ : Type} (r : RectToRender) : SplitsResult σ → SplitsResult σ
  | .finished rects nonIdentityRectSet nonIdentityRect s =>
    .finished (r :: rects) nonIdentityRectSet nonIdentityRect s
  | other => other

/-- Lines 154-157: `nonIdentityRect` grown to hold the sub-rectangle `split`. -/
def boundingRect (split nonIdentityRect : RectI) : RectI :=
  { x1 := min split.x1 nonIdentityRect.x1, x2 := max split.x2 nonIdentityRect.x2,
    y1 := min split.y1 nonIdentityRect.y1, y2 := max split.y2 nonIdentityRect.y2 }

/-- Lines 112-159: the loop over `splits`. `nonIdentityRect` and `nonIdentityRectSet` are the
locals of that name; the identity rectangles are returned in the order they are pushed. -/
def optimizeSplits {σ : Type} (env : Env σ) (self : NodeId) (inputsRoDIntersection : RectI)
    (time : Int) (view : Nat) (renderMappedScale : RenderScale) (fuel : Nat) :
    List RectI → Bool → RectI → St σ → SplitsResult σ
  | [], nonIdentityRectSet, nonIdentityRect, s => .finished [] nonIdentityRectSet nonIdentityRect s
  | split :: rest, nonIdentityRectSet, nonIdentityRect, s =>
    if !env.rectIIntersects split inputsRoDIntersection then
      let r := env.isIdentity self false 0 time renderMappedScale split view 0 view (-1) s.ext
      let s1 : St σ :=
        { s with ext := r.2, trace := s.trace ++ [Event.isIdentity self split time view] }
      match r.1 with
      | none => .threw s1
      | some (identity, t, v, nb) =>
        if identity then
          match env.getInput self nb with
          | none =>
            (optimizeSplits env self inputsRoDIntersection time view renderMappedScale fuel rest
              nonIdentityRectSet nonIdentityRect s1).push
              { rect := split, isIdentity := true, identityInput := none, identityTime := t,
                identityView := v }
          | some identityInput =>
            match identityChainWalk env time renderMappedScale split view fuel identityInput
                t v nb s1 with
            | .stopped last t2 v2 s2 =>
              (optimizeSplits env self inputsRoDIntersection time view renderMappedScale fuel rest
                nonIdentityRectSet nonIdentityRect s2).push
                { rect := split, isIdentity := true, identityInput := last, identityTime := t2,
                  identityView := v2 }
            | .threw s2 => .threw s2
            | .outOfFuel => .outOfFuel
        else
          optimizeSplits env self inputsRoDIntersection time view renderMappedScale fuel rest true
            (boundingRect split nonIdentityRect) s1
    else
      optimizeSplits env self inputsRoDIntersection time view renderMappedScale fuel rest true
        (boundingRect split nonIdentityRect) s

/-- How `optimizeRectsToRender` ends. -/
inductive OptimizeResult (σ : Type) where
  | finished (finalRectsToRender : List RectToRender) (s : St σ)
  | threw (s : St σ)
  | outOfFuel

/-- `optimizeRectsToRender`: each rectangle is split; the sub-rectangles on which the effect is
an identity are emitted one by one, the others are merged into one bounding rectangle. `acc` is
`*finalRectsToRender` on entry. -/
def optimizeRectsToRender {σ : Type} (env : Env σ) (self : NodeId) (inputsRoDIntersection : RectI)
    (time : Int) (view : Nat) (renderMappedScale : RenderScale) (fuel : Nat) :
    List RectI → List RectToRender → St σ → OptimizeResult σ
  | [], acc, s => .finished acc s
  | rect :: rest, acc, s =>
    match optimizeSplits env self inputsRoDIntersection time view renderMappedScale fuel
        (env.splitIntoSmallerRects rect) false ⟨INT_MAX, INT_MAX, INT_MIN, INT_MIN⟩ s with
    | .finished identityRects nonIdentityRectSet nonIdentityRect s1 =>
      optimizeRectsToRender env self inputsRoDIntersection time view renderMappedScale fuel rest
        (acc ++ identityRects ++
          (if nonIdentityRectSet then
            [{ rect := nonIdentityRect, isIdentity := false, identityTime := 0 }] else [])) s1
    | .threw s1 => .threw s1
    | .outOfFuel => .outOfFuel

/-- The branch of lines 1181-1190 and 1326-1339 that does not optimise: one rectangle to render
for each rectangle of the list (`skipNull`: the second occurrence skips null rectangles). -/
def plainRectsToRender (skipNull : Bool) (rects : List RectI) : List RectToRender :=
  (rects.filter fun r => !(skipNull && r.isNull)).map fun r => { rect := r, isIdentity := false }

/-! ## `renderRoI`, lines 959-1192: what is left to render -/

/-- Lines 959-991: release the OpenGL context, frames needed, `isPlaneCached`. -/
def afterLookup {σ : Type} (env : Env σ) (self : NodeId) (args : RenderRoIArgs)
    (s : St σ) : Flow σ :=
  let s1 := if s.glContextLocker then s.emit Event.glContextLockerDettach else s
  let s2 : St σ :=
    match s1.requestPassData with
    | some requestPassData => { s1 with framesNeeded := requestPassData.frameViewsNeeded }
    | none =>
      let r := env.getFramesNeeded self s1.nodeHash args.time args.view s1.renderMappedMipMapLevel
        s1.ext
      { s1 with framesNeeded := r.1, ext := r.2, trace := s1.trace ++ [Event.getFramesNeeded] }
  let isPlaneCached : Option Image :=
    match s2.planes with
    | [] => none
    | (_, plane) :: _ => plane.fullscaleImage
  let s3 : St σ :=
    { s2 with redoCacheLookup := false, cacheAlmostFull := env.isNodeCacheAlmostFull s2.ext,
              isPlaneCached := isPlaneCached }
  if isPlaneCached.isNone && args.roi.isNull then s3.returns .eRenderRoIRetCodeFailed
  else .next s3

/-- Lines 996-1011: the paint-stroke state. -/
def paintStrokeRoD {σ : Type} (env : Env σ) (self : NodeId) (args : RenderRoIArgs)
    (s : St σ) : St σ :=
  let isDuringPaintStroke := env.isDuringPaintStrokeCreationThreadLocal self s.ext
  let s1 : St σ :=
    { s with rectsLeftToRender := [], isDuringPaintStroke := isDuringPaintStroke,
             fillGrownBoundsWithZeroes := false, lastStrokePixelRoD := default }
  if isDuringPaintStroke && args.inputImagesList.isEmpty
      && !env.isLastPaintStrokeBitmapCleared self s1.ext then
    { s1 with
        lastStrokePixelRoD :=
          env.toPixelEnclosing (env.getLastPaintStrokeBbox s1.ext) args.mipMapLevel s1.par
        ext := env.clearLastPaintStrokeRoD self s1.ext
        trace := s1.trace ++ [Event.clearLastPaintStrokeRoD] }
  else s1

/-- Lines 1023-1033: clear the bitmap of every cached plane over the last stroke. -/
def clearStrokeBitmaps {σ : Type} (env : Env σ) :
    List (ImageComponents × PlaneToRender) → St σ → St σ
  | [], s => s
  | (_, plane) :: rest, s =>
    clearStrokeBitmaps env rest
      { s with
          ext := env.setBitmapDirtyZone plane.fullscaleImage s.lastStrokePixelRoD
            (env.clearBitmap plane.fullscaleImage s.lastStrokePixelRoD s.ext)
          trace := s.trace ++ [Event.clearBitmap plane.fullscaleImage s.lastStrokePixelRoD,
                               Event.setBitmapDirtyZone plane.fullscaleImage s.lastStrokePixelRoD] }

/-- `renderFullScaleThenDownscale ? upscaledImageBounds : downscaledImageBounds`. -/
def St.renderBounds {σ : Type} (s : St σ) : RectI :=
  if s.renderFullScaleThenDownscale then s.upscaledImageBoundsNc else s.downscaledImageBoundsNc

/-- Lines 1013-1018 and 1319-1323: everything is to render. -/
def St.fullRectsToRender {σ : Type} (s : St σ) : List RectI :=
  [if s.frameArgs.tilesSupported then s.roi else s.renderBounds]

/-- Lines 1020-1034: while painting, only the last stroke is to render again: the bitmap of
the cached planes is cleared over it. -/
def clearLastStroke {σ : Type} (env : Env σ) (s : St σ) : St σ :=
  if s.isDuringPaintStroke && !s.lastStrokePixelRoD.isNull then
    clearStrokeBitmaps env s.planes { s with fillGrownBoundsWithZeroes := true }
  else s

/-- Lines 1036-1077: what the bitmap of the cached image leaves to render over the region of
interest, through the trimap when the render cannot be aborted. The trimap is compiled in
(`NATRON_ENABLE_TRIMAP`) and the build is a release build (no `DEBUG` block, no `assert`). -/
def queryRestToRender {σ : Type} (env : Env σ) (isPlaneCached : Image) (s : St σ) : St σ :=
  if env.isCurrentFrameRenderNotAbortable s.frameArgs then
    { s with
        rectsLeftToRender := (env.getRestToRender_trimap isPlaneCached s.roi s.ext).1
        isBeingRenderedElsewhere := (env.getRestToRender_trimap isPlaneCached s.roi s.ext).2
        trace := s.trace ++ [Event.getRestToRender_trimap isPlaneCached s.roi] }
  else
    { s with
        rectsLeftToRender := env.getRestToRender isPlaneCached s.roi s.ext
        trace := s.trace ++ [Event.getRestToRender isPlaneCached s.roi] }

/-- Lines 1078-1084: while painting, what is left to render is the last stroke. -/
def strokeRestToRender {σ : Type} (env : Env σ) (s : St σ) : St σ :=
  if s.isDuringPaintStroke && !s.rectsLeftToRender.isEmpty && !s.lastStrokePixelRoD.isNull then
    { s with
        rectsLeftToRender :=
          match env.rectIIntersect s.downscaledImageBoundsNc s.lastStrokePixelRoD with
          | some intersection => [intersection]
          | none => [] }
  else s

/-- Lines 1086-1108: a partial cache hit is given up for an OpenGL render or when the cache is
almost full: the whole region of interest is rendered and the images are released, their
addresses being kept for the second look-up. -/
def dropPartialHit {σ : Type} (s : St σ) : St σ :=
  if !s.rectsLeftToRender.isEmpty && (s.useOpenGL || s.cacheAlmostFull) then
    { s with
        rectsLeftToRender := [s.roi]
        planes := s.planes.map fun kp =>
          (kp.1, { kp.2 with originalCachedImage := kp.2.fullscaleImage.map (fun i => i.ptr),
                             fullscaleImage := none, downscaleImage := none })
        isPlaneCached := none
        redoCacheLookup := s.cacheAlmostFull }
  else s

/-- Lines 1111-1118: an effect without tile support renders its whole bounds again. -/
def noTilesRestToRender {σ : Type} (s : St σ) : St σ :=
  if !s.frameArgs.tilesSupported && !s.rectsLeftToRender.isEmpty && s.isPlaneCached.isSome then
    { s with rectsLeftToRender := [s.renderBounds] }
  else s

/-- Lines 993-1119: determine the rectangles left to render. -/
def rectsLeft {σ : Type} (env : Env σ) (self : NodeId) (args : RenderRoIArgs)
    (s : St σ) : Flow σ :=
  let s0 := paintStrokeRoD env self args s
  match s0.isPlaneCached with
  | none => .next { s0 with rectsLeftToRender := s0.fullRectsToRender }
  | some isPlaneCached =>
    .next (noTilesRestToRender (dropPartialHit (strokeRestToRender env
      (queryRestToRender env isPlaneCached (clearLastStroke env s0)))))

/-- The locals of the loop of lines 1133-1166. -/
structure InputsRoD where
  inputsIntersection : RectD := default
  inputsIntersectionSet : Bool := false
  hasDifferentRods : Bool := false
  hasMask : Bool := false
deriving DecidableEq, Repr, Inhabited

/-- Lines 1155-1165: account for the region of definition of one input. -/
def InputsRoD.add {σ : Type} (env : Env σ) (a : InputsRoD) (inputRod : RectD) : InputsRoD :=
  if !a.inputsIntersectionSet then
    { a with inputsIntersection := inputRod, inputsIntersectionSet := true }
  else
    { a with
        hasDifferentRods := a.hasDifferentRods || decide (inputRod ≠ a.inputsIntersection)
        inputsIntersection :=
          (env.rectDIntersect a.inputsIntersection inputRod).getD a.inputsIntersection }

/-- Lines 1133-1166: the loop over the inputs `i`. -/
def inputsRoDLoop {σ : Type} (env : Env σ) (self : NodeId) (args : RenderRoIArgs) :
    List Nat → InputsRoD → St σ → InputsRoD × St σ
  | [], a, s => (a, s)
  | i :: rest, a, s =>
    let isMask := env.isInputMask self i || env.isInputRotoBrush self i
    if env.hasAttachedRotoItem self && isMask then
      inputsRoDLoop env self args rest
        (InputsRoD.add env { a with hasMask := true } (env.getPaintStrokeRoD self args.time s.ext)) s
    else
      match env.getInput self i with
      | none => inputsRoDLoop env self args rest a s
      | some input =>
        let inputHash :=
          match env.tlsFrameArgs input s.ext with
          | some inputFrameArgs => inputFrameArgs.nodeHash
          | none => env.getHash input s.ext
        let r := env.getRegionOfDefinition input inputHash args.time args.scale args.view s.ext
        let s1 : St σ :=
          { s with ext := r.2,
                   trace := s.trace ++ [Event.getRegionOfDefinition input args.time args.view] }
        if r.1.1 ≠ .eStatusOK ∧ r.1.2.1.isNull = false then (a, s1)
        else
          inputsRoDLoop env self args rest
            (InputsRoD.add env { a with hasMask := a.hasMask || isMask } r.1.2.1) s1

/-- Lines 1126-1166: the regions of definition of the inputs are looked at when the effect
supports tiles, something is left to render and a paint stroke is being drawn. -/
def probeInputsRoD {σ : Type} (env : Env σ) (self : NodeId) (args : RenderRoIArgs)
    (s : St σ) : InputsRoD × St σ :=
  if s.frameArgs.tilesSupported && !s.rectsLeftToRender.isEmpty && s.isDuringPaintStroke then
    inputsRoDLoop env self args (List.range (env.getMaxInputCount self)) {} s
  else ({}, s)

/-- Lines 1121-1192: identity optimisation of the rectangles left to render, `rectsToRender`
and `hasSomethingToRender`. `fuel` bounds each walk along an identity branch. -/
def rectsToRenderPhase {σ : Type} (env : Env σ) (self : NodeId) (args : RenderRoIArgs)
    (fuel : Nat) (s : St σ) : Flow σ :=
  let probe := probeInputsRoD env self args s
  if probe.1.inputsIntersectionSet && (probe.1.hasMask || probe.1.hasDifferentRods) then
    match optimizeRectsToRender env self
        (env.toPixelEnclosing probe.1.inputsIntersection args.mipMapLevel probe.2.par)
        args.time args.view (env.getScaleFromMipMapLevel probe.2.renderMappedMipMapLevel) fuel
        probe.2.rectsLeftToRender probe.2.rectsToRender probe.2 with
    | .finished finalRectsToRender s2 =>
      .next { s2 with tryIdentityOptim := true
                      inputsRoDIntersectionPixel :=
                        env.toPixelEnclosing probe.1.inputsIntersection args.mipMapLevel probe.2.par
                      rectsToRender := finalRectsToRender
                      hasSomethingToRender := !finalRectsToRender.isEmpty }
    | .threw s2 => s2.endsWith .raised
    | .outOfFuel => .outOfFuel
  else
    .next { probe.2 with
      tryIdentityOptim := false
      rectsToRender := probe.2.rectsToRender ++ plainRectsToRender false probe.2.rectsLeftToRender
      hasSomethingToRender :=
        !(probe.2.rectsToRender ++ plainRectsToRender false probe.2.rectsLeftToRender).isEmpty }

/-! ## `renderRoI`, lines 1198-1381: input images, second cache look-up -/

/-- Lines 1210-1261 and 1342-1375: render the input images of every rectangle that is not an
identity; the first call that does not return `eRenderRoIRetCodeOk` ends `renderRoI` with its
code. `done` holds the rectangles already handled. -/
def renderInputImages {σ : Type} (env : Env σ) (self : NodeId) (args : RenderRoIArgs) :
    List RectToRender → List RectToRender → St σ → Flow σ
  | [], done, s => .next { s with rectsToRender := done }
  | r :: rest, done, s =>
    if r.isIdentity then renderInputImages env self args rest (done ++ [r]) s
    else
      let canonicalRoI :=
        env.toCanonical r.rect (if s.renderFullScaleThenDownscale then 0 else args.mipMapLevel)
          s.par s.rod
      let res := env.renderInputImagesForRoI self s.requestPassData s.useTransforms s.storage
        args.time args.view s.rod canonicalRoI args.mipMapLevel
        (env.getScaleFromMipMapLevel s.renderMappedMipMapLevel)
        s.renderScaleOneUpstreamIfRenderScaleSupportDisabled s.byPassCache s.framesNeeded s.ext
      let s1 : St σ :=
        { s with ext := res.2, rectsToRender := done ++ { r with imgs := res.1.2 } :: rest,
                 trace := s.trace ++ [Event.renderInputImagesForRoI r.rect res.1.1] }
      match res.1.1 with
      | .returned .eRenderRoIRetCodeOk =>
        renderInputImages env self args rest (done ++ [{ r with imgs := res.1.2 }]) s1
      | .returned inputCode => s1.returns inputCode
      | o => s1.endsWith o

/-- Lines 1198-1261: pre-render the input images. -/
def preRenderInputs {σ : Type} (env : Env σ) (self : NodeId) (args : RenderRoIArgs)
    (s : St σ) : Flow σ :=
  match s.outputComponents.head? with
  | none => s.endsWith .undefinedBehaviour
  | some outComp =>
    renderInputImages env self args s.rectsToRender []
      { s with outputPremult :=
          if outComp.isColorPlane then s.thisEffectOutputPremult
          else .eImagePremultiplicationOpaque }

/-- Lines 1306-1309: forget every image found by the second look-up. -/
def resetPlanes (planes : PlaneMap PlaneToRender) : PlaneMap PlaneToRender :=
  planes.map fun kp => (kp.1, { kp.2 with fullscaleImage := none, downscaleImage := none })

/-- Lines 1273-1312: look every plane up again; a plane that is not found, or is not the image
found the first time, makes the loop forget all of them. `before` are the entries already
visited. -/
def redoLookupLoop {σ : Type} (env : Env σ) (self : NodeId) (args : RenderRoIArgs) :
    List (ImageComponents × PlaneToRender) → List (ImageComponents × PlaneToRender) → St σ →
      PlaneMap PlaneToRender × St σ
  | before, [], s => (before, s)
  | before, (k, plane) :: rest, s =>
    match findComponents k s.outputComponents with
    | none => redoLookupLoop env self args (before ++ [(k, plane)]) rest s
    | some _ =>
      let r := cacheLookupOnce env self args s.key k s
      match r.1 with
      | some img =>
        if plane.originalCachedImage = some img.ptr then
          redoLookupLoop env self args
            (before ++ [(k, { plane with fullscaleImage := some img, downscaleImage := some img })])
            rest r.2
        else (resetPlanes (before ++ (k, plane) :: rest), r.2)
      | none => (resetPlanes (before ++ (k, plane) :: rest), r.2)

/-- Line 1314: the planes after the second look-up and `isPlaneCached`, read from the first. -/
def afterRedoLookup {σ : Type} (r : PlaneMap PlaneToRender × St σ) : St σ :=
  { r.2 with
      planes := r.1
      isPlaneCached :=
        match r.1 with
        | [] => none
        | (_, plane) :: _ => plane.fullscaleImage }

/-- Lines 1316-1376: the planes are gone from the cache: everything is to render, and the input
images are rendered for it. -/
def renderAllAgain {σ : Type} (env : Env σ) (self : NodeId) (args : RenderRoIArgs)
    (fuel : Nat) (s : St σ) : Flow σ :=
  if s.tryIdentityOptim && !s.fullRectsToRender.isEmpty then
    match optimizeRectsToRender env self s.inputsRoDIntersectionPixel args.time args.view
        (env.getScaleFromMipMapLevel s.renderMappedMipMapLevel) fuel s.fullRectsToRender []
        { s with rectsToRender := [], rectsLeftToRender := s.fullRectsToRender } with
    | .finished finalRectsToRender s3 =>
      renderInputImages env self args finalRectsToRender []
        { s3 with rectsToRender := finalRectsToRender }
    | .threw s3 => s3.endsWith .raised
    | .outOfFuel => .outOfFuel
  else
    renderInputImages env self args (plainRectsToRender true s.fullRectsToRender) []
      { s with rectsToRender := plainRectsToRender true s.fullRectsToRender,
               rectsLeftToRender := s.fullRectsToRender }

/-- Lines 1267-1378: when the cache was almost full, look the planes up again after the inputs
were rendered, and start over if they are gone. -/
def redoCacheLookupPhase {σ : Type} (env : Env σ) (self : NodeId) (args : RenderRoIArgs)
    (fuel : Nat) (s : St σ) : Flow σ :=
  if s.redoCacheLookup then
    if (afterRedoLookup (redoLookupLoop env self args [] s.planes s)).isPlaneCached.isNone then
      renderAllAgain env self args fuel (afterRedoLookup (redoLookupLoop env self args [] s.planes s))
    else .next (afterRedoLookup (redoLookupLoop env self args [] s.planes s))
  else .next s

/-! ## `renderRoI`, lines 1384-1510: allocation of the planes -/

/-- The image a plane is rendered into: `renderFullScaleThenDownscale ? fullscaleImage :
downscaleImage`. -/
def renderMappedImage (renderFullScaleThenDownscale : Bool) (plane : PlaneToRender) :
    Option Image :=
  if renderFullScaleThenDownscale then plane.fullscaleImage else plane.downscaleImage

/-- Lines 1439-1443: the region of definition of the cached image is merged with the one of
this render when they differ. -/
def mergeRoD {σ : Type} (env : Env σ) (fullscaleImage : Image) (s : St σ) : St σ :=
  if env.getRoD fullscaleImage s.ext ≠ s.rod then
    { s with ext := env.setRoD fullscaleImage (env.rectDMerge (env.getRoD fullscaleImage s.ext) s.rod)
                      s.ext,
             trace := s.trace ++ [Event.setRoD fullscaleImage] }
  else s

/-- Lines 1450-1472: the cached image is made large enough, in a copy that is swapped in the
cache afterwards when `renderRoI` is called from `getImage`, in place otherwise. The result is
`hasResized`, the plane and the state. -/
def resizeImage {σ : Type} (env : Env σ) (args : RenderRoIArgs) (plane : PlaneToRender)
    (fullscaleImage : Image) (s : St σ) : Bool × PlaneToRender × St σ :=
  if args.calledFromGetImage then
    let r := env.copyAndResizeIfNeeded fullscaleImage s.renderBounds s.fillGrownBoundsWithZeroes
      s.ext
    let s1 : St σ :=
      { s with ext := r.2,
               trace := s.trace ++ [Event.copyAndResizeIfNeeded fullscaleImage s.renderBounds] }
    if r.1.1 then
      (true,
       { plane with
           cacheSwapImage := some fullscaleImage
           fullscaleImage := r.1.2
           downscaleImage := if !s.renderFullScaleThenDownscale then r.1.2
                             else plane.downscaleImage },
       s1)
    else (false, { plane with cacheSwapImage := r.1.2 }, s1)
  else
    let r := env.ensureBounds fullscaleImage s.renderBounds s.fillGrownBoundsWithZeroes s.ext
    (r.1, plane,
     { s with ext := r.2, trace := s.trace ++ [Event.ensureBounds fullscaleImage s.renderBounds] })

/-- Lines 1475-1481: the bitmap of the grown image is cleared over the last stroke. -/
def clearGrown {σ : Type} (env : Env σ) (hasResized : Bool) (plane : PlaneToRender)
    (s : St σ) : St σ :=
  if hasResized && s.fillGrownBoundsWithZeroes then
    { s with ext := env.clearBitmap plane.fullscaleImage s.lastStrokePixelRoD s.ext,
             trace := s.trace ++ [Event.clearBitmap plane.fullscaleImage s.lastStrokePixelRoD] }
  else s

/-- Lines 1483-1497: an effect rendered at full scale gets a downscaled image made from the
cached full-scale one. -/
def makeDownscaled {σ : Type} (env : Env σ) (args : RenderRoIArgs)
    (components : ImageComponents) (plane : PlaneToRender) (s : St σ) : PlaneToRender × St σ :=
  match plane.fullscaleImage with
  | some full =>
    if s.renderFullScaleThenDownscale && full.mipMapLevel == 0 then
      let p := env.freshImagePtr s.ext
      let downscaleImage : Image :=
        { ptr := p.1, components := components, bitDepth := s.outputDepth,
          storage := .eStorageModeRAM, mipMapLevel := args.mipMapLevel }
      ({ plane with downscaleImage := some downscaleImage },
       { s with
           ext := env.downscaleMipMap full s.rod (env.getBounds full p.2) 0 args.mipMapLevel true
             (some downscaleImage) p.2
           trace := s.trace ++ [Event.newImage downscaleImage s.downscaledImageBoundsNc,
                                Event.downscaleMipMap full (some downscaleImage)] })
    else (plane, s)
  | none => (plane, s)

/-- Lines 1432-1498: a plane that is cached is made large enough, and gets a downscaled image
when the effect renders at full scale. -/
def resizeCachedPlane {σ : Type} (env : Env σ) (args : RenderRoIArgs)
    (components : ImageComponents) (plane : PlaneToRender) (fullscaleImage : Image)
    (s : St σ) : PlaneToRender × St σ :=
  let resized := resizeImage env args plane fullscaleImage (mergeRoD env fullscaleImage s)
  makeDownscaled env args components resized.2.1 (clearGrown env resized.1 resized.2.1 resized.2.2)

/-- Lines 1414-1498: the image of one plane: allocated when the plane is not cached, resized
otherwise. -/
def allocatePlane {σ : Type} (env : Env σ) (self : NodeId) (args : RenderRoIArgs)
    (components : ImageComponents) (plane : PlaneToRender) (s : St σ) : PlaneToRender × St σ :=
  match plane.fullscaleImage with
  | none =>
    let r := env.allocateImagePlane self s.key s.rod s.downscaledImageBoundsNc
      s.upscaledImageBoundsNc s.isProjectFormat components args.bitdepth s.outputPremult
      s.par args.mipMapLevel s.renderFullScaleThenDownscale s.storage s.createInCache s.ext
    ({ plane with fullscaleImage := r.1.1, downscaleImage := r.1.2 },
     { s with ext := r.2,
              trace := s.trace ++ [Event.allocateImagePlane components
                s.downscaledImageBoundsNc s.upscaledImageBoundsNc s.storage s.createInCache] })
  | some fullscaleImage => resizeCachedPlane env args components plane fullscaleImage s

/-- Lines 1393-1507: the loop over the planes. -/
def allocatePlanesLoop {σ : Type} (env : Env σ) (self : NodeId) (args : RenderRoIArgs) :
    List (ImageComponents × PlaneToRender) → St σ → PlaneMap PlaneToRender × St σ
  | [], s => ([], s)
  | (k, plane) :: rest, s =>
    match findComponents k s.outputComponents with
    | none =>
      let r := allocatePlanesLoop env self args rest s
      ((k, plane) :: r.1, r.2)
    | some components =>
      let r := allocatePlanesLoop env self args rest (allocatePlane env self args components plane s).2
      ((k, (allocatePlane env self args components plane s).1) :: r.1, r.2)

/-- Lines 1384-1510: allocate planes in the cache. -/
def allocatePlanes {σ : Type} (env : Env σ) (self : NodeId) (args : RenderRoIArgs)
    (s : St σ) : Flow σ :=
  if s.hasSomethingToRender then
    let s1 := if s.glContextLocker then s.emit Event.glContextLockerAttach else s
    let r := allocatePlanesLoop env self args s1.planes s1
    .next { r.2 with planes := r.1 }
  else .next s

/-! ## `renderRoIInternal` (lines 1864-2093) -/

/-- Lines 1934-1944: a frame-safe effect is rendered as a fully-safe one when tiles cannot be
spread over threads. -/
def effectiveSafety {σ : Type} (env : Env σ) (self : NodeId) (frameArgs : ParallelRenderArgs)
    (safety : RenderSafetyEnum) (ext : σ) : RenderSafetyEnum :=
  if safety = .eRenderSafetyFullySafeFrame ∧
      (frameArgs.tilesSupported = false ∨ env.getNumberOfThreads ext = -1
        ∨ env.getNumberOfThreads ext = 1
        ∨ (env.getNumberOfThreads ext = 0 ∧ env.getHardwareIdealThreadCount ext = 1)
        ∨ env.threadPoolIsSaturated ext = true ∨ env.isRotoPaintNode self = true) then
    .eRenderSafetyFullySafe
  else safety

/-- Lines 2054-2068: the tiles one after the other. The result is `renderStatus`. -/
def renderTilesSequential {σ : Type} (env : Env σ) (self : NodeId) (args : RenderRoIArgs)
    (renderMappedMipMapLevel : Nat) :
    List RectToRender → RenderingFunctorRetEnum → St σ → RenderingFunctorRetEnum × St σ
  | [], renderStatus, s => (renderStatus, s)
  | rect :: rest, renderStatus, s =>
    let r := env.tiledRenderingFunctor self rect s.renderFullScaleThenDownscale args.mipMapLevel
      renderMappedMipMapLevel args.time args.view s.byPassCache s.planes s.ext
    let s1 : St σ :=
      { s with ext := r.2, trace := s.trace ++ [Event.tiledRenderingFunctor rect r.1] }
    if r.1 = .eRenderingFunctorRetFailed ∨ r.1 = .eRenderingFunctorRetAborted
        ∨ r.1 = .eRenderingFunctorRetOutOfGPUMemory then (r.1, s1)
    else if r.1 = .eRenderingFunctorRetTakeImageLock then
      renderTilesSequential env self args renderMappedMipMapLevel rest .eRenderingFunctorRetOK
        { s1 with isBeingRenderedElsewhere := true }
    else renderTilesSequential env self args renderMappedMipMapLevel rest renderStatus s1

/-- Line 2025, `QtConcurrent::mapped`: every tile is rendered (here in the order of the list;
the interleaving of the worker threads is not represented). -/
def renderTilesMapped {σ : Type} (env : Env σ) (self : NodeId) (args : RenderRoIArgs)
    (renderMappedMipMapLevel : Nat) :
    List RectToRender → St σ → List RenderingFunctorRetEnum × St σ
  | [], s => ([], s)
  | rect :: rest, s =>
    let r := env.tiledRenderingFunctor self rect s.renderFullScaleThenDownscale args.mipMapLevel
      renderMappedMipMapLevel args.time args.view s.byPassCache s.planes s.ext
    let next := renderTilesMapped env self args renderMappedMipMapLevel rest
      { s with ext := r.2, trace := s.trace ++ [Event.tiledRenderingFunctor rect r.1] }
    (r.1 :: next.1, next.2)

/-- Lines 2035-2052: the scan of the results of the worker threads. The result is
`renderStatus` and whether a tile asked for the image lock before the scan stopped. -/
def scanTileResults :
    List RenderingFunctorRetEnum → RenderingFunctorRetEnum → Bool → RenderingFunctorRetEnum × Bool
  | [], renderStatus, takeLock => (renderStatus, takeLock)
  | ret :: rest, renderStatus, takeLock =>
    if ret = .eRenderingFunctorRetFailed then (.eRenderingFunctorRetFailed, takeLock)
    else if ret = .eRenderingFunctorRetTakeImageLock then scanTileResults rest renderStatus true
    else if ret = .eRenderingFunctorRetAborted then (.eRenderingFunctorRetFailed, takeLock)
    else if ret = .eRenderingFunctorRetOutOfGPUMemory then
      (.eRenderingFunctorRetOutOfGPUMemory, takeLock)
    else scanTileResults rest renderStatus takeLock

/-- Lines 1961-1968: `callBegin`. -/
def callBegin {σ : Type} (env : Env σ) (renderInstance : NodeId) : Bool :=
  !env.isWriter renderInstance
    || decide (env.getCurrentSequentialRenderSupport renderInstance
                = .eSequentialPreferenceNotSequential)

/-- Lines 1971-1977: `beginSequenceRender`, unless the effect is a sequential writer. The result
is `renderStatus` and the state. -/
def beginSequence {σ : Type} (env : Env σ) (renderInstance : NodeId) (args : RenderRoIArgs)
    (renderMappedMipMapLevel : Nat) (s : St σ) : RenderingFunctorRetEnum × St σ :=
  if callBegin env renderInstance then
    let r := env.beginSequenceRender renderInstance args.time
      (env.getScaleFromMipMapLevel renderMappedMipMapLevel)
      s.frameArgs.isSequentialRender s.frameArgs.isRenderResponseToUserInteraction
      s.frameArgs.draftMode args.view s.useOpenGL s.ext
    (if r.1 = .eStatusFailed then .eRenderingFunctorRetFailed else .eRenderingFunctorRetOK,
     { s with ext := r.2, trace := s.trace ++ [Event.beginSequenceRender] })
  else (.eRenderingFunctorRetOK, s)

/-- Lines 1989-2070: the tiles, on worker threads when the effect is frame-safe, there are
several tiles and the render does not use OpenGL. -/
def renderTiles {σ : Type} (env : Env σ) (renderInstance : NodeId) (args : RenderRoIArgs)
    (safety : RenderSafetyEnum) (renderMappedMipMapLevel : Nat)
    (begun : RenderingFunctorRetEnum × St σ) : RenderingFunctorRetEnum × St σ :=
  if begun.1 ≠ .eRenderingFunctorRetFailed then
    if safety = .eRenderSafetyFullySafeFrame ∧ begun.2.rectsToRender.length > 1
        ∧ begun.2.useOpenGL = false then
      let m := renderTilesMapped env renderInstance args renderMappedMipMapLevel
        begun.2.rectsToRender begun.2
      ((scanTileResults m.1 begun.1 false).1,
       if (scanTileResults m.1 begun.1 false).2 then { m.2 with isBeingRenderedElsewhere := true }
       else m.2)
    else
      renderTilesSequential env renderInstance args renderMappedMipMapLevel
        begun.2.rectsToRender begun.1 begun.2
  else begun

/-- Lines 2072-2082: `endSequenceRender`, when `beginSequenceRender` was called. -/
def endSequence {σ : Type} (env : Env σ) (renderInstance : NodeId) (args : RenderRoIArgs)
    (renderMappedMipMapLevel : Nat) (rendered : RenderingFunctorRetEnum × St σ) :
    RenderingFunctorRetEnum × St σ :=
  if callBegin env renderInstance then
    let r := env.endSequenceRender renderInstance args.time
      (env.getScaleFromMipMapLevel renderMappedMipMapLevel)
      rendered.2.frameArgs.isSequentialRender
      rendered.2.frameArgs.isRenderResponseToUserInteraction
      rendered.2.frameArgs.draftMode args.view rendered.2.useOpenGL rendered.2.ext
    (if r.1 = .eStatusFailed then .eRenderingFunctorRetFailed else rendered.1,
     { rendered.2 with ext := r.2, trace := rendered.2.trace ++ [Event.endSequenceRender] })
  else rendered

/-- Lines 1913-1919 and 2084-2092: the status `renderRoIInternal` returns for the status
`renderStatus` of the tiles and the rectangles it was given. -/
def internalStatus (rectsToRender : List RectToRender) (renderStatus : RenderingFunctorRetEnum) :
    RenderRoIStatusEnum :=
  if renderStatus ≠ .eRenderingFunctorRetOK then
    if renderStatus = .eRenderingFunctorRetOutOfGPUMemory then .eRenderRoIStatusRenderOutOfGPUMemory
    else .eRenderRoIStatusRenderFailed
  else if rectsToRender.isEmpty then .eRenderRoIStatusImageAlreadyRendered
  else .eRenderRoIStatusImageRendered

/-- Lines 1904-1911: the mip-map level of the image the first plane is rendered into (0 when
there is no plane); `none` when that image is null. -/
def firstPlaneMipMapLevel {σ : Type} (s : St σ) : Option Nat :=
  match s.planes with
  | [] => some 0
  | (_, plane) :: _ =>
    (renderMappedImage s.renderFullScaleThenDownscale plane).map fun i => i.mipMapLevel

/-- `EffectInstance::renderRoIInternal`, called on `renderInstance` with the planes and the
rectangles of the state; `none` when a null image is dereferenced. The registration of a
reader's format with the project (lines 1895-1902) is left out. -/
def renderRoIInternal {σ : Type} (env : Env σ) (renderInstance : NodeId) (args : RenderRoIArgs)
    (safety : RenderSafetyEnum) (s : St σ) : Option (RenderRoIStatusEnum × St σ) :=
  match firstPlaneMipMapLevel s with
  | none => none
  | some renderMappedMipMapLevel =>
    let s1 : St σ :=
      { s with ext := env.getFrameRange renderInstance s.nodeHash s.ext,
               trace := s.trace ++ [Event.getFrameRange] }
    let ended := endSequence env renderInstance args renderMappedMipMapLevel
      (renderTiles env renderInstance args
        (effectiveSafety env renderInstance s.frameArgs safety s.ext) renderMappedMipMapLevel
        (beginSequence env renderInstance args renderMappedMipMapLevel s1))
    some (internalStatus s.rectsToRender ended.1,
          ended.2.emit (Event.renderRoIInternal (internalStatus s.rectsToRender ended.1)))

/-! ## `renderRoI`, lines 1513-1695: render, trimap, return codes -/

/-- Lines 1527-1529: mark the image of every plane as being rendered. -/
def markPlanes {σ : Type} (env : Env σ) (self : NodeId) :
    List (ImageComponents × PlaneToRender) → St σ → St σ
  | [], s => s
  | (_, plane) :: rest, s =>
    markPlanes env self rest
      { s with
          ext := env.markImageAsBeingRendered self
            (renderMappedImage s.renderFullScaleThenDownscale plane) s.ext
          trace := s.trace ++ [Event.markImageAsBeingRendered
            (renderMappedImage s.renderFullScaleThenDownscale plane)] }

/-- Line 1553: `useRenderClone`. -/
def useRenderClone {σ : Type} (env : Env σ) (self : NodeId) (s : St σ) : Bool :=
  decide (s.frameArgs.currentThreadSafety = .eRenderSafetyInstanceSafe)
    || (decide (s.frameArgs.currentThreadSafety ≠ .eRenderSafetyUnsafe)
        && decide (s.storage = .eStorageModeGLTex)
        && !env.supportsConcurrentOpenGLRenders self)

/-- Lines 1554-1559: the instance that renders, a clone or this one. -/
def pickRenderInstance {σ : Type} (env : Env σ) (self : NodeId) (s : St σ) : NodeId × St σ :=
  if useRenderClone env self s then
    ((env.getOrCreateRenderInstance self s.ext).1,
     { s with ext := (env.getOrCreateRenderInstance self s.ext).2,
              trace := s.trace ++ [Event.getOrCreateRenderInstance] })
  else (self, s)

/-- Lines 1596-1607: an OpenGL render attaches the OpenGL context to the effect. The result is
`attachGLOK` and the state. -/
def attachGL {σ : Type} (env : Env σ) (renderInstance : NodeId) (s : St σ) : Bool × St σ :=
  if s.storage = .eStorageModeGLTex then
    let r := env.attachOpenGLContext renderInstance (s.glContext.getD 0) s.ext
    let s1 : St σ := { s with ext := r.2, trace := s.trace ++ [Event.attachOpenGLContext r.1] }
    if r.1 = .eStatusOutOfMemory then
      (false, { s1 with renderRetCode := .eRenderRoIStatusRenderOutOfGPUMemory })
    else if r.1 = .eStatusFailed then
      (false, { s1 with renderRetCode := .eRenderRoIStatusRenderFailed })
    else (true, s1)
  else (true, s)

/-- Lines 1627-1634: after an OpenGL render the context is released when needed. -/
def dettachGL {σ : Type} (env : Env σ) (self renderInstance : NodeId) (s : St σ) : St σ :=
  if s.storage = .eStorageModeGLTex ∧
      (env.glContextDataMustDettach renderInstance s.ext = true
        ∨ env.supportsConcurrentOpenGLRenders self = false) then
    { s with ext := env.dettachOpenGLContext renderInstance (s.glContext.getD 0) s.ext,
             trace := s.trace ++ [Event.dettachOpenGLContext] }
  else s

/-- Lines 1636-1638: a render clone is given back. -/
def releaseInstance {σ : Type} (env : Env σ) (self renderInstance : NodeId) (clone : Bool)
    (s : St σ) : St σ :=
  if clone then
    { s with ext := env.releaseRenderInstance self renderInstance s.ext,
             trace := s.trace ++ [Event.releaseRenderInstance] }
  else s

/-- Lines 1548-1638: the body of `if (hasSomethingToRender)`. The locks taken around the
render are not represented. -/
def renderPlanes {σ : Type} (env : Env σ) (self : NodeId) (args : RenderRoIArgs)
    (s : St σ) : Flow σ :=
  let inst := pickRenderInstance env self s
  let attached := attachGL env inst.1 inst.2
  if attached.1 then
    match renderRoIInternal env inst.1 args s.frameArgs.currentThreadSafety attached.2 with
    | none => attached.2.endsWith .undefinedBehaviour
    | some r =>
      .next (releaseInstance env self inst.1 (useRenderClone env self s)
        (dettachGL env self inst.1 { r.2 with renderRetCode := r.1 }))
  else .next (releaseInstance env self inst.1 (useRenderClone env self s) attached.2)

/-- Lines 1648-1665: give back the image of every plane to the trimap coordinator.
`renderAborted` is the local of that name. -/
def unmarkPlanes {σ : Type} (env : Env σ) (self : NodeId) :
    List (ImageComponents × PlaneToRender) → Bool → St σ → Flow σ
  | [], renderAborted, s => .next { s with renderAborted := renderAborted }
  | (_, plane) :: rest, renderAborted, s =>
    let img := renderMappedImage s.renderFullScaleThenDownscale plane
    if !renderAborted then
      if s.renderRetCode = .eRenderRoIStatusRenderFailed ∨ s.isBeingRenderedElsewhere = false then
        let failed := decide (s.renderRetCode = .eRenderRoIStatusRenderFailed)
        unmarkPlanes env self rest renderAborted
          { s with ext := env.unmarkImageAsBeingRendered self img failed s.ext,
                   trace := s.trace ++ [Event.unmarkImageAsBeingRendered img failed] }
      else
        let r := env.waitForImageBeingRenderedElsewhereAndUnmark self s.roi img s.ext
        unmarkPlanes env self rest (if !r.1 then true else renderAborted)
          { s with ext := r.2,
                   trace := s.trace ++
                     [Event.waitForImageBeingRenderedElsewhereAndUnmark s.roi img r.1] }
    else
      ({ s with
          renderAborted := renderAborted
          ext := env.unmarkImageAsBeingRendered self img true (env.removeFromNodeCache img s.ext)
          trace := s.trace ++ [Event.removeFromNodeCache img,
                               Event.unmarkImageAsBeingRendered img true] } : St σ).returns
        .eRenderRoIRetCodeAborted

/-- Read the abort flag of the render (`aborted()`). -/
def readAborted {σ : Type} (env : Env σ) (self : NodeId) (s : St σ) : St σ :=
  { s with renderAborted := env.aborted self s.ext,
           trace := s.trace ++ [Event.aborted (env.aborted self s.ext)] }

/-- Lines 1513-1668: render what is left, under the trimap when the render cannot be aborted. -/
def renderDispatch {σ : Type} (env : Env σ) (self : NodeId) (args : RenderRoIArgs)
    (s : St σ) : Flow σ :=
  let s0 : St σ := { s with renderRetCode := .eRenderRoIStatusImageAlreadyRendered }
  if !s0.hasSomethingToRender && !s0.isBeingRenderedElsewhere then .next (readAborted env self s0)
  else
    let s1 : St σ :=
      if env.isCurrentFrameRenderNotAbortable s0.frameArgs then markPlanes env self s0.planes s0
      else s0
    (if s1.hasSomethingToRender then renderPlanes env self args s1 else .next s1).andThen fun s2 =>
      let s3 := readAborted env self s2
      if env.isCurrentFrameRenderNotAbortable s3.frameArgs then
        unmarkPlanes env self s3.planes s3.renderAborted s3
      else .next s3

/-- Lines 1671-1695: what the status of the render makes of the call. -/
def finishCodes {σ : Type} (env : Env σ) (recCall : RecCall σ) (self : NodeId)
    (args : RenderRoIArgs) (s : St σ) : Flow σ :=
  if s.renderAborted && s.renderRetCode != .eRenderRoIStatusImageAlreadyRendered then
    (if s.isDuringPaintStroke then
      { s with ext := env.removeAllImagesFromCache self s.ext,
               trace := s.trace ++ [Event.removeAllImagesFromCache] }
     else s).returns .eRenderRoIRetCodeAborted
  else if s.renderRetCode = .eRenderRoIStatusRenderFailed then s.endsWith .raised
  else if s.renderRetCode = .eRenderRoIStatusRenderOutOfGPUMemory then
    if s.openGLSupport ≠ .ePluginOpenGLRenderSupportYes then s.endsWith .raised
    else tailCall recCall .gpuRetry self { args with allowGPURendering := false } s
  else .next s

/-! ## `renderRoI`, lines 1742-1862: the planes in the requested format -/

/-- Lines 1763-1783: the downscaled image of a plane rendered at full scale and found in the
cache. `none` when a null image is dereferenced. -/
def downscaleCached {σ : Type} (env : Env σ) (args : RenderRoIArgs) (plane : PlaneToRender)
    (s : St σ) : Option (PlaneToRender × St σ) :=
  if s.renderRetCode ≠ .eRenderRoIStatusRenderFailed ∧ s.renderFullScaleThenDownscale = true then
    match plane.fullscaleImage with
    | none => none
    | some full =>
      if full.mipMapLevel ≠ args.mipMapLevel ∧ s.hasSomethingToRender = false then
        if plane.downscaleImage.map (fun i => i.ptr) = some full.ptr then
          let p := env.freshImagePtr s.ext
          let downscaleImage : Image :=
            { ptr := p.1, components := full.components, bitDepth := full.bitDepth,
              storage := .eStorageModeRAM, mipMapLevel := args.mipMapLevel }
          some ({ plane with downscaleImage := some downscaleImage },
                { s with
                    ext := env.downscaleMipMap full (env.getRoD full p.2) s.originalRoI 0
                      args.mipMapLevel false (some downscaleImage) p.2
                    trace := s.trace ++ [Event.newImage downscaleImage s.downscaledImageBoundsNc,
                                         Event.downscaleMipMap full (some downscaleImage)] })
        else
          some (plane,
                { s with
                    ext := env.downscaleMipMap full (env.getRoD full s.ext) s.originalRoI 0
                      args.mipMapLevel false plane.downscaleImage s.ext
                    trace := s.trace ++ [Event.downscaleMipMap full plane.downscaleImage] })
      else some (plane, s)
  else some (plane, s)

/-- Lines 1803-1822: the image in the storage the caller asked for. -/
def convertStorage {σ : Type} (env : Env σ) (args : RenderRoIArgs) (img : Image)
    (s : St σ) : Image × St σ :=
  if args.returnStorage = .eStorageModeGLTex ∧ img.storage ≠ .eStorageModeGLTex then
    let s1 : St σ :=
      if !s.glContextLocker then
        { s with glContextLocker := true, trace := s.trace ++ [Event.glContextLockerCreated] }
      else s
    let r := env.convertRAMImageToOpenGLTexture img s1.ext
    (r.1, { s1 with ext := r.2,
                    trace := s1.trace ++ [Event.glContextLockerAttach,
                                          Event.convertRAMImageToOpenGLTexture] })
  else if args.returnStorage ≠ .eStorageModeGLTex ∧ img.storage = .eStorageModeGLTex then
    let s1 := if s.glContextLocker then s.emit Event.glContextLockerAttach else s
    let r := env.convertOpenGLTextureToCachedRAMImage img s1.ext
    (r.1, { s1 with ext := r.2,
                    trace := s1.trace ++ [Event.convertOpenGLTextureToCachedRAMImage] })
  else (img, s)

/-- Lines 1785-1796: the requested components a plane is returned as: the plane itself when it
is not the colour plane, the first colour plane of `args.components` otherwise. -/
def requestedFormat (args : RenderRoIArgs) (k : ImageComponents) : Option ImageComponents :=
  if !k.isColorPlane then some k else args.components.find? (fun c => c.isColorPlane)

/-- Lines 1752-1761: an image resized aside replaces the cached one. -/
def swapInCache {σ : Type} (env : Env σ) (plane : PlaneToRender) (s : St σ) : St σ :=
  match plane.cacheSwapImage with
  | some cacheSwapImage =>
    if env.imageIsInCache cacheSwapImage s.ext then
      { s with ext := env.swapOrInsert cacheSwapImage plane.fullscaleImage s.ext,
               trace := s.trace ++ [Event.swapOrInsert] }
    else s
  | none => s

/-- Lines 1785-1825: the image of the plane, converted to the requested components `comp`,
depth and storage, is inserted in `*outputPlanes`. -/
def outputPlane {σ : Type} (env : Env σ) (args : RenderRoIArgs) (comp : ImageComponents)
    (downscaleImage : Image) (s : St σ) : St σ :=
  let c := convertPlanesFormatsIfNeeded env downscaleImage s.originalRoI comp args.bitdepth
    (useAlpha0 env args) s.outputPremult s
  let t := convertStorage env args c.1 c.2
  { t.2 with out := PlaneMap.insertNew env.compLess t.2.out comp t.1 }

/-- Lines 1752-1836: one round of the loop over the planes, for the plane of key `k`; `none`
when a null image is dereferenced. -/
def returnPlane {σ : Type} (env : Env σ) (args : RenderRoIArgs) (k : ImageComponents)
    (plane : PlaneToRender) (s : St σ) : Option (St σ) :=
  match downscaleCached env args plane (swapInCache env plane s) with
  | none => none
  | some r =>
    match requestedFormat args k with
    | none => some r.2
    | some comp =>
      match r.1.downscaleImage with
      | none => none
      | some downscaleImage => some (outputPlane env args comp downscaleImage r.2)

/-- Lines 1751-1836: every plane is swapped in the cache if it was resized aside, downscaled if
needed, converted to the requested format and storage, and inserted in `*outputPlanes`.
`none` when a null image is dereferenced. -/
def returnPlanesLoop {σ : Type} (env : Env σ) (args : RenderRoIArgs) :
    List (ImageComponents × PlaneToRender) → St σ → Option (St σ)
  | [], s => some s
  | (k, plane) :: rest, s =>
    match returnPlane env args k plane s with
    | none => none
    | some s1 => returnPlanesLoop env args rest s1

/-- Lines 1742-1862: format conversion, then `return eRenderRoIRetCodeOk`. -/
def returnPlanes {σ : Type} (env : Env σ) (args : RenderRoIArgs) (s : St σ) : Flow σ :=
  match returnPlanesLoop env args s.planes s with
  | none => s.endsWith .undefinedBehaviour
  | some s1 => s1.returns .eRenderRoIRetCodeOk

/-! ## `renderRoI` as a whole

`fromX` is `renderRoI` from the section `X` to its end; `atX` is `renderRoI` from its entry up to
the section `X`, that is the state in which the section `X` starts, or the way the call ended
before. -/

/-- The state on entry: `*outputPlanes` and the external state as the caller passes them. -/
def St.entry {σ : Type} (outputPlanes : PlaneMap Image) (ext : σ) : St σ :=
  { ext := ext, out := outputPlanes }

/-- From the return codes (line 1671) to the end. -/
def fromFinish {σ : Type} (env : Env σ) (recCall : RecCall σ) (self : NodeId)
    (args : RenderRoIArgs) (s : St σ) : Flow σ :=
  (finishCodes env recCall self args s).andThen (returnPlanes env args)

/-- From the render (line 1513) to the end. -/
def fromDispatch {σ : Type} (env : Env σ) (recCall : RecCall σ) (self : NodeId)
    (args : RenderRoIArgs) (s : St σ) : Flow σ :=
  (renderDispatch env self args s).andThen (fromFinish env recCall self args)

/-- From the pre-render of the input images (line 1198) to the end. -/
def fromInputs {σ : Type} (env : Env σ) (recCall : RecCall σ) (fuel : Nat) (self : NodeId)
    (args : RenderRoIArgs) (s : St σ) : Flow σ :=
  (((preRenderInputs env self args s).andThen (redoCacheLookupPhase env self args fuel)).andThen
    (allocatePlanes env self args)).andThen (fromDispatch env recCall self args)

/-- From the rectangles left to render (line 993) to the end. -/
def fromRectsLeft {σ : Type} (env : Env σ) (recCall : RecCall σ) (fuel : Nat) (self : NodeId)
    (args : RenderRoIArgs) (s : St σ) : Flow σ :=
  ((rectsLeft env self args s).andThen (rectsToRenderPhase env self args fuel)).andThen
    (fromInputs env recCall fuel self args)

/-- From the cache look-up (line 857) to the end. -/
def fromLookup {σ : Type} (env : Env σ) (recCall : RecCall σ) (fuel : Nat) (self : NodeId)
    (args : RenderRoIArgs) (s : St σ) : Flow σ :=
  ((cacheLookup env self args s).andThen (afterLookup env self args)).andThen
    (fromRectsLeft env recCall fuel self args)

/-- From storage selection (line 732) to the end. -/
def fromStorage {σ : Type} (env : Env σ) (recCall : RecCall σ) (fuel : Nat) (self : NodeId)
    (args : RenderRoIArgs) (s : St σ) : Flow σ :=
  (((chooseStorage env self args s).andThen (openGLRenderScale env args)).andThen
    (prepareLookup env self args)).andThen (fromLookup env recCall fuel self args)

/-- From the identity check (line 484) to the end. -/
def fromIdentity {σ : Type} (env : Env σ) (recCall : RecCall σ) (fuel : Nat) (self : NodeId)
    (args : RenderRoIArgs) (s : St σ) : Flow σ :=
  (((identityPhase env recCall self args s).andThen (concatenateTransforms env self args)).andThen
    (computeBounds env args)).andThen (fromStorage env recCall fuel self args)

/-- From the pass-through of planes (line 402) to the end. -/
def fromPlanes {σ : Type} (env : Env σ) (recCall : RecCall σ) (fuel : Nat) (self : NodeId)
    (args : RenderRoIArgs) (s : St σ) : Flow σ :=
  (passThroughPlanes env recCall self args s).andThen (fromIdentity env recCall fuel self args)

/-- From the entry up to the pass-through of planes (lines 221-400). -/
def atPlanes {σ : Type} (env : Env σ) (recCall : RecCall σ) (self : NodeId)
    (args : RenderRoIArgs) (outputPlanes : PlaneMap Image) (ext : σ) : Flow σ :=
  (((((earlyOut env recCall self args (St.entry outputPlanes ext)).andThen
    (setupFrameArgs env self args)).andThen (scalePolicy env self args)).andThen
    (getRoD env self args)).andThen (computeRoI env args)).andThen (neededPlanes env self args)

/-- One activation of `EffectInstance::renderRoI(args, outputPlanes)` on the effect `self`, the
calls of `renderRoI` it makes being answered by `recCall`. -/
def renderRoIBody {σ : Type} (env : Env σ) (recCall : RecCall σ) (fuel : Nat) (self : NodeId)
    (args : RenderRoIArgs) (outputPlanes : PlaneMap Image) (ext : σ) : Option (Result σ) :=
  ((atPlanes env recCall self args outputPlanes ext).andThen
    (fromPlanes env recCall fuel self args)).result

/-- `EffectInstance::renderRoI`: `fuel` bounds the depth of nested `renderRoI` calls and the
length of each walk along an identity branch; `none` when it does not suffice. -/
def renderRoI {σ : Type} (env : Env σ) : Nat → RecCall σ
  | 0 => fun _ _ _ _ => none
  | fuel + 1 => renderRoIBody env (renderRoI env fuel) fuel

/-- The call up to the identity check. -/
def atIdentity {σ : Type} (env : Env σ) (recCall : RecCall σ) (self : NodeId)
    (args : RenderRoIArgs) (outputPlanes : PlaneMap Image) (ext : σ) : Flow σ :=
  (atPlanes env recCall self args outputPlanes ext).andThen (passThroughPlanes env recCall self args)

/-- The call up to storage selection. -/
def atStorage {σ : Type} (env : Env σ) (recCall : RecCall σ) (self : NodeId)
    (args : RenderRoIArgs) (outputPlanes : PlaneMap Image) (ext : σ) : Flow σ :=
  (((atIdentity env recCall self args outputPlanes ext).andThen
    (identityPhase env recCall self args)).andThen (concatenateTransforms env self args)).andThen
    (computeBounds env args)

/-- The call up to the cache look-up. -/
def atLookup {σ : Type} (env : Env σ) (recCall : RecCall σ) (self : NodeId)
    (args : RenderRoIArgs) (outputPlanes : PlaneMap Image) (ext : σ) : Flow σ :=
  (((atStorage env recCall self args outputPlanes ext).andThen
    (chooseStorage env self args)).andThen (openGLRenderScale env args)).andThen
    (prepareLookup env self args)

/-- The call up to the rectangles left to render. -/
def atRectsLeft {σ : Type} (env : Env σ) (recCall : RecCall σ) (self : NodeId)
    (args : RenderRoIArgs) (outputPlanes : PlaneMap Image) (ext : σ) : Flow σ :=
  ((atLookup env recCall self args outputPlanes ext).andThen (cacheLookup env self args)).andThen
    (afterLookup env self args)

/-- The call up to the pre-render of the input images. -/
def atInputs {σ : Type} (env : Env σ) (recCall : RecCall σ) (fuel : Nat) (self : NodeId)
    (args : RenderRoIArgs) (outputPlanes : PlaneMap Image) (ext : σ) : Flow σ :=
  ((atRectsLeft env recCall self args outputPlanes ext).andThen (rectsLeft env self args)).andThen
    (rectsToRenderPhase env self args fuel)

/-- The call up to the render. -/
def atDispatch {σ : Type} (env : Env σ) (recCall : RecCall σ) (fuel : Nat) (self : NodeId)
    (args : RenderRoIArgs) (outputPlanes : PlaneMap Image) (ext : σ) : Flow σ :=
  (((atInputs env recCall fuel self args outputPlanes ext).andThen
    (preRenderInputs env self args)).andThen (redoCacheLookupPhase env self args fuel)).andThen
    (allocatePlanes env self args)

/-- The call up to the return codes: the render is over and the trimap released. -/
def atFinish {σ : Type} (env : Env σ) (recCall : RecCall σ) (fuel : Nat) (self : NodeId)
    (args : RenderRoIArgs) (outputPlanes : PlaneMap Image) (ext : σ) : Flow σ :=
  (atDispatch env recCall fuel self args outputPlanes ext).andThen (renderDispatch env self args)

/-! ## Where each event can come from

The sections of `renderRoI` are numbered in source order; `Event.stages` lists, for every event,
the sections that emit it. -/

/-- Section numbers: 0 entry, 1 render context, 2 region of definition, 3 needed planes,
4 pass-through planes, 5 identity, 6 transforms, 7 storage, 8 cache look-up, 9 rectangles left
to render, 10 input images and second look-up, 11 allocation, 12 render and trimap, 13 return
codes, 14 output planes. The number 16 stands for section 12 when the storage of the render is
not an OpenGL texture: it is given to what section 12 does whatever the storage. -/
def Event.stages : Event → List Nat
  | .tlsPushFrameArgs => [1]
  | .getRegionOfDefinition _ _ _ => [2, 9]
  | .getComponentsNeededAndProduced => [3]
  | .getComponentsAvailable => [4]
  | .renderRoI .mainInstance _ _ _ => [0]
  | .renderRoI .passThroughPlane _ _ _ => [4]
  | .renderRoI .identitySelf _ _ _ => [5]
  | .renderRoI .identityInput _ _ _ => [5]
  | .renderRoI .viewZero _ _ _ => [5]
  | .renderRoI .gpuRetry _ _ _ => [13]
  | .isIdentity _ _ _ _ => [5, 9, 10]
  | .getFrameRange => [5, 12, 16]
  | .tryConcatenateTransforms => [6]
  | .setPersistentMessage => [7]
  | .glContextLockerCreated => [7, 14]
  | .glContextLockerReset => [7]
  | .glContextLockerAttach => [11, 14]
  | .glContextLockerDettach => [8]
  | .getImageFromCacheAndConvertIfNeeded _ _ _ => [8, 10]
  | .removeFromNodeCacheByHash _ => [8]
  | .removeFromNodeCache _ => [8, 12, 16]
  | .getRestToRender _ _ => [8, 9]
  | .getRestToRender_trimap _ _ => [9]
  | .getFramesNeeded => [8]
  | .clearLastPaintStrokeRoD => [9]
  | .clearBitmap _ _ => [9, 11]
  | .setBitmapDirtyZone _ _ => [9]
  | .renderInputImagesForRoI _ _ => [10]
  | .allocateImagePlane _ _ _ _ _ => [11]
  | .setRoD _ => [11]
  | .copyAndResizeIfNeeded _ _ => [11]
  | .ensureBounds _ _ => [11]
  | .newImage _ _ => [5, 11, 14]
  | .downscaleMipMap _ _ => [11, 14]
  | .markImageAsBeingRendered _ => [12, 16]
  | .unmarkImageAsBeingRendered _ _ => [12, 16]
  | .waitForImageBeingRenderedElsewhereAndUnmark _ _ _ => [12, 16]
  | .getOrCreateRenderInstance => [12, 16]
  | .releaseRenderInstance => [12, 16]
  | .attachOpenGLContext _ => [12]
  | .dettachOpenGLContext => [12]
  | .beginSequenceRender => [12, 16]
  | .tiledRenderingFunctor _ _ => [12, 16]
  | .endSequenceRender => [12, 16]
  | .renderRoIInternal _ => [12, 16]
  | .aborted _ => [12, 16]
  | .removeAllImagesFromCache => [13]
  | .swapOrInsert => [14]
  | .convertToFormat _ _ _ => [5, 14]
  | .convertRAMImageToOpenGLTexture => [14]
  | .convertOpenGLTextureToCachedRAMImage => [14]

/-- The trace `t'` is the trace `t` followed by events of section `k`. -/
def Emits (k : Nat) (t t' : List Event) : Prop :=
  ∃ evs, t' = t ++ evs ∧ ∀ e ∈ evs, k ∈ e.stages

/-- The state `s'` comes from `s` by emitting events of section `k`. The storage chosen for the
render is kept; so is the render context once it is set up, `*outputPlanes` between the cache
look-up and the end of the render, and the planes to render and the scale they are rendered
at during the render. -/
structure Step {σ : Type} (k : Nat) (s s' : St σ) : Prop where
  emits : Emits k s.trace s'.trace
  storage : s'.storage = s.storage
  frameArgs : 2 ≤ k → s'.frameArgs = s.frameArgs
  out : 9 ≤ k → k ≠ 14 → s'.out = s.out
  planes : 12 ≤ k → k ≠ 14 → s'.planes = s.planes
    ∧ s'.renderFullScaleThenDownscale = s.renderFullScaleThenDownscale

/-- What is true of a piece of `renderRoI` of section `k` started in the state `s`. -/
def Flow.Steps {σ : Type} (k : Nat) (s : St σ) : Flow σ → Prop
  | .next s' => Step k s s'
  | .done r => Emits k s.trace r.trace
  | .outOfFuel => True

/-- `Flow.Steps` for a walk along an identity branch. -/
def WalkResult.Steps {σ : Type} (k : Nat) (s : St σ) : WalkResult σ → Prop
  | .stopped _ _ _ s' => Step k s s'
  | .threw s' => Step k s s'
  | .outOfFuel => True

/-- `Flow.Steps` for the loop over the sub-rectangles of a rectangle. -/
def SplitsResult.Steps {σ : Type} (k : Nat) (s : St σ) : SplitsResult σ → Prop
  | .finished _ _ _ s' => Step k s s'
  | .threw s' => Step k s s'
  | .outOfFuel => True

/-- `Flow.Steps` for `optimizeRectsToRender`. -/
def OptimizeResult.Steps {σ : Type} (k : Nat) (s : St σ) : OptimizeResult σ → Prop
  | .finished _ s' => Step k s s'
  | .threw s' => Step k s s'
  | .outOfFuel => True

/-- A post-condition on the way a piece of `renderRoI` ends: `N` when it goes on, `D` when the
call is over. -/
def Flow.Post {σ : Type} (N : St σ → Prop) (D : Result σ → Prop) : Flow σ → Prop
  | .next s => N s
  | .done r => D r
  | .outOfFuel => True

/-! ## Concrete scenes

Small environments on which the definitions above are run. The external state is a counter
that the allocating primitives step, so that every image gets its own address. -/

/-- The plane RGBA of the colour layer. -/
def rgba : ImageComponents := ⟨kNatronColorPlaneName, [0, 1, 2, 3]⟩

/-- A two-component plane of another layer (motion vectors). -/
def motion : ImageComponents := ⟨1, [4, 5]⟩

/-- The intersection of two pixel rectangles, `none` when they share no pixel. -/
def sceneIntersect (a b : RectI) : Option RectI :=
  let r : RectI := ⟨max a.x1 b.x1, max a.y1 b.y1, min a.x2 b.x2, min a.y2 b.y2⟩
  if a.isNull || b.isNull || r.isNull then none else some r

/-- The render context of the scenes: tiles supported, an effect without OpenGL support, a
render that cannot be aborted. -/
def sceneFrameArgs : ParallelRenderArgs :=
  { time := 10, nodeHash := 7, view := 0, visitsCount := 1, isSequentialRender := false,
    isRenderResponseToUserInteraction := true, tilesSupported := true,
    currentOpenglSupport := .ePluginOpenGLRenderSupportNone,
    currentThreadSafety := .eRenderSafetyFullySafe, draftMode := false, isAnalysis := false,
    treeRoot := none, openGLContext := none, abortInfo := none, request := none }

/-- A graph of effects that each produce the RGBA plane over the region [0,8]x[0,8], have no
input, are never an identity, find nothing in the cache and render without incident. -/
def sceneEnv : Env Nat :=
  { mainInstance := fun _ => none
    getInput := fun _ _ => none
    getMaxInputCount := fun _ => 0
    isInputMask := fun _ _ => false
    isInputRotoBrush := fun _ _ => false
    hasAttachedRotoItem := fun _ => false
    isViewInvariant := fun _ => .eViewInvarianceAllViewsVariant
    isDiskCacheNode := fun _ => false
    isWriter := fun _ => false
    isReader := fun _ => false
    isRotoPaintNode := fun _ => false
    supportsRenderScaleMaybe := fun _ _ => .eSupportsYes
    supportsMultiResolution := fun _ => true
    supportsConcurrentOpenGLRenders := fun _ => true
    getAspectRatio := fun _ => 1
    getPremult := fun _ => .eImagePremultiplicationPremultiplied
    getBitDepth := fun _ => .eImageBitDepthFloat
    getComponents := fun _ => rgba
    isSupportedComponent := fun _ _ => true
    hasChannelSelectorKnob := fun _ _ => false
    usesAlpha0ToConvertFromRGBToRGBA := fun _ => false
    isPluginOpenGLEnabled := fun _ => true
    isForceCachingEnabled := fun _ => false
    isDraftModeUsed := fun _ => false
    useScaleOneImagesWhenRenderScaleSupportIsDisabled := fun _ => false
    getCurrentSequentialRenderSupport := fun _ => .eSequentialPreferenceNotSequential
    isFrameVaryingOrAnimated_Recursive := fun _ _ => false
    shouldCacheOutput := fun _ _ _ _ _ _ => true
    getOutputsCount := fun _ _ => 1
    getHash := fun _ _ => 7
    compLess := fun a b => decide (a.layerName < b.layerName)
    getScaleFromMipMapLevel := fun level => level
    toPixelEnclosing := fun r _ _ => ⟨r.x1, r.y1, r.x2, r.y2⟩
    toCanonical := fun r _ _ _ => ⟨r.x1, r.y1, r.x2, r.y2⟩
    rectIIntersect := sceneIntersect
    rectIIntersects := fun a b => (sceneIntersect a b).isSome
    rectDIntersect := fun a _ => some a
    rectDMerge := fun a _ => a
    splitIntoSmallerRects := fun r => [r]
    tlsFrameArgs := fun _ _ => some sceneFrameArgs
    newParallelRenderArgs := sceneFrameArgs
    tlsPushFrameArgs := fun _ _ ext => ext
    isCurrentFrameRenderNotAbortable := fun _ => true
    getFrameViewRequest := fun _ _ _ => none
    statsInDepthProfiling := fun _ => false
    isTransformConcatenationEnabled := fun _ => false
    getCurrentOpenGLRendererMaxTextureSize := fun _ => 16384
    isNodeCacheAlmostFull := fun _ => false
    isDuringPaintStrokeCreationThreadLocal := fun _ _ => false
    isLastPaintStrokeBitmapCleared := fun _ _ => true
    getLastPaintStrokeBbox := fun _ => default
    clearLastPaintStrokeRoD := fun _ ext => ext
    getPaintStrokeRoD := fun _ _ _ => default
    aborted := fun _ _ => false
    setPersistentMessage := fun _ ext => ext
    getNumberOfThreads := fun _ => 1
    getHardwareIdealThreadCount := fun _ => 1
    threadPoolIsSaturated := fun _ => false
    getRegionOfDefinition := fun _ _ _ _ _ ext => ((.eStatusOK, ⟨0, 0, 8, 8⟩, false), ext)
    getComponentsNeededAndProduced := fun _ _ _ ext => (([(-1, [rgba])], false), ext)
    getComponentsAvailable := fun self _ ext => ([(rgba, some self)], ext)
    isIdentity := fun _ _ _ _ _ _ _ t v nb ext => (some (false, t, v, nb), ext)
    getFrameRange := fun _ _ ext => ext
    tryConcatenateTransforms := fun _ _ _ _ ext => (0, ext)
    getFramesNeeded := fun _ _ _ _ _ ext => (0, ext)
    getImageFromCacheAndConvertIfNeeded := fun _ _ _ _ _ _ _ _ _ _ _ _ ext => (none, ext)
    removeFromNodeCacheByHash := fun _ ext => ext
    removeFromNodeCache := fun _ ext => ext
    removeAllImagesFromCache := fun _ ext => ext
    swapOrInsert := fun _ _ ext => ext
    imageIsInCache := fun _ _ => true
    getRestToRender := fun _ _ _ => []
    getRestToRender_trimap := fun _ _ _ => ([], false)
    clearBitmap := fun _ _ ext => ext
    setBitmapDirtyZone := fun _ _ ext => ext
    allocateImagePlane := fun _ _ _ _ _ _ components depth _ _ level _ storage _ ext =>
      ((some ⟨ext, components, depth, storage, level⟩, some ⟨ext, components, depth, storage, level⟩),
       ext + 1)
    getRoD := fun _ _ => ⟨0, 0, 8, 8⟩
    setRoD := fun _ _ ext => ext
    getBounds := fun _ _ => ⟨0, 0, 8, 8⟩
    copyAndResizeIfNeeded := fun _ _ _ ext => ((false, none), ext)
    ensureBounds := fun _ _ _ ext => (false, ext)
    freshImagePtr := fun ext => (ext, ext + 1)
    downscaleMipMap := fun _ _ _ _ _ _ _ ext => ext
    convertToFormat := fun _ _ _ _ _ ext => ext
    convertRAMImageToOpenGLTexture := fun img ext => ({ img with storage := .eStorageModeGLTex }, ext)
    convertOpenGLTextureToCachedRAMImage := fun img ext =>
      ({ img with storage := .eStorageModeRAM }, ext)
    markImageAsBeingRendered := fun _ _ ext => ext
    unmarkImageAsBeingRendered := fun _ _ _ ext => ext
    waitForImageBeingRenderedElsewhereAndUnmark := fun _ _ _ ext => (true, ext)
    renderInputImagesForRoI := fun _ _ _ _ _ _ _ _ _ _ _ _ _ ext =>
      ((.returned .eRenderRoIRetCodeOk, 0), ext)
    getOrCreateRenderInstance := fun self ext => (self, ext)
    releaseRenderInstance := fun _ _ ext => ext
    attachOpenGLContext := fun _ _ ext => (.eStatusOK, ext)
    glContextDataMustDettach := fun _ _ => false
    dettachOpenGLContext := fun _ _ ext => ext
    beginSequenceRender := fun _ _ _ _ _ _ _ _ ext => (.eStatusOK, ext)
    endSequenceRender := fun _ _ _ _ _ _ _ _ ext => (.eStatusOK, ext)
    tiledRenderingFunctor := fun _ _ _ _ _ _ _ _ _ ext => (.eRenderingFunctorRetOK, ext) }

/-- The request of the scenes: RGBA over [0,4]x[0,4] at time 10, view 0, full resolution. -/
def sceneArgs : RenderRoIArgs :=
  { time := 10, scale := 0, mipMapLevel := 0, view := 0, byPassCache := false,
    roi := ⟨0, 0, 4, 4⟩, preComputedRoD := RectD.cleared, components := [rgba],
    bitdepth := .eImageBitDepthFloat, calledFromGetImage := false, caller := none,
    returnStorage := .eStorageModeRAM, callerRenderTime := 10, allowGPURendering := true,
    inputImagesList := [] }

/-! ## Kinds of events -/

/-- A look-up of the image cache. -/
def Event.isCacheLookup : Event → Bool
  | .getImageFromCacheAndConvertIfNeeded _ _ _ => true
  | _ => false

/-- The allocation of the image of a plane (`allocateImagePlane`). -/
def Event.isAllocation : Event → Bool
  | .allocateImagePlane _ _ _ _ _ => true
  | _ => false

/-- The render of the input images over a rectangle (`renderInputImagesForRoI`). -/
def Event.isInputRender : Event → Bool
  | .renderInputImagesForRoI _ _ => true
  | _ => false

/-- An image is marked as being rendered. -/
def Event.isMark : Event → Bool
  | .markImageAsBeingRendered _ => true
  | _ => false

/-- An image is given back to the trimap coordinator, by `unmarkImageAsBeingRendered` or by
`waitForImageBeingRenderedElsewhereAndUnmark`. -/
def Event.isUnmark : Event → Bool
  | .unmarkImageAsBeingRendered _ _ => true
  | .waitForImageBeingRenderedElsewhereAndUnmark _ _ _ => true
  | _ => false

/-- The tile dispatcher `renderRoIInternal` and what it calls on the effect. -/
def Event.isDispatch : Event → Bool
  | .renderRoIInternal _ => true
  | .beginSequenceRender => true
  | .tiledRenderingFunctor _ _ => true
  | .endSequenceRender => true
  | _ => false

/-- The hook `attachOpenGLContext` of the effect. -/
def Event.isAttach : Event → Bool
  | .attachOpenGLContext _ => true
  | _ => false

/-- An image is removed from the node cache. -/
def Event.isCacheRemoval : Event → Bool
  | .removeFromNodeCache _ => true
  | .removeFromNodeCacheByHash _ => true
  | .removeAllImagesFromCache => true
  | _ => false

/-- The code of an upstream call that came back with something else than
`eRenderRoIRetCodeOk`: the fetch of a pass-through plane, the identity redirect to an input,
`renderInputImagesForRoI`. -/
def Event.upstreamFailure : Event → Option RenderRoIRetCode
  | .renderRoI .passThroughPlane _ _ (.returned c) =>
    if c = .eRenderRoIRetCodeOk then none else some c
  | .renderRoI .identityInput _ _ (.returned c) =>
    if c = .eRenderRoIRetCodeOk then none else some c
  | .renderInputImagesForRoI _ (.returned c) =>
    if c = .eRenderRoIRetCodeOk then none else some c
  | _ => none

/-- Every event of the trace belongs to a section whose number satisfies `P`. -/
def Within (P : Nat → Prop) (t : List Event) : Prop :=
  ∀ e ∈ t, ∃ j ∈ e.stages, P j

/-- No upstream call of the trace came back with a code other than `eRenderRoIRetCodeOk`. -/
def Clean (t : List Event) : Prop :=
  ∀ e ∈ t, e.upstreamFailure = none

/-- The activation ended on an upstream call that came back with the code `c`, which it
returns: that call is its last event and the only one of its trace that failed. -/
def Result.Forwards {σ : Type} (r : Result σ) : Prop :=
  ∃ evs e c, r.trace = evs ++ [e] ∧ Clean evs ∧ e.upstreamFailure = some c
    ∧ r.outcome = .returned c

/-- What is true of `renderRoI` up to some point as to upstream calls: it goes on only when
none failed, and is over either with none failed or on the first that failed, with its code. -/
def Flow.Guarded {σ : Type} (f : Flow σ) : Prop :=
  f.Post (fun s => Clean s.trace) (fun r => Clean r.trace ∨ r.Forwards)

/-- The state a piece of `renderRoI` goes on with, `d` when it does not go on. -/
def Flow.stateD {σ : Type} (f : Flow σ) (d : St σ) : St σ :=
  match f with
  | .next s => s
  | _ => d

/-! ## More scenes -/

/-- The render context of an effect that can render with OpenGL as well as on CPU, an OpenGL
context being at hand. -/
def glFrameArgs : ParallelRenderArgs :=
  { sceneFrameArgs with currentOpenglSupport := .ePluginOpenGLRenderSupportYes,
                        openGLContext := some 1, abortInfo := some 1 }

/-- The scene rendered with OpenGL. -/
def glEnv : Env Nat :=
  { sceneEnv with tlsFrameArgs := fun _ _ => some glFrameArgs }

/-- The scene rendered with OpenGL, the attach of the context running out of GPU memory. -/
def oomEnv : Env Nat :=
  { glEnv with attachOpenGLContext := fun _ _ ext => (.eStatusOutOfMemory, ext) }

/-- The state of the scene `oomEnv` when its render is over. -/
def oomState : St Nat :=
  (atFinish oomEnv (renderRoI oomEnv 2) 2 1 sceneArgs [] 100).stateD (St.entry [] 100)

/-- The scene rendered with OpenGL on a node whose caching is forced by the user. -/
def forceCachingEnv : Env Nat :=
  { sceneEnv with tlsFrameArgs := fun _ _ => some glFrameArgs
                  isForceCachingEnabled := fun _ => true }

/-- The state of the scene `forceCachingEnv` when it reaches storage selection. -/
def forceCachingState : St Nat :=
  (atStorage forceCachingEnv (renderRoI forceCachingEnv 2) 1 sceneArgs [] 100).stateD
    (St.entry [] 100)

/-- The scene where the effect is a writer and the render a sequential one. -/
def writerEnv : Env Nat :=
  { sceneEnv with isWriter := fun _ => true
                  tlsFrameArgs := fun _ _ => some { sceneFrameArgs with isSequentialRender := true } }

/-- The state of the scene `writerEnv` when it reaches the cache look-up. -/
def writerState : St Nat :=
  (atLookup writerEnv (renderRoI writerEnv 2) 1 sceneArgs [] 100).stateD (St.entry [] 100)

/-- The scene in draft mode, the cache holding for every key the image whose address is the
hash of the key, plus one when the key is a draft key. -/
def draftEnv : Env Nat :=
  { sceneEnv with
      isDraftModeUsed := fun _ => true
      tlsFrameArgs := fun _ _ => some { sceneFrameArgs with draftMode := true }
      getImageFromCacheAndConvertIfNeeded := fun _ _ storage _ key level _ _ _ depth comps _ ext =>
        (some ⟨key.nodeHashKey + (if key.draftMode then 1 else 0), comps, depth, storage, level⟩,
         ext) }

/-- The state of the scene `draftEnv` when it reaches the cache look-up. -/
def draftState : St Nat :=
  (atLookup draftEnv (renderRoI draftEnv 2) 1 sceneArgs [] 100).stateD (St.entry [] 100)

/-- The scene where the effect 1 is an identity of its input 0, the effect 2, at time 11. -/
def identityEnv : Env Nat :=
  { sceneEnv with
      getInput := fun self n => if self = 1 ∧ n = 0 then some 2 else none
      getMaxInputCount := fun self => if self = 1 then 1 else 0
      isIdentity := fun self _ _ _ _ _ _ t v nb ext =>
        if self = 1 then (some (true, 11, v, 0), ext) else (some (false, t, v, nb), ext) }

/-- The state of the scene `identityEnv` when the effect 1 reaches the identity check. -/
def identityState : St Nat :=
  (atIdentity identityEnv (renderRoI identityEnv 2) 1 sceneArgs [] 100).stateD (St.entry [] 100)

/-- The scene where the render of every tile fails. -/
def failingEnv : Env Nat :=
  { sceneEnv with
      tiledRenderingFunctor := fun _ _ _ _ _ _ _ _ _ ext => (.eRenderingFunctorRetFailed, ext) }

/-- The state of the scene `failingEnv` when it reaches the render. -/
def failingState : St Nat :=
  (atDispatch failingEnv (renderRoI failingEnv 2) 2 1 sceneArgs [] 100).stateD (St.entry [] 100)

/-- The state of the scene `failingEnv` when the render is over. -/
def failingRendered : St Nat :=
  (renderPlanes failingEnv 1 sceneArgs
    (markPlanes failingEnv 1 failingState.planes
      { failingState with renderRetCode := .eRenderRoIStatusImageAlreadyRendered })).stateD
    failingState

/-- The scene where the effect produces two planes, RGBA and the motion vectors, and the render
is found aborted when it is over. -/
def abortedEnv : Env Nat :=
  { sceneEnv with
      getComponentsNeededAndProduced := fun _ _ _ ext => (([(-1, [rgba, motion])], false), ext)
      getComponentsAvailable := fun self _ ext => ([(rgba, some self), (motion, some self)], ext)
      aborted := fun _ _ => true }

/-- The request for the two planes of `abortedEnv`. -/
def twoPlanesArgs : RenderRoIArgs := { sceneArgs with components := [rgba, motion] }

/-- The images of the planes, as the trimap coordinator is given them (lines 1528 and 1651):
`renderFullScaleThenDownscale ? fullscaleImage : downscaleImage`. -/
def St.workingImages {σ : Type} (s : St σ) : List (Option Image) :=
  s.planes.map fun kp => renderMappedImage s.renderFullScaleThenDownscale kp.2

/-- The scene rendered with OpenGL on a GPU whose textures are at most 2 pixels wide and high,
the region of interest being 4 pixels wide and high. -/
def smallTextureEnv : Env Nat :=
  { sceneEnv with tlsFrameArgs := fun _ _ => some glFrameArgs
                  getCurrentOpenGLRendererMaxTextureSize := fun _ => 2 }

/-- The state of the scene `smallTextureEnv` when it reaches storage selection. -/
def smallTextureState : St Nat :=
  (atStorage smallTextureEnv (renderRoI smallTextureEnv 2) 1 sceneArgs [] 100).stateD
    (St.entry [] 100)

/-- The scene where the render of the input images fails. -/
def inputFailEnv : Env Nat :=
  { sceneEnv with
      renderInputImagesForRoI := fun _ _ _ _ _ _ _ _ _ _ _ _ _ ext =>
        ((.returned .eRenderRoIRetCodeFailed, 0), ext) }

/-- What the call of the scene `inputFailEnv` leaves. -/
def inputFailResult : Result Nat :=
  (renderRoI inputFailEnv 3 1 sceneArgs [] 100).getD ⟨.raised, [], [], 0⟩

/-! ## Storage selection in the words of the specification -/

/-- The storage as the specification gives it: disk for a disk-cache node; else an OpenGL
texture when a context is at hand and the effect needs OpenGL, or supports it and the caller
allows it, the node is visited at most once, the request is at the caller's time and the
region of interest is smaller than the maximum texture size in both directions; else system
memory. -/
def claimedStorage {σ : Type} (env : Env σ) (self : NodeId) (args : RenderRoIArgs)
    (s : St σ) : StorageModeEnum :=
  if env.isDiskCacheNode self then .eStorageModeDisk
  else if s.glContext.isSome ∧
      (s.frameArgs.currentOpenglSupport = .ePluginOpenGLRenderSupportNeeded
        ∨ (s.frameArgs.currentOpenglSupport = .ePluginOpenGLRenderSupportYes
            ∧ args.allowGPURendering = true
            ∧ s.frameArgs.visitsCount ≤ 1
            ∧ args.time = args.callerRenderTime
            ∧ s.roi.width < env.getCurrentOpenGLRendererMaxTextureSize s.ext
            ∧ s.roi.height < env.getCurrentOpenGLRendererMaxTextureSize s.ext)) then
    .eStorageModeGLTex
  else .eStorageModeRAM

/-- The storage of `claimedStorage` with one more condition on an effect that supports OpenGL
without needing it: caching is not forced on the node. -/
def amendedStorage {σ : Type} (env : Env σ) (self : NodeId) (args : RenderRoIArgs)
    (s : St σ) : StorageModeEnum :=
  if env.isDiskCacheNode self then .eStorageModeDisk
  else if s.glContext.isSome ∧
      (s.frameArgs.currentOpenglSupport = .ePluginOpenGLRenderSupportNeeded
        ∨ (s.frameArgs.currentOpenglSupport = .ePluginOpenGLRenderSupportYes
            ∧ args.allowGPURendering = true
            ∧ env.isForceCachingEnabled self = false
            ∧ s.frameArgs.visitsCount ≤ 1
            ∧ args.time = args.callerRenderTime
            ∧ s.roi.width < env.getCurrentOpenGLRendererMaxTextureSize s.ext
            ∧ s.roi.height < env.getCurrentOpenGLRendererMaxTextureSize s.ext)) then
    .eStorageModeGLTex
  else .eStorageModeRAM

/-- The effect needs OpenGL, a context is at hand, and OpenGL is disabled for the plug-in in
the preferences (lines 742-746). -/
def openGLDisabled {σ : Type} (env : Env σ) (self : NodeId) (s : St σ) : Prop :=
  env.isDiskCacheNode self = false ∧ s.glContext.isSome = true
    ∧ s.frameArgs.currentOpenglSupport = .ePluginOpenGLRenderSupportNeeded
    ∧ env.isPluginOpenGLEnabled self = false

/-! ## What the cache look-up leaves -/

/-- Every plane holds the same image at both scales, as a plane does when it comes out of the
cache look-up (line 950, `plane.downscaleImage = plane.fullscaleImage`). -/
def PlanesInv (planes : PlaneMap PlaneToRender) : Prop :=
  ∀ kp ∈ planes, kp.2.downscaleImage = kp.2.fullscaleImage

/-- The part of the state that the look-up loop and what follows it, up to the rectangles left
to render, do not touch. -/
def St.Keeps {σ : Type} (s s' : St σ) : Prop :=
  s'.rectsToRender = s.rectsToRender ∧ s'.planes = s.planes
    ∧ s'.redoCacheLookup = s.redoCacheLookup

/-- The scene where the cache holds the image of every plane, fully rendered. -/
def cachedEnv : Env Nat :=
  { sceneEnv with
      getImageFromCacheAndConvertIfNeeded := fun _ _ storage _ key level _ _ _ depth comps _ ext =>
        (some ⟨key.nodeHashKey, comps, depth, storage, level⟩, ext) }

/-- The state of the scene `cachedEnv` when the rectangles left to render are about to be
determined. -/
def cachedState : St Nat :=
  (atRectsLeft cachedEnv (renderRoI cachedEnv 2) 1 sceneArgs [] 100).stateD (St.entry [] 100)

/-- The state of the scene `cachedEnv` when the rectangles left to render are determined. -/
def cachedRest : St Nat :=
  (rectsLeft cachedEnv 1 sceneArgs cachedState).stateD (St.entry [] 100)

/-- The state of a cache hit when the planes are about to be returned: nothing to render, the
abort flag read. -/
def St.beforeReturn {σ : Type} (env : Env σ) (self : NodeId) (s : St σ)
    (outComp : ImageComponents) : St σ :=
  readAborted env self
    { s with
        tryIdentityOptim := false
        rectsToRender := []
        hasSomethingToRender := false
        outputPremult :=
          if outComp.isColorPlane then s.thisEffectOutputPremult
          else .eImagePremultiplicationOpaque
        renderRetCode := .eRenderRoIStatusImageAlreadyRendered }

/-- The plane RGB of the colour layer. -/
def rgb : ImageComponents := ⟨kNatronColorPlaneName, [0, 1, 2]⟩

/-- The scene where the components-available map of every node holds RGB produced by node 2
and, after it, RGBA produced by node 1. -/
def upstreamRgbEnv : Env Nat :=
  { sceneEnv with
      getComponentsAvailable := fun _ _ ext => ([(rgb, some 2), (rgba, some 1)], ext)
      getComponentsNeededAndProduced := fun _ _ _ ext => (([(-1, [rgb, rgba])], false), ext) }

/-- The state of the scene `upstreamRgbEnv` when node 1 reaches the pass-through of planes. -/
def upstreamRgbState : St Nat :=
  (atPlanes upstreamRgbEnv (renderRoI upstreamRgbEnv 1) 1 sceneArgs [] 100).stateD (St.entry [] 100)

/-- The state of the scene `upstreamRgbEnv` when node 1 has fetched the planes of node 2. -/
def upstreamRgbFetched : St Nat :=
  (fetchUpstream upstreamRgbEnv (renderRoI upstreamRgbEnv 1) sceneArgs [(rgb, some 2)]
    { upstreamRgbState with trace := upstreamRgbState.trace ++ [Event.getComponentsAvailable],
                            requestedComponents := [] }).stateD upstreamRgbState

/-- The call up to the region of definition (lines 221-304). -/
def atRoD {σ : Type} (env : Env σ) (recCall : RecCall σ) (self : NodeId)
    (args : RenderRoIArgs) (outputPlanes : PlaneMap Image) (ext : σ) : Flow σ :=
  ((earlyOut env recCall self args (St.entry outputPlanes ext)).andThen
    (setupFrameArgs env self args)).andThen (scalePolicy env self args)

/-- The pre-pass data of a frame whose region of definition is null. -/
def nullRoDRequest : FrameViewRequest :=
  { rod := RectD.cleared, isProjectFormat := false, isIdentity := false, identityInputNb := -1,
    inputIdentityTime := 0, identityView := 0, transforms := 0, transformsEmpty := true,
    frameViewsNeeded := 0 }

/-- The scene where the pre-pass has left a null region of definition for the frame of an effect
that does not support tiles. -/
def nullRoDEnv : Env Nat :=
  { sceneEnv with
      tlsFrameArgs := fun _ _ =>
        some { sceneFrameArgs with request := some 0, tilesSupported := false }
      getFrameViewRequest := fun _ _ _ => some nullRoDRequest }

/-- The scene where `getRegionOfDefinition` answers a null region of definition. -/
def nullHookEnv : Env Nat :=
  { sceneEnv with
      getRegionOfDefinition := fun _ _ _ _ _ ext => ((.eStatusOK, RectD.cleared, false), ext + 1) }

/-- The state of the scene `nullHookEnv` when it reaches the region of definition. -/
def nullHookState : St Nat :=
  (atRoD nullHookEnv (renderRoI nullHookEnv 1) 1 sceneArgs [] 100).stateD (St.entry [] 100)

/-- A call of the `isIdentity` hook. -/
def Event.isIdentityQuery : Event → Bool
  | .isIdentity _ _ _ _ => true
  | _ => false

/-- The scene where every effect is invariant over all views. -/
def allViewsEnv : Env Nat :=
  { sceneEnv with isViewInvariant := fun _ => .eViewInvarianceAllViewsInvariant }

/-- The state of the scene `allViewsEnv` when the request for view 1 reaches the identity
check. -/
def allViewsState : St Nat :=
  (atIdentity allViewsEnv (renderRoI allViewsEnv 2) 1 { sceneArgs with view := 1 } [] 100).stateD
    (St.entry [] 100)

/-- The scene where every effect is invariant over all views and answers, to `isIdentity`, that
it is an identity of itself (-2) at the time it is asked about. -/
def selfIdentityEnv : Env Nat :=
  { allViewsEnv with
      isIdentity := fun _ _ _ time _ _ view _ _ _ ext => (some (true, time, view, -2), ext) }

/-- The state of the scene `selfIdentityEnv` when the request reaches the identity check. -/
def selfIdentityState : St Nat :=
  (atIdentity selfIdentityEnv (renderRoI selfIdentityEnv 0) 1 sceneArgs [] 100).stateD
    (St.entry [] 100)

/-- The call up to the identity optimisation of the rectangles left to render (line 1121). -/
def atRectsToRender {σ : Type} (env : Env σ) (recCall : RecCall σ) (self : NodeId)
    (args : RenderRoIArgs) (outputPlanes : PlaneMap Image) (ext : σ) : Flow σ :=
  (atRectsLeft env recCall self args outputPlanes ext).andThen (rectsLeft env self args)

/-- The call up to the second cache look-up (line 1267). -/
def atRedoLookup {σ : Type} (env : Env σ) (recCall : RecCall σ) (fuel : Nat) (self : NodeId)
    (args : RenderRoIArgs) (outputPlanes : PlaneMap Image) (ext : σ) : Flow σ :=
  (atInputs env recCall fuel self args outputPlanes ext).andThen (preRenderInputs env self args)

/-- The state `s2` is the one in which a call of the `isIdentity` hook on a rectangle, at the
time `time` and for the view `view`, has just thrown. -/
def RaisedAt {σ : Type} (env : Env σ) (time : Int) (scale : RenderScale) (view : Nat)
    (s2 : St σ) : Prop :=
  ∃ (node : NodeId) (rect : RectI) (t : Int) (v : Nat) (nb : Int) (s0 : St σ),
    (env.isIdentity node false 0 time scale rect view t v nb s0.ext).1 = none
      ∧ s2 = { s0 with ext := (env.isIdentity node false 0 time scale rect view t v nb s0.ext).2,
                       trace := s0.trace ++ [Event.isIdentity node rect time view] }

/-- The scene where the `isIdentity` hook of every effect throws. -/
def raisingEnv : Env Nat :=
  { sceneEnv with isIdentity := fun _ _ _ _ _ _ _ _ _ _ ext => (none, ext) }

/-- The state of the scene `raisingEnv` when it reaches the identity check. -/
def raisingState : St Nat :=
  (atIdentity raisingEnv (renderRoI raisingEnv 1) 1 sceneArgs [] 100).stateD (St.entry [] 100)

/-- The scene where a paint stroke is being drawn on an effect that has a mask input with a
roto item attached, and where the `isIdentity` hook answers "not an identity" over the whole
region of definition (the query that uses the identity cache) and throws when it is asked
about a sub-rectangle. -/
def raisingTileEnv : Env Nat :=
  { sceneEnv with
      isDuringPaintStrokeCreationThreadLocal := fun _ _ => true
      getMaxInputCount := fun _ => 1
      hasAttachedRotoItem := fun _ => true
      isInputMask := fun _ _ => true
      isIdentity := fun _ useIdentityCache _ _ _ _ _ t v nb ext =>
        if useIdentityCache then (some (false, t, v, nb), ext) else (none, ext) }

/-- The state of the scene `raisingTileEnv` when it reaches the identity optimisation of the
rectangles to render. -/
def raisingTileState : St Nat :=
  (atRectsToRender raisingTileEnv (renderRoI raisingTileEnv 1) 1 sceneArgs [] 100).stateD
    (St.entry [] 100)

/-- A two-component plane of a third layer (disparity). -/
def disparity : ImageComponents := ⟨2, [6, 7]⟩

/-- An image of the motion vectors in system memory. -/
def motionImage : Image :=
  { ptr := 50, components := motion, bitDepth := .eImageBitDepthFloat, storage := .eStorageModeRAM,
    mipMapLevel := 0 }

/-- The bitmap of `img` leaves nothing to render over `roi`, in some external state: the
answer that `getRestToRender` gave when it was asked. -/
def RestEmpty {σ : Type} (env : Env σ) (roi : RectI) (img : Image) : Prop :=
  ∃ e, (env.getRestToRender img roi e).isEmpty = true

/-- The bitmap of `img` leaves something to render over `roi`, in some external state. -/
def RestLeft {σ : Type} (env : Env σ) (roi : RectI) (img : Image) : Prop :=
  ∃ e, (env.getRestToRender img roi e).isEmpty = false

/-- Every plane of the map holds an image, or none does. -/
def AllOrNothing (planes : PlaneMap PlaneToRender) : Prop :=
  (∀ kp ∈ planes, kp.2.fullscaleImage.isSome = true) ∨ (∀ kp ∈ planes, kp.2.fullscaleImage = none)

/-- What the look-up loop does between the states `s` and `s'`: the region of interest is kept,
the trace grows, a plane enters `*outputPlanes` only with an image whose rest to render was
asked and was empty, and an image is removed from the node cache only when its rest to render
was not empty. -/
def LookupRel {σ : Type} (env : Env σ) (s s' : St σ) : Prop :=
  s'.roi = s.roi
    ∧ (∀ ev ∈ s.trace, ev ∈ s'.trace)
    ∧ (∀ kp ∈ s'.out, kp ∈ s.out
        ∨ (RestEmpty env s.roi kp.2 ∧ Event.getRestToRender kp.2 s.roi ∈ s'.trace))
    ∧ (∀ img, Event.removeFromNodeCache (some img) ∈ s'.trace →
        Event.removeFromNodeCache (some img) ∈ s.trace ∨ RestLeft env s.roi img)

/-- The scene where the effect produces RGBA and the motion vectors, the cache holds an image
of RGBA that is not rendered over the region of interest, and no image of the motion vectors. -/
def staleHitEnv : Env Nat :=
  { sceneEnv with
      getComponentsNeededAndProduced := fun _ _ _ ext => (([(-1, [rgba, motion])], false), ext)
      getComponentsAvailable := fun self _ ext => ([(rgba, some self), (motion, some self)], ext)
      getImageFromCacheAndConvertIfNeeded := fun _ _ storage _ key level _ _ _ depth comps _ ext =>
        if comps = rgba then (some ⟨key.nodeHashKey, comps, depth, storage, level⟩, ext)
        else (none, ext)
      getRestToRender := fun _ roi _ => [roi] }

/-- The state of the scene `staleHitEnv` when it reaches the cache look-up. -/
def staleHitState : St Nat :=
  (atLookup staleHitEnv (renderRoI staleHitEnv 1) 1 twoPlanesArgs [] 100).stateD
    (St.entry [] 100)

/-- The call up to the conversion of the planes to the requested format (line 1742). -/
def atReturn {σ : Type} (env : Env σ) (recCall : RecCall σ) (fuel : Nat) (self : NodeId)
    (args : RenderRoIArgs) (outputPlanes : PlaneMap Image) (ext : σ) : Flow σ :=
  (atFinish env recCall fuel self args outputPlanes ext).andThen
    (finishCodes env recCall self args)

/-- The state of the scene `sceneEnv` when the planes are about to be returned. -/
def sceneReturnState : St Nat :=
  (atReturn sceneEnv (renderRoI sceneEnv 1) 1 1 sceneArgs [] 100).stateD (St.entry [] 100)

/-- What the call of the scene `sceneEnv` leaves. -/
def sceneResult : Result Nat :=
  (renderRoI sceneEnv 2 1 sceneArgs [] 100).getD ⟨.raised, [], [], 0⟩

/-- The state `s'` has the region of definition, the pixel aspect ratio, the bounds of the
images, the region of interest, the scale mode and the render context of the state `s`. -/
def St.SameGeometry {σ : Type} (s s' : St σ) : Prop :=
  s'.rod = s.rod ∧ s'.par = s.par
    ∧ s'.upscaledImageBoundsNc = s.upscaledImageBoundsNc
    ∧ s'.downscaledImageBoundsNc = s.downscaledImageBoundsNc
    ∧ s'.roi = s.roi
    ∧ s'.renderFullScaleThenDownscale = s.renderFullScaleThenDownscale
    ∧ s'.frameArgs = s.frameArgs

/-- The pixel-enclosing rectangle of the region of definition at the mip-map level the effect
renders at: level 0 when it renders at full scale and downscales, the requested level
otherwise. -/
def St.mappedBounds {σ : Type} (env : Env σ) (args : RenderRoIArgs) (s : St σ) : RectI :=
  env.toPixelEnclosing s.rod (if s.renderFullScaleThenDownscale then 0 else args.mipMapLevel) s.par

/-- For an effect that does not support tiles: the bounds of the images are the
pixel-enclosing rectangles of the region of definition at level 0 and at the requested level,
and the region of interest is the bounds of the image that is rendered. -/
def NoTiles {σ : Type} (env : Env σ) (args : RenderRoIArgs) (s : St σ) : Prop :=
  s.frameArgs.tilesSupported = false
    ∧ s.upscaledImageBoundsNc = env.toPixelEnclosing s.rod 0 s.par
    ∧ s.downscaledImageBoundsNc = env.toPixelEnclosing s.rod args.mipMapLevel s.par
    ∧ s.roi = s.renderBounds

/-- The rectangles to render are at most one rectangle, the bounds of the image that is
rendered, and not an identity. -/
def WholeBounds {σ : Type} (s : St σ) : Prop :=
  s.rectsToRender.length ≤ 1
    ∧ ∀ r ∈ s.rectsToRender, r.rect = s.renderBounds ∧ r.isIdentity = false

/-- Every allocation of the trace is given the bounds of the state. -/
def AllocatedBounds {σ : Type} (s : St σ) : Prop :=
  ∀ components downscaledBounds upscaledBounds storage createInCache,
    Event.allocateImagePlane components downscaledBounds upscaledBounds storage createInCache
        ∈ s.trace →
      downscaledBounds = s.downscaledImageBoundsNc ∧ upscaledBounds = s.upscaledImageBoundsNc

/-- Between `s` and `s'` the geometry, the rectangles to render and `hasSomethingToRender` are
kept, and every allocation that is made is given the bounds of the state. -/
def St.Allocates {σ : Type} (s s' : St σ) : Prop :=
  s.SameGeometry s' ∧ s'.rectsToRender = s.rectsToRender
    ∧ s'.hasSomethingToRender = s.hasSomethingToRender
    ∧ ∃ evs, s'.trace = s.trace ++ evs
        ∧ ∀ ev ∈ evs, ∀ components downscaledBounds upscaledBounds storage createInCache,
            ev = Event.allocateImagePlane components downscaledBounds upscaledBounds storage
              createInCache →
            downscaledBounds = s.downscaledImageBoundsNc
              ∧ upscaledBounds = s.upscaledImageBoundsNc

/-- The trace `t'` is the trace `t` followed by events among which every call of the tile
render is for a rectangle of `l`. -/
def TilesAmong (l : List RectToRender) (t t' : List Event) : Prop :=
  ∃ evs, t' = t ++ evs ∧ ∀ rect ret, Event.tiledRenderingFunctor rect ret ∈ evs → rect ∈ l

/-- Between `s` and `s'` the rectangles to render are kept and every tile that is rendered is
one of them. -/
def St.RendersRects {σ : Type} (s s' : St σ) : Prop :=
  s'.rectsToRender = s.rectsToRender ∧ TilesAmong s.rectsToRender s.trace s'.trace

/-- The scene of an effect that does not support tiles. -/
def noTilesEnv : Env Nat :=
  { sceneEnv with tlsFrameArgs := fun _ _ => some { sceneFrameArgs with tilesSupported := false } }

/-- The state of the scene `noTilesEnv` when it reaches the render. -/
def noTilesState : St Nat :=
  (atDispatch noTilesEnv (renderRoI noTilesEnv 1) 1 1 sceneArgs [] 100).stateD (St.entry [] 100)

/-- A call of `renderRoI` made by the redirection to the view 0 (line 652). -/
def Event.isViewZero : Event → Bool
  | .renderRoI .viewZero _ _ _ => true
  | _ => false

/-- The scene where only the pass-through planes of every effect depend on the view. -/
def passThroughViewEnv : Env Nat :=
  { sceneEnv with isViewInvariant := fun _ => .eViewInvarianceOnlyPassThroughPlanesVariant }

/-- The request of the scenes for the view 1. -/
def viewOneArgs : RenderRoIArgs := { sceneArgs with view := 1 }

/-- The state of the scene `passThroughViewEnv` when the request for the view 1 reaches the
identity check. -/
def viewOneState : St Nat :=
  (atIdentity passThroughViewEnv (renderRoI passThroughViewEnv 2) 1 viewOneArgs [] 100).stateD
    (St.entry [] 100)

/-- The state of the scene `passThroughViewEnv` when the `isIdentity` hook has answered. -/
def viewOneQueried : St Nat :=
  (identityQuery passThroughViewEnv 1 viewOneArgs
    { viewOneState with viewInvariance := passThroughViewEnv.isViewInvariant 1 }).2

/-- The scene where the effect 1 is an identity of its input 0, the effect 2, has a channel
selector for that input and needs from it the planes RGBA and motion vectors, both of which the
effect 2 produces. -/
def selectorEnv : Env Nat :=
  { sceneEnv with
      getInput := fun self n => if self = 1 ∧ n = 0 then some 2 else none
      getMaxInputCount := fun self => if self = 1 then 1 else 0
      hasChannelSelectorKnob := fun self n => decide (self = 1 ∧ n = 0)
      isIdentity := fun self _ _ _ _ _ _ t v nb ext =>
        if self = 1 then (some (true, 10, v, 0), ext) else (some (false, t, v, nb), ext)
      getComponentsNeededAndProduced := fun self _ _ ext =>
        if self = 1 then (([(-1, [rgba]), (0, [rgba, motion])], false), ext)
        else (([(-1, [rgba, motion])], false), ext)
      getComponentsAvailable := fun self _ ext =>
        if self = 1 then ([(rgba, some 1)], ext)
        else ([(rgba, some 2), (motion, some 2)], ext) }

/-- The request the effect 1 of `selectorEnv` hands to its identity input. -/
def selectorInputArgs : RenderRoIArgs := { sceneArgs with components := [rgba, motion] }

/-- The state `s'` has the render-scale support, the scale mode and the mip-map level of the
render of the state `s`. -/
def St.SameScale {σ : Type} (s s' : St σ) : Prop :=
  s'.supportsRS = s.supportsRS
    ∧ s'.renderFullScaleThenDownscale = s.renderFullScaleThenDownscale
    ∧ s'.renderMappedMipMapLevel = s.renderMappedMipMapLevel

/-- The scale policy as the specification gives it: the render-full-then-downscale mode is on
exactly when the render-scale support of the effect is "no" and the requested mip-map level is
not 0, and the mip-map level of the render is 0 when the mode is on, the requested level
otherwise. -/
def ClaimedScalePolicy {σ : Type} (args : RenderRoIArgs) (s : St σ) : Prop :=
  (s.renderFullScaleThenDownscale = true
      ↔ s.supportsRS = .eSupportsNo ∧ args.mipMapLevel ≠ 0)
    ∧ s.renderMappedMipMapLevel = if s.renderFullScaleThenDownscale then 0 else args.mipMapLevel

/-- The scale policy with the mode on exactly when the render-scale support of the effect is
not "yes" ("no", or still "maybe") and the requested mip-map level is not 0. -/
def AmendedScalePolicy {σ : Type} (args : RenderRoIArgs) (s : St σ) : Prop :=
  (s.renderFullScaleThenDownscale = true
      ↔ s.supportsRS ≠ .eSupportsYes ∧ args.mipMapLevel ≠ 0)
    ∧ s.renderMappedMipMapLevel = if s.renderFullScaleThenDownscale then 0 else args.mipMapLevel

/-- The scene where the render-scale support of every effect is "maybe" and stays so. -/
def maybeEnv : Env Nat :=
  { sceneEnv with supportsRenderScaleMaybe := fun _ _ => .eSupportsMaybe }

/-- The request of the scenes at the mip-map level 1. -/
def halfScaleArgs : RenderRoIArgs := { sceneArgs with mipMapLevel := 1 }

/-- The state of the scene `maybeEnv` when the request at the mip-map level 1 reaches the cache
look-up: the cache key is built. -/
def maybeState : St Nat :=
  (atLookup maybeEnv (renderRoI maybeEnv 1) 1 halfScaleArgs [] 100).stateD (St.entry [] 100)

/-- The scene where the render-scale support of every effect is "maybe" until its region of
definition is asked for, and "yes" afterwards. -/
def resolvedEnv : Env Nat :=
  { sceneEnv with
      supportsRenderScaleMaybe := fun _ ext => if ext = 100 then .eSupportsMaybe else .eSupportsYes
      getRegionOfDefinition := fun _ _ _ _ _ ext => ((.eStatusOK, ⟨0, 0, 8, 8⟩, false), ext + 1) }

/-- The state of the scene `resolvedEnv` when the request at the mip-map level 1 reaches the
cache look-up. -/
def resolvedState : St Nat :=
  (atLookup resolvedEnv (renderRoI resolvedEnv 1) 1 halfScaleArgs [] 100).stateD (St.entry [] 100)

/-- The state `s'` is the state `s` but for the external state and the trace. -/
def St.ExtFrame {σ : Type} (s s' : St σ) : Prop :=
  ∃ e t, s' = { s with ext := e, trace := t }

/-- The state `s'` is the state `s` but for the external state, the trace, the planes to render
and `*outputPlanes`: what the look-up loop changes. -/
def St.LookupFrame {σ : Type} (s s' : St σ) : Prop :=
  ∃ e t p o, s' = { s with ext := e, trace := t, planes := p, out := o }

/-- The state `s'` is the state `s` but for the external state, the trace and the locals that
lines 993-1084 set: what is left to render and the paint-stroke state. -/
def St.StrokeFrame {σ : Type} (s s' : St σ) : Prop :=
  ∃ e t l d f r b, s' = { s with ext := e, trace := t, rectsLeftToRender := l,
                                 isDuringPaintStroke := d, fillGrownBoundsWithZeroes := f,
                                 lastStrokePixelRoD := r, isBeingRenderedElsewhere := b }

/-- The state `s'` is the state `s` but for the external state, the trace and the locals that
lines 1121-1261 set: the rectangles to render and the premultiplication of the output. -/
def St.RectsFrame {σ : Type} (s s' : St σ) : Prop :=
  ∃ e t a b c d p, s' = { s with ext := e, trace := t, tryIdentityOptim := a,
                                 inputsRoDIntersectionPixel := b, rectsToRender := c,
                                 hasSomethingToRender := d, outputPremult := p }

/-- The state at line 1086, where a partial cache hit is examined: the bitmap of the cached
image `isPlaneCached` has been asked what is left to render and, while painting, the answer has
been restricted to the last stroke. -/
def restAfterStroke {σ : Type} (env : Env σ) (self : NodeId) (args : RenderRoIArgs)
    (isPlaneCached : Image) (s : St σ) : St σ :=
  strokeRestToRender env (queryRestToRender env isPlaneCached
    (clearLastStroke env (paintStrokeRoD env self args s)))

/-- What lines 1095-1104 leave of a plane: the address of its image, and no image. -/
def PlaneToRender.released (plane : PlaneToRender) : PlaneToRender :=
  { plane with originalCachedImage := plane.fullscaleImage.map (fun i => i.ptr),
               fullscaleImage := none, downscaleImage := none }

/-- The scene where the cache holds the image of every plane, its bitmap leaves the whole region
of interest to render, the node cache is almost full, and a paint stroke is being drawn whose
bounding box, [20,30]x[20,30], is outside the image. -/
def strokeEnv : Env Nat :=
  { cachedEnv with
      isDuringPaintStrokeCreationThreadLocal := fun _ _ => true
      isLastPaintStrokeBitmapCleared := fun _ _ => false
      getLastPaintStrokeBbox := fun _ => ⟨20, 20, 30, 30⟩
      getRestToRender_trimap := fun _ roi _ => ([roi], false)
      isNodeCacheAlmostFull := fun _ => true }

/-- The state of the scene `strokeEnv` when the rectangles left to render are about to be
determined. -/
def strokeState : St Nat :=
  (atRectsLeft strokeEnv (renderRoI strokeEnv 1) 1 sceneArgs [] 100).stateD (St.entry [] 100)

/-- The cached image of the scenes `strokeEnv` and `pressureEnv`. -/
def cachedImage : Image :=
  { ptr := 7, components := rgba, bitDepth := .eImageBitDepthFloat, storage := .eStorageModeRAM,
    mipMapLevel := 0 }

/-- The scene where the cache holds the image of every plane, its bitmap leaves the rectangle
[0,2]x[0,2] to render, and the node cache is almost full. -/
def pressureEnv : Env Nat :=
  { cachedEnv with
      getRestToRender_trimap := fun _ _ _ => ([⟨0, 0, 2, 2⟩], false)
      isNodeCacheAlmostFull := fun _ => true }

/-- The state of the scene `pressureEnv` when the rectangles left to render are about to be
determined. -/
def pressureState : St Nat :=
  (atRectsLeft pressureEnv (renderRoI pressureEnv 1) 1 sceneArgs [] 100).stateD (St.entry [] 100)

/-- What the `isIdentity` hook answers: the returned `bool` and the values of `inputTime`,
`inputView` and `inputNb` after the call. -/
abbrev IdentityAnswer := Bool × Int × Nat × Int

/-- The hook `isIdentity` of the node `n`, asked about the rectangle `split` as the walk of lines
131-145 asks it, gave the answer `a` (in some external state, for some values of its in-out
parameters). -/
def WalkAnswered {σ : Type} (env : Env σ) (time : Int) (scale : RenderScale) (split : RectI)
    (view : Nat) (n : NodeId) (a : IdentityAnswer) : Prop :=
  ∃ (e : σ) (t : Int) (v : Nat) (nb : Int),
    (env.isIdentity n false 0 time scale split view t v nb e).1 = some a

/-- The walk along an identity branch stops at the node `n`, whose answer is `a`: the node is
not an identity, or it answers the self sentinel -2, or its identity input is missing, or its
identity input is the node itself. -/
def ChainStops {σ : Type} (env : Env σ) (n : NodeId) (a : IdentityAnswer) : Prop :=
  a.1 = false ∨ a.2.2.2 = -2 ∨ env.getInput n a.2.2.2 = none ∨ env.getInput n a.2.2.2 = some n

/-- The value of `identityInput` when the walk stops at the node `n` on the answer `a`: the
node itself, or null when its identity input is missing. -/
def chainEnd {σ : Type} (env : Env σ) (n : NodeId) (a : IdentityAnswer) : Option NodeId :=
  if a.1 = false ∨ a.2.2.2 = -2 then some n else env.getInput n a.2.2.2

/-- The nodes a walk along an identity branch visits, each with the answer of its `isIdentity`
hook: every node but the last does not stop the walk and has the next node as its identity
input; the last node stops the walk. -/
def IsChain {σ : Type} (env : Env σ) (time : Int) (scale : RenderScale) (split : RectI)
    (view : Nat) : List (NodeId × IdentityAnswer) → Prop
  | [] => False
  | [na] => WalkAnswered env time scale split view na.1 na.2 ∧ ChainStops env na.1 na.2
  | na :: mb :: rest =>
    WalkAnswered env time scale split view na.1 na.2 ∧ ¬ ChainStops env na.1 na.2
      ∧ env.getInput na.1 na.2.2.2.2 = some mb.1
      ∧ IsChain env time scale split view (mb :: rest)

/-- The scene where the effect 1 is an identity of its input 0, the effect 2, which is an
identity of its input 0, the effect 3, which is not an identity; each identity answers the time
it was asked about plus one. -/
def chainEnv : Env Nat :=
  { sceneEnv with
      getInput := fun self n =>
        if self = 1 ∧ n = 0 then some 2 else if self = 2 ∧ n = 0 then some 3 else none
      getMaxInputCount := fun self => if self = 1 ∨ self = 2 then 1 else 0
      isIdentity := fun self _ _ time _ _ _ t v nb ext =>
        if self = 1 then (some (true, time + 1, v, 0), ext + 1)
        else if self = 2 then (some (true, t + 1, v, 0), ext + 1)
        else (some (false, t, v, nb), ext + 1) }

/-- The length of the longest path of inputs from a node of `chainEnv`. -/
def chainRank (n : NodeId) : Nat := 3 - n

/-- The identity rectangles the loop over the sub-rectangles of a rectangle has pushed, none
when the loop did not finish. -/
def SplitsResult.identityRects {σ : Type} : SplitsResult σ → List RectToRender
  | .finished identityRects _ _ _ => identityRects
  | _ => []

/-- Modelled from the spec: `RectI::contains(const RectI&)`, the rectangle `other` lies within
the rectangle `r`, bound by bound (`Engine/RectI.h` is not among the sources). -/
def RectI.contains (r other : RectI) : Prop :=
  r.x1 ≤ other.x1 ∧ r.y1 ≤ other.y1 ∧ other.x2 ≤ r.x2 ∧ other.y2 ≤ r.y2

/-- Modelled from the spec: `RectI::contains(int x, int y)`, the pixel `(x, y)` is one of the
pixels of the rectangle `r`. -/
def RectI.containsPixel (r : RectI) (x y : Int) : Prop :=
  r.x1 ≤ x ∧ x < r.x2 ∧ r.y1 ≤ y ∧ y < r.y2

/-- The four bounds of the rectangle are values of the type `int` of the platform. -/
def RectI.InIntRange (r : RectI) : Prop :=
  (INT_MIN ≤ r.x1 ∧ r.x1 ≤ INT_MAX) ∧ (INT_MIN ≤ r.y1 ∧ r.y1 ≤ INT_MAX)
    ∧ (INT_MIN ≤ r.x2 ∧ r.x2 ≤ INT_MAX) ∧ (INT_MIN ≤ r.y2 ∧ r.y2 ≤ INT_MAX)

/-- The rectangle `b` is the smallest rectangle that contains every rectangle of `l`. -/
def SmallestContaining (b : RectI) (l : List RectI) : Prop :=
  (∀ q ∈ l, b.contains q) ∧ ∀ b' : RectI, (∀ q ∈ l, b'.contains q) → b'.contains b

/-- The hook `isIdentity` of the effect `self`, asked about the sub-rectangle `split` as line
119 asks it, gave the answer `identity` (in some external state). -/
def AnswersIdentity {σ : Type} (env : Env σ) (self : NodeId) (time : Int) (scale : RenderScale)
    (view : Nat) (split : RectI) (identity : Bool) : Prop :=
  ∃ (e : σ) (t : Int) (v : Nat) (nb : Int),
    (env.isIdentity self false 0 time scale split view 0 view (-1) e).1 = some (identity, t, v, nb)

/-- Every event of the list is a call of the `isIdentity` hook, at the time `time` and for the
view `view`, about a rectangle that satisfies `P`. -/
def QueriesOnly (time : Int) (view : Nat) (P : RectI → Prop) (evs : List Event) : Prop :=
  ∀ ev ∈ evs, ∃ node rect, ev = Event.isIdentity node rect time view ∧ P rect

/-- The sub-rectangles of a rectangle, each with the tag "identity" that the loop of lines
112-159 gave it: a sub-rectangle is tagged identity only if it does not intersect the
intersection of the regions of definition of the inputs and the hook answered that the effect
is an identity over it; it is not tagged identity only if it intersects that intersection or
the hook answered that the effect is not an identity over it. -/
def Tagged {σ : Type} (env : Env σ) (self : NodeId) (inter : RectI) (time : Int) (view : Nat)
    (scale : RenderScale) (splits : List RectI) (tagged : List (RectI × Bool)) : Prop :=
  tagged.map (fun p => p.1) = splits
    ∧ (∀ p ∈ tagged, p.2 = true →
        env.rectIIntersects p.1 inter = false ∧ AnswersIdentity env self time scale view p.1 true)
    ∧ (∀ p ∈ tagged, p.2 = false →
        env.rectIIntersects p.1 inter = true ∨ AnswersIdentity env self time scale view p.1 false)

/-- The sub-rectangles tagged identity, in order. -/
def identitySplits (tagged : List (RectI × Bool)) : List RectI :=
  (tagged.filter fun p => p.2).map fun p => p.1

/-- The sub-rectangles not tagged identity, in order. -/
def remainingSplits (tagged : List (RectI × Bool)) : List RectI :=
  (tagged.filter fun p => !p.2).map fun p => p.1

/-- Lines 154-157 over the sub-rectangles `l`, from the value `init` of `nonIdentityRect`. -/
def boundingRects (l : List RectI) (init : RectI) : RectI :=
  l.foldl (fun acc q => boundingRect q acc) init

/-- What `optimizeRectsToRender` pushes for one rectangle whose sub-rectangles are `splits`:
the rectangles tagged identity, one for each sub-rectangle tagged identity and in their order,
then, if a sub-rectangle is not tagged identity, one rectangle that is not tagged identity, the
bounding rectangle that lines 154-157 compute from `INT_MAX` and `INT_MIN`. -/
def PushedGroup {σ : Type} (env : Env σ) (self : NodeId) (inter : RectI) (time : Int)
    (view : Nat) (scale : RenderScale) (splits : List RectI) (group : List RectToRender) : Prop :=
  ∃ (tagged : List (RectI × Bool)) (ids : List RectToRender),
    Tagged env self inter time view scale splits tagged
      ∧ ids.map (fun r => r.rect) = identitySplits tagged
      ∧ (∀ r ∈ ids, r.isIdentity = true)
      ∧ group = ids ++
          (if (remainingSplits tagged).isEmpty then []
           else [{ rect := boundingRects (remainingSplits tagged) ⟨INT_MAX, INT_MAX, INT_MIN, INT_MIN⟩,
                   isIdentity := false, identityTime := 0 }])

/-- What `optimizeRectsToRender` pushes for one rectangle whose sub-rectangles are `splits`, in
the words of the specification: one rectangle tagged identity for each sub-rectangle that lies
outside the intersection of the regions of definition of the inputs and over which the effect
answered that it is an identity, with that sub-rectangle as its rectangle; after them, when
sub-rectangles remain, one rectangle that is not tagged identity, the smallest rectangle that
contains all of them; and nothing else. -/
def MergedGroup {σ : Type} (env : Env σ) (self : NodeId) (inter : RectI) (time : Int)
    (view : Nat) (scale : RenderScale) (splits : List RectI) (group : List RectToRender) : Prop :=
  ∃ (tagged : List (RectI × Bool)) (ids : List RectToRender),
    Tagged env self inter time view scale splits tagged
      ∧ ids.map (fun r => r.rect) = identitySplits tagged
      ∧ (∀ r ∈ ids, r.isIdentity = true)
      ∧ (remainingSplits tagged = [] → group = ids)
      ∧ (remainingSplits tagged ≠ [] →
          ∃ nonIdentityRect : RectToRender,
            nonIdentityRect.isIdentity = false
              ∧ SmallestContaining nonIdentityRect.rect (remainingSplits tagged)
              ∧ group = ids ++ [nonIdentityRect])

/-- The rectangles `group` cover the rectangle `rect`, whose sub-rectangles are `splits`, and
nothing more: each of them lies within `rect`, every sub-rectangle lies within one of them (a
rectangle tagged identity being a sub-rectangle itself), and every pixel of `rect` is a pixel
of one of them. -/
def CoversRect (rect : RectI) (splits : List RectI) (group : List RectToRender) : Prop :=
  (∀ r ∈ group, rect.contains r.rect)
    ∧ (∀ r ∈ group, r.isIdentity = true → r.rect ∈ splits)
    ∧ (∀ q ∈ splits, ∃ r ∈ group, r.rect.contains q)
    ∧ ∀ x y, rect.containsPixel x y → ∃ r ∈ group, r.rect.containsPixel x y

/-- The scene where a rectangle is split into its left and right halves, the effect 1 is an
identity of its input 0, the effect 2, over every rectangle that starts at the abscissa 0, and
no effect is an identity otherwise. -/
def halvesEnv : Env Nat :=
  { sceneEnv with
      splitIntoSmallerRects := fun r =>
        [⟨r.x1, r.y1, (r.x1 + r.x2) / 2, r.y2⟩, ⟨(r.x1 + r.x2) / 2, r.y1, r.x2, r.y2⟩]
      getInput := fun self n => if self = 1 ∧ n = 0 then some 2 else none
      getMaxInputCount := fun self => if self = 1 then 1 else 0
      isIdentity := fun self _ _ _ _ rect _ t v nb ext =>
        if self = 1 ∧ rect.x1 = 0 then (some (true, 11, v, 0), ext) else (some (false, t, v, nb), ext) }

/-- The rectangles `optimizeRectsToRender` leaves, none when it did not finish. -/
def OptimizeResult.rects {σ : Type} : OptimizeResult σ → List RectToRender
  | .finished finalRectsToRender _ => finalRectsToRender
  | _ => []

/-- What `optimizeRectsToRender` leaves on the scene `halvesEnv` for the rectangle
[0,4]x[0,4]: the left half, tagged identity, and the right half. -/
def halvesRects : List RectToRender :=
  [{ rect := ⟨0, 0, 2, 4⟩, isIdentity := true, identityInput := some 2, identityTime := 11,
     identityView := 0 },
   { rect := ⟨2, 0, 4, 4⟩, isIdentity := false }]

/-- The state in which `optimizeRectsToRender` ends on the scene `halvesEnv`. -/
def halvesFinal : St Nat :=
  { St.entry [] 100 with
      trace := [Event.isIdentity 1 ⟨0, 0, 2, 4⟩ 10 0, Event.isIdentity 2 ⟨0, 0, 2, 4⟩ 10 0,
                Event.isIdentity 1 ⟨2, 0, 4, 4⟩ 10 0] }

/-- The condition under which the specification says that the rectangles left to render are
split and checked for identity: the effect supports tiles, a rectangle is left to render, the
region of definition of an input is available, and the node has a mask input or inputs whose
regions of definition differ (as the loop of lines 1133-1166 finds them). -/
def claimedIdentityOptim {σ : Type} (env : Env σ) (self : NodeId) (args : RenderRoIArgs)
    (s : St σ) : Prop :=
  s.frameArgs.tilesSupported = true ∧ s.rectsLeftToRender ≠ []
    ∧ (inputsRoDLoop env self args (List.range (env.getMaxInputCount self)) {} s).1.inputsIntersectionSet
        = true
    ∧ ((inputsRoDLoop env self args (List.range (env.getMaxInputCount self)) {} s).1.hasMask = true
        ∨ (inputsRoDLoop env self args (List.range (env.getMaxInputCount self)) {} s).1.hasDifferentRods
            = true)

/-- The condition of `claimedIdentityOptim` with one more: a paint stroke is being drawn. -/
def amendedIdentityOptim {σ : Type} (env : Env σ) (self : NodeId) (args : RenderRoIArgs)
    (s : St σ) : Prop :=
  s.isDuringPaintStroke = true ∧ claimedIdentityOptim env self args s

/-- The scene where the effect has one input, a mask with a roto item attached, and no paint
stroke is being drawn. -/
def maskEnv : Env Nat :=
  { sceneEnv with
      getMaxInputCount := fun _ => 1
      hasAttachedRotoItem := fun _ => true
      isInputMask := fun _ _ => true
      getPaintStrokeRoD := fun _ _ _ => ⟨10, 10, 12, 12⟩ }

/-- The state of the scene `maskEnv` when it reaches the identity optimisation of the rectangles
to render. -/
def maskState : St Nat :=
  (atRectsToRender maskEnv (renderRoI maskEnv 1) 1 sceneArgs [] 100).stateD (St.entry [] 100)

/-- The scene `maskEnv` while a paint stroke is being drawn, a rectangle being split into its
left and right halves and the effect being an identity of its input 0, when it is asked about
a sub-rectangle, over every rectangle that starts at the abscissa 0. -/
def paintMaskEnv : Env Nat :=
  { maskEnv with
      isDuringPaintStrokeCreationThreadLocal := fun _ _ => true
      splitIntoSmallerRects := fun r =>
        [⟨r.x1, r.y1, (r.x1 + r.x2) / 2, r.y2⟩, ⟨(r.x1 + r.x2) / 2, r.y1, r.x2, r.y2⟩]
      isIdentity := fun _ useIdentityCache _ _ _ rect _ t v nb ext =>
        if useIdentityCache = false ∧ rect.x1 = 0 then (some (true, 11, v, 0), ext)
        else (some (false, t, v, nb), ext) }

/-- The state of the scene `paintMaskEnv` when it reaches the identity optimisation of the
rectangles to render. -/
def paintMaskState : St Nat :=
  (atRectsToRender paintMaskEnv (renderRoI paintMaskEnv 1) 1 sceneArgs [] 100).stateD
    (St.entry [] 100)

/-- Line 2057: the results of a tile after which the tiles rendered one after the other stop;
lines 2036-2051: the results at which the scan of the results of the worker threads stops. -/
def RenderingFunctorRetEnum.stops (ret : RenderingFunctorRetEnum) : Bool :=
  decide (ret = .eRenderingFunctorRetFailed) || decide (ret = .eRenderingFunctorRetAborted)
    || decide (ret = .eRenderingFunctorRetOutOfGPUMemory)

/-- The events of the render of tiles: each tile with what its render returned. -/
def tileEvents (tiles : List (RectToRender × RenderingFunctorRetEnum)) : List Event :=
  tiles.map fun t => Event.tiledRenderingFunctor t.1 t.2

/-- Line 1989: the tiles are spread over worker threads. -/
def dispatchesMapped {σ : Type} (safety : RenderSafetyEnum) (s : St σ) : Bool :=
  decide (safety = .eRenderSafetyFullySafeFrame) && decide (s.rectsToRender.length > 1)
    && !s.useOpenGL

/-- Lines 1974-1976: `beginSequenceRender` is called in the state `s` and fails. -/
def beginFails {σ : Type} (env : Env σ) (renderInstance : NodeId) (args : RenderRoIArgs)
    (renderMappedMipMapLevel : Nat) (s : St σ) : Bool :=
  callBegin env renderInstance
    && decide ((env.beginSequenceRender renderInstance args.time
          (env.getScaleFromMipMapLevel renderMappedMipMapLevel)
          s.frameArgs.isSequentialRender s.frameArgs.isRenderResponseToUserInteraction
          s.frameArgs.draftMode args.view s.useOpenGL s.ext).1 = .eStatusFailed)

/-- Lines 2075-2081: `endSequenceRender` is called in the state `s` and fails. -/
def endFails {σ : Type} (env : Env σ) (renderInstance : NodeId) (args : RenderRoIArgs)
    (renderMappedMipMapLevel : Nat) (s : St σ) : Bool :=
  callBegin env renderInstance
    && decide ((env.endSequenceRender renderInstance args.time
          (env.getScaleFromMipMapLevel renderMappedMipMapLevel)
          s.frameArgs.isSequentialRender s.frameArgs.isRenderResponseToUserInteraction
          s.frameArgs.draftMode args.view s.useOpenGL s.ext).1 = .eStatusFailed)

/-- The status of `renderRoIInternal` in the words of the specification, for what the tiles
rendered returned, in their order: the render failed if `beginSequenceRender` or
`endSequenceRender` fails or any tile returns Failed or Aborted; it ran out of GPU memory if the
first result that is not OK is OutOfGPUMemory; otherwise the image is rendered when there are
rectangles to render and already rendered when there is none. -/
def tileStatusAsClaimed (beginFailed endFailed : Bool) (rets : List RenderingFunctorRetEnum)
    (rects : List RectToRender) : RenderRoIStatusEnum :=
  if beginFailed = true ∨ endFailed = true ∨ .eRenderingFunctorRetFailed ∈ rets
      ∨ .eRenderingFunctorRetAborted ∈ rets then
    .eRenderRoIStatusRenderFailed
  else if rets.find? (fun r => decide (r ≠ .eRenderingFunctorRetOK))
      = some .eRenderingFunctorRetOutOfGPUMemory then
    .eRenderRoIStatusRenderOutOfGPUMemory
  else if rects.isEmpty then .eRenderRoIStatusImageAlreadyRendered
  else .eRenderRoIStatusImageRendered

/-- The flag `isBeingRenderedElsewhere` in the words of the specification: a tile that returns
TakeImageLock sets it. -/
def lockFlagAsClaimed (flag : Bool) (rets : List RenderingFunctorRetEnum) : Bool :=
  flag || decide (.eRenderingFunctorRetTakeImageLock ∈ rets)

/-- The status of `renderRoIInternal`, amended: among the results of the tiles, the first that
is Failed, Aborted or OutOfGPUMemory decides. -/
def tileStatusAmended (beginFailed endFailed : Bool) (rets : List RenderingFunctorRetEnum)
    (rects : List RectToRender) : RenderRoIStatusEnum :=
  if beginFailed = true ∨ endFailed = true then .eRenderRoIStatusRenderFailed
  else
    match rets.find? RenderingFunctorRetEnum.stops with
    | some .eRenderingFunctorRetOutOfGPUMemory => .eRenderRoIStatusRenderOutOfGPUMemory
    | some _ => .eRenderRoIStatusRenderFailed
    | none =>
      if rects.isEmpty then .eRenderRoIStatusImageAlreadyRendered
      else .eRenderRoIStatusImageRendered

/-- The flag `isBeingRenderedElsewhere`, amended: a tile that returns TakeImageLock sets it when
no tile before it returned Failed, Aborted or OutOfGPUMemory. -/
def lockFlagAmended (flag : Bool) (rets : List RenderingFunctorRetEnum) : Bool :=
  flag || decide (.eRenderingFunctorRetTakeImageLock ∈ rets.takeWhile (fun r => !r.stops))

/-- The state in which `endSequenceRender` is called, when `renderRoIInternal` is called in the
state `s` and renders at the mip-map level `renderMappedMipMapLevel`. -/
def beforeEndSequence {σ : Type} (env : Env σ) (renderInstance : NodeId) (args : RenderRoIArgs)
    (safety : RenderSafetyEnum) (renderMappedMipMapLevel : Nat) (s : St σ) : St σ :=
  (renderTiles env renderInstance args
    (effectiveSafety env renderInstance s.frameArgs safety s.ext) renderMappedMipMapLevel
    (beginSequence env renderInstance args renderMappedMipMapLevel
      { s with ext := env.getFrameRange renderInstance s.nodeHash s.ext,
               trace := s.trace ++ [Event.getFrameRange] })).2

/-- The left half of the region of interest of the scenes. -/
def leftHalf : RectI := ⟨0, 0, 2, 4⟩

/-- The right half of the region of interest of the scenes. -/
def rightHalf : RectI := ⟨2, 0, 4, 4⟩

/-- The scene where the effect is frame-safe and four threads render; the cache holds the image
of the plane and its bitmap leaves the two halves of the region of interest to render; the
render of the left half returns `left` and the render of the right half returns `right`. -/
def tilesEnv (left right : RenderingFunctorRetEnum) : Env Nat :=
  { cachedEnv with
      tlsFrameArgs := fun _ _ =>
        some { sceneFrameArgs with currentThreadSafety := .eRenderSafetyFullySafeFrame }
      getNumberOfThreads := fun _ => 4
      getRestToRender_trimap := fun _ _ _ => ([leftHalf, rightHalf], false)
      tiledRenderingFunctor := fun _ rect _ _ _ _ _ _ _ ext =>
        (if rect.rect.x1 = 0 then left else right, ext) }

/-- The state of the scene `tilesEnv` when it reaches the render. -/
def tilesDispatch (left right : RenderingFunctorRetEnum) : St Nat :=
  (atDispatch (tilesEnv left right) (renderRoI (tilesEnv left right) 2) 2 1
    sceneArgs [] 100).stateD (St.entry [] 100)

/-- The state of the scene `tilesEnv` when `renderRoIInternal` is called (lines 1513-1612): the
image of the plane is marked as being rendered. -/
def tilesState (left right : RenderingFunctorRetEnum) : St Nat :=
  markPlanes (tilesEnv left right) 1 (tilesDispatch left right).planes
    { tilesDispatch left right with renderRetCode := .eRenderRoIStatusImageAlreadyRendered }

/-- The tile of a rectangle that is not an identity. -/
def plainTile (rect : RectI) : RectToRender := { rect := rect, isIdentity := false }

/-- The scene `smallTextureEnv` on a disk-cache node. -/
def diskCacheEnv : Env Nat :=
  { smallTextureEnv with isDiskCacheNode := fun _ => true }

/-- The state of the scene `diskCacheEnv` when it reaches storage selection. -/
def diskCacheState : St Nat :=
  (atStorage diskCacheEnv (renderRoI diskCacheEnv 2) 1 sceneArgs [] 100).stateD
    (St.entry [] 100)

/-- The scene where no set of components is supported by the effect (`isSupportedComponent`),
the components-available map holding RGBA produced by the effect itself. -/
def unsupportedEnv : Env Nat :=
  { sceneEnv with isSupportedComponent := fun _ _ => false }

/-- The request of the scenes for the colour plane as RGB first and as RGBA second. -/
def rgbFirstArgs : RenderRoIArgs := { sceneArgs with components := [rgb, rgba] }

/-- The flag `missingPlane` and the state after the rounds of the look-up loop (lines 864-954)
for the planes `l`, started with the flag and the state `ms`. -/
def lookupRounds {σ : Type} (env : Env σ) (self : NodeId) (args : RenderRoIArgs) :
    List ImageComponents → Bool × St σ → Bool × St σ
  | [], ms => ms
  | plane :: rest, ms =>
    lookupRounds env self args rest (lookupStep env self args plane ms.1 ms.2)

/-- The image `kp.2` enters `*outputPlanes` under the key `kp.1` in the round of the requested
plane `plane` that starts with the flag `missingPlane` and the state `ms`, at one of the two
places where the loop inserts in `*outputPlanes`. Line 922: a plane was missing before, the
look-ups of `plane` found the image, and `getRestToRender` over the region of interest answers,
right after these look-ups, that nothing is left to render. Line 941: the look-ups of `plane`
found nothing while no plane was missing before, the image is the one held by a plane of the
planes to render, and `getRestToRender` over the region of interest answers that nothing is
left to render when the scan of lines 931-946 comes to that plane, that is in the state of the
miss after the scan of the planes `pre` that come before it. -/
def MovedInRound {σ : Type} (env : Env σ) (self : NodeId) (args : RenderRoIArgs)
    (plane : ImageComponents) (ms : Bool × St σ) (kp : ImageComponents × Image) : Prop :=
  (findComponents plane ms.2.outputComponents).isSome = true
    ∧ ((ms.1 = true ∧ kp.1 = plane
          ∧ (dropIfByPass env (lookupPlane env self args plane ms.2)).1 = some kp.2
          ∧ (env.getRestToRender kp.2 ms.2.roi
              (dropIfByPass env (lookupPlane env self args plane ms.2)).2.ext).isEmpty = true)
      ∨ (ms.1 = false
          ∧ (dropIfByPass env (lookupPlane env self args plane ms.2)).1 = none
          ∧ ∃ pre p post, ms.2.planes = pre ++ (kp.1, p) :: post
              ∧ p.fullscaleImage = some kp.2
              ∧ (env.getRestToRender kp.2 ms.2.roi
                  (recheckPlanes env pre []
                    (dropIfByPass env (lookupPlane env self args plane ms.2)).2).2.ext).isEmpty
                = true))

/-! ## Basic facts about the sequencing of sections -/

theorem Flow.andThen_assoc {σ : Type} (f : Flow σ) (g h : St σ → Flow σ) :
    (f.andThen g).andThen h = f.andThen (fun s => (g s).andThen h) := by
  cases f <;> rfl

theorem renderRoIBody_eq_atIdentity {σ : Type} (env : Env σ) (recCall : RecCall σ) (fuel : Nat)
    (self : NodeId) (args : RenderRoIArgs) (outputPlanes : PlaneMap Image) (ext : σ) :
    renderRoIBody env recCall fuel self args outputPlanes ext
      = ((atIdentity env recCall self args outputPlanes ext).andThen
          (fromIdentity env recCall fuel self args)).result := by
  simp only [renderRoIBody, atIdentity, Flow.andThen_assoc]
  rfl

theorem renderRoIBody_eq_atStorage {σ : Type} (env : Env σ) (recCall : RecCall σ) (fuel : Nat)
    (self : NodeId) (args : RenderRoIArgs) (outputPlanes : PlaneMap Image) (ext : σ) :
    renderRoIBody env recCall fuel self args outputPlanes ext
      = ((atStorage env recCall self args outputPlanes ext).andThen
          (fromStorage env recCall fuel self args)).result := by
  simp only [renderRoIBody_eq_atIdentity, atStorage, Flow.andThen_assoc]
  congr 2
  funext s
  simp only [fromIdentity, Flow.andThen_assoc]

theorem renderRoIBody_eq_atLookup {σ : Type} (env : Env σ) (recCall : RecCall σ) (fuel : Nat)
    (self : NodeId) (args : RenderRoIArgs) (outputPlanes : PlaneMap Image) (ext : σ) :
    renderRoIBody env recCall fuel self args outputPlanes ext
      = ((atLookup env recCall self args outputPlanes ext).andThen
          (fromLookup env recCall fuel self args)).result := by
  simp only [renderRoIBody_eq_atStorage, atLookup, Flow.andThen_assoc]
  congr 2
  funext s
  simp only [fromStorage, Flow.andThen_assoc]

theorem renderRoIBody_eq_atRectsLeft {σ : Type} (env : Env σ) (recCall : RecCall σ) (fuel : Nat)
    (self : NodeId) (args : RenderRoIArgs) (outputPlanes : PlaneMap Image) (ext : σ) :
    renderRoIBody env recCall fuel self args outputPlanes ext
      = ((atRectsLeft env recCall self args outputPlanes ext).andThen
          (fromRectsLeft env recCall fuel self args)).result := by
  simp only [renderRoIBody_eq_atLookup, atRectsLeft, Flow.andThen_assoc]
  rfl

theorem renderRoIBody_eq_atInputs {σ : Type} (env : Env σ) (recCall : RecCall σ) (fuel : Nat)
    (self : NodeId) (args : RenderRoIArgs) (outputPlanes : PlaneMap Image) (ext : σ) :
    renderRoIBody env recCall fuel self args outputPlanes ext
      = ((atInputs env recCall fuel self args outputPlanes ext).andThen
          (fromInputs env recCall fuel self args)).result := by
  simp only [renderRoIBody_eq_atRectsLeft, atInputs, Flow.andThen_assoc]
  congr 2
  funext s
  simp only [fromRectsLeft, Flow.andThen_assoc]

theorem renderRoIBody_eq_atDispatch {σ : Type} (env : Env σ) (recCall : RecCall σ) (fuel : Nat)
    (self : NodeId) (args : RenderRoIArgs) (outputPlanes : PlaneMap Image) (ext : σ) :
    renderRoIBody env recCall fuel self args outputPlanes ext
      = ((atDispatch env recCall fuel self args outputPlanes ext).andThen
          (fromDispatch env recCall self args)).result := by
  simp only [renderRoIBody_eq_atInputs, atDispatch, Flow.andThen_assoc]
  congr 2
  funext s
  simp only [fromInputs, Flow.andThen_assoc]

theorem renderRoIBody_eq_atFinish {σ : Type} (env : Env σ) (recCall : RecCall σ) (fuel : Nat)
    (self : NodeId) (args : RenderRoIArgs) (outputPlanes : PlaneMap Image) (ext : σ) :
    renderRoIBody env recCall fuel self args outputPlanes ext
      = ((atFinish env recCall fuel self args outputPlanes ext).andThen
          (fromFinish env recCall self args)).result := by
  simp only [renderRoIBody_eq_atDispatch, atFinish, Flow.andThen_assoc]
  rfl

/-! ## Footprints: the events each section emits -/

theorem Emits.refl_emits (k : Nat) (t : List Event) : Emits k t t :=
  ⟨[], by simp, by simp⟩

theorem Emits.trans_emits {k : Nat} {t t' t'' : List Event} (h : Emits k t t') (h' : Emits k t' t'') :
    Emits k t t'' := by
  obtain ⟨a, rfl, ha⟩ := h
  obtain ⟨b, rfl, hb⟩ := h'
  refine ⟨a ++ b, by simp, ?_⟩
  intro e he
  rcases List.mem_append.1 he with h | h
  · exact ha e h
  · exact hb e h

theorem emits_append (k : Nat) (t l : List Event) :
    Emits k t (t ++ l) ↔ ∀ e ∈ l, k ∈ e.stages := by
  constructor
  · rintro ⟨evs, h, hevs⟩
    have : l = evs := List.append_cancel_left h
    subst this
    exact hevs
  · intro h
    exact ⟨l, rfl, h⟩

theorem Step.refl_step {σ : Type} (k : Nat) (s : St σ) : Step k s s :=
  ⟨Emits.refl_emits k _, rfl, fun _ => rfl, fun _ _ => rfl, fun _ _ => ⟨rfl, rfl⟩⟩

theorem Step.trans_step {σ : Type} {k : Nat} {s s' s'' : St σ} (h : Step k s s') (h' : Step k s' s'') :
    Step k s s'' :=
  ⟨Emits.trans_emits h.emits h'.emits, h'.storage.trans h.storage,
    fun h1 => (h'.frameArgs h1).trans (h.frameArgs h1),
    fun h1 h2 => (h'.out h1 h2).trans (h.out h1 h2),
    fun h1 h2 => ⟨(h'.planes h1 h2).1.trans (h.planes h1 h2).1,
      (h'.planes h1 h2).2.trans (h.planes h1 h2).2⟩⟩

theorem Flow.Steps.andThen_steps {σ : Type} {k : Nat} {s : St σ} {f : Flow σ} {g : St σ → Flow σ}
    (hf : f.Steps k s) (hg : ∀ s', (g s').Steps k s') : (f.andThen g).Steps k s := by
  cases f with
  | next s' =>
    have h := hg s'
    simp only [Flow.andThen]
    cases hgs : g s' with
    | next s'' => rw [hgs] at h; exact Step.trans_step hf h
    | done r => rw [hgs] at h; exact Emits.trans_emits hf.emits h
    | outOfFuel => trivial
  | done r => exact hf
  | outOfFuel => trivial

theorem earlyOut_steps {σ : Type} (env : Env σ) (recCall : RecCall σ) (self : NodeId)
    (args : RenderRoIArgs) (s : St σ) : (earlyOut env recCall self args s).Steps 0 s := by
  unfold earlyOut tailCall St.returns
  split
  · exact Emits.refl_emits _ _
  split
  · exact Emits.refl_emits _ _
  split
  · split
    · trivial
    · simp [Flow.Steps, emits_append, Event.stages]
  · exact Step.refl_step _ _

theorem setupFrameArgs_steps {σ : Type} (env : Env σ) (self : NodeId)
    (args : RenderRoIArgs) (s : St σ) : (setupFrameArgs env self args s).Steps 1 s := by
  unfold setupFrameArgs
  split
  · exact ⟨by simp [emits_append, Event.stages], rfl, fun h => absurd h (by decide),
      fun _ _ => rfl, fun _ _ => ⟨rfl, rfl⟩⟩
  · exact ⟨Emits.refl_emits _ _, rfl, fun h => absurd h (by decide), fun _ _ => rfl,
      fun _ _ => ⟨rfl, rfl⟩⟩

/-! ## What each section emits: entry to the cache look-up -/

theorem emits_self (k : Nat) (t : List Event) : Emits k t t ↔ True :=
  ⟨fun _ => trivial, fun _ => Emits.refl_emits k t⟩

theorem step_iff {σ : Type} (k : Nat) (s s' : St σ) :
    Step k s s' ↔ Emits k s.trace s'.trace ∧ s'.storage = s.storage ∧
      (2 ≤ k → s'.frameArgs = s.frameArgs) ∧ (9 ≤ k → k ≠ 14 → s'.out = s.out) ∧
      (12 ≤ k → k ≠ 14 → s'.planes = s.planes
        ∧ s'.renderFullScaleThenDownscale = s.renderFullScaleThenDownscale) :=
  ⟨fun h => ⟨h.emits, h.storage, h.frameArgs, h.out, h.planes⟩,
   fun h => ⟨h.1, h.2.1, h.2.2.1, h.2.2.2.1, h.2.2.2.2⟩⟩

theorem Flow.Steps.after_step {σ : Type} {k : Nat} {s s1 : St σ} {f : Flow σ} (h : Step k s s1)
    (hf : f.Steps k s1) : f.Steps k s := by
  cases f with
  | next s' => exact Step.trans_step h hf
  | done r => exact Emits.trans_emits h.emits hf
  | outOfFuel => trivial

theorem Flow.Steps.after_from {σ : Type} {k : Nat} {s : St σ} {f : Flow σ} (s1 : St σ)
    (h : Step k s s1) (hf : f.Steps k s1) : f.Steps k s :=
  Flow.Steps.after_step h hf

theorem scalePolicy_steps {σ : Type} (env : Env σ) (self : NodeId)
    (args : RenderRoIArgs) (s : St σ) : (scalePolicy env self args s).Steps 1 s := by
  simp [scalePolicy, Flow.Steps, step_iff, emits_self]

theorem getRoD_steps {σ : Type} (env : Env σ) (self : NodeId)
    (args : RenderRoIArgs) (s : St σ) : (getRoD env self args s).Steps 2 s := by
  unfold getRoD
  dsimp only
  repeat' split
  all_goals simp [Flow.Steps, St.returns, step_iff, emits_self, emits_append, Event.stages]

theorem computeRoI_steps {σ : Type} (env : Env σ)
    (args : RenderRoIArgs) (s : St σ) : (computeRoI env args s).Steps 2 s := by
  unfold computeRoI
  dsimp only
  repeat' split
  all_goals simp [Flow.Steps, St.returns, step_iff, emits_self, emits_append, Event.stages]

theorem neededPlanes_steps {σ : Type} (env : Env σ) (self : NodeId)
    (args : RenderRoIArgs) (s : St σ) : (neededPlanes env self args s).Steps 3 s := by
  unfold neededPlanes
  dsimp only
  repeat' split
  all_goals simp [Flow.Steps, St.returns, step_iff, emits_self, emits_append, Event.stages]

theorem fetchUpstream_steps {σ : Type} (env : Env σ) (recCall : RecCall σ)
    (args : RenderRoIArgs) (l : List (ImageComponents × Option NodeId)) (s : St σ) :
    (fetchUpstream env recCall args l s).Steps 4 s := by
  induction l generalizing s with
  | nil => simp [fetchUpstream, Flow.Steps, step_iff, emits_self]
  | cons hd tl ih =>
    obtain ⟨comp, node⟩ := hd
    cases node with
    | none => simpa [fetchUpstream] using ih s
    | some node =>
      simp only [fetchUpstream]
      split
      · trivial
      · split
        · split
          · simp [Flow.Steps, St.returns, emits_append, Event.stages]
          · split
            · simp [Flow.Steps, St.returns, emits_append, Event.stages]
            · refine Flow.Steps.after_from _ ?_ (ih _)
              simp [step_iff, emits_append, Event.stages]
        · simp [Flow.Steps, St.endsWith, emits_append, Event.stages]


theorem passThroughPlanes_steps {σ : Type} (env : Env σ) (recCall : RecCall σ) (self : NodeId)
    (args : RenderRoIArgs) (s : St σ) : (passThroughPlanes env recCall self args s).Steps 4 s := by
  unfold passThroughPlanes
  dsimp only
  refine Flow.Steps.after_from _ ?_
    (Flow.Steps.andThen_steps (fetchUpstream_steps env recCall args _ _) ?_)
  · simp [step_iff, emits_append, Event.stages]
  · intro s2
    split <;> simp [Flow.Steps, St.returns, step_iff, emits_self]

theorem convertPlanesFormatsIfNeeded_step {σ : Type} (env : Env σ) (inputImage : Image)
    (roi : RectI) (targetComponents : ImageComponents) (targetDepth : ImageBitDepthEnum)
    (alpha0 : Bool) (outputPremult : ImagePremultiplicationEnum) (s : St σ) (k : Nat)
    (hk : k = 5 ∨ k = 14) :
    Step k s (convertPlanesFormatsIfNeeded env inputImage roi targetComponents targetDepth alpha0
      outputPremult s).2 := by
  unfold convertPlanesFormatsIfNeeded
  dsimp only
  repeat' split
  all_goals
    rcases hk with rfl | rfl <;> simp [step_iff, emits_self, emits_append, Event.stages]

theorem identityQuery_step {σ : Type} (env : Env σ) (self : NodeId)
    (args : RenderRoIArgs) (s : St σ) (k : Nat) (hk : k = 5 ∨ k = 9) :
    Step k s (identityQuery env self args s).2 := by
  unfold identityQuery
  dsimp only
  repeat' split
  all_goals
    rcases hk with rfl | rfl <;> simp [step_iff, emits_self, emits_append, Event.stages]

theorem convertIdentityPlanes_step {σ : Type} (env : Env σ) (args : RenderRoIArgs) (alpha0 : Bool)
    (l : List (ImageComponents × Image)) (comps : List ImageComponents) (acc : PlaneMap Image)
    (s : St σ) (r : PlaneMap Image × St σ)
    (k : Nat) (hk : k = 5 ∨ k = 14)
    (h : convertIdentityPlanes env args alpha0 l comps acc s = some r) : Step k s r.2 := by
  induction l generalizing comps acc s with
  | nil =>
    simp only [convertIdentityPlanes, Option.some.injEq] at h
    subst h
    exact Step.refl_step _ _
  | cons hd tl ih =>
    obtain ⟨c, img⟩ := hd
    cases comps with
    | nil => simp [convertIdentityPlanes] at h
    | cons comp comps =>
      simp only [convertIdentityPlanes] at h
      split at h
      · simp at h
      · exact Step.trans_step (convertPlanesFormatsIfNeeded_step env _ _ _ _ _ _ s k hk)
          (ih _ _ _ h)

theorem identityRedirect_steps {σ : Type} (env : Env σ) (recCall : RecCall σ) (self : NodeId)
    (args : RenderRoIArgs) (t : Int) (v : Nat) (nb : Int) (s : St σ) :
    (identityRedirect env recCall self args t v nb s).Steps 5 s := by
  unfold identityRedirect
  dsimp only
  split
  · simp [Flow.Steps, St.returns, emits_append, Event.stages]
  · split
    · trivial
    · split
      · split
        · split
          · simp [Flow.Steps, St.endsWith, emits_append, Event.stages]
          · rename_i hconv
            have h := (convertIdentityPlanes_step env args _ _ _ _ _ _ 5 (Or.inl rfl) hconv).emits
            simp only [Flow.Steps, St.returns]
            refine Emits.trans_emits ?_ h
            simp [emits_append, Event.stages]
        · simp [Flow.Steps, St.returns, emits_append, Event.stages]
      · simp [Flow.Steps, St.returns, emits_append, Event.stages]
      · simp [Flow.Steps, St.endsWith, emits_append, Event.stages]

theorem tailCall_steps {σ : Type} (recCall : RecCall σ) (site : CallSite) (callee : NodeId)
    (a : RenderRoIArgs) (s : St σ) (k : Nat)
    (hk : ∀ o, k ∈ (Event.renderRoI site callee a o).stages) :
    (tailCall recCall site callee a s).Steps k s := by
  unfold tailCall
  split
  · trivial
  · simpa [Flow.Steps, emits_append] using hk _

theorem scaleAfterIdentity_step {σ : Type} (args : RenderRoIArgs) (s : St σ) :
    Step 5 s (scaleAfterIdentity args s) := by
  unfold scaleAfterIdentity
  split <;> simp [step_iff, emits_self]

theorem identityPhase_steps {σ : Type} (env : Env σ) (recCall : RecCall σ) (self : NodeId)
    (args : RenderRoIArgs) (s : St σ) : (identityPhase env recCall self args s).Steps 5 s := by
  unfold identityPhase
  dsimp only
  have hq : Step 5 s (identityQuery env self args
      { s with viewInvariance := env.isViewInvariant self }).2 := by
    have h := identityQuery_step env self args { s with viewInvariance := env.isViewInvariant self }
      5 (Or.inl rfl)
    exact ⟨h.emits, h.storage, h.frameArgs, fun h6 _ => absurd h6 (by decide),
      fun h6 _ => absurd h6 (by decide)⟩
  have h1 := Step.trans_step hq (scaleAfterIdentity_step args _)
  split
  · exact hq.emits
  · split
    · split
      · exact h1.emits
      · split
        · exact Flow.Steps.after_step h1
            (tailCall_steps _ _ _ _ _ _ (by intro o; simp [Event.stages]))
        · exact Flow.Steps.after_step h1 (identityRedirect_steps env recCall self args _ _ _ _)
    · split
      · exact Flow.Steps.after_step h1
          (tailCall_steps _ _ _ _ _ _ (by intro o; simp [Event.stages]))
      · exact h1

theorem concatenateTransforms_steps {σ : Type} (env : Env σ) (self : NodeId)
    (args : RenderRoIArgs) (s : St σ) : (concatenateTransforms env self args s).Steps 6 s := by
  unfold concatenateTransforms
  dsimp only
  repeat' split
  all_goals simp [Flow.Steps, St.returns, step_iff, emits_self, emits_append, Event.stages]

theorem computeBounds_steps {σ : Type} (env : Env σ)
    (args : RenderRoIArgs) (s : St σ) : (computeBounds env args s).Steps 7 s := by
  unfold computeBounds
  dsimp only
  repeat' split
  all_goals simp [Flow.Steps, St.returns, step_iff, emits_self, emits_append, Event.stages]

theorem cpuFallback_stages {σ : Type} (env : Env σ) (self : NodeId) (args : RenderRoIArgs)
    (s : St σ) : ∀ e ∈ (cpuFallback env self args s).2, 7 ∈ e.stages := by
  unfold cpuFallback
  dsimp only
  repeat' split
  all_goals simp [Event.stages]

theorem chooseStorage_emits {σ : Type} (env : Env σ) (self : NodeId)
    (args : RenderRoIArgs) (s : St σ) :
    (chooseStorage env self args s).Post (fun s' => Emits 7 s.trace s'.trace)
      (fun r => Emits 7 s.trace r.trace) := by
  unfold chooseStorage
  dsimp only
  have hc := cpuFallback_stages env self args
  repeat' split
  all_goals simp [Flow.Post, St.returns, emits_self, emits_append, Event.stages]
  all_goals exact hc _

theorem openGLRenderScale_steps {σ : Type} (env : Env σ)
    (args : RenderRoIArgs) (s : St σ) : (openGLRenderScale env args s).Steps 7 s := by
  unfold openGLRenderScale
  dsimp only
  repeat' split
  all_goals simp [Flow.Steps, St.returns, step_iff, emits_self, emits_append, Event.stages]

theorem prepareLookup_steps {σ : Type} (env : Env σ) (self : NodeId)
    (args : RenderRoIArgs) (s : St σ) : (prepareLookup env self args s).Steps 8 s := by
  simp [prepareLookup, Flow.Steps, step_iff, emits_self]

/-! ## What each section emits: cache look-up to the second look-up -/

theorem cacheLookupOnce_step {σ : Type} (env : Env σ) (self : NodeId) (args : RenderRoIArgs)
    (key : ImageKey) (plane : ImageComponents) (s : St σ) (k : Nat) (hk : k = 8 ∨ k = 10) :
    Step k s (cacheLookupOnce env self args key plane s).2 := by
  unfold cacheLookupOnce
  rcases hk with rfl | rfl <;> simp [step_iff, emits_append, Event.stages]

theorem cacheLookups_step {σ : Type} (env : Env σ) (self : NodeId) (args : RenderRoIArgs)
    (plane : ImageComponents) (remaining n : Nat) (s : St σ) :
    Step 8 s (cacheLookups env self args plane remaining n s).2 := by
  induction remaining generalizing n s with
  | zero => exact Step.refl_step _ _
  | succ m ih =>
    simp only [cacheLookups]
    split
    · exact cacheLookupOnce_step env self args _ plane s 8 (Or.inl rfl)
    · exact Step.trans_step (cacheLookupOnce_step env self args _ plane s 8 (Or.inl rfl)) (ih _ _)

theorem lookupPlane_step {σ : Type} (env : Env σ) (self : NodeId) (args : RenderRoIArgs)
    (plane : ImageComponents) (s : St σ) : Step 8 s (lookupPlane env self args plane s).2 := by
  unfold lookupPlane
  dsimp only
  split
  · exact cacheLookups_step env self args plane _ _ s
  · exact Step.refl_step _ _

theorem recheckPlanes_step {σ : Type} (env : Env σ) (l : List (ImageComponents × PlaneToRender))
    (newPlanes : PlaneMap PlaneToRender) (s : St σ) :
    Step 8 s (recheckPlanes env l newPlanes s).2 := by
  induction l generalizing newPlanes s with
  | nil => exact Step.refl_step _ _
  | cons hd tl ih =>
    obtain ⟨k, plane⟩ := hd
    simp only [recheckPlanes]
    split
    · split
      · refine Step.trans_step ?_ (ih _ _)
        simp [step_iff, St.emit, emits_append, Event.stages]
      · refine Step.trans_step ?_ (ih _ _)
        simp [step_iff, St.emit, emits_append, Event.stages]
    · exact ih _ _

theorem dropIfByPass_step {σ : Type} (env : Env σ) (found : Option Image × St σ) :
    Step 8 found.2 (dropIfByPass env found).2 := by
  unfold dropIfByPass
  split <;> simp [step_iff, emits_self, emits_append, Event.stages]

theorem insertPlane_step {σ : Type} (env : Env σ) (plane : ImageComponents) (img : Option Image)
    (s : St σ) : Step 8 s (insertPlane env plane img s) := by
  simp [insertPlane, step_iff, emits_self]

theorem lookupStep_step {σ : Type} (env : Env σ) (self : NodeId) (args : RenderRoIArgs)
    (plane : ImageComponents) (missingPlane : Bool) (s : St σ) :
    Step 8 s (lookupStep env self args plane missingPlane s).2 := by
  unfold lookupStep
  dsimp only
  have hfound := Step.trans_step (lookupPlane_step env self args plane s)
    (dropIfByPass_step env (lookupPlane env self args plane s))
  split
  · exact Step.refl_step _ _
  · split
    · split
      · split
        · refine Step.trans_step hfound (Step.trans_step ?_ (insertPlane_step env _ _ _))
          simp [step_iff, emits_append, Event.stages]
        · refine Step.trans_step hfound ?_
          simp [step_iff, emits_append, Event.stages]
      · exact Step.trans_step hfound (insertPlane_step env _ _ _)
    · split
      · refine Step.trans_step hfound (Step.trans_step (Step.trans_step
          (recheckPlanes_step env (dropIfByPass env (lookupPlane env self args plane s)).2.planes []
            (dropIfByPass env (lookupPlane env self args plane s)).2) ?_)
          (insertPlane_step env _ _ _))
        simp [step_iff, emits_self]
      · exact Step.trans_step hfound (insertPlane_step env _ _ _)

theorem lookupLoop_step {σ : Type} (env : Env σ) (self : NodeId) (args : RenderRoIArgs)
    (l : List ImageComponents) (missingPlane : Bool) (s : St σ) :
    Step 8 s (lookupLoop env self args l missingPlane s) := by
  induction l generalizing missingPlane s with
  | nil => exact Step.refl_step _ _
  | cons plane tl ih =>
    simp only [lookupLoop]
    exact Step.trans_step (lookupStep_step env self args plane missingPlane s) (ih _ _)

theorem cacheLookup_steps {σ : Type} (env : Env σ) (self : NodeId)
    (args : RenderRoIArgs) (s : St σ) : (cacheLookup env self args s).Steps 8 s :=
  lookupLoop_step env self args _ _ s

theorem afterLookup_steps {σ : Type} (env : Env σ) (self : NodeId)
    (args : RenderRoIArgs) (s : St σ) : (afterLookup env self args s).Steps 8 s := by
  unfold afterLookup
  dsimp only
  repeat' split
  all_goals simp [Flow.Steps, St.returns, St.emit, step_iff, emits_self, emits_append, Event.stages]

theorem paintStrokeRoD_step {σ : Type} (env : Env σ) (self : NodeId)
    (args : RenderRoIArgs) (s : St σ) : Step 9 s (paintStrokeRoD env self args s) := by
  unfold paintStrokeRoD
  dsimp only
  split <;> simp [step_iff, emits_self, emits_append, Event.stages]

theorem clearStrokeBitmaps_step {σ : Type} (env : Env σ)
    (l : List (ImageComponents × PlaneToRender)) (s : St σ) :
    Step 9 s (clearStrokeBitmaps env l s) := by
  induction l generalizing s with
  | nil => exact Step.refl_step _ _
  | cons hd tl ih =>
    obtain ⟨k, plane⟩ := hd
    simp only [clearStrokeBitmaps]
    refine Step.trans_step ?_ (ih _)
    simp [step_iff, emits_append, Event.stages]

theorem clearLastStroke_step {σ : Type} (env : Env σ) (s : St σ) :
    Step 9 s (clearLastStroke env s) := by
  unfold clearLastStroke
  split
  · refine Step.trans_step ?_ (clearStrokeBitmaps_step env _ _)
    simp [step_iff, emits_self]
  · exact Step.refl_step _ _

theorem queryRestToRender_step {σ : Type} (env : Env σ) (img : Image) (s : St σ) :
    Step 9 s (queryRestToRender env img s) := by
  unfold queryRestToRender
  split <;> simp [step_iff, emits_append, Event.stages]

theorem strokeRestToRender_step {σ : Type} (env : Env σ) (s : St σ) (k : Nat) :
    Step k s (strokeRestToRender env s) := by
  unfold strokeRestToRender
  split <;> simp [step_iff, emits_self]

theorem dropPartialHit_step {σ : Type} (s : St σ) :
    Step 9 s (dropPartialHit s) := by
  unfold dropPartialHit
  split <;> simp [step_iff, emits_self]

theorem noTilesRestToRender_step {σ : Type} (s : St σ) (k : Nat) :
    Step k s (noTilesRestToRender s) := by
  unfold noTilesRestToRender
  split <;> simp [step_iff, emits_self]

theorem rectsLeft_steps {σ : Type} (env : Env σ) (self : NodeId)
    (args : RenderRoIArgs) (s : St σ) : (rectsLeft env self args s).Steps 9 s := by
  unfold rectsLeft
  dsimp only
  have h0 := paintStrokeRoD_step env self args s
  split
  · refine Step.trans_step h0 ?_
    simp [step_iff, emits_self]
  · exact Step.trans_step h0 (Step.trans_step (clearLastStroke_step env _)
      (Step.trans_step (queryRestToRender_step env _ _) (Step.trans_step (strokeRestToRender_step env _ 9)
        (Step.trans_step (dropPartialHit_step _) (noTilesRestToRender_step _ 9)))))

theorem inputsRoDLoop_step {σ : Type} (env : Env σ) (self : NodeId) (args : RenderRoIArgs)
    (l : List Nat) (a : InputsRoD) (s : St σ) :
    Step 9 s (inputsRoDLoop env self args l a s).2 := by
  induction l generalizing a s with
  | nil => exact Step.refl_step _ _
  | cons i tl ih =>
    simp only [inputsRoDLoop]
    split
    · exact ih _ _
    · split
      · exact ih _ _
      · split
        · simp [step_iff, emits_append, Event.stages]
        · refine Step.trans_step ?_ (ih _ _)
          simp [step_iff, emits_append, Event.stages]

theorem WalkResult.Steps.after_walk {σ : Type} {k : Nat} {s s1 : St σ} {w : WalkResult σ}
    (h : Step k s s1) (hw : w.Steps k s1) : w.Steps k s := by
  cases w with
  | stopped a b c s' => exact Step.trans_step h hw
  | threw s' => exact Step.trans_step h hw
  | outOfFuel => trivial

theorem SplitsResult.Steps.after_splits {σ : Type} {k : Nat} {s s1 : St σ} {w : SplitsResult σ}
    (h : Step k s s1) (hw : w.Steps k s1) : w.Steps k s := by
  cases w with
  | finished a b c s' => exact Step.trans_step h hw
  | threw s' => exact Step.trans_step h hw
  | outOfFuel => trivial

theorem OptimizeResult.Steps.after_optimize {σ : Type} {k : Nat} {s s1 : St σ} {w : OptimizeResult σ}
    (h : Step k s s1) (hw : w.Steps k s1) : w.Steps k s := by
  cases w with
  | finished a s' => exact Step.trans_step h hw
  | threw s' => exact Step.trans_step h hw
  | outOfFuel => trivial

theorem WalkResult.Steps.of_stopped {σ : Type} {k : Nat} {s s' : St σ} {w : WalkResult σ}
    {a : Option NodeId} {b : Int} {c : Nat} (heq : w = .stopped a b c s') (h : w.Steps k s) :
    Step k s s' := by
  subst heq
  exact h

theorem WalkResult.Steps.of_threw_walk {σ : Type} {k : Nat} {s s' : St σ} {w : WalkResult σ}
    (heq : w = .threw s') (h : w.Steps k s) : Step k s s' := by
  subst heq
  exact h

theorem SplitsResult.Steps.of_finished_splits {σ : Type} {k : Nat} {s s' : St σ} {w : SplitsResult σ}
    {a : List RectToRender} {b : Bool} {c : RectI} (heq : w = .finished a b c s')
    (h : w.Steps k s) : Step k s s' := by
  subst heq
  exact h

theorem SplitsResult.Steps.of_threw_splits {σ : Type} {k : Nat} {s s' : St σ} {w : SplitsResult σ}
    (heq : w = .threw s') (h : w.Steps k s) : Step k s s' := by
  subst heq
  exact h

theorem OptimizeResult.Steps.of_finished_optimize {σ : Type} {k : Nat} {s s' : St σ}
    {w : OptimizeResult σ} {a : List RectToRender} (heq : w = .finished a s')
    (h : w.Steps k s) : Step k s s' := by
  subst heq
  exact h

theorem OptimizeResult.Steps.of_threw_optimize {σ : Type} {k : Nat} {s s' : St σ} {w : OptimizeResult σ}
    (heq : w = .threw s') (h : w.Steps k s) : Step k s s' := by
  subst heq
  exact h

theorem isIdentity_step {σ : Type} (node : NodeId) (rect : RectI) (time : Int)
    (view : Nat) (ext : σ) (s : St σ) (k : Nat) (hk : k = 9 ∨ k = 10) :
    Step k s { s with ext := ext, trace := s.trace ++ [Event.isIdentity node rect time view] } := by
  rcases hk with rfl | rfl <;> simp [step_iff, emits_append, Event.stages]

theorem identityChainWalk_steps {σ : Type} (env : Env σ) (time : Int) (scale : RenderScale)
    (rect : RectI) (view : Nat) (k : Nat) (hk : k = 9 ∨ k = 10) (fuel : Nat) (node : NodeId)
    (t : Int) (v : Nat) (nb : Int) (s : St σ) :
    (identityChainWalk env time scale rect view fuel node t v nb s).Steps k s := by
  induction fuel generalizing node t v nb s with
  | zero => simp [identityChainWalk, WalkResult.Steps]
  | succ n ih =>
    have h1 := isIdentity_step node rect time view
      (env.isIdentity node false 0 time scale rect view t v nb s.ext).2 s k hk
    simp only [identityChainWalk]
    split
    · exact h1
    · split
      · exact h1
      · split
        · exact h1
        · split
          · exact h1
          · exact WalkResult.Steps.after_walk h1 (ih _ _ _ _ _)

theorem SplitsResult.Steps.push {σ : Type} {k : Nat} {s : St σ} {w : SplitsResult σ}
    (r : RectToRender) (hw : w.Steps k s) : (w.push r).Steps k s := by
  cases w <;> exact hw

theorem optimizeSplits_steps {σ : Type} (env : Env σ) (self : NodeId) (inter : RectI)
    (time : Int) (view : Nat) (scale : RenderScale) (fuel : Nat) (k : Nat) (hk : k = 9 ∨ k = 10)
    (l : List RectI) (set : Bool) (rect : RectI) (s : St σ) :
    (optimizeSplits env self inter time view scale fuel l set rect s).Steps k s := by
  induction l generalizing set rect s with
  | nil => exact Step.refl_step _ _
  | cons sp tl ih =>
    have h1 := isIdentity_step self sp time view
      (env.isIdentity self false 0 time scale sp view 0 view (-1) s.ext).2 s k hk
    simp only [optimizeSplits]
    split
    · split
      · exact h1
      · split
        · split
          · exact SplitsResult.Steps.after_splits h1 (SplitsResult.Steps.push _ (ih _ _ _))
          · split
            · rename_i heq
              exact SplitsResult.Steps.after_splits
                (Step.trans_step h1 (WalkResult.Steps.of_stopped heq
                  (identityChainWalk_steps env time scale sp view k hk fuel _ _ _ _ _)))
                (SplitsResult.Steps.push _ (ih _ _ _))
            · rename_i heq
              exact Step.trans_step h1 (WalkResult.Steps.of_threw_walk heq
                (identityChainWalk_steps env time scale sp view k hk fuel _ _ _ _ _))
            · trivial
        · exact SplitsResult.Steps.after_splits h1 (ih _ _ _)
    · exact ih _ _ _

theorem optimizeRectsToRender_steps {σ : Type} (env : Env σ) (self : NodeId) (inter : RectI)
    (time : Int) (view : Nat) (scale : RenderScale) (fuel : Nat) (k : Nat) (hk : k = 9 ∨ k = 10)
    (l : List RectI) (acc : List RectToRender) (s : St σ) :
    (optimizeRectsToRender env self inter time view scale fuel l acc s).Steps k s := by
  induction l generalizing acc s with
  | nil => exact Step.refl_step _ _
  | cons r tl ih =>
    simp only [optimizeRectsToRender]
    split
    · rename_i heq
      exact OptimizeResult.Steps.after_optimize (SplitsResult.Steps.of_finished_splits heq
        (optimizeSplits_steps env self inter time view scale fuel k hk _ _ _ _)) (ih _ _)
    · rename_i heq
      exact SplitsResult.Steps.of_threw_splits heq
        (optimizeSplits_steps env self inter time view scale fuel k hk _ _ _ _)
    · trivial

theorem probeInputsRoD_step {σ : Type} (env : Env σ) (self : NodeId)
    (args : RenderRoIArgs) (s : St σ) : Step 9 s (probeInputsRoD env self args s).2 := by
  unfold probeInputsRoD
  split
  · exact inputsRoDLoop_step env self args _ _ s
  · exact Step.refl_step _ _

theorem rectsToRenderPhase_steps {σ : Type} (env : Env σ) (self : NodeId)
    (args : RenderRoIArgs) (fuel : Nat) (s : St σ) :
    (rectsToRenderPhase env self args fuel s).Steps 9 s := by
  unfold rectsToRenderPhase
  dsimp only
  have hp := probeInputsRoD_step env self args s
  generalize probeInputsRoD env self args s = probe at hp ⊢
  split
  · split
    · rename_i heq
      refine Step.trans_step hp (Step.trans_step (OptimizeResult.Steps.of_finished_optimize heq
        (optimizeRectsToRender_steps env self _ _ _ _ fuel 9 (Or.inl rfl) _ _ _)) ?_)
      simp [step_iff, emits_self]
    · rename_i heq
      exact (Step.trans_step hp (OptimizeResult.Steps.of_threw_optimize heq
        (optimizeRectsToRender_steps env self _ _ _ _ fuel 9 (Or.inl rfl) _ _ _))).emits
    · trivial
  · refine Step.trans_step hp ?_
    simp [step_iff, emits_self]

theorem renderInputImages_steps {σ : Type} (env : Env σ) (self : NodeId) (args : RenderRoIArgs)
    (l done : List RectToRender) (s : St σ) :
    (renderInputImages env self args l done s).Steps 10 s := by
  induction l generalizing done s with
  | nil => simp [renderInputImages, Flow.Steps, step_iff, emits_self]
  | cons r tl ih =>
    simp only [renderInputImages]
    split
    · exact ih _ _
    · split
      · refine Flow.Steps.after_from _ ?_ (ih _ _)
        simp [step_iff, emits_append, Event.stages]
      · simp [Flow.Steps, St.returns, emits_append, Event.stages]
      · simp [Flow.Steps, St.endsWith, emits_append, Event.stages]

theorem preRenderInputs_steps {σ : Type} (env : Env σ) (self : NodeId)
    (args : RenderRoIArgs) (s : St σ) : (preRenderInputs env self args s).Steps 10 s := by
  unfold preRenderInputs
  split
  · exact Emits.refl_emits _ _
  · refine Flow.Steps.after_from _ ?_ (renderInputImages_steps env self args _ _ _)
    simp [step_iff, emits_self]

theorem redoLookupLoop_step {σ : Type} (env : Env σ) (self : NodeId) (args : RenderRoIArgs)
    (before l : List (ImageComponents × PlaneToRender)) (s : St σ) (k : Nat)
    (hk : k = 8 ∨ k = 10) :
    Step k s (redoLookupLoop env self args before l s).2 := by
  induction l generalizing before s with
  | nil => exact Step.refl_step _ _
  | cons hd tl ih =>
    obtain ⟨c, plane⟩ := hd
    have h1 := cacheLookupOnce_step env self args s.key c s k hk
    simp only [redoLookupLoop]
    split
    · exact ih _ _
    · split
      · split
        · exact Step.trans_step h1 (ih _ _)
        · exact h1
      · exact h1

theorem afterRedoLookup_step {σ : Type} (r : PlaneMap PlaneToRender × St σ) (k : Nat)
    (hk : k = 8 ∨ k = 10) : Step k r.2 (afterRedoLookup r) := by
  rcases hk with rfl | rfl <;> simp [afterRedoLookup, step_iff, emits_self]

theorem renderAllAgain_steps {σ : Type} (env : Env σ) (self : NodeId)
    (args : RenderRoIArgs) (fuel : Nat) (s : St σ) :
    (renderAllAgain env self args fuel s).Steps 10 s := by
  unfold renderAllAgain
  split
  · have h0 : Step 10 s { s with rectsToRender := [], rectsLeftToRender := s.fullRectsToRender } := by
      simp [step_iff, emits_self]
    split
    · rename_i heq
      refine Flow.Steps.after_step (Step.trans_step h0 (Step.trans_step (OptimizeResult.Steps.of_finished_optimize heq
        (optimizeRectsToRender_steps env self _ _ _ _ fuel 10 (Or.inr rfl) _ _ _)) ?_))
        (renderInputImages_steps env self args _ _ _)
      simp [step_iff, emits_self]
    · rename_i heq
      exact (Step.trans_step h0 (OptimizeResult.Steps.of_threw_optimize heq
        (optimizeRectsToRender_steps env self _ _ _ _ fuel 10 (Or.inr rfl) _ _ _))).emits
    · trivial
  · refine Flow.Steps.after_from _ ?_ (renderInputImages_steps env self args _ _ _)
    simp [step_iff, emits_self]

theorem redoCacheLookupPhase_steps {σ : Type} (env : Env σ) (self : NodeId)
    (args : RenderRoIArgs) (fuel : Nat) (s : St σ) :
    (redoCacheLookupPhase env self args fuel s).Steps 10 s := by
  unfold redoCacheLookupPhase
  have hr := Step.trans_step (redoLookupLoop_step env self args [] s.planes s 10 (Or.inr rfl))
    (afterRedoLookup_step (redoLookupLoop env self args [] s.planes s) 10 (Or.inr rfl))
  split
  · split
    · exact Flow.Steps.after_step hr (renderAllAgain_steps env self args fuel _)
    · exact hr
  · exact Step.refl_step _ _

/-! ## What each section emits: allocation, render, return -/

theorem mergeRoD_step {σ : Type} (env : Env σ) (img : Image) (s : St σ) :
    Step 11 s (mergeRoD env img s) := by
  unfold mergeRoD
  split <;> simp [step_iff, emits_self, emits_append, Event.stages]

theorem resizeImage_step {σ : Type} (env : Env σ) (args : RenderRoIArgs) (plane : PlaneToRender)
    (img : Image) (s : St σ) : Step 11 s (resizeImage env args plane img s).2.2 := by
  unfold resizeImage
  dsimp only
  repeat' split
  all_goals simp [step_iff, emits_self, emits_append, Event.stages]

theorem clearGrown_step {σ : Type} (env : Env σ) (b : Bool) (plane : PlaneToRender) (s : St σ) :
    Step 11 s (clearGrown env b plane s) := by
  unfold clearGrown
  split <;> simp [step_iff, emits_self, emits_append, Event.stages]

theorem makeDownscaled_step {σ : Type} (env : Env σ) (args : RenderRoIArgs)
    (components : ImageComponents) (plane : PlaneToRender) (s : St σ) :
    Step 11 s (makeDownscaled env args components plane s).2 := by
  unfold makeDownscaled
  dsimp only
  repeat' split
  all_goals simp [step_iff, emits_self, emits_append, Event.stages]

theorem resizeCachedPlane_step {σ : Type} (env : Env σ) (args : RenderRoIArgs)
    (components : ImageComponents) (plane : PlaneToRender) (img : Image) (s : St σ) :
    Step 11 s (resizeCachedPlane env args components plane img s).2 := by
  unfold resizeCachedPlane
  exact Step.trans_step (mergeRoD_step env img s) (Step.trans_step (resizeImage_step env args plane img _)
    (Step.trans_step (clearGrown_step env _ _ _) (makeDownscaled_step env args components _ _)))

theorem allocatePlane_step {σ : Type} (env : Env σ) (self : NodeId) (args : RenderRoIArgs)
    (components : ImageComponents) (plane : PlaneToRender) (s : St σ) :
    Step 11 s (allocatePlane env self args components plane s).2 := by
  unfold allocatePlane
  split
  · simp [step_iff, emits_append, Event.stages]
  · exact resizeCachedPlane_step env args components plane _ s

theorem allocatePlanesLoop_step {σ : Type} (env : Env σ) (self : NodeId) (args : RenderRoIArgs)
    (l : List (ImageComponents × PlaneToRender)) (s : St σ) :
    Step 11 s (allocatePlanesLoop env self args l s).2 := by
  induction l generalizing s with
  | nil => exact Step.refl_step _ _
  | cons hd tl ih =>
    obtain ⟨k, plane⟩ := hd
    simp only [allocatePlanesLoop]
    split
    · exact ih _
    · exact Step.trans_step (allocatePlane_step env self args _ plane s) (ih _)

theorem allocatePlanes_steps {σ : Type} (env : Env σ) (self : NodeId)
    (args : RenderRoIArgs) (s : St σ) : (allocatePlanes env self args s).Steps 11 s := by
  unfold allocatePlanes
  dsimp only
  split
  · have h0 : Step 11 s (if s.glContextLocker = true then s.emit Event.glContextLockerAttach else s) := by
      split <;> simp [St.emit, step_iff, emits_self, emits_append, Event.stages]
    generalize (if s.glContextLocker = true then s.emit Event.glContextLockerAttach else s) = s1
      at h0 ⊢
    exact Step.trans_step h0 (Step.trans_step (allocatePlanesLoop_step env self args s1.planes s1)
      (by simp [step_iff, emits_self]))
  · exact Step.refl_step _ _

theorem markPlanes_step {σ : Type} (env : Env σ) (self : NodeId)
    (l : List (ImageComponents × PlaneToRender)) (s : St σ) (k : Nat) (hk : k = 12 ∨ k = 16) :
    Step k s (markPlanes env self l s) := by
  induction l generalizing s with
  | nil => exact Step.refl_step _ _
  | cons hd tl ih =>
    obtain ⟨c, plane⟩ := hd
    simp only [markPlanes]
    refine Step.trans_step ?_ (ih _)
    rcases hk with rfl | rfl <;> simp [step_iff, emits_append, Event.stages]

theorem renderTilesSequential_step {σ : Type} (env : Env σ) (self : NodeId)
    (args : RenderRoIArgs) (level : Nat) (l : List RectToRender)
    (status : RenderingFunctorRetEnum) (s : St σ) (k : Nat) (hk : k = 12 ∨ k = 16) :
    Step k s (renderTilesSequential env self args level l status s).2 := by
  induction l generalizing status s with
  | nil => exact Step.refl_step _ _
  | cons r tl ih =>
    simp only [renderTilesSequential]
    split
    · rcases hk with rfl | rfl <;> simp [step_iff, emits_append, Event.stages]
    · split
      · refine Step.trans_step ?_ (ih _ _)
        rcases hk with rfl | rfl <;> simp [step_iff, emits_append, Event.stages]
      · refine Step.trans_step ?_ (ih _ _)
        rcases hk with rfl | rfl <;> simp [step_iff, emits_append, Event.stages]

theorem renderTilesMapped_step {σ : Type} (env : Env σ) (self : NodeId)
    (args : RenderRoIArgs) (level : Nat) (l : List RectToRender) (s : St σ)
    (k : Nat) (hk : k = 12 ∨ k = 16) :
    Step k s (renderTilesMapped env self args level l s).2 := by
  induction l generalizing s with
  | nil => exact Step.refl_step _ _
  | cons r tl ih =>
    simp only [renderTilesMapped]
    refine Step.trans_step ?_ (ih _)
    rcases hk with rfl | rfl <;> simp [step_iff, emits_append, Event.stages]

theorem beginSequence_step {σ : Type} (env : Env σ) (inst : NodeId) (args : RenderRoIArgs)
    (level : Nat) (s : St σ) (k : Nat) (hk : k = 12 ∨ k = 16) :
    Step k s (beginSequence env inst args level s).2 := by
  unfold beginSequence
  rcases hk with rfl | rfl <;> split <;>
    simp [step_iff, emits_self, emits_append, Event.stages]

theorem renderTiles_step {σ : Type} (env : Env σ) (inst : NodeId) (args : RenderRoIArgs)
    (safety : RenderSafetyEnum) (level : Nat) (b : RenderingFunctorRetEnum × St σ)
    (k : Nat) (hk : k = 12 ∨ k = 16) :
    Step k b.2 (renderTiles env inst args safety level b).2 := by
  unfold renderTiles
  dsimp only
  split
  · split
    · split
      · refine Step.trans_step (renderTilesMapped_step env inst args level b.2.rectsToRender b.2 k hk) ?_
        simp [step_iff, emits_self]
      · exact renderTilesMapped_step env inst args level b.2.rectsToRender b.2 k hk
    · exact renderTilesSequential_step env inst args level b.2.rectsToRender b.1 b.2 k hk
  · exact Step.refl_step _ _

theorem endSequence_step {σ : Type} (env : Env σ) (inst : NodeId) (args : RenderRoIArgs)
    (level : Nat) (b : RenderingFunctorRetEnum × St σ) (k : Nat) (hk : k = 12 ∨ k = 16) :
    Step k b.2 (endSequence env inst args level b).2 := by
  unfold endSequence
  rcases hk with rfl | rfl <;> split <;>
    simp [step_iff, emits_self, emits_append, Event.stages]

theorem renderRoIInternal_step {σ : Type} (env : Env σ) (inst : NodeId) (args : RenderRoIArgs)
    (safety : RenderSafetyEnum) (s : St σ) (r : RenderRoIStatusEnum × St σ)
    (k : Nat) (hk : k = 12 ∨ k = 16)
    (h : renderRoIInternal env inst args safety s = some r) : Step k s r.2 := by
  unfold renderRoIInternal at h
  split at h
  · simp at h
  · simp only [Option.some.injEq] at h
    subst h
    rename_i level heq
    have h1 : Step k s { s with ext := env.getFrameRange inst s.nodeHash s.ext,
                                trace := s.trace ++ [Event.getFrameRange] } := by
      rcases hk with rfl | rfl <;> simp [step_iff, emits_append, Event.stages]
    have h2 := Step.trans_step h1 (beginSequence_step env inst args level _ k hk)
    have h3 := Step.trans_step h2 (renderTiles_step env inst args
      (effectiveSafety env inst s.frameArgs safety s.ext) level _ k hk)
    have h4 := Step.trans_step h3 (endSequence_step env inst args level _ k hk)
    refine Step.trans_step h4 ?_
    rcases hk with rfl | rfl <;> simp [St.emit, step_iff, emits_append, Event.stages]

theorem pickRenderInstance_step {σ : Type} (env : Env σ) (self : NodeId) (s : St σ)
    (k : Nat) (hk : k = 12 ∨ k = 16) : Step k s (pickRenderInstance env self s).2 := by
  unfold pickRenderInstance
  rcases hk with rfl | rfl <;> split <;>
    simp [step_iff, emits_self, emits_append, Event.stages]

theorem attachGL_step {σ : Type} (env : Env σ) (inst : NodeId) (s : St σ) (k : Nat)
    (hk : k = 12 ∨ (k = 16 ∧ s.storage ≠ .eStorageModeGLTex)) :
    Step k s (attachGL env inst s).2 := by
  unfold attachGL
  dsimp only
  rcases hk with rfl | ⟨rfl, hs⟩
  · repeat' split
    all_goals simp [step_iff, emits_self, emits_append, Event.stages]
  · rw [if_neg hs]
    exact Step.refl_step _ _

theorem dettachGL_step {σ : Type} (env : Env σ) (self inst : NodeId) (s : St σ) (k : Nat)
    (hk : k = 12 ∨ (k = 16 ∧ s.storage ≠ .eStorageModeGLTex)) :
    Step k s (dettachGL env self inst s) := by
  unfold dettachGL
  rcases hk with rfl | ⟨rfl, hs⟩
  · split <;> simp [step_iff, emits_self, emits_append, Event.stages]
  · rw [if_neg (fun h => hs h.1)]
    exact Step.refl_step _ _

theorem releaseInstance_step {σ : Type} (env : Env σ) (self inst : NodeId) (b : Bool) (s : St σ)
    (k : Nat) (hk : k = 12 ∨ k = 16) : Step k s (releaseInstance env self inst b s) := by
  unfold releaseInstance
  rcases hk with rfl | rfl <;> split <;>
    simp [step_iff, emits_self, emits_append, Event.stages]

theorem stage_of_render {σ : Type} {k : Nat} {s : St σ}
    (hk : k = 12 ∨ (k = 16 ∧ s.storage ≠ .eStorageModeGLTex)) : k = 12 ∨ k = 16 :=
  hk.elim Or.inl fun h => Or.inr h.1

theorem stage_of_step {σ : Type} {k j : Nat} {s s' : St σ} (h : Step j s s')
    (hk : k = 12 ∨ (k = 16 ∧ s.storage ≠ .eStorageModeGLTex)) :
    k = 12 ∨ (k = 16 ∧ s'.storage ≠ .eStorageModeGLTex) :=
  hk.elim Or.inl fun hs => Or.inr ⟨hs.1, by rw [h.storage]; exact hs.2⟩

theorem renderPlanes_steps {σ : Type} (env : Env σ) (self : NodeId)
    (args : RenderRoIArgs) (s : St σ) (k : Nat)
    (hk : k = 12 ∨ (k = 16 ∧ s.storage ≠ .eStorageModeGLTex)) :
    (renderPlanes env self args s).Steps k s := by
  unfold renderPlanes
  dsimp only
  have hk' := stage_of_render hk
  have h0 := pickRenderInstance_step env self s k hk'
  have h1 := Step.trans_step h0
    (attachGL_step env (pickRenderInstance env self s).1 (pickRenderInstance env self s).2 k
      (stage_of_step h0 hk))
  split
  · split
    · exact h1.emits
    · rename_i r heq
      have h2 := Step.trans_step h1 (renderRoIInternal_step env _ args _ _ r k hk' heq)
      have h3 : Step k s { r.2 with renderRetCode := r.1 } :=
        Step.trans_step h2 (by simp [step_iff, emits_self])
      exact Step.trans_step h3 (Step.trans_step
        (dettachGL_step env self _ _ k (stage_of_step h3 hk))
        (releaseInstance_step env self _ _ _ k hk'))
  · exact Step.trans_step h1 (releaseInstance_step env self _ _ _ k hk')

theorem unmarkPlanes_steps {σ : Type} (env : Env σ) (self : NodeId)
    (l : List (ImageComponents × PlaneToRender)) (aborted : Bool) (s : St σ)
    (k : Nat) (hk : k = 12 ∨ k = 16) :
    (unmarkPlanes env self l aborted s).Steps k s := by
  induction l generalizing aborted s with
  | nil => simp [unmarkPlanes, Flow.Steps, step_iff, emits_self]
  | cons hd tl ih =>
    obtain ⟨c, plane⟩ := hd
    simp only [unmarkPlanes]
    split
    · split
      · refine Flow.Steps.after_from _ ?_ (ih _ _)
        rcases hk with rfl | rfl <;> simp [step_iff, emits_append, Event.stages]
      · refine Flow.Steps.after_from _ ?_ (ih _ _)
        rcases hk with rfl | rfl <;> simp [step_iff, emits_append, Event.stages]
    · rcases hk with rfl | rfl <;> simp [Flow.Steps, St.returns, emits_append, Event.stages]

theorem readAborted_step {σ : Type} (env : Env σ) (self : NodeId) (s : St σ)
    (k : Nat) (hk : k = 12 ∨ k = 16) : Step k s (readAborted env self s) := by
  rcases hk with rfl | rfl <;> simp [readAborted, step_iff, emits_append, Event.stages]

theorem renderDispatch_steps {σ : Type} (env : Env σ) (self : NodeId)
    (args : RenderRoIArgs) (s : St σ) (k : Nat)
    (hk : k = 12 ∨ (k = 16 ∧ s.storage ≠ .eStorageModeGLTex)) :
    (renderDispatch env self args s).Steps k s := by
  unfold renderDispatch
  dsimp only
  have hk' := stage_of_render hk
  have h0 : Step k s { s with renderRetCode := .eRenderRoIStatusImageAlreadyRendered } := by
    simp [step_iff, emits_self]
  split
  · exact Step.trans_step h0 (readAborted_step env self _ k hk')
  · have h1 : Step k s
        (if env.isCurrentFrameRenderNotAbortable s.frameArgs = true then
          markPlanes env self s.planes
            { s with renderRetCode := .eRenderRoIStatusImageAlreadyRendered }
        else { s with renderRetCode := .eRenderRoIStatusImageAlreadyRendered }) := by
      split
      · exact Step.trans_step h0 (markPlanes_step env self _ _ k hk')
      · exact h0
    generalize (if env.isCurrentFrameRenderNotAbortable s.frameArgs = true then
          markPlanes env self s.planes
            { s with renderRetCode := .eRenderRoIStatusImageAlreadyRendered }
        else { s with renderRetCode := .eRenderRoIStatusImageAlreadyRendered }) = s1 at h1 ⊢
    refine Flow.Steps.after_step h1 (Flow.Steps.andThen_steps ?_ ?_)
    · split
      · exact renderPlanes_steps env self args _ k (stage_of_step h1 hk)
      · exact Step.refl_step _ _
    · intro s2
      split
      · exact Flow.Steps.after_step (readAborted_step env self s2 k hk')
          (unmarkPlanes_steps env self _ _ _ k hk')
      · exact readAborted_step env self s2 k hk'

theorem finishCodes_steps {σ : Type} (env : Env σ) (recCall : RecCall σ) (self : NodeId)
    (args : RenderRoIArgs) (s : St σ) : (finishCodes env recCall self args s).Steps 13 s := by
  unfold finishCodes
  split
  · split <;> simp [Flow.Steps, St.returns, emits_self, emits_append, Event.stages]
  · split
    · exact Emits.refl_emits _ _
    · split
      · split
        · exact Emits.refl_emits _ _
        · exact tailCall_steps _ _ _ _ _ _ (by intro o; simp [Event.stages])
      · exact Step.refl_step _ _

theorem swapInCache_step {σ : Type} (env : Env σ) (plane : PlaneToRender) (s : St σ) :
    Step 14 s (swapInCache env plane s) := by
  unfold swapInCache
  repeat' split
  all_goals simp [step_iff, emits_self, emits_append, Event.stages]

theorem downscaleCached_step {σ : Type} (env : Env σ) (args : RenderRoIArgs)
    (plane : PlaneToRender) (s : St σ) (r : PlaneToRender × St σ)
    (h : downscaleCached env args plane s = some r) : Step 14 s r.2 := by
  unfold downscaleCached at h
  dsimp only at h
  repeat' split at h
  all_goals first
    | (simp at h; done)
    | (simp only [Option.some.injEq] at h
       subst h
       simp [step_iff, emits_self, emits_append, Event.stages])

theorem convertStorage_step {σ : Type} (env : Env σ) (args : RenderRoIArgs) (img : Image)
    (s : St σ) : Step 14 s (convertStorage env args img s).2 := by
  unfold convertStorage
  dsimp only
  repeat' split
  all_goals simp [St.emit, step_iff, emits_self, emits_append, Event.stages]

theorem outputPlane_step {σ : Type} (env : Env σ) (args : RenderRoIArgs) (comp : ImageComponents)
    (img : Image) (s : St σ) : Step 14 s (outputPlane env args comp img s) := by
  unfold outputPlane
  dsimp only
  have h1 := convertPlanesFormatsIfNeeded_step env img s.originalRoI comp args.bitdepth
    (useAlpha0 env args) s.outputPremult s 14 (Or.inr rfl)
  generalize convertPlanesFormatsIfNeeded env img s.originalRoI comp args.bitdepth
    (useAlpha0 env args) s.outputPremult s = c at h1 ⊢
  have h2 := Step.trans_step h1 (convertStorage_step env args c.1 c.2)
  refine Step.trans_step h2 ?_
  simp [step_iff, emits_self]

theorem returnPlane_step {σ : Type} (env : Env σ) (args : RenderRoIArgs) (k : ImageComponents)
    (plane : PlaneToRender) (s s' : St σ) (h : returnPlane env args k plane s = some s') :
    Step 14 s s' := by
  unfold returnPlane at h
  split at h
  · simp at h
  · rename_i r heq
    have h1 := Step.trans_step (swapInCache_step env plane s) (downscaleCached_step env args plane _ r heq)
    split at h
    · simp only [Option.some.injEq] at h
      subst h
      exact h1
    · split at h
      · simp at h
      · simp only [Option.some.injEq] at h
        subst h
        exact Step.trans_step h1 (outputPlane_step env args _ _ _)

theorem returnPlanesLoop_step {σ : Type} (env : Env σ) (args : RenderRoIArgs)
    (l : List (ImageComponents × PlaneToRender)) (s s' : St σ)
    (h : returnPlanesLoop env args l s = some s') : Step 14 s s' := by
  induction l generalizing s with
  | nil =>
    simp only [returnPlanesLoop, Option.some.injEq] at h
    subst h
    exact Step.refl_step _ _
  | cons hd tl ih =>
    obtain ⟨k, plane⟩ := hd
    simp only [returnPlanesLoop] at h
    split at h
    · simp at h
    · rename_i s1 heq
      exact Step.trans_step (returnPlane_step env args k plane s s1 heq) (ih _ h)

theorem returnPlanes_steps {σ : Type} (env : Env σ) (args : RenderRoIArgs) (s : St σ) :
    (returnPlanes env args s).Steps 14 s := by
  unfold returnPlanes
  split
  · exact Emits.refl_emits _ _
  · rename_i s1 heq
    exact (returnPlanesLoop_step env args _ s s1 heq).emits

/-! ## Sequencing and post-conditions -/

theorem Flow.andThen_eq_next {σ : Type} {f : Flow σ} {g : St σ → Flow σ} {s : St σ} :
    f.andThen g = .next s ↔ ∃ s0, f = .next s0 ∧ g s0 = .next s := by
  cases f with
  | next s0 => simp [Flow.andThen]
  | done r => simp [Flow.andThen]
  | outOfFuel => simp [Flow.andThen]

theorem Flow.Post.mono_post {σ : Type} {N N' : St σ → Prop} {D D' : Result σ → Prop} {f : Flow σ}
    (h : f.Post N D) (hN : ∀ s, N s → N' s) (hD : ∀ r, D r → D' r) : f.Post N' D' := by
  cases f with
  | next s => exact hN s h
  | done r => exact hD r h
  | outOfFuel => trivial

theorem Flow.Post.andThen_post {σ : Type} {N N' : St σ → Prop} {D : Result σ → Prop} {f : Flow σ}
    {g : St σ → Flow σ} (hf : f.Post N D) (hg : ∀ s, N s → (g s).Post N' D) :
    (f.andThen g).Post N' D := by
  cases f with
  | next s => exact hg s hf
  | done r => exact hf
  | outOfFuel => trivial

theorem Flow.Post.of_next {σ : Type} {N : St σ → Prop} {D : Result σ → Prop} {f : Flow σ}
    {s : St σ} (h : f.Post N D) (hs : f = .next s) : N s := by
  subst hs
  exact h

theorem Flow.Post.of_result {σ : Type} {N : St σ → Prop} {D : Result σ → Prop} {f : Flow σ}
    {r : Result σ} (h : f.Post N D) (hr : f.result = some r)
    (hN : ∀ s, N s → D ⟨.returned .eRenderRoIRetCodeOk, s.out, s.trace, s.ext⟩) : D r := by
  cases f with
  | next s =>
    simp only [Flow.result, Option.some.injEq] at hr
    subst hr
    exact hN s h
  | done r' =>
    simp only [Flow.result, Option.some.injEq] at hr
    subst hr
    exact h
  | outOfFuel => simp [Flow.result] at hr

/-! ## Traces within a set of sections -/

theorem within_nil (P : Nat → Prop) : Within P [] := by
  intro e he
  cases he

theorem within_of_emits {P : Nat → Prop} {k : Nat} {t t' : List Event} (h : Emits k t t')
    (hk : P k) (ht : Within P t) : Within P t' := by
  obtain ⟨evs, rfl, hevs⟩ := h
  intro e he
  rcases List.mem_append.1 he with h1 | h1
  · exact ht e h1
  · exact ⟨k, hevs e h1, hk⟩

theorem Within.mono_within {P Q : Nat → Prop} {t : List Event} (h : Within P t)
    (hPQ : ∀ j, P j → Q j) : Within Q t := by
  intro e he
  obtain ⟨j, hj, hP⟩ := h e he
  exact ⟨j, hj, hPQ j hP⟩

theorem Flow.Steps.post {σ : Type} {k : Nat} {s : St σ} {f : Flow σ} (h : f.Steps k s)
    (P : Nat → Prop) (Q : StorageModeEnum → Prop) (hk : P k) (ht : Within P s.trace)
    (hq : Q s.storage) :
    f.Post (fun s' => Within P s'.trace ∧ Q s'.storage) (fun r => Within P r.trace) := by
  cases f with
  | next s' => exact ⟨within_of_emits h.emits hk ht, by rw [h.storage]; exact hq⟩
  | done r => exact within_of_emits h hk ht
  | outOfFuel => trivial

/-- Sequencing for the post-condition "the trace is within the sections `P`". -/
theorem Flow.Post.step_within {σ : Type} {P : Nat → Prop} {f : Flow σ} {g : St σ → Flow σ} (k : Nat)
    (hf : f.Post (fun s => Within P s.trace) (fun r => Within P r.trace))
    (hg : ∀ s, (g s).Steps k s) (hk : P k) :
    (f.andThen g).Post (fun s => Within P s.trace) (fun r => Within P r.trace) :=
  hf.andThen_post fun s hs =>
    ((hg s).post P (fun _ => True) hk hs trivial).mono_post (fun _ h => h.1) (fun _ h => h)

theorem atPlanes_post {σ : Type} (env : Env σ) (recCall : RecCall σ) (self : NodeId)
    (args : RenderRoIArgs) (outputPlanes : PlaneMap Image) (ext : σ) (P : Nat → Prop)
    (hP : ∀ j, j ≤ 3 → P j) :
    (atPlanes env recCall self args outputPlanes ext).Post (fun s => Within P s.trace)
      (fun r => Within P r.trace) := by
  unfold atPlanes
  have h0 : (earlyOut env recCall self args (St.entry outputPlanes ext)).Post
      (fun s => Within P s.trace) (fun r => Within P r.trace) :=
    ((earlyOut_steps env recCall self args _).post P (fun _ => True) (hP 0 (by decide))
      (within_nil P) trivial).mono_post (fun _ h => h.1) (fun _ h => h)
  exact ((((h0.step_within 1 (setupFrameArgs_steps env self args) (hP 1 (by decide))).step_within 1
    (scalePolicy_steps env self args) (hP 1 (by decide))).step_within 2
    (getRoD_steps env self args) (hP 2 (by decide))).step_within 2
    (computeRoI_steps env args) (hP 2 (by decide))).step_within 3
    (neededPlanes_steps env self args) (hP 3 (by decide))

theorem atIdentity_post {σ : Type} (env : Env σ) (recCall : RecCall σ) (self : NodeId)
    (args : RenderRoIArgs) (outputPlanes : PlaneMap Image) (ext : σ) (P : Nat → Prop)
    (hP : ∀ j, j ≤ 4 → P j) :
    (atIdentity env recCall self args outputPlanes ext).Post (fun s => Within P s.trace)
      (fun r => Within P r.trace) := by
  unfold atIdentity
  exact (atPlanes_post env recCall self args outputPlanes ext P
    (fun j hj => hP j (by omega))).step_within 4 (passThroughPlanes_steps env recCall self args)
    (hP 4 (by decide))

theorem atStorage_post {σ : Type} (env : Env σ) (recCall : RecCall σ) (self : NodeId)
    (args : RenderRoIArgs) (outputPlanes : PlaneMap Image) (ext : σ) (P : Nat → Prop)
    (hP : ∀ j, j ≤ 7 → P j) :
    (atStorage env recCall self args outputPlanes ext).Post (fun s => Within P s.trace)
      (fun r => Within P r.trace) := by
  unfold atStorage
  exact (((atIdentity_post env recCall self args outputPlanes ext P
    (fun j hj => hP j (by omega))).step_within 5 (identityPhase_steps env recCall self args)
    (hP 5 (by decide))).step_within 6 (concatenateTransforms_steps env self args)
    (hP 6 (by decide))).step_within 7 (computeBounds_steps env args) (hP 7 (by decide))

theorem chooseStorage_post {σ : Type} (env : Env σ) (self : NodeId) (args : RenderRoIArgs)
    (s : St σ) (P : Nat → Prop) (hP : P 7) (hs : Within P s.trace) :
    (chooseStorage env self args s).Post (fun s' => Within P s'.trace)
      (fun r => Within P r.trace) :=
  (chooseStorage_emits env self args s).mono_post (fun _ h => within_of_emits h hP hs)
    (fun _ h => within_of_emits h hP hs)

theorem atLookup_post {σ : Type} (env : Env σ) (recCall : RecCall σ) (self : NodeId)
    (args : RenderRoIArgs) (outputPlanes : PlaneMap Image) (ext : σ) (P : Nat → Prop)
    (hP : ∀ j, j ≤ 8 → P j) :
    (atLookup env recCall self args outputPlanes ext).Post (fun s => Within P s.trace)
      (fun r => Within P r.trace) := by
  unfold atLookup
  have h0 := (atStorage_post env recCall self args outputPlanes ext P
    (fun j hj => hP j (by omega))).andThen_post
    (fun s hs => chooseStorage_post env self args s P (hP 7 (by decide)) hs)
  exact (h0.step_within 7 (openGLRenderScale_steps env args) (hP 7 (by decide))).step_within 8
    (prepareLookup_steps env self args) (hP 8 (by decide))

theorem atRectsLeft_post {σ : Type} (env : Env σ) (recCall : RecCall σ) (self : NodeId)
    (args : RenderRoIArgs) (outputPlanes : PlaneMap Image) (ext : σ) (P : Nat → Prop)
    (hP : ∀ j, j ≤ 8 → P j) :
    (atRectsLeft env recCall self args outputPlanes ext).Post (fun s => Within P s.trace)
      (fun r => Within P r.trace) := by
  unfold atRectsLeft
  exact ((atLookup_post env recCall self args outputPlanes ext P hP).step_within 8
    (cacheLookup_steps env self args) (hP 8 (by decide))).step_within 8
    (afterLookup_steps env self args) (hP 8 (by decide))

theorem atInputs_post {σ : Type} (env : Env σ) (recCall : RecCall σ) (fuel : Nat) (self : NodeId)
    (args : RenderRoIArgs) (outputPlanes : PlaneMap Image) (ext : σ) (P : Nat → Prop)
    (hP : ∀ j, j ≤ 9 → P j) :
    (atInputs env recCall fuel self args outputPlanes ext).Post (fun s => Within P s.trace)
      (fun r => Within P r.trace) := by
  unfold atInputs
  exact ((atRectsLeft_post env recCall self args outputPlanes ext P
    (fun j hj => hP j (by omega))).step_within 9
    (rectsLeft_steps env self args) (hP 9 (by decide))).step_within 9
    (fun s => rectsToRenderPhase_steps env self args fuel s) (hP 9 (by decide))

theorem atDispatch_post {σ : Type} (env : Env σ) (recCall : RecCall σ) (fuel : Nat)
    (self : NodeId) (args : RenderRoIArgs) (outputPlanes : PlaneMap Image) (ext : σ)
    (P : Nat → Prop) (hP : ∀ j, j ≤ 11 → P j) :
    (atDispatch env recCall fuel self args outputPlanes ext).Post (fun s => Within P s.trace)
      (fun r => Within P r.trace) := by
  unfold atDispatch
  exact (((atInputs_post env recCall fuel self args outputPlanes ext P
    (fun j hj => hP j (by omega))).step_within 10
    (preRenderInputs_steps env self args) (hP 10 (by decide))).step_within 10
    (fun s => redoCacheLookupPhase_steps env self args fuel s) (hP 10 (by decide))).step_within 11
    (allocatePlanes_steps env self args) (hP 11 (by decide))

theorem atFinish_post {σ : Type} (env : Env σ) (recCall : RecCall σ) (fuel : Nat)
    (self : NodeId) (args : RenderRoIArgs) (outputPlanes : PlaneMap Image) (ext : σ)
    (P : Nat → Prop) (hP : ∀ j, j ≤ 12 → P j) :
    (atFinish env recCall fuel self args outputPlanes ext).Post (fun s => Within P s.trace)
      (fun r => Within P r.trace) := by
  unfold atFinish
  exact (atDispatch_post env recCall fuel self args outputPlanes ext P
    (fun j hj => hP j (by omega))).step_within 12
    (fun s => renderDispatch_steps env self args s 12 (Or.inl rfl)) (hP 12 (by decide))

/-! ## Sequencing with a condition on the storage -/

/-- Sequencing for the post-condition "the trace is within the sections `P` and the storage
satisfies `Q`". -/
theorem Flow.Post.stepS {σ : Type} {P : Nat → Prop} {Q : StorageModeEnum → Prop} {f : Flow σ}
    {g : St σ → Flow σ} (k : Nat)
    (hf : f.Post (fun s => Within P s.trace ∧ Q s.storage) (fun r => Within P r.trace))
    (hg : ∀ s, Q s.storage → (g s).Steps k s) (hk : P k) :
    (f.andThen g).Post (fun s => Within P s.trace ∧ Q s.storage) (fun r => Within P r.trace) :=
  hf.andThen_post fun s hs => (hg s hs.2).post P Q hk hs.1 hs.2

theorem atRectsLeft_postS {σ : Type} (env : Env σ) (recCall : RecCall σ) (self : NodeId)
    (args : RenderRoIArgs) (outputPlanes : PlaneMap Image) (ext : σ) (P : Nat → Prop)
    (Q : StorageModeEnum → Prop) (hP : P 8)
    (h : (atLookup env recCall self args outputPlanes ext).Post
      (fun s => Within P s.trace ∧ Q s.storage) (fun r => Within P r.trace)) :
    (atRectsLeft env recCall self args outputPlanes ext).Post
      (fun s => Within P s.trace ∧ Q s.storage) (fun r => Within P r.trace) := by
  unfold atRectsLeft
  exact (h.stepS 8 (fun s _ => cacheLookup_steps env self args s) hP).stepS 8
    (fun s _ => afterLookup_steps env self args s) hP

theorem atInputs_postS {σ : Type} (env : Env σ) (recCall : RecCall σ) (fuel : Nat)
    (self : NodeId) (args : RenderRoIArgs) (outputPlanes : PlaneMap Image) (ext : σ)
    (P : Nat → Prop) (Q : StorageModeEnum → Prop) (hP : P 9)
    (h : (atRectsLeft env recCall self args outputPlanes ext).Post
      (fun s => Within P s.trace ∧ Q s.storage) (fun r => Within P r.trace)) :
    (atInputs env recCall fuel self args outputPlanes ext).Post
      (fun s => Within P s.trace ∧ Q s.storage) (fun r => Within P r.trace) := by
  unfold atInputs
  exact (h.stepS 9 (fun s _ => rectsLeft_steps env self args s) hP).stepS 9
    (fun s _ => rectsToRenderPhase_steps env self args fuel s) hP

theorem atDispatch_postS {σ : Type} (env : Env σ) (recCall : RecCall σ) (fuel : Nat)
    (self : NodeId) (args : RenderRoIArgs) (outputPlanes : PlaneMap Image) (ext : σ)
    (P : Nat → Prop) (Q : StorageModeEnum → Prop) (hP : P 10) (hP' : P 11)
    (h : (atInputs env recCall fuel self args outputPlanes ext).Post
      (fun s => Within P s.trace ∧ Q s.storage) (fun r => Within P r.trace)) :
    (atDispatch env recCall fuel self args outputPlanes ext).Post
      (fun s => Within P s.trace ∧ Q s.storage) (fun r => Within P r.trace) := by
  unfold atDispatch
  exact ((h.stepS 10 (fun s _ => preRenderInputs_steps env self args s) hP).stepS 10
    (fun s _ => redoCacheLookupPhase_steps env self args fuel s) hP).stepS 11
    (fun s _ => allocatePlanes_steps env self args s) hP'

/-- The render, when the storage is known not to be an OpenGL texture: section 16. -/
theorem atFinish_postS {σ : Type} (env : Env σ) (recCall : RecCall σ) (fuel : Nat)
    (self : NodeId) (args : RenderRoIArgs) (outputPlanes : PlaneMap Image) (ext : σ)
    (P : Nat → Prop) (Q : StorageModeEnum → Prop) (hP : P 16)
    (hQ : ∀ st, Q st → st ≠ .eStorageModeGLTex)
    (h : (atDispatch env recCall fuel self args outputPlanes ext).Post
      (fun s => Within P s.trace ∧ Q s.storage) (fun r => Within P r.trace)) :
    (atFinish env recCall fuel self args outputPlanes ext).Post
      (fun s => Within P s.trace ∧ Q s.storage) (fun r => Within P r.trace) := by
  unfold atFinish
  exact h.stepS 16
    (fun s hs => renderDispatch_steps env self args s 16 (Or.inr ⟨rfl, hQ _ hs⟩)) hP

/-- From the end of the render to the end of the call. -/
theorem renderRoIBody_within {σ : Type} (env : Env σ) (recCall : RecCall σ) (fuel : Nat)
    (self : NodeId) (args : RenderRoIArgs) (outputPlanes : PlaneMap Image) (ext : σ)
    (P : Nat → Prop) (Q : StorageModeEnum → Prop) (hP : P 13) (hP' : P 14)
    (h : (atFinish env recCall fuel self args outputPlanes ext).Post
      (fun s => Within P s.trace ∧ Q s.storage) (fun r => Within P r.trace))
    (r : Result σ) (hr : renderRoIBody env recCall fuel self args outputPlanes ext = some r) :
    Within P r.trace := by
  rw [renderRoIBody_eq_atFinish] at hr
  have h1 := (h.stepS 13 (fun s _ => finishCodes_steps env recCall self args s) hP).stepS 14
    (fun s _ => returnPlanes_steps env args s) hP'
  have h2 : ((atFinish env recCall fuel self args outputPlanes ext).andThen
      (fromFinish env recCall self args)).Post
      (fun s => Within P s.trace ∧ Q s.storage) (fun r => Within P r.trace) := by
    have : fromFinish env recCall self args
        = fun s => (finishCodes env recCall self args s).andThen (returnPlanes env args) := by
      funext s
      rfl
    rw [this, ← Flow.andThen_assoc]
    exact h1
  exact h2.of_result hr (fun s hs => hs.1)

/-- What storage selection does, case by case. -/
theorem chooseStorage_spec {σ : Type} (env : Env σ) (self : NodeId) (args : RenderRoIArgs)
    (s : St σ) :
    (chooseStorage env self args s).Post
      (fun s' => ¬ openGLDisabled env self s ∧ s'.storage = amendedStorage env self args s)
      (fun r => openGLDisabled env self s ∧ r.outcome = .returned .eRenderRoIRetCodeFailed) := by
  unfold chooseStorage amendedStorage openGLDisabled cpuFallback
  dsimp only
  by_cases hd : env.isDiskCacheNode self = true
  · simp [hd, Flow.Post]
  · by_cases hg : s.glContext.isSome = true
    · cases hsup : s.frameArgs.currentOpenglSupport
      · simp [hd, hg, hsup, Flow.Post]
      · by_cases ha : args.allowGPURendering = true
        · by_cases hf : env.isForceCachingEnabled self = true
          · simp [hd, hg, hsup, ha, hf, Flow.Post]
          · by_cases hv : s.frameArgs.visitsCount > 1
            · simp only [hd, hg, hsup, ha, hf, hv, Flow.Post]
              simp
              rw [if_neg (fun h => absurd h.1 (by omega))]
            · by_cases ht : args.time = args.callerRenderTime
              · simp only [hd, hg, hsup, ha, hf, hv, ht, Flow.Post]
                by_cases hw : s.roi.width ≥ env.getCurrentOpenGLRendererMaxTextureSize s.ext
                · simp [hw, Flow.Post]
                  rw [if_neg (fun h => absurd h.2.1 (by omega))]
                · by_cases hh : s.roi.height ≥ env.getCurrentOpenGLRendererMaxTextureSize s.ext
                  · simp [hw, hh, Flow.Post]
                    rw [if_neg (fun h => absurd h.2.2 (by omega))]
                  · simp [hw, hh, Flow.Post]
                    rw [if_pos ⟨by omega, by omega, by omega⟩]
              · simp [hd, hg, hsup, ha, hf, hv, ht, Flow.Post]
        · simp [hd, hg, hsup, ha, Flow.Post]
      · by_cases hp : env.isPluginOpenGLEnabled self = true
        · simp [hd, hg, hsup, hp, Flow.Post]
        · simp [hd, hg, hsup, hp, Flow.Post, St.returns]
    · simp [hd, hg, Flow.Post]

/-! ## Upstream calls that fail -/

theorem failure_stage {e : Event} {k : Nat} (hk : k ∈ e.stages) (h4 : k ≠ 4) (h5 : k ≠ 5)
    (h10 : k ≠ 10) : e.upstreamFailure = none := by
  cases e with
  | renderRoI site callee a o =>
    cases site <;> simp [Event.stages] at hk <;> first | rfl | omega
  | renderInputImagesForRoI rect o =>
    simp [Event.stages] at hk
    omega
  | _ => rfl

theorem clean_nil : Clean [] := by
  intro e he
  cases he

theorem clean_append {t t' : List Event} : Clean (t ++ t') ↔ Clean t ∧ Clean t' := by
  simp only [Clean, List.mem_append]
  constructor
  · intro h
    exact ⟨fun e he => h e (Or.inl he), fun e he => h e (Or.inr he)⟩
  · rintro ⟨h1, h2⟩ e (he | he)
    · exact h1 e he
    · exact h2 e he

theorem clean_singleton {e : Event} : Clean [e] ↔ e.upstreamFailure = none := by
  simp [Clean]

theorem clean_of_emits {k : Nat} {t t' : List Event} (h : Emits k t t') (h4 : k ≠ 4)
    (h5 : k ≠ 5) (h10 : k ≠ 10) (ht : Clean t) : Clean t' := by
  obtain ⟨evs, rfl, hevs⟩ := h
  exact clean_append.2 ⟨ht, fun e he => failure_stage (hevs e he) h4 h5 h10⟩

theorem Step.clean {σ : Type} {k : Nat} {s s' : St σ} (h : Step k s s') (h4 : k ≠ 4)
    (h5 : k ≠ 5) (h10 : k ≠ 10) (ht : Clean s.trace) : Clean s'.trace :=
  clean_of_emits h.emits h4 h5 h10 ht

theorem Flow.Steps.guarded {σ : Type} {k : Nat} {s : St σ} {f : Flow σ} (h : f.Steps k s)
    (h4 : k ≠ 4) (h5 : k ≠ 5) (h10 : k ≠ 10) (ht : Clean s.trace) : f.Guarded := by
  cases f with
  | next s' => exact h.clean h4 h5 h10 ht
  | done r => exact Or.inl (clean_of_emits h h4 h5 h10 ht)
  | outOfFuel => trivial

theorem Flow.Guarded.andThen_guarded {σ : Type} {f : Flow σ} {g : St σ → Flow σ} (hf : f.Guarded)
    (hg : ∀ s, Clean s.trace → (g s).Guarded) : (f.andThen g).Guarded :=
  Flow.Post.andThen_post hf hg

theorem guarded_returns {σ : Type} (s : St σ) (code : RenderRoIRetCode) (h : Clean s.trace) :
    (s.returns code).Guarded :=
  Or.inl h

theorem guarded_endsWith {σ : Type} (s : St σ) (o : Outcome) (h : Clean s.trace) :
    (s.endsWith o).Guarded :=
  Or.inl h

theorem guarded_next {σ : Type} (s : St σ) (h : Clean s.trace) : (Flow.next s).Guarded :=
  h

theorem fetchUpstream_guarded {σ : Type} (env : Env σ) (recCall : RecCall σ)
    (args : RenderRoIArgs) (l : List (ImageComponents × Option NodeId)) (s : St σ)
    (hs : Clean s.trace) : (fetchUpstream env recCall args l s).Guarded := by
  induction l generalizing s with
  | nil => exact hs
  | cons hd tl ih =>
    obtain ⟨comp, node⟩ := hd
    cases node with
    | none =>
      simp only [fetchUpstream]
      exact ih s hs
    | some node =>
      simp only [fetchUpstream]
      generalize recCall node _ _ _ = rc
      cases rc with
      | none => trivial
      | some r =>
        obtain ⟨o, planes, tr, ex⟩ := r
        cases o with
        | returned c =>
          cases c with
          | eRenderRoIRetCodeOk =>
            have hc : Clean (s.trace ++ [Event.renderRoI .passThroughPlane node
                { args with preComputedRoD := RectD.cleared, components := [comp] }
                (.returned .eRenderRoIRetCodeOk)]) :=
              clean_append.2 ⟨hs, clean_singleton.2 rfl⟩
            cases planes with
            | nil => simpa [St.returns, Flow.Guarded, Flow.Post] using Or.inl hc
            | cons p ps =>
              simp only [reduceCtorEq, or_self, if_false]
              exact ih _ hc
          | eRenderRoIRetCodeAborted =>
            simp only [reduceCtorEq, true_or, if_true, St.returns, Flow.Guarded, Flow.Post]
            exact Or.inr ⟨s.trace, _, .eRenderRoIRetCodeAborted, rfl, hs, rfl, rfl⟩
          | eRenderRoIRetCodeFailed =>
            simp only [reduceCtorEq, or_true, if_true, St.returns, Flow.Guarded, Flow.Post]
            exact Or.inr ⟨s.trace, _, .eRenderRoIRetCodeFailed, rfl, hs, rfl, rfl⟩
        | raised =>
          simp only [St.endsWith, Flow.Guarded, Flow.Post]
          exact Or.inl (clean_append.2 ⟨hs, clean_singleton.2 rfl⟩)
        | undefinedBehaviour =>
          simp only [St.endsWith, Flow.Guarded, Flow.Post]
          exact Or.inl (clean_append.2 ⟨hs, clean_singleton.2 rfl⟩)

theorem passThroughPlanes_guarded {σ : Type} (env : Env σ) (recCall : RecCall σ) (self : NodeId)
    (args : RenderRoIArgs) (s : St σ) (hs : Clean s.trace) :
    (passThroughPlanes env recCall self args s).Guarded := by
  unfold passThroughPlanes
  dsimp only
  refine Flow.Guarded.andThen_guarded (fetchUpstream_guarded env recCall args _ _ ?_) ?_
  · exact clean_append.2 ⟨hs, clean_singleton.2 rfl⟩
  · intro s2 h2
    split
    · exact Or.inl h2
    · exact h2

theorem tailCall_guarded {σ : Type} (recCall : RecCall σ) (site : CallSite) (callee : NodeId)
    (a : RenderRoIArgs) (s : St σ) (hsite : site ≠ .passThroughPlane ∧ site ≠ .identityInput)
    (hs : Clean s.trace) : (tailCall recCall site callee a s).Guarded := by
  unfold tailCall
  split
  · trivial
  · refine Or.inl (clean_append.2 ⟨hs, clean_singleton.2 ?_⟩)
    cases site <;> simp_all [Event.upstreamFailure]

theorem identityRedirect_guarded {σ : Type} (env : Env σ) (recCall : RecCall σ) (self : NodeId)
    (args : RenderRoIArgs) (t : Int) (v : Nat) (nb : Int) (s : St σ) (hs : Clean s.trace) :
    (identityRedirect env recCall self args t v nb s).Guarded := by
  have h1 : Clean (s.trace ++ [Event.getFrameRange]) :=
    clean_append.2 ⟨hs, clean_singleton.2 rfl⟩
  unfold identityRedirect
  dsimp only
  split
  · exact Or.inl h1
  · generalize recCall _ _ _ _ = rc
    cases rc with
    | none => trivial
    | some r =>
      obtain ⟨o, planes, tr, ex⟩ := r
      cases o with
      | returned c =>
        cases c with
        | eRenderRoIRetCodeOk =>
          have h2 : ∀ a : RenderRoIArgs, ∀ i : NodeId, Clean (s.trace ++ [Event.getFrameRange] ++
              [Event.renderRoI .identityInput i a (.returned .eRenderRoIRetCodeOk)]) :=
            fun a i => clean_append.2 ⟨h1, clean_singleton.2 rfl⟩
          dsimp only
          split
          · split
            · exact Or.inl (h2 _ _)
            · rename_i hconv
              have hstep := convertIdentityPlanes_step env args _ _ _ _ _ _ 14 (Or.inr rfl) hconv
              exact Or.inl (hstep.clean (by decide) (by decide) (by decide) (h2 _ _))
          · exact Or.inl (h2 _ _)
        | eRenderRoIRetCodeAborted =>
          exact Or.inr ⟨s.trace ++ [Event.getFrameRange], _, .eRenderRoIRetCodeAborted, rfl, h1,
            rfl, rfl⟩
        | eRenderRoIRetCodeFailed =>
          exact Or.inr ⟨s.trace ++ [Event.getFrameRange], _, .eRenderRoIRetCodeFailed, rfl, h1,
            rfl, rfl⟩
      | raised => exact Or.inl (clean_append.2 ⟨h1, clean_singleton.2 rfl⟩)
      | undefinedBehaviour => exact Or.inl (clean_append.2 ⟨h1, clean_singleton.2 rfl⟩)

theorem scaleAfterIdentity_trace {σ : Type} (args : RenderRoIArgs) (s : St σ) :
    (scaleAfterIdentity args s).trace = s.trace := by
  unfold scaleAfterIdentity
  split <;> rfl

theorem identityPhase_guarded {σ : Type} (env : Env σ) (recCall : RecCall σ) (self : NodeId)
    (args : RenderRoIArgs) (s : St σ) (hs : Clean s.trace) :
    (identityPhase env recCall self args s).Guarded := by
  unfold identityPhase
  dsimp only
  have hq : Clean (identityQuery env self args
      { s with viewInvariance := env.isViewInvariant self }).2.trace :=
    (identityQuery_step env self args { s with viewInvariance := env.isViewInvariant self } 9
      (Or.inr rfl)).clean (by decide) (by decide) (by decide) hs
  have h1 : Clean (scaleAfterIdentity args (identityQuery env self args
      { s with viewInvariance := env.isViewInvariant self }).2).trace := by
    rw [scaleAfterIdentity_trace]
    exact hq
  split
  · exact Or.inl hq
  · split
    · split
      · exact Or.inl h1
      · split
        · exact tailCall_guarded _ _ _ _ _ (by simp) h1
        · exact identityRedirect_guarded env recCall self args _ _ _ _ h1
    · split
      · exact tailCall_guarded _ _ _ _ _ (by simp) h1
      · exact h1

theorem renderInputImages_guarded {σ : Type} (env : Env σ) (self : NodeId)
    (args : RenderRoIArgs) (l done : List RectToRender) (s : St σ) (hs : Clean s.trace) :
    (renderInputImages env self args l done s).Guarded := by
  induction l generalizing done s with
  | nil => exact hs
  | cons r tl ih =>
    simp only [renderInputImages]
    split
    · exact ih _ _ hs
    · generalize env.renderInputImagesForRoI _ _ _ _ _ _ _ _ _ _ _ _ _ _ = res
      obtain ⟨⟨o, imgs⟩, ex⟩ := res
      cases o with
      | returned c =>
        cases c with
        | eRenderRoIRetCodeOk =>
          exact ih _ _ (clean_append.2 ⟨hs, clean_singleton.2 rfl⟩)
        | eRenderRoIRetCodeAborted =>
          exact Or.inr ⟨s.trace, _, .eRenderRoIRetCodeAborted, rfl, hs, rfl, rfl⟩
        | eRenderRoIRetCodeFailed =>
          exact Or.inr ⟨s.trace, _, .eRenderRoIRetCodeFailed, rfl, hs, rfl, rfl⟩
      | raised => exact Or.inl (clean_append.2 ⟨hs, clean_singleton.2 rfl⟩)
      | undefinedBehaviour => exact Or.inl (clean_append.2 ⟨hs, clean_singleton.2 rfl⟩)

theorem preRenderInputs_guarded {σ : Type} (env : Env σ) (self : NodeId)
    (args : RenderRoIArgs) (s : St σ) (hs : Clean s.trace) :
    (preRenderInputs env self args s).Guarded := by
  unfold preRenderInputs
  split
  · exact Or.inl hs
  · exact renderInputImages_guarded env self args _ _ _ hs

theorem renderAllAgain_guarded {σ : Type} (env : Env σ) (self : NodeId)
    (args : RenderRoIArgs) (fuel : Nat) (s : St σ) (hs : Clean s.trace) :
    (renderAllAgain env self args fuel s).Guarded := by
  unfold renderAllAgain
  split
  · have h0 : Step 9 s { s with rectsToRender := [], rectsLeftToRender := s.fullRectsToRender } := by
      simp [step_iff, emits_self]
    split
    · rename_i heq
      have h1 := Step.trans_step h0 (OptimizeResult.Steps.of_finished_optimize heq
        (optimizeRectsToRender_steps env self _ _ _ _ fuel 9 (Or.inl rfl) _ _ _))
      exact renderInputImages_guarded env self args _ _ _
        (h1.clean (by decide) (by decide) (by decide) hs)
    · rename_i heq
      have h1 := Step.trans_step h0 (OptimizeResult.Steps.of_threw_optimize heq
        (optimizeRectsToRender_steps env self _ _ _ _ fuel 9 (Or.inl rfl) _ _ _))
      exact Or.inl (h1.clean (by decide) (by decide) (by decide) hs)
    · trivial
  · exact renderInputImages_guarded env self args _ _ _ hs

theorem redoCacheLookupPhase_guarded {σ : Type} (env : Env σ) (self : NodeId)
    (args : RenderRoIArgs) (fuel : Nat) (s : St σ) (hs : Clean s.trace) :
    (redoCacheLookupPhase env self args fuel s).Guarded := by
  unfold redoCacheLookupPhase
  have hr := Step.trans_step (redoLookupLoop_step env self args [] s.planes s 8 (Or.inl rfl))
    (afterRedoLookup_step (redoLookupLoop env self args [] s.planes s) 8 (Or.inl rfl))
  have hc := hr.clean (by decide) (by decide) (by decide) hs
  split
  · split
    · exact renderAllAgain_guarded env self args fuel _ hc
    · exact hc
  · exact hs

theorem Flow.Guarded.step_guarded {σ : Type} {f : Flow σ} {g : St σ → Flow σ} (k : Nat)
    (hf : f.Guarded) (hg : ∀ s, (g s).Steps k s) (h4 : k ≠ 4) (h5 : k ≠ 5) (h10 : k ≠ 10) :
    (f.andThen g).Guarded :=
  hf.andThen_guarded fun s hs => (hg s).guarded h4 h5 h10 hs

theorem Flow.Post.and {σ : Type} {N N' : St σ → Prop} {D D' : Result σ → Prop} {f : Flow σ}
    (h : f.Post N D) (h' : f.Post N' D') :
    f.Post (fun s => N s ∧ N' s) (fun r => D r ∧ D' r) := by
  cases f with
  | next s => exact ⟨h, h'⟩
  | done r => exact ⟨h, h'⟩
  | outOfFuel => trivial

theorem atPlanes_guarded {σ : Type} (env : Env σ) (recCall : RecCall σ) (self : NodeId)
    (args : RenderRoIArgs) (outputPlanes : PlaneMap Image) (ext : σ) :
    (atPlanes env recCall self args outputPlanes ext).Guarded := by
  unfold atPlanes
  have h0 : (earlyOut env recCall self args (St.entry outputPlanes ext)).Guarded :=
    (earlyOut_steps env recCall self args _).guarded (by decide) (by decide) (by decide)
      clean_nil
  exact ((((h0.step_guarded 1 (setupFrameArgs_steps env self args) (by decide) (by decide)
    (by decide)).step_guarded 1 (scalePolicy_steps env self args) (by decide) (by decide)
    (by decide)).step_guarded 2 (getRoD_steps env self args) (by decide) (by decide)
    (by decide)).step_guarded 2 (computeRoI_steps env args) (by decide) (by decide)
    (by decide)).step_guarded 3 (neededPlanes_steps env self args) (by decide) (by decide) (by decide)

theorem chooseStorage_guarded {σ : Type} (env : Env σ) (self : NodeId) (args : RenderRoIArgs)
    (s : St σ) (hs : Clean s.trace) : (chooseStorage env self args s).Guarded :=
  (chooseStorage_emits env self args s).mono_post
    (fun _ h => clean_of_emits h (by decide) (by decide) (by decide) hs)
    (fun _ h => Or.inl (clean_of_emits h (by decide) (by decide) (by decide) hs))

theorem atInputs_guarded {σ : Type} (env : Env σ) (recCall : RecCall σ) (fuel : Nat)
    (self : NodeId) (args : RenderRoIArgs) (outputPlanes : PlaneMap Image) (ext : σ) :
    (atInputs env recCall fuel self args outputPlanes ext).Guarded := by
  unfold atInputs atRectsLeft atLookup atStorage atIdentity
  have h4 := (atPlanes_guarded env recCall self args outputPlanes ext).andThen_guarded
    (passThroughPlanes_guarded env recCall self args)
  have h5 := h4.andThen_guarded (identityPhase_guarded env recCall self args)
  have h7 := (h5.step_guarded 6 (concatenateTransforms_steps env self args) (by decide) (by decide)
    (by decide)).step_guarded 7 (computeBounds_steps env args) (by decide) (by decide) (by decide)
  have h7' := h7.andThen_guarded (chooseStorage_guarded env self args)
  have h8 := (((h7'.step_guarded 7 (openGLRenderScale_steps env args) (by decide) (by decide)
    (by decide)).step_guarded 8 (prepareLookup_steps env self args) (by decide) (by decide)
    (by decide)).step_guarded 8 (cacheLookup_steps env self args) (by decide) (by decide)
    (by decide)).step_guarded 8 (afterLookup_steps env self args) (by decide) (by decide) (by decide)
  exact (h8.step_guarded 9 (rectsLeft_steps env self args) (by decide) (by decide) (by decide)).step_guarded 9
    (fun s => rectsToRenderPhase_steps env self args fuel s) (by decide) (by decide) (by decide)

theorem Flow.Steps.cleanPost {σ : Type} {k : Nat} {s : St σ} {f : Flow σ} (h : f.Steps k s)
    (h4 : k ≠ 4) (h5 : k ≠ 5) (h10 : k ≠ 10) (ht : Clean s.trace) :
    f.Post (fun s' => Clean s'.trace) (fun r => Clean r.trace) := by
  cases f with
  | next s' => exact h.clean h4 h5 h10 ht
  | done r => exact clean_of_emits h h4 h5 h10 ht
  | outOfFuel => trivial

/-- Sequencing for "no upstream call failed so far". -/
theorem Flow.Post.stepClean {σ : Type} {D : Result σ → Prop} {f : Flow σ} {g : St σ → Flow σ}
    (k : Nat) (hf : f.Post (fun s => Clean s.trace) D) (hg : ∀ s, (g s).Steps k s)
    (h4 : k ≠ 4) (h5 : k ≠ 5) (h10 : k ≠ 10) (hD : ∀ r, Clean r.trace → D r) :
    (f.andThen g).Post (fun s => Clean s.trace) D :=
  hf.andThen_post fun s hs => ((hg s).cleanPost h4 h5 h10 hs).mono_post (fun _ h => h) hD

/-- How a call of `renderRoI` ends as to upstream calls: either none of them failed, or the
call ends on the first that failed, returns its code, and did nothing of the sections after
the render of the input images. -/
theorem renderRoIBody_upstream {σ : Type} (env : Env σ) (recCall : RecCall σ) (fuel : Nat)
    (self : NodeId) (args : RenderRoIArgs) (outputPlanes : PlaneMap Image) (ext : σ)
    (r : Result σ) (hr : renderRoIBody env recCall fuel self args outputPlanes ext = some r) :
    Clean r.trace ∨ (r.Forwards ∧ Within (fun j => j ≤ 10) r.trace) := by
  have hg : (((atInputs env recCall fuel self args outputPlanes ext).andThen
      (preRenderInputs env self args)).andThen
      (redoCacheLookupPhase env self args fuel)).Guarded :=
    ((atInputs_guarded env recCall fuel self args outputPlanes ext).andThen_guarded
      (preRenderInputs_guarded env self args)).andThen_guarded
      (redoCacheLookupPhase_guarded env self args fuel)
  have hw : (((atInputs env recCall fuel self args outputPlanes ext).andThen
      (preRenderInputs env self args)).andThen
      (redoCacheLookupPhase env self args fuel)).Post
      (fun s => Within (fun j => j ≤ 10) s.trace) (fun r => Within (fun j => j ≤ 10) r.trace) :=
    ((atInputs_post env recCall fuel self args outputPlanes ext (fun j => j ≤ 10)
      (fun j hj => by omega)).step_within 10 (preRenderInputs_steps env self args)
      (by decide)).step_within 10
      (fun s => redoCacheLookupPhase_steps env self args fuel s) (by decide)
  have h0 : (((atInputs env recCall fuel self args outputPlanes ext).andThen
      (preRenderInputs env self args)).andThen
      (redoCacheLookupPhase env self args fuel)).Post (fun s => Clean s.trace)
      (fun r => Clean r.trace ∨ (r.Forwards ∧ Within (fun j => j ≤ 10) r.trace)) :=
    (Flow.Post.and hg hw).mono_post (fun _ h => h.1) (fun _ h => h.1.elim Or.inl fun hf => Or.inr ⟨hf, h.2⟩)
  have h1 := (((h0.stepClean 11 (allocatePlanes_steps env self args) (by decide) (by decide)
    (by decide) (fun _ h => Or.inl h)).stepClean 12
    (fun s => renderDispatch_steps env self args s 12 (Or.inl rfl)) (by decide) (by decide)
    (by decide) (fun _ h => Or.inl h)).stepClean 13
    (finishCodes_steps env recCall self args) (by decide) (by decide)
    (by decide) (fun _ h => Or.inl h)).stepClean 14
    (returnPlanes_steps env args) (by decide) (by decide)
    (by decide) (fun _ h => Or.inl h)
  rw [renderRoIBody_eq_atFinish] at hr
  have h2 : ((atFinish env recCall fuel self args outputPlanes ext).andThen
      (fromFinish env recCall self args)).Post (fun s => Clean s.trace)
      (fun r => Clean r.trace ∨ (r.Forwards ∧ Within (fun j => j ≤ 10) r.trace)) := by
    have : fromFinish env recCall self args
        = fun s => (finishCodes env recCall self args s).andThen (returnPlanes env args) := by
      funext s
      rfl
    rw [this, ← Flow.andThen_assoc]
    exact h1
  exact h2.of_result hr (fun s hs => Or.inl hs)

/-! ## The planes after the cache look-up -/

theorem St.Keeps.refl_keeps {σ : Type} (s : St σ) : s.Keeps s := ⟨rfl, rfl, rfl⟩

theorem St.Keeps.trans_keeps {σ : Type} {s s' s'' : St σ} (h : s.Keeps s') (h' : s'.Keeps s'') :
    s.Keeps s'' :=
  ⟨h'.1.trans h.1, h'.2.1.trans h.2.1, h'.2.2.trans h.2.2⟩

theorem insertNew_mem {V : Type} (lt : ImageComponents → ImageComponents → Bool)
    (m : PlaneMap V) (k : ImageComponents) (v : V) (kp : ImageComponents × V)
    (h : kp ∈ PlaneMap.insertNew lt m k v) : kp ∈ m ∨ kp = (k, v) := by
  induction m with
  | nil =>
    simp only [PlaneMap.insertNew, List.mem_singleton] at h
    exact Or.inr h
  | cons hd tl ih =>
    obtain ⟨k0, v0⟩ := hd
    simp only [PlaneMap.insertNew] at h
    split at h
    · rcases List.mem_cons.1 h with h1 | h1
      · exact Or.inr h1
      · exact Or.inl h1
    · split at h
      · rcases List.mem_cons.1 h with h1 | h1
        · exact Or.inl (List.mem_cons.2 (Or.inl h1))
        · rcases ih h1 with h2 | h2
          · exact Or.inl (List.mem_cons.2 (Or.inr h2))
          · exact Or.inr h2
      · exact Or.inl h

theorem PlanesInv.insertNew {lt : ImageComponents → ImageComponents → Bool}
    {m : PlaneMap PlaneToRender} (hm : PlanesInv m) (k : ImageComponents) (v : PlaneToRender)
    (hv : v.downscaleImage = v.fullscaleImage) : PlanesInv (PlaneMap.insertNew lt m k v) := by
  intro kp hkp
  rcases insertNew_mem lt m k v kp hkp with h | h
  · exact hm kp h
  · rw [h]
    exact hv

theorem planesInv_nil : PlanesInv [] := by
  intro kp h
  cases h

theorem cacheLookupOnce_keeps {σ : Type} (env : Env σ) (self : NodeId) (args : RenderRoIArgs)
    (key : ImageKey) (plane : ImageComponents) (s : St σ) :
    s.Keeps (cacheLookupOnce env self args key plane s).2 :=
  ⟨rfl, rfl, rfl⟩

theorem cacheLookups_keeps {σ : Type} (env : Env σ) (self : NodeId) (args : RenderRoIArgs)
    (plane : ImageComponents) (remaining n : Nat) (s : St σ) :
    s.Keeps (cacheLookups env self args plane remaining n s).2 := by
  induction remaining generalizing n s with
  | zero => exact St.Keeps.refl_keeps s
  | succ m ih =>
    simp only [cacheLookups]
    split
    · exact cacheLookupOnce_keeps env self args _ plane s
    · exact (cacheLookupOnce_keeps env self args _ plane s).trans_keeps (ih _ _)

theorem lookupPlane_keeps {σ : Type} (env : Env σ) (self : NodeId) (args : RenderRoIArgs)
    (plane : ImageComponents) (s : St σ) : s.Keeps (lookupPlane env self args plane s).2 := by
  unfold lookupPlane
  dsimp only
  split
  · exact cacheLookups_keeps env self args plane _ _ s
  · exact St.Keeps.refl_keeps s

theorem dropIfByPass_keeps {σ : Type} (env : Env σ) (found : Option Image × St σ) :
    found.2.Keeps (dropIfByPass env found).2 := by
  unfold dropIfByPass
  split
  · exact ⟨rfl, rfl, rfl⟩
  · exact St.Keeps.refl_keeps _

theorem recheckPlanes_keeps {σ : Type} (env : Env σ)
    (l : List (ImageComponents × PlaneToRender)) (newPlanes : PlaneMap PlaneToRender)
    (s : St σ) (hl : PlanesInv l) (hn : PlanesInv newPlanes) :
    s.Keeps (recheckPlanes env l newPlanes s).2
      ∧ PlanesInv (recheckPlanes env l newPlanes s).1 := by
  induction l generalizing newPlanes s with
  | nil => exact ⟨St.Keeps.refl_keeps s, hn⟩
  | cons hd tl ih =>
    obtain ⟨k, plane⟩ := hd
    have htl : PlanesInv tl := fun kp h => hl kp (List.mem_cons.2 (Or.inr h))
    have hpl : plane.downscaleImage = plane.fullscaleImage := hl (k, plane) (List.mem_cons.2 (Or.inl rfl))
    have key : ∀ (np : PlaneMap PlaneToRender) (s1 : St σ), s.Keeps s1 → PlanesInv np →
        (s.Keeps (recheckPlanes env tl np s1).2 ∧ PlanesInv (recheckPlanes env tl np s1).1) :=
      fun np s1 hk hnp => ⟨hk.trans_keeps (ih np s1 htl hnp).1, (ih np s1 htl hnp).2⟩
    simp only [recheckPlanes]
    split
    · split
      · exact key _ _ ⟨rfl, rfl, rfl⟩ (hn.insertNew k _ rfl)
      · exact key _ _ ⟨rfl, rfl, rfl⟩ hn
    · exact key _ _ (St.Keeps.refl_keeps s) (hn.insertNew k plane hpl)

/-- The invariant of the look-up loop. -/
theorem lookupStep_inv {σ : Type} (env : Env σ) (self : NodeId) (args : RenderRoIArgs)
    (plane : ImageComponents) (missingPlane : Bool) (s : St σ)
    (h : s.rectsToRender = [] ∧ PlanesInv s.planes) :
    (lookupStep env self args plane missingPlane s).2.rectsToRender = []
      ∧ PlanesInv (lookupStep env self args plane missingPlane s).2.planes := by
  have hfound := (lookupPlane_keeps env self args plane s).trans_keeps
    (dropIfByPass_keeps env (lookupPlane env self args plane s))
  obtain ⟨h1, h2, -⟩ := hfound
  unfold lookupStep
  dsimp only
  split
  · exact h
  · split
    · split
      · split
        · refine ⟨by simp [insertPlane, h1, h.1], ?_⟩
          simp only [insertPlane]
          rw [h2]
          exact h.2.insertNew _ _ rfl
        · exact ⟨by simp [h1, h.1], by simp only []; rw [h2]; exact h.2⟩
      · refine ⟨by simp [insertPlane, h1, h.1], ?_⟩
        simp only [insertPlane]
        rw [h2]
        exact h.2.insertNew _ _ rfl
    · split
      · have hr := recheckPlanes_keeps env
          (dropIfByPass env (lookupPlane env self args plane s)).2.planes []
          (dropIfByPass env (lookupPlane env self args plane s)).2
          (by rw [h2]; exact h.2) planesInv_nil
        refine ⟨by simp [insertPlane, hr.1.1, h1, h.1], ?_⟩
        simp only [insertPlane]
        exact hr.2.insertNew _ _ rfl
      · refine ⟨by simp [insertPlane, h1, h.1], ?_⟩
        simp only [insertPlane]
        rw [h2]
        exact h.2.insertNew _ _ rfl

theorem lookupLoop_inv {σ : Type} (env : Env σ) (self : NodeId) (args : RenderRoIArgs)
    (l : List ImageComponents) (missingPlane : Bool) (s : St σ)
    (h : s.rectsToRender = [] ∧ PlanesInv s.planes) :
    (lookupLoop env self args l missingPlane s).rectsToRender = []
      ∧ PlanesInv (lookupLoop env self args l missingPlane s).planes := by
  induction l generalizing missingPlane s with
  | nil => exact h
  | cons plane rest ih =>
    simp only [lookupLoop]
    exact ih _ _ (lookupStep_inv env self args plane missingPlane s h)

theorem Flow.Post.trivial_ {σ : Type} (f : Flow σ) : f.Post (fun _ => True) (fun _ => True) := by
  cases f <;> trivial

/-- When the rectangles left to render are about to be determined, `rectsToRender` is empty,
every plane holds the same image at both scales, and no second look-up is asked for. -/
theorem atRectsLeft_inv {σ : Type} (env : Env σ) (recCall : RecCall σ) (self : NodeId)
    (args : RenderRoIArgs) (outputPlanes : PlaneMap Image) (ext : σ) :
    (atRectsLeft env recCall self args outputPlanes ext).Post
      (fun s => s.rectsToRender = [] ∧ PlanesInv s.planes ∧ s.redoCacheLookup = false)
      (fun _ => True) := by
  unfold atRectsLeft atLookup
  refine Flow.Post.andThen_post (N := fun s => s.rectsToRender = [] ∧ PlanesInv s.planes) ?_ ?_
  · refine Flow.Post.andThen_post (N := fun s => s.rectsToRender = [] ∧ PlanesInv s.planes) ?_ ?_
    · refine Flow.Post.andThen_post (Flow.Post.trivial_ _) ?_
      intro s _
      simp only [prepareLookup, Flow.Post]
      exact ⟨trivial, planesInv_nil⟩
    · intro s hs
      exact lookupLoop_inv env self args _ _ s hs
  · intro s hs
    unfold afterLookup
    dsimp only
    have h1 : (if s.glContextLocker = true then s.emit Event.glContextLockerDettach else s).rectsToRender
        = s.rectsToRender
        ∧ (if s.glContextLocker = true then s.emit Event.glContextLockerDettach else s).planes
        = s.planes := by
      split <;> exact ⟨rfl, rfl⟩
    generalize (if s.glContextLocker = true then s.emit Event.glContextLockerDettach else s) = s1
      at h1 ⊢
    split
    · trivial
    · refine ⟨?_, ?_, rfl⟩
      · split <;> simp [h1.1, hs.1]
      · have : ∀ s2 : St σ, s2.planes = s1.planes → PlanesInv s2.planes := by
          intro s2 h2
          rw [h2, h1.2]
          exact hs.2
        split <;> exact this _ rfl

theorem paintStrokeRoD_keeps {σ : Type} (env : Env σ) (self : NodeId) (args : RenderRoIArgs)
    (s : St σ) : s.Keeps (paintStrokeRoD env self args s) := by
  unfold paintStrokeRoD
  dsimp only
  split <;> exact ⟨rfl, rfl, rfl⟩

theorem clearStrokeBitmaps_keeps {σ : Type} (env : Env σ)
    (l : List (ImageComponents × PlaneToRender)) (s : St σ) :
    s.Keeps (clearStrokeBitmaps env l s) := by
  induction l generalizing s with
  | nil => exact St.Keeps.refl_keeps s
  | cons hd tl ih =>
    obtain ⟨k, plane⟩ := hd
    simp only [clearStrokeBitmaps]
    exact St.Keeps.trans_keeps ⟨rfl, rfl, rfl⟩ (ih _)

theorem clearLastStroke_keeps {σ : Type} (env : Env σ) (s : St σ) :
    s.Keeps (clearLastStroke env s) := by
  unfold clearLastStroke
  split
  · exact St.Keeps.trans_keeps ⟨rfl, rfl, rfl⟩ (clearStrokeBitmaps_keeps env _ _)
  · exact St.Keeps.refl_keeps s

theorem queryRestToRender_keeps {σ : Type} (env : Env σ) (img : Image) (s : St σ) :
    s.Keeps (queryRestToRender env img s) := by
  unfold queryRestToRender
  split <;> exact ⟨rfl, rfl, rfl⟩

theorem strokeRestToRender_keeps {σ : Type} (env : Env σ) (s : St σ) :
    s.Keeps (strokeRestToRender env s) := by
  unfold strokeRestToRender
  split <;> exact ⟨rfl, rfl, rfl⟩

theorem noTilesRestToRender_keeps {σ : Type} (s : St σ) :
    s.Keeps (noTilesRestToRender s)
      ∧ ((noTilesRestToRender s).rectsLeftToRender = [] → s.rectsLeftToRender = []) := by
  unfold noTilesRestToRender
  split
  · exact ⟨⟨rfl, rfl, rfl⟩, fun h => by simp at h⟩
  · exact ⟨St.Keeps.refl_keeps s, fun h => h⟩

theorem dropPartialHit_keeps {σ : Type} (s : St σ) :
    (dropPartialHit s).rectsLeftToRender = [] → s.Keeps (dropPartialHit s) := by
  unfold dropPartialHit
  split
  · intro h
    simp at h
  · intro _
    exact St.Keeps.refl_keeps s

/-- When nothing is left to render, determining it has not touched `rectsToRender`, the planes
and the request for a second look-up. -/
theorem rectsLeft_keeps {σ : Type} (env : Env σ) (self : NodeId) (args : RenderRoIArgs)
    (s s' : St σ) (h : rectsLeft env self args s = .next s')
    (hrest : s'.rectsLeftToRender = []) : s.Keeps s' := by
  unfold rectsLeft at h
  dsimp only at h
  split at h
  · simp only [Flow.next.injEq] at h
    subst h
    simp [St.fullRectsToRender] at hrest
  · rename_i img heq
    simp only [Flow.next.injEq] at h
    subst h
    have h4 := noTilesRestToRender_keeps (dropPartialHit (strokeRestToRender env
      (queryRestToRender env img (clearLastStroke env (paintStrokeRoD env self args s)))))
    have h3 := dropPartialHit_keeps (strokeRestToRender env
      (queryRestToRender env img (clearLastStroke env (paintStrokeRoD env self args s))))
      (h4.2 hrest)
    exact ((((paintStrokeRoD_keeps env self args s).trans_keeps (clearLastStroke_keeps env _)).trans_keeps
      (queryRestToRender_keeps env img _)).trans_keeps (strokeRestToRender_keeps env _)).trans_keeps
      (h3.trans_keeps h4.1)

/-! ## The claims -/

theorem early_of_stage {e : Event} (h : ∃ j ∈ e.stages, j ≤ 5) :
    e.isCacheLookup = false ∧ e.isAllocation = false ∧ e.isDispatch = false := by
  obtain ⟨j, hj, hle⟩ := h
  cases e <;> simp [Event.stages, Event.isCacheLookup, Event.isAllocation, Event.isDispatch] at hj ⊢
  all_goals omega

theorem identityQuery_out {σ : Type} (env : Env σ) (self : NodeId) (args : RenderRoIArgs)
    (s : St σ) : (identityQuery env self args s).2.out = s.out := by
  unfold identityQuery
  dsimp only
  repeat' split
  all_goals rfl

theorem identityRedirect_eq {σ : Type} (env : Env σ) (recCall : RecCall σ) (self : NodeId)
    (args : RenderRoIArgs) (t : Int) (v : Nat) (n : Int) (inp : NodeId) (s : St σ)
    (hin : env.getInput self n = some inp) (hknob : env.hasChannelSelectorKnob self n = false) :
    identityRedirect env recCall self args t v n s
      = match recCall inp { args with time := t, view := v, preComputedRoD := RectD.cleared,
                                      components := s.requestedComponents } []
            (env.getFrameRange self s.nodeHash s.ext) with
        | none => .outOfFuel
        | some r =>
          .done ⟨r.outcome,
            if r.outcome = .returned .eRenderRoIRetCodeOk then
              PlaneMap.insertRange env.compLess s.out r.planes
            else s.out,
            s.trace ++ [Event.getFrameRange,
              Event.renderRoI .identityInput inp
                { args with time := t, view := v, preComputedRoD := RectD.cleared,
                            components := s.requestedComponents } r.outcome],
            r.ext⟩ := by
  unfold identityRedirect
  simp only [hin, hknob, Bool.false_eq_true, if_false]
  generalize recCall inp _ _ _ = rc
  cases rc with
  | none => rfl
  | some r =>
    obtain ⟨o, planes, tr, ex⟩ := r
    cases o with
    | returned c => cases c <;> simp [St.returns, St.endsWith]
    | raised => simp [St.returns, St.endsWith]
    | undefinedBehaviour => simp [St.returns, St.endsWith]

theorem Flow.andThen_of_not_next {σ : Type} {f : Flow σ} (g : St σ → Flow σ)
    (h : ∀ s, f ≠ .next s) : f.andThen g = f := by
  cases f with
  | next s => exact absurd rfl (h s)
  | done r => rfl
  | outOfFuel => rfl

theorem scaleAfterIdentity_same {σ : Type} (args : RenderRoIArgs) (s : St σ) :
    (scaleAfterIdentity args s).requestedComponents = s.requestedComponents
      ∧ (scaleAfterIdentity args s).nodeHash = s.nodeHash
      ∧ (scaleAfterIdentity args s).ext = s.ext
      ∧ (scaleAfterIdentity args s).out = s.out
      ∧ (scaleAfterIdentity args s).trace = s.trace := by
  unfold scaleAfterIdentity
  split <;> simp

/-- C1 (identity redirect). The call has reached the identity check in the state `s`, and the
identity query (`isIdentity`, or the pre-pass data) answers "identity of input `n` at time `t`
and view `v`" with `n ≥ 0` (so the effect is not short-circuited as invariant over all views,
which gives `n = -2`), input `n` is the effect `inp`, and the node has no channel-selector knob
for input `n`. Then `renderRoI` calls `inp->renderRoI` once, with `args` where the time is `t`,
the view `v`, the pre-computed region of definition cleared and the components the planes left
to produce locally, on an empty plane map, and ends as that call ends: same code (or same
exception), and on `eRenderRoIRetCodeOk` the planes of `*outputPlanes` are those that the
pass-through left there, with the planes the call returned inserted. Its trace holds no cache
look-up, no allocation and no event of the tile dispatcher. -/
theorem renderRoI_identity_redirect {σ : Type} (env : Env σ) (recCall : RecCall σ) (fuel : Nat)
    (self : NodeId) (args : RenderRoIArgs) (outputPlanes : PlaneMap Image) (ext : σ)
    (s q : St σ) (t : Int) (v : Nat) (n : Int) (inp : NodeId)
    (hs : atIdentity env recCall self args outputPlanes ext = .next s)
    (hq : identityQuery env self args { s with viewInvariance := env.isViewInvariant self }
      = (some (true, t, v, n), q))
    (hn : 0 ≤ n) (hin : env.getInput self n = some inp)
    (hknob : env.hasChannelSelectorKnob self n = false) :
    renderRoIBody env recCall fuel self args outputPlanes ext
        = (recCall inp { args with time := t, view := v, preComputedRoD := RectD.cleared,
                                   components := s.requestedComponents } []
            (env.getFrameRange self q.nodeHash q.ext)).map (fun r =>
            ⟨r.outcome,
             if r.outcome = .returned .eRenderRoIRetCodeOk then
               PlaneMap.insertRange env.compLess s.out r.planes
             else s.out,
             q.trace ++ [Event.getFrameRange,
               Event.renderRoI .identityInput inp
                 { args with time := t, view := v, preComputedRoD := RectD.cleared,
                             components := s.requestedComponents } r.outcome],
             r.ext⟩)
      ∧ ∀ r, renderRoIBody env recCall fuel self args outputPlanes ext = some r →
          ∀ e ∈ r.trace,
            e.isCacheLookup = false ∧ e.isAllocation = false ∧ e.isDispatch = false := by
  have hqs : q = (identityQuery env self args
      { s with viewInvariance := env.isViewInvariant self }).2 := by rw [hq]
  have hreq : q.requestedComponents = s.requestedComponents := by
    rw [hqs]; unfold identityQuery; dsimp only; repeat' split
    all_goals rfl
  have hout : q.out = s.out := by
    rw [hqs]; exact identityQuery_out env self args _
  obtain ⟨h1, h2, h3, h4, h5⟩ := scaleAfterIdentity_same args q
  have hred := identityRedirect_eq env recCall self args t v n inp (scaleAfterIdentity args q)
    hin hknob
  rw [h1, h2, h3, h4, h5, hreq, hout] at hred
  have hnext : ∀ s', identityRedirect env recCall self args t v n (scaleAfterIdentity args q)
      ≠ .next s' := by
    intro s'
    rw [hred]
    generalize recCall inp _ _ _ = rc
    cases rc <;> simp
  have hbody : renderRoIBody env recCall fuel self args outputPlanes ext
      = (identityRedirect env recCall self args t v n (scaleAfterIdentity args q)).result := by
    have hn1 : n ≠ -1 := by omega
    have hn2 : n ≠ -2 := by omega
    have hph : identityPhase env recCall self args s
        = identityRedirect env recCall self args t v n (scaleAfterIdentity args q) := by
      simp only [identityPhase, hq, if_true, hn1, hn2, false_and, if_false]
    rw [renderRoIBody_eq_atIdentity, hs]
    show (fromIdentity env recCall fuel self args s).result = _
    unfold fromIdentity
    rw [hph, Flow.andThen_of_not_next _ hnext, Flow.andThen_of_not_next _ hnext,
      Flow.andThen_of_not_next _ hnext]
  have hafter : Within (fun j => j ≤ 5) s.trace :=
    (atIdentity_post env recCall self args outputPlanes ext (fun j => j ≤ 5)
      (fun j hj => by omega)).of_next hs
  have hqt : Within (fun j => j ≤ 5) q.trace := by
    have := identityQuery_step env self args { s with viewInvariance := env.isViewInvariant self }
      5 (Or.inl rfl)
    rw [← hqs] at this
    exact within_of_emits this.emits (by decide) hafter
  rw [hbody, hred]
  generalize recCall inp _ _ _ = rc
  refine ⟨?_, ?_⟩
  · cases rc <;> rfl
  · intro r hr e he
    apply early_of_stage
    cases rc with
    | none => simp [Flow.result] at hr
    | some r0 =>
      simp only [Flow.result, Option.some.injEq] at hr
      subst hr
      simp only [List.mem_append, List.mem_cons, List.mem_singleton, List.not_mem_nil,
        or_false] at he
      rcases he with he | rfl | rfl
      · exact hqt e he
      · exact ⟨5, by simp [Event.stages], by decide⟩
      · exact ⟨5, by simp [Event.stages], by decide⟩

set_option maxRecDepth 100000 in
/-- The identity redirect on the scene `identityEnv`: the effect 1 is an identity of the effect
2 at time 11, and its call ends as the call of the effect 2 at time 11 does, with the same
planes. -/
theorem renderRoI_identity_redirect_witness :
    (renderRoIBody identityEnv (renderRoI identityEnv 2) 2 1 sceneArgs [] 100).map
        (fun r => (r.outcome, r.planes))
      = (renderRoI identityEnv 2 2 { sceneArgs with time := 11 } [] 100).map
        (fun r => (r.outcome, r.planes))
      ∧ (renderRoI identityEnv 2 2 { sceneArgs with time := 11 } [] 100).map (fun r => r.outcome)
        = some (.returned .eRenderRoIRetCodeOk) := by
  refine ⟨?_, by rfl⟩
  rw [(renderRoI_identity_redirect identityEnv (renderRoI identityEnv 2) 2 1 sceneArgs [] 100
    identityState
    (identityQuery identityEnv 1 sceneArgs
      { identityState with viewInvariance := identityEnv.isViewInvariant 1 }).2
    11 0 0 2 (by rfl) (by rfl) (by decide) (by rfl) (by rfl)).1]
  rfl

theorem quiet_of_stage {e : Event} (h : ∃ j ∈ e.stages, j ≤ 9 ∨ j = 14) :
    e.isInputRender = false ∧ e.isAllocation = false ∧ e.isMark = false ∧ e.isUnmark = false
      ∧ e.isDispatch = false := by
  obtain ⟨j, hj, hle⟩ := h
  cases e <;>
    simp [Event.stages, Event.isInputRender, Event.isAllocation, Event.isMark, Event.isUnmark,
      Event.isDispatch] at hj ⊢
  all_goals omega

/-- From the rectangles left to render to the return of the planes, when nothing is left to
render. -/
theorem cache_hit_tail {σ : Type} (env : Env σ) (recCall : RecCall σ) (fuel : Nat)
    (self : NodeId) (args : RenderRoIArgs) (s : St σ) (outComp : ImageComponents)
    (hrest : s.rectsLeftToRender = []) (hrects : s.rectsToRender = [])
    (hredo : s.redoCacheLookup = false) (helse : s.isBeingRenderedElsewhere = false)
    (hcomp : s.outputComponents.head? = some outComp) :
    (rectsToRenderPhase env self args fuel s).andThen (fromInputs env recCall fuel self args)
      = returnPlanes env args (s.beforeReturn env self outComp) := by
  have h1 : rectsToRenderPhase env self args fuel s
      = .next { s with tryIdentityOptim := false, rectsToRender := [],
                       hasSomethingToRender := false } := by
    simp [rectsToRenderPhase, probeInputsRoD, hrest, hrects, plainRectsToRender]
  rw [h1]
  simp only [Flow.andThen, fromInputs, preRenderInputs, hcomp, renderInputImages,
    redoCacheLookupPhase, hredo, allocatePlanes, fromDispatch, renderDispatch, helse,
    Bool.false_eq_true, if_false, Bool.not_false, Bool.and_self, if_true, fromFinish,
    finishCodes, readAborted, St.beforeReturn]
  simp

theorem downscaleCached_some {σ : Type} (env : Env σ) (args : RenderRoIArgs)
    (plane : PlaneToRender) (s : St σ) (full : Image)
    (hf : plane.fullscaleImage = some full) (hd : plane.downscaleImage = some full) :
    ∃ r, downscaleCached env args plane s = some r ∧ r.1.downscaleImage.isSome = true := by
  unfold downscaleCached
  dsimp only
  split
  · rw [hf]
    dsimp only
    split
    · split
      · exact ⟨_, rfl, rfl⟩
      · exact ⟨_, rfl, by simp [hd]⟩
    · exact ⟨_, rfl, by simp [hd]⟩
  · exact ⟨_, rfl, by simp [hd]⟩

theorem returnPlane_isSome {σ : Type} (env : Env σ) (args : RenderRoIArgs)
    (k : ImageComponents) (plane : PlaneToRender) (s : St σ)
    (hfull : plane.fullscaleImage.isSome = true)
    (hdown : plane.downscaleImage = plane.fullscaleImage) :
    (returnPlane env args k plane s).isSome = true := by
  obtain ⟨full, hf⟩ := Option.isSome_iff_exists.1 hfull
  obtain ⟨r, hr, hrd⟩ := downscaleCached_some env args plane (swapInCache env plane s) full hf
    (hdown.trans hf)
  obtain ⟨img, himg⟩ := Option.isSome_iff_exists.1 hrd
  unfold returnPlane
  rw [hr]
  dsimp only
  split
  · rfl
  · rw [himg]
    rfl

theorem returnPlanesLoop_isSome {σ : Type} (env : Env σ) (args : RenderRoIArgs)
    (l : List (ImageComponents × PlaneToRender)) (s : St σ)
    (hfull : ∀ kp ∈ l, kp.2.fullscaleImage.isSome = true) (hinv : PlanesInv l) :
    (returnPlanesLoop env args l s).isSome = true := by
  induction l generalizing s with
  | nil => rfl
  | cons hd tl ih =>
    obtain ⟨k, plane⟩ := hd
    have h1 := returnPlane_isSome env args k plane s
      (hfull (k, plane) (List.mem_cons.2 (Or.inl rfl)))
      (hinv (k, plane) (List.mem_cons.2 (Or.inl rfl)))
    obtain ⟨s1, hs1⟩ := Option.isSome_iff_exists.1 h1
    simp only [returnPlanesLoop, hs1]
    exact ih s1 (fun kp h => hfull kp (List.mem_cons.2 (Or.inr h)))
      (fun kp h => hinv kp (List.mem_cons.2 (Or.inr h)))

/-- C2 (cache hit). The call has reached the rectangles left to render in the state `s`, and
they are determined in the state `s'`: every plane holds an image found in the cache, nothing
is left to render (`rectsLeftToRender` is empty), and no part of the image is being rendered
elsewhere. The effect declares at least one output component (line 1203 reads the first).
Then, whatever `byPassCache`, `renderRoI` reads the abort flag, runs the loop of lines
1751-1836 over those planes (swap in the cache, downscale, conversion to the requested format
and storage, insertion in `*outputPlanes`) and returns `eRenderRoIRetCodeOk`; its trace holds
no render of the input images, no allocation of a plane, no mark or unmark of the trimap and
no event of the tile dispatcher `renderRoIInternal`. -/
theorem renderRoI_cache_hit {σ : Type} (env : Env σ) (recCall : RecCall σ) (fuel : Nat)
    (self : NodeId) (args : RenderRoIArgs) (outputPlanes : PlaneMap Image) (ext : σ)
    (s s' : St σ) (outComp : ImageComponents)
    (hs : atRectsLeft env recCall self args outputPlanes ext = .next s)
    (hrl : rectsLeft env self args s = .next s')
    (hcached : ∀ kp ∈ s'.planes, kp.2.fullscaleImage.isSome = true)
    (hrest : s'.rectsLeftToRender = [])
    (helse : s'.isBeingRenderedElsewhere = false)
    (hcomp : s'.outputComponents.head? = some outComp) :
    ∃ sOut : St σ,
      returnPlanesLoop env args s'.planes (s'.beforeReturn env self outComp) = some sOut
        ∧ renderRoIBody env recCall fuel self args outputPlanes ext
          = some ⟨.returned .eRenderRoIRetCodeOk, sOut.out, sOut.trace, sOut.ext⟩
        ∧ ∀ e ∈ sOut.trace,
            e.isInputRender = false ∧ e.isAllocation = false ∧ e.isMark = false
              ∧ e.isUnmark = false ∧ e.isDispatch = false := by
  obtain ⟨hr0, hp0, hc0⟩ := (atRectsLeft_inv env recCall self args outputPlanes ext).of_next hs
  obtain ⟨hk1, hk2, hk3⟩ := rectsLeft_keeps env self args s s' hrl hrest
  have hrects : s'.rectsToRender = [] := hk1.trans hr0
  have hinv : PlanesInv s'.planes := by rw [hk2]; exact hp0
  have hredo : s'.redoCacheLookup = false := hk3.trans hc0
  have hsome := returnPlanesLoop_isSome env args s'.planes (s'.beforeReturn env self outComp)
    hcached hinv
  obtain ⟨sOut, hOut⟩ := Option.isSome_iff_exists.1 hsome
  have hbody : renderRoIBody env recCall fuel self args outputPlanes ext
      = (returnPlanes env args (s'.beforeReturn env self outComp)).result := by
    rw [renderRoIBody_eq_atRectsLeft, hs]
    show (fromRectsLeft env recCall fuel self args s).result = _
    unfold fromRectsLeft
    rw [hrl]
    show ((rectsToRenderPhase env self args fuel s').andThen
      (fromInputs env recCall fuel self args)).result = _
    rw [cache_hit_tail env recCall fuel self args s' outComp hrest hrects hredo helse hcomp]
  have hplanes : (s'.beforeReturn env self outComp).planes = s'.planes := rfl
  refine ⟨sOut, hOut, ?_, ?_⟩
  · rw [hbody]
    unfold returnPlanes
    rw [hplanes, hOut]
    rfl
  · have hw : Within (fun j => j ≤ 9 ∨ j = 14) s'.trace := by
      have h1 := (atRectsLeft_post env recCall self args outputPlanes ext
        (fun j => j ≤ 9 ∨ j = 14) (fun j hj => Or.inl (by omega))).of_next hs
      have h2 := rectsLeft_steps env self args s
      rw [hrl] at h2
      exact within_of_emits h2.emits (Or.inl (by decide)) h1
    have h3 := (returnPlanesLoop_step env args _ _ sOut hOut).emits
    obtain ⟨evs, hevs, hst⟩ := h3
    intro e he
    rw [hevs] at he
    rcases List.mem_append.1 he with h | h
    · have : (s'.beforeReturn env self outComp).trace
          = s'.trace ++ [Event.aborted (env.aborted self s'.ext)] := rfl
      rw [this] at h
      rcases List.mem_append.1 h with h' | h'
      · exact quiet_of_stage (hw e h')
      · rw [List.mem_singleton.1 h']
        exact ⟨rfl, rfl, rfl, rfl, rfl⟩
    · exact quiet_of_stage ⟨14, hst e h, Or.inr rfl⟩

set_option maxRecDepth 100000 in
/-- The cache hit on the scene `cachedEnv`: the plane RGBA comes out of the cache, fully
rendered, and is returned without a render. -/
theorem renderRoI_cache_hit_witness :
    (renderRoI cachedEnv 3 1 sceneArgs [] 100).map (fun r => (r.outcome, r.planes))
        = some (.returned .eRenderRoIRetCodeOk,
            [(rgba, ⟨7, rgba, .eImageBitDepthFloat, .eStorageModeRAM, 0⟩)])
      ∧ ∃ sOut : St Nat,
          renderRoIBody cachedEnv (renderRoI cachedEnv 2) 2 1 sceneArgs [] 100
            = some ⟨.returned .eRenderRoIRetCodeOk, sOut.out, sOut.trace, sOut.ext⟩
          ∧ ∀ e ∈ sOut.trace,
              e.isInputRender = false ∧ e.isAllocation = false ∧ e.isMark = false
                ∧ e.isUnmark = false ∧ e.isDispatch = false := by
  refine ⟨by rfl, ?_⟩
  obtain ⟨sOut, -, h1, h2⟩ := renderRoI_cache_hit cachedEnv (renderRoI cachedEnv 2) 2 1
    sceneArgs [] 100 cachedState cachedRest rgba (by rfl) (by rfl) (by decide) (by rfl) (by rfl)
    (by rfl)
  exact ⟨sOut, h1, h2⟩

/-- C3 (early-out). A request whose list of components is empty, or whose region of interest
is null, makes `renderRoI` return `eRenderRoIRetCodeOk` with `*outputPlanes` as it was passed,
the external state untouched and an empty trace: no effect hook, no cache operation and no
upstream `renderRoI` is called. This holds for every environment, so whether or not the
instance is a render clone (`mainInstance` set), and for every amount of fuel. -/
theorem renderRoI_early_out {σ : Type} (env : Env σ) (recCall : RecCall σ) (fuel : Nat)
    (self : NodeId) (args : RenderRoIArgs) (outputPlanes : PlaneMap Image) (ext : σ)
    (h : args.components = [] ∨ args.roi.isNull = true) :
    renderRoIBody env recCall fuel self args outputPlanes ext
        = some ⟨.returned .eRenderRoIRetCodeOk, outputPlanes, [], ext⟩
      ∧ renderRoI env (fuel + 1) self args outputPlanes ext
        = some ⟨.returned .eRenderRoIRetCodeOk, outputPlanes, [], ext⟩ := by
  have key : ∀ rc : RecCall σ, renderRoIBody env rc fuel self args outputPlanes ext
      = some ⟨.returned .eRenderRoIRetCodeOk, outputPlanes, [], ext⟩ := by
    intro rc
    have h0 : earlyOut env rc self args (St.entry outputPlanes ext)
        = .done ⟨.returned .eRenderRoIRetCodeOk, outputPlanes, [], ext⟩ := by
      unfold earlyOut
      rcases h with h | h
      · simp [h, St.returns, St.entry]
      · by_cases hc : args.components.isEmpty = true
        · simp [hc, St.returns, St.entry]
        · simp [hc, h, St.returns, St.entry]
    simp [renderRoIBody, atPlanes, h0, Flow.andThen, Flow.result]
  exact ⟨key recCall, key (renderRoI env fuel)⟩

/-- The early-out on the scene: the request for no component at all, on a render clone. -/
theorem renderRoI_early_out_witness :
    renderRoI { sceneEnv with mainInstance := fun _ => some 2 } 1 1
        { sceneArgs with components := [] } [] 100
      = some ⟨.returned .eRenderRoIRetCodeOk, [], [], 100⟩ :=
  (renderRoI_early_out { sceneEnv with mainInstance := fun _ => some 2 }
    (fun _ _ _ _ => none) 0 1 { sceneArgs with components := [] } [] 100 (Or.inl rfl)).2

theorem early_of_stage10 {e : Event} (h : ∃ j ∈ e.stages, j ≤ 10) :
    e.isAllocation = false ∧ e.isDispatch = false := by
  obtain ⟨j, hj, hle⟩ := h
  cases e <;> simp [Event.stages, Event.isAllocation, Event.isDispatch] at hj ⊢
  all_goals omega

/-- C4 (return-code propagation). Whenever the trace of a call of `renderRoI` holds an upstream
call that came back with a code `c` other than `eRenderRoIRetCodeOk` (so aborted or failed),
be it the fetch of a pass-through plane from an upstream node, the identity redirect to an
input, or `renderInputImagesForRoI`, the call returns that very code `c`, that upstream call
is the last thing it did, and its trace holds no allocation of a plane and no event of the
tile dispatcher `renderRoIInternal`. -/
theorem renderRoI_upstream_code_propagation {σ : Type} (env : Env σ) (recCall : RecCall σ)
    (fuel : Nat) (self : NodeId) (args : RenderRoIArgs) (outputPlanes : PlaneMap Image) (ext : σ)
    (r : Result σ) (e : Event) (c : RenderRoIRetCode)
    (hr : renderRoIBody env recCall fuel self args outputPlanes ext = some r)
    (he : e ∈ r.trace) (hc : e.upstreamFailure = some c) :
    r.outcome = .returned c ∧ r.trace.getLast? = some e
      ∧ ∀ e' ∈ r.trace, e'.isAllocation = false ∧ e'.isDispatch = false := by
  rcases renderRoIBody_upstream env recCall fuel self args outputPlanes ext r hr with h | h
  · have := h e he
    rw [hc] at this
    cases this
  · obtain ⟨⟨evs, e0, c0, htr, hclean, hc0, hout⟩, hw⟩ := h
    have hee : e = e0 := by
      rw [htr] at he
      rcases List.mem_append.1 he with h1 | h1
      · have := hclean e h1
        rw [hc] at this
        cases this
      · simpa using h1
    subst hee
    rw [hc] at hc0
    cases hc0
    refine ⟨hout, by rw [htr]; simp, fun e' he' => early_of_stage10 (hw e' he')⟩

set_option maxRecDepth 100000 in
/-- The propagation on the scene `inputFailEnv`: `renderInputImagesForRoI` fails, and so does
the call, without allocating a plane. -/
theorem renderRoI_upstream_code_propagation_witness :
    renderRoI inputFailEnv 3 1 sceneArgs [] 100 = some inputFailResult
      ∧ inputFailResult.outcome = .returned .eRenderRoIRetCodeFailed
      ∧ inputFailResult.trace.getLast?
          = some (Event.renderInputImagesForRoI ⟨0, 0, 4, 4⟩ (.returned .eRenderRoIRetCodeFailed))
      ∧ ∀ e' ∈ inputFailResult.trace, e'.isAllocation = false ∧ e'.isDispatch = false :=
  ⟨by rfl, renderRoI_upstream_code_propagation inputFailEnv (renderRoI inputFailEnv 2) 2 1
    sceneArgs [] 100 inputFailResult
    (Event.renderInputImagesForRoI ⟨0, 0, 4, 4⟩ (.returned .eRenderRoIRetCodeFailed))
    .eRenderRoIRetCodeFailed (by rfl) (by decide) (by rfl)⟩

set_option maxRecDepth 100000 in
/-- C5, the claim as worded does not hold: on a node whose caching is forced, an effect that
supports OpenGL renders in system memory although a context is at hand, the caller allows GPU
rendering, the node is visited once, the request is at the caller's time and the region of
interest fits a texture. -/
theorem storage_selection_counterexample :
    atStorage forceCachingEnv (renderRoI forceCachingEnv 2) 1 sceneArgs [] 100
        = .next forceCachingState
      ∧ claimedStorage forceCachingEnv 1 sceneArgs forceCachingState = .eStorageModeGLTex
      ∧ ∃ s', chooseStorage forceCachingEnv 1 sceneArgs forceCachingState = .next s'
          ∧ s'.storage = .eStorageModeRAM :=
  ⟨by rfl, by decide, _, rfl, by rfl⟩

/-- C5, amended. Storage selection started in any state `s`: when the effect needs OpenGL, a
context is at hand and OpenGL is disabled for the plug-in (on a node that is not a disk-cache
node), `renderRoI` returns `eRenderRoIRetCodeFailed` and chooses no storage; in every other
case it goes on with the storage `amendedStorage`: disk for a disk-cache node; else an OpenGL
texture exactly when a context is at hand and either the effect needs OpenGL, or it supports
it, the caller allows GPU rendering, caching is not forced on the node, the node is visited at
most once, the request is at the caller's render time, and the width and the height of the
region of interest are both below the maximum texture size; else system memory. -/
theorem chooseStorage_storage {σ : Type} (env : Env σ) (self : NodeId) (args : RenderRoIArgs)
    (s : St σ) :
    (chooseStorage env self args s).Post
      (fun s' => ¬ openGLDisabled env self s ∧ s'.storage = amendedStorage env self args s)
      (fun r => openGLDisabled env self s ∧ r.outcome = .returned .eRenderRoIRetCodeFailed) :=
  chooseStorage_spec env self args s

theorem not_attach_of_stage {e : Event} (h : ∃ j ∈ e.stages, j ≠ 12) : e.isAttach = false := by
  obtain ⟨j, hj, hne⟩ := h
  cases e <;> simp [Event.stages, Event.isAttach] at hj ⊢
  exact hne hj

theorem pair_of_none {σ : Type} (r : Option Image × St σ) (h : ¬ r.1.isSome = true) :
    (none, r.2) = r := by
  obtain ⟨a, b⟩ := r
  cases a with
  | none => rfl
  | some x => simp at h

theorem cacheLookups_one {σ : Type} (env : Env σ) (self : NodeId) (args : RenderRoIArgs)
    (plane : ImageComponents) (n : Nat) (s : St σ) :
    cacheLookups env self args plane 1 n s
      = cacheLookupOnce env self args (lookupKey n s) plane s := by
  simp only [cacheLookups]
  split
  · rfl
  · rename_i h
    exact pair_of_none _ h

set_option maxRecDepth 100000 in
/-- C7, the claim as worded does not hold: when the effect is a writer and the render is
sequential, the requested plane RGBA is not looked up at all (line 887), outside draft mode,
and the whole call makes no cache look-up. -/
theorem draft_preference_counterexample :
    atLookup writerEnv (renderRoI writerEnv 2) 1 sceneArgs [] 100 = .next writerState
      ∧ writerState.requestedComponents = [rgba]
      ∧ (writerState.draftModeSupported && writerState.frameArgs.draftMode) = false
      ∧ lookupPlane writerEnv 1 sceneArgs rgba writerState = (none, writerState)
      ∧ (renderRoI writerEnv 3 1 sceneArgs [] 100).map
          (fun r => (r.outcome, r.trace.countP Event.isCacheLookup))
        = some (.returned .eRenderRoIRetCodeOk, 0) :=
  ⟨by rfl, by rfl, by rfl, by rfl, by rfl⟩

set_option maxRecDepth 100000 in
/-- C8, the code leaves an image marked. In the scene `abortedEnv` the render cannot be
aborted, two planes are rendered, and the render is found aborted when it is over
(`aborted()` at line 1641): both images are marked as being rendered (lines 1527-1529), the
loop of lines 1648-1665 unmarks the image of the first plane and returns
`eRenderRoIRetCodeAborted` from inside the loop, and the image of the second plane, at address
101, is never given to an unmark operation. -/
theorem trimap_pairing_fails_when_aborted :
    (renderRoI abortedEnv 3 1 twoPlanesArgs [] 100).map
        (fun r => (r.outcome,
          (r.trace.filter Event.isMark).map (fun e =>
            match e with
            | .markImageAsBeingRendered img => img.map (fun i => i.ptr)
            | _ => none),
          (r.trace.filter Event.isUnmark).map (fun e =>
            match e with
            | .unmarkImageAsBeingRendered img _ => img.map (fun i => i.ptr)
            | .waitForImageBeingRenderedElsewhereAndUnmark _ img _ => img.map (fun i => i.ptr)
            | _ => none)))
      = some (.returned .eRenderRoIRetCodeAborted, [some 100, some 101], [some 100]) := by
  rfl

/-- C9 (GPU out-of-memory retry). When the render is over with the status
`eRenderRoIStatusRenderOutOfGPUMemory` (set by `renderRoIInternal` or by the attach of the
OpenGL context) and was not aborted: an effect whose OpenGL support is "yes" makes `renderRoI`
call itself on the same effect with the same `args` but `allowGPURendering = false` and the
same `outputPlanes`, and end as that call ends, with its planes; any other effect makes it
raise, `*outputPlanes` being as it was when the render ended. -/
theorem renderRoI_out_of_gpu_memory {σ : Type} (env : Env σ) (recCall : RecCall σ) (fuel : Nat)
    (self : NodeId) (args : RenderRoIArgs) (outputPlanes : PlaneMap Image) (ext : σ) (s : St σ)
    (hs : atFinish env recCall fuel self args outputPlanes ext = .next s)
    (hoom : s.renderRetCode = .eRenderRoIStatusRenderOutOfGPUMemory)
    (hab : s.renderAborted = false) :
    renderRoIBody env recCall fuel self args outputPlanes ext =
      if s.openGLSupport = .ePluginOpenGLRenderSupportYes then
        (recCall self { args with allowGPURendering := false } s.out s.ext).map fun r =>
          ⟨r.outcome, r.planes,
           s.trace ++ [Event.renderRoI .gpuRetry self { args with allowGPURendering := false }
             r.outcome], r.ext⟩
      else some ⟨.raised, s.out, s.trace, s.ext⟩ := by
  rw [renderRoIBody_eq_atFinish, hs]
  simp only [Flow.andThen, fromFinish, finishCodes, hoom, hab]
  by_cases hy : s.openGLSupport = .ePluginOpenGLRenderSupportYes
  · simp only [hy]
    cases hrc : recCall self { args with allowGPURendering := false } s.out s.ext with
    | none => simp [tailCall, hrc, Flow.andThen, Flow.result]
    | some r => simp [tailCall, hrc, Flow.andThen, Flow.result]
  · simp [hy, St.endsWith, Flow.andThen, Flow.result]

set_option maxRecDepth 100000 in
/-- The retry on the scene `oomEnv`: the attach of the OpenGL context runs out of memory, the
effect can render on CPU, and the call ends as the call without GPU does. -/
theorem renderRoI_out_of_gpu_memory_witness :
    oomState.renderRetCode = .eRenderRoIStatusRenderOutOfGPUMemory
      ∧ (renderRoIBody oomEnv (renderRoI oomEnv 2) 2 1 sceneArgs [] 100).map (fun r => r.outcome)
        = (renderRoI oomEnv 2 1 { sceneArgs with allowGPURendering := false } [] 100).map
            (fun r => r.outcome) := by
  refine ⟨by rfl, ?_⟩
  rw [renderRoI_out_of_gpu_memory oomEnv (renderRoI oomEnv 2) 2 1 sceneArgs [] 100 oomState
    (by rfl) (by rfl) (by rfl)]
  rfl

theorem unmarkPlanes_failed {σ : Type} (env : Env σ) (self : NodeId)
    (l : List (ImageComponents × PlaneToRender)) (s : St σ)
    (hfail : s.renderRetCode = .eRenderRoIStatusRenderFailed) :
    unmarkPlanes env self l false s
      = .next { s with
          renderAborted := false
          ext := (l.map fun kp => renderMappedImage s.renderFullScaleThenDownscale kp.2).foldl
            (fun x img => env.unmarkImageAsBeingRendered self img true x) s.ext
          trace := s.trace ++
            (l.map fun kp => renderMappedImage s.renderFullScaleThenDownscale kp.2).map
              (fun img => Event.unmarkImageAsBeingRendered img true) } := by
  induction l generalizing s with
  | nil => simp [unmarkPlanes]
  | cons hd tl ih =>
    obtain ⟨c, plane⟩ := hd
    simp only [unmarkPlanes, hfail, Bool.not_false, if_true, true_or, decide_True]
    refine (ih _ rfl).trans ?_
    simp

theorem markPlanes_hasSomethingToRender {σ : Type} (env : Env σ) (self : NodeId)
    (l : List (ImageComponents × PlaneToRender)) (s : St σ) :
    (markPlanes env self l s).hasSomethingToRender = s.hasSomethingToRender := by
  induction l generalizing s with
  | nil => rfl
  | cons hd tl ih =>
    obtain ⟨c, plane⟩ := hd
    simp only [markPlanes]
    exact ih _

set_option maxRecDepth 100000 in
/-- C10, the claim as worded does not hold: in the scene `failingEnv` the render of the tile
fails in a render that cannot be aborted; `renderRoI` raises with an empty plane map and the
image is unmarked with the flag `failed` set, but nothing is removed from the node cache
(`removeFromNodeCache` is only called when the render was aborted, line 1659). -/
theorem render_failure_counterexample :
    (renderRoI failingEnv 3 1 sceneArgs [] 100).map
        (fun r => (r.outcome, r.planes, r.trace.countP Event.isCacheRemoval,
          r.trace.filter Event.isUnmark))
      = some (.raised, [], 0,
          [Event.unmarkImageAsBeingRendered
            (some ⟨100, rgba, .eImageBitDepthFloat, .eStorageModeRAM, 0⟩) true]) := by
  rfl

/-- C10, amended. The call has reached the render in the state `s` with something to render,
the render (`renderPlanes`: attach of the OpenGL context and `renderRoIInternal`) ends in the
state `s2` with the status `eRenderRoIStatusRenderFailed`, and `aborted()` then answers false.
Then `renderRoI` raises; `*outputPlanes` is as it was before the render; and what it does
after the render is to read the abort flag and, when the render cannot be aborted, to unmark
the working image of every plane, in order, with the flag `failed` set: no image is removed
from the node cache on this path. -/
theorem renderRoI_render_failed {σ : Type} (env : Env σ) (recCall : RecCall σ) (fuel : Nat)
    (self : NodeId) (args : RenderRoIArgs) (outputPlanes : PlaneMap Image) (ext : σ)
    (s s2 : St σ)
    (hs : atDispatch env recCall fuel self args outputPlanes ext = .next s)
    (hsome : s.hasSomethingToRender = true)
    (hr : renderPlanes env self args
        (if env.isCurrentFrameRenderNotAbortable s.frameArgs = true then
          markPlanes env self s.planes
            { s with renderRetCode := .eRenderRoIStatusImageAlreadyRendered }
         else { s with renderRetCode := .eRenderRoIStatusImageAlreadyRendered }) = .next s2)
    (hfail : s2.renderRetCode = .eRenderRoIStatusRenderFailed)
    (hab : env.aborted self s2.ext = false) :
    renderRoIBody env recCall fuel self args outputPlanes ext
      = some ⟨.raised, s.out,
          s2.trace ++ Event.aborted false ::
            (if env.isCurrentFrameRenderNotAbortable s.frameArgs = true then
              s.workingImages.map (fun img => Event.unmarkImageAsBeingRendered img true)
             else []),
          if env.isCurrentFrameRenderNotAbortable s.frameArgs = true then
            s.workingImages.foldl (fun x img => env.unmarkImageAsBeingRendered self img true x)
              s2.ext
          else s2.ext⟩ := by
  have h0 : Step 12 s { s with renderRetCode := .eRenderRoIStatusImageAlreadyRendered } := by
    simp [step_iff, emits_self]
  have h1 : Step 12 s
      (if env.isCurrentFrameRenderNotAbortable s.frameArgs = true then
        markPlanes env self s.planes
          { s with renderRetCode := .eRenderRoIStatusImageAlreadyRendered }
       else { s with renderRetCode := .eRenderRoIStatusImageAlreadyRendered }) := by
    split
    · exact Step.trans_step h0 (markPlanes_step env self _ _ 12 (Or.inl rfl))
    · exact h0
  have hsome1 : (if env.isCurrentFrameRenderNotAbortable s.frameArgs = true then
        markPlanes env self s.planes
          { s with renderRetCode := .eRenderRoIStatusImageAlreadyRendered }
       else { s with renderRetCode := .eRenderRoIStatusImageAlreadyRendered }).hasSomethingToRender
      = true := by
    split
    · rw [markPlanes_hasSomethingToRender]; exact hsome
    · exact hsome
  have hdisp : renderDispatch env self args s
      = (renderPlanes env self args
          (if env.isCurrentFrameRenderNotAbortable s.frameArgs = true then
            markPlanes env self s.planes
              { s with renderRetCode := .eRenderRoIStatusImageAlreadyRendered }
           else { s with renderRetCode := .eRenderRoIStatusImageAlreadyRendered })).andThen
          fun s2 =>
            if env.isCurrentFrameRenderNotAbortable (readAborted env self s2).frameArgs = true then
              unmarkPlanes env self (readAborted env self s2).planes
                (readAborted env self s2).renderAborted (readAborted env self s2)
            else .next (readAborted env self s2) := by
    have hc : ¬ ((!s.hasSomethingToRender && !s.isBeingRenderedElsewhere) = true) := by
      simp [hsome]
    unfold renderDispatch
    dsimp only
    rw [if_neg hc, if_pos hsome1]
  have h2 : Step 12 s s2 := by
    have := renderPlanes_steps env self args
      (if env.isCurrentFrameRenderNotAbortable s.frameArgs = true then
        markPlanes env self s.planes
          { s with renderRetCode := .eRenderRoIStatusImageAlreadyRendered }
       else { s with renderRetCode := .eRenderRoIStatusImageAlreadyRendered }) 12 (Or.inl rfl)
    rw [hr] at this
    exact Step.trans_step h1 this
  have hfa : s2.frameArgs = s.frameArgs := h2.frameArgs (by decide)
  have hout : s2.out = s.out := h2.out (by decide) (by decide)
  obtain ⟨hpl, hfs⟩ := h2.planes (by decide) (by decide)
  rw [renderRoIBody_eq_atDispatch, hs]
  show (fromDispatch env recCall self args s).result = _
  unfold fromDispatch
  rw [hdisp, hr]
  simp only [Flow.andThen, readAborted, hab, hfa]
  by_cases hna : env.isCurrentFrameRenderNotAbortable s.frameArgs = true
  · simp only [hna, if_true]
    rw [unmarkPlanes_failed env self]
    · simp [fromFinish, finishCodes, hfail, St.endsWith, Flow.andThen, Flow.result, hout, hpl,
        hfs, St.workingImages]
    · exact hfail
  · simp [hna, fromFinish, finishCodes, hfail, St.endsWith, Flow.andThen, Flow.result, hout]

set_option maxRecDepth 100000 in
/-- The failure on the scene `failingEnv`: the tile fails, the call raises and leaves the plane
map empty, after the image at address 100 is unmarked as failed. -/
theorem renderRoI_render_failed_witness :
    failingRendered.renderRetCode = .eRenderRoIStatusRenderFailed
      ∧ (renderRoIBody failingEnv (renderRoI failingEnv 2) 2 1 sceneArgs [] 100).map
          (fun r => (r.outcome, r.planes, r.trace.drop failingRendered.trace.length))
        = some (.raised, [], [Event.aborted false,
            Event.unmarkImageAsBeingRendered
              (some ⟨100, rgba, .eImageBitDepthFloat, .eStorageModeRAM, 0⟩) true]) := by
  refine ⟨by rfl, ?_⟩
  rw [renderRoI_render_failed failingEnv (renderRoI failingEnv 2) 2 1 sceneArgs [] 100
    failingState failingRendered (by rfl) (by rfl) (by rfl) (by rfl) (by rfl)]
  rfl

theorem findAvailable_mem {σ : Type} (env : Env σ) (self : NodeId) (c : ImageComponents)
    (avail : List (ImageComponents × Option NodeId)) (r : ImageComponents × Option NodeId)
    (h : findAvailable env self c avail = some r) : r ∈ avail := by
  induction avail with
  | nil => simp [findAvailable] at h
  | cons e rest ih =>
    obtain ⟨k, node⟩ := e
    unfold findAvailable at h
    split at h
    · rename_i hk
      cases h
      simp [hk]
    · split at h
      · cases h
        simp
      · exact List.mem_cons_of_mem _ (ih h)

theorem findAvailable_skip {σ : Type} (env : Env σ) (self : NodeId) (c : ImageComponents)
    (pre rest : List (ImageComponents × Option NodeId))
    (hpre : ∀ e ∈ pre, e.1 ≠ c
      ∧ (c.isColorPlane = true → e.1.isColorPlane = true → env.isSupportedComponent self e.1 = false)) :
    findAvailable env self c (pre ++ rest) = findAvailable env self c rest := by
  induction pre with
  | nil => rfl
  | cons e pre ih =>
    obtain ⟨k, node⟩ := e
    have h1 := hpre (k, node) (List.mem_cons_self _ _)
    have h2 : ¬ (c.isColorPlane && k.isColorPlane && env.isSupportedComponent self k) = true := by
      intro h
      simp only [Bool.and_eq_true] at h
      have := h1.2 h.1.1 h.1.2
      rw [h.2] at this
      exact Bool.noConfusion this
    rw [List.cons_append, findAvailable, if_neg h1.1, if_neg h2]
    exact ih (fun e he => hpre e (List.mem_cons_of_mem _ he))

theorem findAvailable_none {σ : Type} (env : Env σ) (self : NodeId) (c : ImageComponents)
    (avail : List (ImageComponents × Option NodeId))
    (h : ∀ e ∈ avail, e.1 ≠ c
      ∧ (c.isColorPlane = true → e.1.isColorPlane = true → env.isSupportedComponent self e.1 = false)) :
    findAvailable env self c avail = none := by
  have := findAvailable_skip env self c avail [] h
  simpa [findAvailable] using this

theorem negotiatePlanes_fetch_mem {σ : Type} (env : Env σ) (self : NodeId)
    (avail : List (ImageComponents × Option NodeId)) (requested : List ImageComponents)
    (r : ImageComponents × Option NodeId)
    (h : r ∈ (negotiatePlanes env self avail requested).2) : r ∈ avail ∧ r.2 ≠ some self := by
  induction requested with
  | nil => simp [negotiatePlanes] at h
  | cons c cs ih =>
    unfold negotiatePlanes at h
    dsimp only at h
    split at h
    · exact ih h
    · rename_i f n hfind
      split at h
      · exact ih h
      · rename_i hn
        rcases List.mem_cons.1 h with h | h
        · subst h
          exact ⟨findAvailable_mem env self c avail _ hfind, hn⟩
        · exact ih h

theorem negotiatePlanes_local_mem {σ : Type} (env : Env σ) (self : NodeId)
    (avail : List (ImageComponents × Option NodeId)) (requested : List ImageComponents)
    (p f : ImageComponents) (hp : p ∈ requested)
    (hfind : findAvailable env self p avail = some (f, some self)) :
    f ∈ (negotiatePlanes env self avail requested).1 := by
  induction requested with
  | nil => simp at hp
  | cons c cs ih =>
    unfold negotiatePlanes
    dsimp only
    rcases List.mem_cons.1 hp with h | h
    · subst h
      rw [hfind]
      simp
    · have := ih h
      split
      · exact this
      · split
        · exact List.mem_cons_of_mem _ this
        · exact this

theorem negotiatePlanes_local_src {σ : Type} (env : Env σ) (self : NodeId)
    (avail : List (ImageComponents × Option NodeId)) (requested : List ImageComponents)
    (f : ImageComponents) (h : f ∈ (negotiatePlanes env self avail requested).1) :
    (f, some self) ∈ avail := by
  induction requested with
  | nil => simp [negotiatePlanes] at h
  | cons c cs ih =>
    unfold negotiatePlanes at h
    dsimp only at h
    split at h
    · exact ih h
    · rename_i f0 n hfind
      split at h
      · rename_i hn
        rcases List.mem_cons.1 h with h | h
        · subst h
          subst hn
          exact findAvailable_mem env self c avail _ hfind
        · exact ih h
      · exact ih h

theorem negotiatePlanes_append {σ : Type} (env : Env σ) (self : NodeId)
    (avail : List (ImageComponents × Option NodeId)) (a b : List ImageComponents) :
    negotiatePlanes env self avail (a ++ b)
      = ((negotiatePlanes env self avail a).1 ++ (negotiatePlanes env self avail b).1,
         (negotiatePlanes env self avail a).2 ++ (negotiatePlanes env self avail b).2) := by
  induction a with
  | nil => simp [negotiatePlanes]
  | cons c cs ih =>
    rw [List.cons_append]
    simp only [negotiatePlanes, ih]
    split
    · rfl
    · split <;> rfl

theorem negotiatePlanes_one {σ : Type} (env : Env σ) (self : NodeId)
    (avail : List (ImageComponents × Option NodeId)) (c : ImageComponents) :
    (negotiatePlanes env self avail [c]).1.length + (negotiatePlanes env self avail [c]).2.length
      ≤ 1 := by
  unfold negotiatePlanes
  dsimp only
  split
  · simp [negotiatePlanes]
  · split <;> simp [negotiatePlanes]

theorem negotiatePlanes_dropped {σ : Type} (env : Env σ) (self : NodeId)
    (avail : List (ImageComponents × Option NodeId)) (c : ImageComponents)
    (h : findAvailable env self c avail = none) :
    negotiatePlanes env self avail [c] = ([], []) := by
  unfold negotiatePlanes
  dsimp only
  rw [h]
  rfl

theorem fetchUpstream_components {σ : Type} (env : Env σ) (recCall : RecCall σ)
    (args : RenderRoIArgs) (components : List ImageComponents)
    (l : List (ImageComponents × Option NodeId)) (s : St σ) :
    fetchUpstream env recCall { args with components := components } l s
      = fetchUpstream env recCall args l s := by
  induction l generalizing s with
  | nil => rfl
  | cons e rest ih =>
    obtain ⟨comp, node⟩ := e
    cases node with
    | none =>
      unfold fetchUpstream
      exact ih s
    | some node =>
      unfold fetchUpstream
      dsimp only
      generalize recCall node _ _ _ = rc
      cases rc with
      | none => rfl
      | some r =>
        dsimp only
        split
        · split
          · rfl
          · split
            · rfl
            · exact ih _
        · rfl

theorem fetchUpstream_out {σ : Type} (env : Env σ) (recCall : RecCall σ)
    (args : RenderRoIArgs) (l : List (ImageComponents × Option NodeId)) (s s2 : St σ)
    (h : fetchUpstream env recCall args l s = .next s2) :
    s2.requestedComponents = s.requestedComponents
      ∧ ∀ kp ∈ s2.out, kp ∈ s.out ∨ ∃ n, (kp.1, some n) ∈ l := by
  induction l generalizing s with
  | nil =>
    simp only [fetchUpstream, Flow.next.injEq] at h
    subst h
    exact ⟨rfl, fun kp hkp => Or.inl hkp⟩
  | cons e rest ih =>
    obtain ⟨comp, node⟩ := e
    cases node with
    | none =>
      unfold fetchUpstream at h
      have := ih s h
      exact ⟨this.1, fun kp hkp => (this.2 kp hkp).imp id
        (fun ⟨n, hn⟩ => ⟨n, List.mem_cons_of_mem _ hn⟩)⟩
    | some node =>
      unfold fetchUpstream at h
      dsimp only at h
      generalize recCall node _ _ _ = rc at h
      cases rc with
      | none => simp at h
      | some r =>
        dsimp only at h
        split at h
        · split at h
          · simp [St.returns] at h
          · split at h
            · simp [St.returns] at h
            · rename_i img _ _
              have := ih _ h
              refine ⟨this.1, fun kp hkp => ?_⟩
              rcases this.2 kp hkp with h1 | ⟨n, hn⟩
              · rcases insertNew_mem _ _ _ _ kp h1 with h2 | h2
                · exact Or.inl h2
                · exact Or.inr ⟨node, by rw [h2]; exact List.mem_cons_self _ _⟩
              · exact Or.inr ⟨n, List.mem_cons_of_mem _ hn⟩
        · simp [St.endsWith] at h

theorem Flow.Post.andThen_inv {σ : Type} {N : St σ → Prop} {D : Result σ → Prop} {f : Flow σ}
    {g : St σ → Flow σ} (hf : f.Post N D) (hg : ∀ s, N s → (g s).Post N D) :
    (f.andThen g).Post N D :=
  hf.andThen_post hg

theorem atPlanes_out {σ : Type} (env : Env σ) (recCall : RecCall σ) (self : NodeId)
    (args : RenderRoIArgs) (outputPlanes : PlaneMap Image) (ext : σ) :
    (atPlanes env recCall self args outputPlanes ext).Post (fun s => s.out = outputPlanes)
      (fun _ => True) := by
  unfold atPlanes
  have h0 : (earlyOut env recCall self args (St.entry outputPlanes ext)).Post
      (fun s => s.out = outputPlanes) (fun _ => True) := by
    unfold earlyOut
    split
    · simp [St.returns, Flow.Post]
    · split
      · simp [St.returns, Flow.Post]
      · split
        · unfold tailCall
          generalize recCall _ _ _ _ = rc
          cases rc <;> simp [Flow.Post]
        · simp [Flow.Post, St.entry]
  refine ((((h0.andThen_inv ?_).andThen_inv ?_).andThen_inv ?_).andThen_inv ?_).andThen_inv ?_
  · intro s hs
    unfold setupFrameArgs
    split <;> simpa [Flow.Post] using hs
  · intro s hs
    unfold scalePolicy
    simpa [Flow.Post] using hs
  · intro s hs
    unfold getRoD
    dsimp only
    repeat' split
    all_goals first | exact hs | trivial
  · intro s hs
    unfold computeRoI
    split <;> simpa [Flow.Post] using hs
  · intro s hs
    unfold neededPlanes
    dsimp only
    repeat' split
    all_goals first | exact hs | trivial

set_option maxRecDepth 100000 in
/-- C12, the request that refutes it: the components-available map of node 1 holds RGBA with
node 1 as its source, and before it, in iteration order, the supported colour plane RGB with
node 2 as its source. The requested plane RGBA is not placed in the planes rendered locally:
RGB is fetched from node 2, and `renderRoI` returns the RGB image of node 2 without any render
on node 1. -/
theorem local_planes_counterexample :
    (rgba, some 1) ∈ (upstreamRgbEnv.getComponentsAvailable 1 10 100).1
      ∧ negotiatePlanes upstreamRgbEnv 1 (upstreamRgbEnv.getComponentsAvailable 1 10 100).1 [rgba]
          = ([], [(rgb, some 2)])
      ∧ (renderRoI upstreamRgbEnv 2 1 sceneArgs [] 100).map
            (fun r => (r.outcome, r.planes.map Prod.fst, r.trace.filter Event.isDispatch))
          = some (.returned .eRenderRoIRetCodeOk, [rgb], []) := by
  refine ⟨by decide, by decide, ?_⟩
  decide!

/-- C12, as the code has it. The components-available map is `pre ++ (p, self) :: post` in
iteration order, where no entry of `pre` is the plane `p` and, when `p` is a colour plane, no
entry of `pre` is a supported colour plane; every entry of the map for `p` has this node as its
source (the keys of a map are unique). Then a requested plane `p` is placed in the list of the
planes rendered locally and is not in the list of the planes fetched upstream. In particular a
requested plane that is not a colour plane is rendered locally whatever the other entries of
the map. -/
theorem negotiatePlanes_local_plane {σ : Type} (env : Env σ) (self : NodeId)
    (pre post : List (ImageComponents × Option NodeId)) (requested : List ImageComponents)
    (p : ImageComponents) (hp : p ∈ requested)
    (hpre : ∀ e ∈ pre, e.1 ≠ p
      ∧ (p.isColorPlane = true → e.1.isColorPlane = true → env.isSupportedComponent self e.1 = false))
    (hsrc : ∀ e ∈ pre ++ (p, some self) :: post, e.1 = p → e.2 = some self) :
    p ∈ (negotiatePlanes env self (pre ++ (p, some self) :: post) requested).1
      ∧ ∀ n, (p, n) ∉ (negotiatePlanes env self (pre ++ (p, some self) :: post) requested).2 := by
  constructor
  · apply negotiatePlanes_local_mem env self _ requested p p hp
    rw [findAvailable_skip env self p pre _ hpre]
    simp [findAvailable]
  · intro n hn
    have h := negotiatePlanes_fetch_mem env self _ requested (p, n) hn
    exact h.2 (hsrc (p, n) h.1 rfl)

theorem negotiatePlanes_local_plane_witness :
    motion ∈ (negotiatePlanes sceneEnv 1 [(rgb, some 2), (motion, some 1), (rgba, some 1)]
        [rgba, motion]).1
      ∧ ∀ n, (motion, n) ∉ (negotiatePlanes sceneEnv 1
          [(rgb, some 2), (motion, some 1), (rgba, some 1)] [rgba, motion]).2 :=
  negotiatePlanes_local_plane sceneEnv 1 [(rgb, some 2)] [(rgba, some 1)] [rgba, motion] motion
    (by decide) (by decide) (by decide)

/-- C13, amended. Whatever the components-available map
`avail`: a requested plane `c` adds at most one entry to the two lists taken together (the
planes rendered locally and the planes fetched upstream), the lists of a request being those of
its planes one after the other. If no entry of `avail` equals `c` and, when `c` is a colour
plane, no entry of `avail` is a supported colour plane, then `c` adds no entry to either list,
no entry of either list is for `c` whatever else is requested, and the negotiation and the
fetches go as if `c` had not been requested: same planes fetched, same `*outputPlanes`, same
return code. And when the call has reached the negotiation in the state `s`, the list of the
planes rendered locally is empty and the fetches came back with planes (the fetch loop reaches
its end, in the state `s2`), `renderRoI` returns `eRenderRoIRetCodeOk`, and every plane of
`*outputPlanes` was there on entry or is a plane of the fetch list. -/
theorem renderRoI_plane_partition {σ : Type} (env : Env σ) (recCall : RecCall σ) (fuel : Nat)
    (self : NodeId) (args : RenderRoIArgs) (outputPlanes : PlaneMap Image) (ext : σ)
    (s s2 : St σ)
    (hs : atPlanes env recCall self args outputPlanes ext = .next s)
    (hlocal : (negotiatePlanes env self (env.getComponentsAvailable self args.time s.ext).1
      args.components).1 = [])
    (hfetch : fetchUpstream env recCall args
        (negotiatePlanes env self (env.getComponentsAvailable self args.time s.ext).1
          args.components).2
        { s with ext := (env.getComponentsAvailable self args.time s.ext).2,
                 trace := s.trace ++ [Event.getComponentsAvailable],
                 requestedComponents := [] } = .next s2) :
    (∀ avail c cs,
        negotiatePlanes env self avail (c :: cs)
          = ((negotiatePlanes env self avail [c]).1 ++ (negotiatePlanes env self avail cs).1,
             (negotiatePlanes env self avail [c]).2 ++ (negotiatePlanes env self avail cs).2)
        ∧ (negotiatePlanes env self avail [c]).1.length
            + (negotiatePlanes env self avail [c]).2.length ≤ 1
        ∧ ∀ e ∈ (negotiatePlanes env self avail [c]).2, e.2 ≠ some self)
      ∧ (∀ avail c,
          (∀ e ∈ avail, e.1 ≠ c ∧ (c.isColorPlane = true → e.1.isColorPlane = true →
            env.isSupportedComponent self e.1 = false)) →
          negotiatePlanes env self avail [c] = ([], [])
          ∧ ∀ pre post,
              c ∉ (negotiatePlanes env self avail (pre ++ c :: post)).1
              ∧ (∀ n, (c, n) ∉ (negotiatePlanes env self avail (pre ++ c :: post)).2)
              ∧ negotiatePlanes env self avail (pre ++ c :: post)
                  = negotiatePlanes env self avail (pre ++ post))
      ∧ (∀ c pre post s0,
          (∀ e ∈ (env.getComponentsAvailable self args.time s0.ext).1,
            e.1 ≠ c ∧ (c.isColorPlane = true → e.1.isColorPlane = true →
              env.isSupportedComponent self e.1 = false)) →
          passThroughPlanes env recCall self { args with components := pre ++ c :: post } s0
            = passThroughPlanes env recCall self { args with components := pre ++ post } s0)
      ∧ renderRoIBody env recCall fuel self args outputPlanes ext
          = some ⟨.returned .eRenderRoIRetCodeOk, s2.out, s2.trace, s2.ext⟩
      ∧ ∀ kp ∈ s2.out, kp ∈ outputPlanes
          ∨ ∃ n, (kp.1, some n) ∈ (negotiatePlanes env self
              (env.getComponentsAvailable self args.time s.ext).1 args.components).2 := by
  have hdrop : ∀ avail c pre post, findAvailable env self c avail = none →
      negotiatePlanes env self avail (pre ++ c :: post)
        = negotiatePlanes env self avail (pre ++ post) := by
    intro avail c pre post h
    rw [negotiatePlanes_append, negotiatePlanes_append, ← List.singleton_append,
      negotiatePlanes_append, negotiatePlanes_dropped env self avail c h]
    rfl
  refine ⟨?_, ?_, ?_, ?_, ?_⟩
  · intro avail c cs
    refine ⟨?_, negotiatePlanes_one env self avail c, ?_⟩
    · rw [← negotiatePlanes_append]
      rfl
    · intro e he
      exact (negotiatePlanes_fetch_mem env self avail [c] e he).2
  · intro avail c hc
    have hnone := findAvailable_none env self c avail hc
    refine ⟨negotiatePlanes_dropped env self avail c hnone, fun pre post => ⟨?_, ?_, ?_⟩⟩
    · intro hmem
      exact (hc _ (negotiatePlanes_local_src env self avail _ c hmem)).1 rfl
    · intro n hn
      exact (hc _ (negotiatePlanes_fetch_mem env self avail _ (c, n) hn).1).1 rfl
    · exact hdrop avail c pre post hnone
  · intro c pre post s0 hc
    unfold passThroughPlanes
    dsimp only
    rw [hdrop _ c pre post (findAvailable_none env self c _ hc), fetchUpstream_components,
      fetchUpstream_components env recCall args (pre ++ post)]
  · have h2 := (fetchUpstream_out env recCall args _ _ s2 hfetch).1
    have hp : passThroughPlanes env recCall self args s
        = .done ⟨.returned .eRenderRoIRetCodeOk, s2.out, s2.trace, s2.ext⟩ := by
      unfold passThroughPlanes
      dsimp only
      rw [hlocal, hfetch]
      simp only [Flow.andThen]
      rw [h2]
      rfl
    simp only [renderRoIBody, hs, Flow.andThen, fromPlanes, hp, Flow.result]
  · intro kp hkp
    have hout : s.out = outputPlanes :=
      (atPlanes_out env recCall self args outputPlanes ext).of_next hs
    rcases (fetchUpstream_out env recCall args _ _ s2 hfetch).2 kp hkp with h | h
    · exact Or.inl (hout ▸ h)
    · exact Or.inr h

set_option maxRecDepth 100000 in
/-- The negotiation on the scene `upstreamRgbEnv`: node 1 is asked for RGBA, renders no plane
itself and returns the RGB plane fetched from node 2. -/
theorem renderRoI_plane_partition_witness :
    renderRoIBody upstreamRgbEnv (renderRoI upstreamRgbEnv 1) 1 1 sceneArgs [] 100
        = some ⟨.returned .eRenderRoIRetCodeOk, upstreamRgbFetched.out, upstreamRgbFetched.trace,
            upstreamRgbFetched.ext⟩
      ∧ upstreamRgbFetched.out.map Prod.fst = [rgb] :=
  ⟨(renderRoI_plane_partition upstreamRgbEnv (renderRoI upstreamRgbEnv 1) 1 1 sceneArgs [] 100
    upstreamRgbState upstreamRgbFetched (by rfl) (by decide) (by decide!)).2.2.2.1, by decide!⟩

theorem renderRoIBody_eq_atRoD {σ : Type} (env : Env σ) (recCall : RecCall σ) (fuel : Nat)
    (self : NodeId) (args : RenderRoIArgs) (outputPlanes : PlaneMap Image) (ext : σ) :
    renderRoIBody env recCall fuel self args outputPlanes ext
      = (((((atRoD env recCall self args outputPlanes ext).andThen (getRoD env self args)).andThen
          (computeRoI env args)).andThen (neededPlanes env self args)).andThen
          (fromPlanes env recCall fuel self args)).result := rfl

theorem atRoD_entry {σ : Type} (env : Env σ) (recCall : RecCall σ) (self : NodeId)
    (args : RenderRoIArgs) (outputPlanes : PlaneMap Image) (ext : σ) :
    (atRoD env recCall self args outputPlanes ext).Post
      (fun s => s.out = outputPlanes ∧ (s.trace = [] ∨ s.trace = [Event.tlsPushFrameArgs]))
      (fun _ => True) := by
  unfold atRoD
  have h0 : (earlyOut env recCall self args (St.entry outputPlanes ext)).Post
      (fun s => s.out = outputPlanes ∧ s.trace = []) (fun _ => True) := by
    unfold earlyOut
    split
    · simp [St.returns, Flow.Post]
    · split
      · simp [St.returns, Flow.Post]
      · split
        · unfold tailCall
          generalize recCall _ _ _ _ = rc
          cases rc <;> simp [Flow.Post]
        · simp [Flow.Post, St.entry]
  refine (h0.andThen_post ?_).andThen_inv ?_
  · intro s hs
    unfold setupFrameArgs
    split
    · exact ⟨hs.1, Or.inr (by simp [hs.2])⟩
    · exact ⟨hs.1, Or.inl hs.2⟩
  · intro s hs
    unfold scalePolicy
    exact hs

/-- The guarded way of the region of definition (lines 319-330). The call has reached the region
of definition in the state `s`
(lines 221-304 are passed), no region of definition is pre-computed in the request, there are no
pre-pass data for the frame, and the region of definition that `getRegionOfDefinition` answers
is null, or the hook fails. Then `renderRoI` returns `eRenderRoIRetCodeOk`, `*outputPlanes` is as
on entry, and the hook is the last thing the call does: its trace is the query of the region of
definition, after at most the set-up of the render context, so there is no plane negotiation, no
cache look-up and no render. -/
theorem renderRoI_null_rod {σ : Type} (env : Env σ) (recCall : RecCall σ) (fuel : Nat)
    (self : NodeId) (args : RenderRoIArgs) (outputPlanes : PlaneMap Image) (ext : σ) (s : St σ)
    (hs : atRoD env recCall self args outputPlanes ext = .next s)
    (hpre : args.preComputedRoD.isNull = true)
    (hdata : s.requestPassData = none)
    (hrod : (env.getRegionOfDefinition self s.nodeHash args.time
        (env.getScaleFromMipMapLevel s.renderMappedMipMapLevel) args.view s.ext).1.1
          = .eStatusFailed
      ∨ (env.getRegionOfDefinition self s.nodeHash args.time
        (env.getScaleFromMipMapLevel s.renderMappedMipMapLevel) args.view s.ext).1.2.1.isNull
          = true) :
    renderRoIBody env recCall fuel self args outputPlanes ext
        = some ⟨.returned .eRenderRoIRetCodeOk, outputPlanes,
            s.trace ++ [Event.getRegionOfDefinition self args.time args.view],
            (env.getRegionOfDefinition self s.nodeHash args.time
              (env.getScaleFromMipMapLevel s.renderMappedMipMapLevel) args.view s.ext).2⟩
      ∧ (s.trace = [] ∨ s.trace = [Event.tlsPushFrameArgs]) := by
  have hentry := (atRoD_entry env recCall self args outputPlanes ext).of_next hs
  refine ⟨?_, hentry.2⟩
  have hg : getRoD env self args s
      = .done ⟨.returned .eRenderRoIRetCodeOk, outputPlanes,
          s.trace ++ [Event.getRegionOfDefinition self args.time args.view],
          (env.getRegionOfDefinition self s.nodeHash args.time
            (env.getScaleFromMipMapLevel s.renderMappedMipMapLevel) args.view s.ext).2⟩ := by
    unfold getRoD
    simp only [hpre, hdata, Bool.not_true, Bool.false_eq_true, if_false]
    rcases hrod with h | h
    · rw [if_pos h]
      simp [St.returns, hentry.1]
    · by_cases h1 : (env.getRegionOfDefinition self s.nodeHash args.time
          (env.getScaleFromMipMapLevel s.renderMappedMipMapLevel) args.view s.ext).1.1
            = .eStatusFailed
      · rw [if_pos h1]
        simp [St.returns, hentry.1]
      · rw [if_neg h1, if_pos h]
        simp [St.returns, hentry.1]
  rw [renderRoIBody_eq_atRoD, hs]
  simp only [Flow.andThen, hg, Flow.result]

set_option maxRecDepth 100000 in
/-- The null region of definition on the scene `nullHookEnv`. -/
theorem renderRoI_null_rod_witness :
    renderRoI nullHookEnv 2 1 sceneArgs [] 100
      = some ⟨.returned .eRenderRoIRetCodeOk, [],
          [Event.getRegionOfDefinition 1 10 0], 101⟩ :=
  (renderRoI_null_rod nullHookEnv (renderRoI nullHookEnv 1) 1 1 sceneArgs [] 100 nullHookState
    (by rfl) (by decide) (by rfl) (Or.inr (by decide))).1

theorem not_identityQuery_of_stage {e : Event} (h : ∃ j ∈ e.stages, j ≤ 4) :
    e.isIdentityQuery = false := by
  obtain ⟨j, hj, hle⟩ := h
  cases e <;> simp [Event.stages, Event.isIdentityQuery] at hj ⊢
  all_goals omega

theorem identityPhase_self {σ : Type} (env : Env σ) (recCall : RecCall σ) (self : NodeId)
    (args : RenderRoIArgs) (s q : St σ) (v : Nat)
    (hq : identityQuery env self args { s with viewInvariance := env.isViewInvariant self }
      = (some (true, args.time, v, -2), q))
    (hinv : env.isViewInvariant self = .eViewInvarianceAllViewsInvariant) :
    identityPhase env recCall self args s
      = tailCall recCall .identitySelf self
          { args with view := 0, preComputedRoD := RectD.cleared } (scaleAfterIdentity args q) := by
  have hv : q.viewInvariance = .eViewInvarianceAllViewsInvariant := by
    have h2 : (identityQuery env self args
        { s with viewInvariance := env.isViewInvariant self }).2.viewInvariance
        = env.isViewInvariant self := by
      unfold identityQuery
      dsimp only
      repeat' split
      all_goals rfl
    rw [hq] at h2
    rw [← hinv]
    exact h2
  have hv1 : (scaleAfterIdentity args q).viewInvariance = .eViewInvarianceAllViewsInvariant := by
    unfold scaleAfterIdentity
    split <;> exact hv
  unfold identityPhase
  simp only [hq, hv1]
  simp

/-- C16 (all-views-invariant short-circuit). The call has reached the identity check in the
state `s`, the requested view is not 0 and the effect is invariant over all views. Then what
`renderRoI` returns is what `renderRoI` returns on the same effect for the same request with
the view 0 and the pre-computed region of definition cleared (same `*outputPlanes`, same code or
exception, same external state), that call being the last event of the activation, and the
`isIdentity` hook is not queried by the activation. -/
theorem renderRoI_all_views_invariant {σ : Type} (env : Env σ) (recCall : RecCall σ) (fuel : Nat)
    (self : NodeId) (args : RenderRoIArgs) (outputPlanes : PlaneMap Image) (ext : σ) (s : St σ)
    (hs : atIdentity env recCall self args outputPlanes ext = .next s)
    (hview : args.view ≠ 0)
    (hinv : env.isViewInvariant self = .eViewInvarianceAllViewsInvariant) :
    renderRoIBody env recCall fuel self args outputPlanes ext
        = (recCall self { args with view := 0, preComputedRoD := RectD.cleared } s.out s.ext).map
            (fun r => ⟨r.outcome, r.planes,
              s.trace ++ [Event.renderRoI .identitySelf self
                { args with view := 0, preComputedRoD := RectD.cleared } r.outcome], r.ext⟩)
      ∧ ∀ e ∈ s.trace, e.isIdentityQuery = false := by
  constructor
  · have hq : identityQuery env self args { s with viewInvariance := env.isViewInvariant self }
        = (some (true, args.time, args.view, -2),
            { s with viewInvariance := env.isViewInvariant self }) := by
      unfold identityQuery
      simp [hview, hinv]
    have hsame := scaleAfterIdentity_same args
      ({ s with viewInvariance := env.isViewInvariant self } : St σ)
    rw [renderRoIBody_eq_atIdentity, hs]
    simp only [Flow.andThen, fromIdentity]
    rw [identityPhase_self env recCall self args s _ args.view hq hinv]
    unfold tailCall
    rw [hsame.2.2.1, hsame.2.2.2.1, hsame.2.2.2.2]
    generalize recCall self _ _ _ = rc
    cases rc <;> rfl
  · intro e he
    have hw := (atIdentity_post env recCall self args outputPlanes ext (fun j => j ≤ 4)
      (fun j hj => hj)).of_next hs
    exact not_identityQuery_of_stage (hw e he)

set_option maxRecDepth 100000 in
/-- The short-circuit on the scene `allViewsEnv`, for the view 1. -/
theorem renderRoI_all_views_invariant_witness :
    (renderRoIBody allViewsEnv (renderRoI allViewsEnv 2) 2 1 { sceneArgs with view := 1 } [] 100).map
        (fun r => (r.outcome, r.planes, r.ext))
      = (renderRoI allViewsEnv 2 1 sceneArgs [] 100).map (fun r => (r.outcome, r.planes, r.ext))
      ∧ ∀ e ∈ allViewsState.trace, e.isIdentityQuery = false := by
  have h := renderRoI_all_views_invariant allViewsEnv (renderRoI allViewsEnv 2) 2 1
    { sceneArgs with view := 1 } [] 100 allViewsState (by rfl) (by decide) (by rfl)
  refine ⟨?_, h.2⟩
  have ha : ({ ({ sceneArgs with view := 1 } : RenderRoIArgs) with
      view := 0, preComputedRoD := RectD.cleared } : RenderRoIArgs) = sceneArgs := by decide
  have ho : allViewsState.out = [] := by rfl
  have he : allViewsState.ext = 100 := by rfl
  rw [h.1, ha, ho, he]
  generalize renderRoI allViewsEnv 2 1 sceneArgs [] 100 = rc
  cases rc <;> rfl

theorem renderRoIBody_self_identity {σ : Type} (env : Env σ) (recCall : RecCall σ) (fuel : Nat)
    (self : NodeId) (args : RenderRoIArgs) (outputPlanes : PlaneMap Image) (ext : σ)
    (s q : St σ) (v : Nat)
    (hs : atIdentity env recCall self args outputPlanes ext = .next s)
    (hq : identityQuery env self args { s with viewInvariance := env.isViewInvariant self }
      = (some (true, args.time, v, -2), q))
    (hinv : env.isViewInvariant self = .eViewInvarianceAllViewsInvariant) :
    renderRoIBody env recCall fuel self args outputPlanes ext
      = (recCall self { args with view := 0, preComputedRoD := RectD.cleared } q.out q.ext).map
          (fun r => ⟨r.outcome, r.planes,
            q.trace ++ [Event.renderRoI .identitySelf self
              { args with view := 0, preComputedRoD := RectD.cleared } r.outcome], r.ext⟩) := by
  have hsame := scaleAfterIdentity_same args q
  rw [renderRoIBody_eq_atIdentity, hs]
  simp only [Flow.andThen, fromIdentity]
  rw [identityPhase_self env recCall self args s q v hq hinv]
  unfold tailCall
  rw [hsame.2.2.1, hsame.2.2.2.1, hsame.2.2.2.2]
  generalize recCall self _ _ _ = rc
  cases rc <;> rfl

set_option maxRecDepth 100000 in
/-- C15, the guard of line 531 does not stop the recursion. On the scene `selfIdentityEnv` the
effect is invariant over all views and `isIdentity` answers "identity of itself (-2) at the
time of the request"; the request is for the view 0. The activation re-enters `renderRoI` on
the same effect with the same request, on the same `*outputPlanes` and external state: same
time and same view. However deep the recursion is allowed to go, the call does not return. -/
theorem self_identity_recursion_loops :
    (∀ recCall : RecCall Nat,
        renderRoIBody selfIdentityEnv recCall 0 1 sceneArgs [] 100
          = (recCall 1 sceneArgs [] 100).map (fun r => ⟨r.outcome, r.planes,
              [Event.getRegionOfDefinition 1 10 0, Event.getComponentsNeededAndProduced,
               Event.getComponentsAvailable, Event.isIdentity 1 ⟨0, 0, 8, 8⟩ 10 0,
               Event.renderRoI .identitySelf 1 sceneArgs r.outcome], r.ext⟩))
      ∧ ∀ fuel, renderRoI selfIdentityEnv fuel 1 sceneArgs [] 100 = none := by
  have key : ∀ (recCall : RecCall Nat) (fuel : Nat),
      renderRoIBody selfIdentityEnv recCall fuel 1 sceneArgs [] 100
        = (recCall 1 sceneArgs [] 100).map (fun r => ⟨r.outcome, r.planes,
            [Event.getRegionOfDefinition 1 10 0, Event.getComponentsNeededAndProduced,
             Event.getComponentsAvailable, Event.isIdentity 1 ⟨0, 0, 8, 8⟩ 10 0,
             Event.renderRoI .identitySelf 1 sceneArgs r.outcome], r.ext⟩) := by
    intro recCall fuel
    have h := renderRoIBody_self_identity selfIdentityEnv recCall fuel 1 sceneArgs [] 100
      selfIdentityState
      (identityQuery selfIdentityEnv 1 sceneArgs
        { selfIdentityState with viewInvariance := selfIdentityEnv.isViewInvariant 1 }).2
      0 (by rfl) (by rfl) (by rfl)
    rw [h]
    rfl
  refine ⟨fun recCall => key recCall 0, fun fuel => ?_⟩
  induction fuel with
  | zero => rfl
  | succ n ih =>
    show renderRoIBody selfIdentityEnv (renderRoI selfIdentityEnv n) n 1 sceneArgs [] 100 = none
    rw [key, ih]
    rfl

theorem renderRoIBody_eq_atRectsToRender {σ : Type} (env : Env σ) (recCall : RecCall σ)
    (fuel : Nat) (self : NodeId) (args : RenderRoIArgs) (outputPlanes : PlaneMap Image) (ext : σ) :
    renderRoIBody env recCall fuel self args outputPlanes ext
      = (((atRectsToRender env recCall self args outputPlanes ext).andThen
          (rectsToRenderPhase env self args fuel)).andThen
          (fromInputs env recCall fuel self args)).result := by
  rw [renderRoIBody_eq_atInputs]
  rfl

theorem renderRoIBody_eq_atRedoLookup {σ : Type} (env : Env σ) (recCall : RecCall σ)
    (fuel : Nat) (self : NodeId) (args : RenderRoIArgs) (outputPlanes : PlaneMap Image) (ext : σ) :
    renderRoIBody env recCall fuel self args outputPlanes ext
      = ((((atRedoLookup env recCall fuel self args outputPlanes ext).andThen
          (redoCacheLookupPhase env self args fuel)).andThen (allocatePlanes env self args)).andThen
          (fromDispatch env recCall self args)).result := by
  rw [renderRoIBody_eq_atInputs]
  simp only [atRedoLookup, Flow.andThen_assoc]
  congr 2
  funext s
  simp only [fromInputs, Flow.andThen_assoc]

theorem identityChainWalk_raised {σ : Type} (env : Env σ) (time : Int) (scale : RenderScale)
    (split : RectI) (view : Nat) (fuel : Nat) (node : NodeId) (t : Int) (v : Nat) (nb : Int)
    (s s2 : St σ)
    (h : identityChainWalk env time scale split view fuel node t v nb s = .threw s2) :
    RaisedAt env time scale view s2 := by
  induction fuel generalizing node t v nb s with
  | zero => simp [identityChainWalk] at h
  | succ n ih =>
    unfold identityChainWalk at h
    dsimp only at h
    split at h
    · rename_i hnone
      cases h
      exact ⟨node, split, t, v, nb, s, hnone, rfl⟩
    · split at h
      · cases h
      · split at h
        · cases h
        · split at h
          · cases h
          · exact ih _ _ _ _ _ h

theorem SplitsResult.push_threw {σ : Type} (r : RectToRender) (x : SplitsResult σ) (s2 : St σ)
    (h : x.push r = .threw s2) : x = .threw s2 := by
  cases x with
  | finished a b c d => simp [SplitsResult.push] at h
  | threw s => exact h
  | outOfFuel => simp [SplitsResult.push] at h

theorem optimizeSplits_raised {σ : Type} (env : Env σ) (self : NodeId)
    (inputsRoDIntersection : RectI) (time : Int) (view : Nat) (scale : RenderScale) (fuel : Nat)
    (splits : List RectI) (set : Bool) (rect : RectI) (s s2 : St σ)
    (h : optimizeSplits env self inputsRoDIntersection time view scale fuel splits set rect s
      = .threw s2) :
    RaisedAt env time scale view s2 := by
  induction splits generalizing set rect s with
  | nil => simp [optimizeSplits] at h
  | cons sp rest ih =>
    unfold optimizeSplits at h
    dsimp only at h
    split at h
    · split at h
      · rename_i hnone
        cases h
        exact ⟨self, sp, 0, view, -1, s, hnone, rfl⟩
      · split at h
        · split at h
          · exact ih _ _ _ (SplitsResult.push_threw _ _ _ h)
          · split at h
            · exact ih _ _ _ (SplitsResult.push_threw _ _ _ h)
            · rename_i hw
              cases h
              exact identityChainWalk_raised env time scale sp view fuel _ _ _ _ _ _ hw
            · cases h
        · exact ih _ _ _ h
    · exact ih _ _ _ h

theorem optimizeRectsToRender_raised {σ : Type} (env : Env σ) (self : NodeId)
    (inputsRoDIntersection : RectI) (time : Int) (view : Nat) (scale : RenderScale) (fuel : Nat)
    (rects : List RectI) (acc : List RectToRender) (s s2 : St σ)
    (h : optimizeRectsToRender env self inputsRoDIntersection time view scale fuel rects acc s
      = .threw s2) :
    RaisedAt env time scale view s2 := by
  induction rects generalizing acc s with
  | nil => simp [optimizeRectsToRender] at h
  | cons r rest ih =>
    unfold optimizeRectsToRender at h
    split at h
    · exact ih _ _ h
    · rename_i hsp
      cases h
      exact optimizeSplits_raised env self _ time view scale fuel _ _ _ _ _ hsp
    · cases h

/-- The two ways of an exception of the `isIdentity` hook. The whole-region identity check (lines
500-513) catches what the hook throws: when the call has reached the identity check in the state `s` and the identity
query throws, `renderRoI` returns `eRenderRoIRetCodeFailed`, `*outputPlanes` being what the
pass-through of planes left. The queries of `optimizeRectsToRender` are not in a `try` block:
`optimizeRectsToRender` is left by an exception only when a query of the `isIdentity` hook, of
this node or of a node of the identity chain, has just thrown; and when that happens at either
of its two call sites (line 1182, on the rectangles left to render, and line 1327, when all is
rendered again after the second cache look-up), `renderRoI` is left by that exception. -/
theorem renderRoI_isIdentity_exception {σ : Type} (env : Env σ) (recCall : RecCall σ)
    (fuel : Nat) (self : NodeId) (args : RenderRoIArgs) (outputPlanes : PlaneMap Image)
    (ext : σ) :
    (∀ s q, atIdentity env recCall self args outputPlanes ext = .next s →
        identityQuery env self args { s with viewInvariance := env.isViewInvariant self }
          = (none, q) →
        renderRoIBody env recCall fuel self args outputPlanes ext
          = some ⟨.returned .eRenderRoIRetCodeFailed, s.out, q.trace, q.ext⟩)
      ∧ (∀ inter time view scale rects acc (s s2 : St σ),
          optimizeRectsToRender env self inter time view scale fuel rects acc s = .threw s2 →
          RaisedAt env time scale view s2)
      ∧ (∀ s s2, atRectsToRender env recCall self args outputPlanes ext = .next s →
          ((probeInputsRoD env self args s).1.inputsIntersectionSet
            && ((probeInputsRoD env self args s).1.hasMask
              || (probeInputsRoD env self args s).1.hasDifferentRods)) = true →
          optimizeRectsToRender env self
            (env.toPixelEnclosing (probeInputsRoD env self args s).1.inputsIntersection
              args.mipMapLevel (probeInputsRoD env self args s).2.par)
            args.time args.view
            (env.getScaleFromMipMapLevel (probeInputsRoD env self args s).2.renderMappedMipMapLevel)
            fuel (probeInputsRoD env self args s).2.rectsLeftToRender
            (probeInputsRoD env self args s).2.rectsToRender (probeInputsRoD env self args s).2
            = .threw s2 →
          renderRoIBody env recCall fuel self args outputPlanes ext
            = some ⟨.raised, s2.out, s2.trace, s2.ext⟩)
      ∧ (∀ s s2, atRedoLookup env recCall fuel self args outputPlanes ext = .next s →
          s.redoCacheLookup = true →
          (afterRedoLookup (redoLookupLoop env self args [] s.planes s)).isPlaneCached = none →
          (afterRedoLookup (redoLookupLoop env self args [] s.planes s)).tryIdentityOptim = true →
          optimizeRectsToRender env self
            (afterRedoLookup (redoLookupLoop env self args [] s.planes s)).inputsRoDIntersectionPixel
            args.time args.view
            (env.getScaleFromMipMapLevel
              (afterRedoLookup (redoLookupLoop env self args [] s.planes s)).renderMappedMipMapLevel)
            fuel (afterRedoLookup (redoLookupLoop env self args [] s.planes s)).fullRectsToRender []
            { afterRedoLookup (redoLookupLoop env self args [] s.planes s) with
                rectsToRender := []
                rectsLeftToRender :=
                  (afterRedoLookup (redoLookupLoop env self args [] s.planes s)).fullRectsToRender }
            = .threw s2 →
          renderRoIBody env recCall fuel self args outputPlanes ext
            = some ⟨.raised, s2.out, s2.trace, s2.ext⟩) := by
  refine ⟨?_, ?_, ?_, ?_⟩
  · intro s q hs hq
    have hout : q.out = s.out := by
      have := identityQuery_out env self args { s with viewInvariance := env.isViewInvariant self }
      rw [hq] at this
      exact this
    have hp : identityPhase env recCall self args s
        = .done ⟨.returned .eRenderRoIRetCodeFailed, s.out, q.trace, q.ext⟩ := by
      unfold identityPhase
      simp only [hq, St.returns, hout]
    rw [renderRoIBody_eq_atIdentity, hs]
    simp only [Flow.andThen, fromIdentity, hp, Flow.result]
  · intro inter time view scale rects acc s s2 h
    exact optimizeRectsToRender_raised env self inter time view scale fuel rects acc s s2 h
  · intro s s2 hs hprobe hthrew
    have hp : rectsToRenderPhase env self args fuel s
        = .done ⟨.raised, s2.out, s2.trace, s2.ext⟩ := by
      unfold rectsToRenderPhase
      simp only [hprobe, if_true, hthrew, St.endsWith]
    rw [renderRoIBody_eq_atRectsToRender, hs]
    simp only [Flow.andThen, hp, Flow.result]
  · intro s s2 hs hredo hnone hoptim hthrew
    have hp : redoCacheLookupPhase env self args fuel s
        = .done ⟨.raised, s2.out, s2.trace, s2.ext⟩ := by
      unfold redoCacheLookupPhase
      rw [if_pos hredo, hnone]
      simp only [Option.isNone_none, if_true]
      unfold renderAllAgain
      have hfull : ((afterRedoLookup (redoLookupLoop env self args [] s.planes s)).tryIdentityOptim
          && !(afterRedoLookup
            (redoLookupLoop env self args [] s.planes s)).fullRectsToRender.isEmpty) = true := by
        rw [hoptim]
        simp [St.fullRectsToRender]
      rw [if_pos hfull, hthrew]
      rfl
    rw [renderRoIBody_eq_atRedoLookup, hs]
    simp only [Flow.andThen, hp, Flow.result]

set_option maxRecDepth 100000 in
/-- The two ways of the exception on the scenes `raisingEnv` and `raisingTileEnv`. -/
theorem renderRoI_isIdentity_exception_witness :
    renderRoIBody raisingEnv (renderRoI raisingEnv 1) 1 1 sceneArgs [] 100
        = some ⟨.returned .eRenderRoIRetCodeFailed, [],
            raisingState.trace ++ [Event.isIdentity 1 ⟨0, 0, 8, 8⟩ 10 0], 100⟩
      ∧ renderRoIBody raisingTileEnv (renderRoI raisingTileEnv 1) 1 1 sceneArgs [] 100
        = some ⟨.raised, [],
            raisingTileState.trace ++ [Event.isIdentity 1 ⟨0, 0, 4, 4⟩ 10 0], 100⟩ :=
  ⟨(renderRoI_isIdentity_exception raisingEnv (renderRoI raisingEnv 1) 1 1 sceneArgs [] 100).1
      raisingState
      { raisingState with trace := raisingState.trace ++ [Event.isIdentity 1 ⟨0, 0, 8, 8⟩ 10 0] }
      (by rfl) (by rfl),
   (renderRoI_isIdentity_exception raisingTileEnv (renderRoI raisingTileEnv 1) 1 1 sceneArgs []
      100).2.2.1 raisingTileState
      { raisingTileState with
          trace := raisingTileState.trace ++ [Event.isIdentity 1 ⟨0, 0, 4, 4⟩ 10 0] }
      (by rfl) (by rfl) (by rfl)⟩

theorem convertPlanesFormatsIfNeeded_out {σ : Type} (env : Env σ) (inputImage : Image)
    (roi : RectI) (targetComponents : ImageComponents) (targetDepth : ImageBitDepthEnum)
    (useAlpha0ForRGBToRGBAConversion : Bool) (outputPremult : ImagePremultiplicationEnum)
    (s : St σ) :
    (convertPlanesFormatsIfNeeded env inputImage roi targetComponents targetDepth
      useAlpha0ForRGBToRGBAConversion outputPremult s).2.out = s.out := by
  unfold convertPlanesFormatsIfNeeded
  dsimp only
  repeat' split
  all_goals rfl

/-- C19, the image that refutes it: an image of the motion vectors (two components, float, in
system memory) is asked as the disparity plane (two components) in float. The number of
components and the bit depth are those of the target, so the image is returned as it is: its
components are not the target components. -/
theorem egress_format_counterexample :
    motionImage.storage ≠ .eStorageModeGLTex
      ∧ (convertPlanesFormatsIfNeeded sceneEnv motionImage ⟨0, 0, 4, 4⟩ disparity
          .eImageBitDepthFloat false .eImagePremultiplicationPremultiplied
          (St.entry [] 100)).1 = motionImage
      ∧ motionImage.components ≠ disparity := by
  decide

/-- C19, as the code has it. For an input image that is not a texture, the image that
`convertPlanesFormatsIfNeeded` returns has the target bit depth and as many components as the
target components; it is the input image itself when the input already has that number of
components and that bit depth (its components are then not compared with the target), and
otherwise a new image in system memory with the target components. It is not a texture.
Consequently the image that `renderRoI` inserts in `*outputPlanes` for a plane at the end of a
render, when the working image is not a texture and the caller does not ask for a texture, is
the one `convertPlanesFormatsIfNeeded` returns for the requested components and bit depth: it
has the requested bit depth and the requested number of components. -/
theorem convertPlanesFormatsIfNeeded_format {σ : Type} (env : Env σ) (inputImage : Image)
    (roi : RectI) (targetComponents : ImageComponents) (targetDepth : ImageBitDepthEnum)
    (useAlpha0ForRGBToRGBAConversion : Bool) (outputPremult : ImagePremultiplicationEnum)
    (s : St σ) (h : inputImage.storage ≠ .eStorageModeGLTex) :
    (convertPlanesFormatsIfNeeded env inputImage roi targetComponents targetDepth
        useAlpha0ForRGBToRGBAConversion outputPremult s).1.bitDepth = targetDepth
      ∧ (convertPlanesFormatsIfNeeded env inputImage roi targetComponents targetDepth
          useAlpha0ForRGBToRGBAConversion outputPremult s).1.components.getNumComponents
          = targetComponents.getNumComponents
      ∧ (convertPlanesFormatsIfNeeded env inputImage roi targetComponents targetDepth
          useAlpha0ForRGBToRGBAConversion outputPremult s).1.storage ≠ .eStorageModeGLTex
      ∧ (if targetComponents.getNumComponents = inputImage.components.getNumComponents
            ∧ targetDepth = inputImage.bitDepth then
          (convertPlanesFormatsIfNeeded env inputImage roi targetComponents targetDepth
            useAlpha0ForRGBToRGBAConversion outputPremult s).1 = inputImage
         else
          (convertPlanesFormatsIfNeeded env inputImage roi targetComponents targetDepth
            useAlpha0ForRGBToRGBAConversion outputPremult s).1.components = targetComponents)
      ∧ ∀ (args : RenderRoIArgs) (comp : ImageComponents) (s0 : St σ),
          args.returnStorage ≠ .eStorageModeGLTex →
          (outputPlane env args comp inputImage s0).out
            = PlaneMap.insertNew env.compLess s0.out comp
                (convertPlanesFormatsIfNeeded env inputImage s0.originalRoI comp args.bitdepth
                  (useAlpha0 env args) s0.outputPremult s0).1
          ∧ (convertPlanesFormatsIfNeeded env inputImage s0.originalRoI comp args.bitdepth
              (useAlpha0 env args) s0.outputPremult s0).1.bitDepth = args.bitdepth
          ∧ (convertPlanesFormatsIfNeeded env inputImage s0.originalRoI comp args.bitdepth
              (useAlpha0 env args) s0.outputPremult s0).1.components.getNumComponents
              = comp.getNumComponents := by
  have key : ∀ (roi : RectI) (targetComponents : ImageComponents)
      (targetDepth : ImageBitDepthEnum) (a : Bool) (p : ImagePremultiplicationEnum) (s : St σ),
      (convertPlanesFormatsIfNeeded env inputImage roi targetComponents targetDepth a p s).1.bitDepth
          = targetDepth
        ∧ (convertPlanesFormatsIfNeeded env inputImage roi targetComponents targetDepth
            a p s).1.components.getNumComponents = targetComponents.getNumComponents
        ∧ (convertPlanesFormatsIfNeeded env inputImage roi targetComponents targetDepth
            a p s).1.storage ≠ .eStorageModeGLTex
        ∧ (if targetComponents.getNumComponents = inputImage.components.getNumComponents
              ∧ targetDepth = inputImage.bitDepth then
            (convertPlanesFormatsIfNeeded env inputImage roi targetComponents targetDepth
              a p s).1 = inputImage
           else
            (convertPlanesFormatsIfNeeded env inputImage roi targetComponents targetDepth
              a p s).1.components = targetComponents) := by
    intro roi targetComponents targetDepth a p s
    unfold convertPlanesFormatsIfNeeded
    rw [if_neg h]
    dsimp only
    by_cases hc : targetComponents.getNumComponents = inputImage.components.getNumComponents
        ∧ targetDepth = inputImage.bitDepth
    · have hconv : (!(targetComponents.getNumComponents != inputImage.components.getNumComponents
          || targetDepth != inputImage.bitDepth)) = true := by
        simp [hc.1, hc.2]
      rw [if_pos hconv, if_pos hc]
      exact ⟨hc.2.symm, hc.1.symm, h, rfl⟩
    · have hconv : ¬ (!(targetComponents.getNumComponents != inputImage.components.getNumComponents
          || targetDepth != inputImage.bitDepth)) = true := by
        intro hx
        apply hc
        simpa using hx
      rw [if_neg hconv, if_neg hc]
      exact ⟨rfl, rfl, fun hx => StorageModeEnum.noConfusion hx, rfl⟩
  refine ⟨(key _ _ _ _ _ _).1, (key _ _ _ _ _ _).2.1, (key _ _ _ _ _ _).2.2.1,
    (key _ _ _ _ _ _).2.2.2, ?_⟩
  intro args comp s0 hret
  refine ⟨?_, (key _ _ _ _ _ _).1, (key _ _ _ _ _ _).2.1⟩
  have hst := (key s0.originalRoI comp args.bitdepth (useAlpha0 env args) s0.outputPremult
    s0).2.2.1
  unfold outputPlane
  dsimp only
  unfold convertStorage
  rw [if_neg (fun hx => hret hx.1), if_neg (fun hx => hst hx.2)]
  dsimp only
  rw [convertPlanesFormatsIfNeeded_out]

/-- The conversion of `motionImage` to RGBA in 8 bits. -/
theorem convertPlanesFormatsIfNeeded_format_witness :
    (convertPlanesFormatsIfNeeded sceneEnv motionImage ⟨0, 0, 4, 4⟩ rgba
        .eImageBitDepthByte false .eImagePremultiplicationPremultiplied
        (St.entry [] 100)).1.bitDepth = .eImageBitDepthByte
      ∧ (convertPlanesFormatsIfNeeded sceneEnv motionImage ⟨0, 0, 4, 4⟩ rgba
        .eImageBitDepthByte false .eImagePremultiplicationPremultiplied
        (St.entry [] 100)).1.components.getNumComponents = 4 :=
  ⟨(convertPlanesFormatsIfNeeded_format sceneEnv motionImage ⟨0, 0, 4, 4⟩ rgba
      .eImageBitDepthByte false .eImagePremultiplicationPremultiplied (St.entry [] 100)
      (by decide)).1,
   (convertPlanesFormatsIfNeeded_format sceneEnv motionImage ⟨0, 0, 4, 4⟩ rgba
      .eImageBitDepthByte false .eImagePremultiplicationPremultiplied (St.entry [] 100)
      (by decide)).2.1⟩

theorem LookupRel.refl_rel {σ : Type} (env : Env σ) (s : St σ) : LookupRel env s s :=
  ⟨rfl, fun _ h => h, fun _ h => Or.inl h, fun _ h => Or.inl h⟩

theorem LookupRel.trans_rel {σ : Type} {env : Env σ} {s s1 s2 : St σ}
    (h1 : LookupRel env s s1) (h2 : LookupRel env s1 s2) : LookupRel env s s2 := by
  obtain ⟨r1, t1, o1, m1⟩ := h1
  obtain ⟨r2, t2, o2, m2⟩ := h2
  refine ⟨r2.trans r1, fun ev h => t2 ev (t1 ev h), fun kp h => ?_, fun img h => ?_⟩
  · rcases o2 kp h with h | h
    · rcases o1 kp h with h | h
      · exact Or.inl h
      · exact Or.inr ⟨h.1, t2 _ h.2⟩
    · rw [r1] at h
      exact Or.inr h
  · rcases m2 img h with h | h
    · exact m1 img h
    · rw [r1] at h
      exact Or.inr h

/-- A step that keeps the region of interest and `*outputPlanes` and emits neither a removal
of an image from the node cache nor anything else that matters to `LookupRel`. -/
theorem LookupRel.of_quiet {σ : Type} (env : Env σ) (s s' : St σ) (evs : List Event)
    (hroi : s'.roi = s.roi) (hout : s'.out = s.out) (htr : s'.trace = s.trace ++ evs)
    (hevs : ∀ img, Event.removeFromNodeCache (some img) ∉ evs) : LookupRel env s s' := by
  refine ⟨hroi, fun ev h => ?_, fun kp h => ?_, fun img h => ?_⟩
  · rw [htr]
    exact List.mem_append_left _ h
  · rw [hout] at h
    exact Or.inl h
  · rw [htr] at h
    rcases List.mem_append.1 h with h | h
    · exact Or.inl h
    · exact absurd h (hevs img)

theorem cacheLookupOnce_rel {σ : Type} (env : Env σ) (self : NodeId) (args : RenderRoIArgs)
    (key : ImageKey) (plane : ImageComponents) (s : St σ) :
    LookupRel env s (cacheLookupOnce env self args key plane s).2 :=
  LookupRel.of_quiet env s _ _ rfl rfl rfl (by simp)

theorem cacheLookups_rel {σ : Type} (env : Env σ) (self : NodeId) (args : RenderRoIArgs)
    (plane : ImageComponents) (remaining n : Nat) (s : St σ) :
    LookupRel env s (cacheLookups env self args plane remaining n s).2 := by
  induction remaining generalizing n s with
  | zero => exact LookupRel.refl_rel env s
  | succ m ih =>
    simp only [cacheLookups]
    split
    · exact cacheLookupOnce_rel env self args _ plane s
    · exact (cacheLookupOnce_rel env self args _ plane s).trans_rel (ih _ _)

theorem lookupPlane_rel {σ : Type} (env : Env σ) (self : NodeId) (args : RenderRoIArgs)
    (plane : ImageComponents) (s : St σ) : LookupRel env s (lookupPlane env self args plane s).2 := by
  unfold lookupPlane
  dsimp only
  split
  · exact cacheLookups_rel env self args plane _ _ s
  · exact LookupRel.refl_rel env s

theorem dropIfByPass_rel {σ : Type} (env : Env σ) (found : Option Image × St σ) :
    LookupRel env found.2 (dropIfByPass env found).2 := by
  unfold dropIfByPass
  split
  · exact LookupRel.of_quiet env _ _ _ rfl rfl rfl (by simp)
  · exact LookupRel.refl_rel env _

theorem found_rel {σ : Type} (env : Env σ) (self : NodeId) (args : RenderRoIArgs)
    (plane : ImageComponents) (s : St σ) :
    LookupRel env s (dropIfByPass env (lookupPlane env self args plane s)).2 :=
  (lookupPlane_rel env self args plane s).trans_rel (dropIfByPass_rel env _)

theorem insertPlane_rel {σ : Type} (env : Env σ) (plane : ImageComponents) (img : Option Image)
    (s : St σ) : LookupRel env s (insertPlane env plane img s) :=
  LookupRel.of_quiet env s _ [] rfl rfl (by simp [insertPlane]) (by simp)

/-- `recheckPlanes`: every plane that is kept has lost its image; a plane that held an image
either had it removed from the node cache, or its rest to render was empty. -/
theorem recheckPlanes_rel {σ : Type} (env : Env σ)
    (l : List (ImageComponents × PlaneToRender)) (newPlanes : PlaneMap PlaneToRender)
    (s : St σ) :
    LookupRel env s (recheckPlanes env l newPlanes s).2
      ∧ (∀ kp ∈ (recheckPlanes env l newPlanes s).1, kp ∈ newPlanes ∨ kp.2.fullscaleImage = none)
      ∧ (∀ k plane img, (k, plane) ∈ l → plane.fullscaleImage = some img →
          (Event.removeFromNodeCache (some img) ∈ (recheckPlanes env l newPlanes s).2.trace
            ∧ RestLeft env s.roi img)
          ∨ RestEmpty env s.roi img) := by
  induction l generalizing newPlanes s with
  | nil =>
    exact ⟨LookupRel.refl_rel env s, fun kp h => Or.inl h, fun k plane img h => by simp at h⟩
  | cons hd tl ih =>
    obtain ⟨k0, plane0⟩ := hd
    have key : ∀ (np : PlaneMap PlaneToRender) (s1 : St σ), LookupRel env s s1 →
        LookupRel env s (recheckPlanes env tl np s1).2
          ∧ (∀ kp ∈ (recheckPlanes env tl np s1).1, kp ∈ np ∨ kp.2.fullscaleImage = none)
          ∧ (∀ k plane img, (k, plane) ∈ tl → plane.fullscaleImage = some img →
              (Event.removeFromNodeCache (some img) ∈ (recheckPlanes env tl np s1).2.trace
                ∧ RestLeft env s.roi img)
              ∨ RestEmpty env s.roi img) := by
      intro np s1 h1
      have h := ih np s1
      refine ⟨h1.trans_rel h.1, h.2.1, fun k plane img hm himg => ?_⟩
      have := h.2.2 k plane img hm himg
      rw [h1.1] at this
      exact this
    simp only [recheckPlanes]
    split
    · rename_i img0 himg0
      split
      · rename_i hrest
        have hleft : RestLeft env s.roi img0 := ⟨s.ext, by simpa using hrest⟩
        have hstep : LookupRel env s
            ({ s.emit (Event.getRestToRender img0 s.roi) with
                ext := env.removeFromNodeCache (some img0) (s.emit (Event.getRestToRender img0 s.roi)).ext
                trace := (s.emit (Event.getRestToRender img0 s.roi)).trace
                  ++ [Event.removeFromNodeCache (some img0)] } : St σ) := by
          refine ⟨rfl, fun ev h => ?_, fun kp h => Or.inl h, fun img h => ?_⟩
          · simp only [St.emit]
            exact List.mem_append_left _ (List.mem_append_left _ h)
          · simp only [St.emit, List.append_assoc, List.mem_append, List.mem_cons,
              List.mem_singleton, List.not_mem_nil, or_false] at h
            rcases h with h | h | h
            · exact Or.inl h
            · cases h
            · simp only [Event.removeFromNodeCache.injEq, Option.some.injEq] at h
              subst h
              exact Or.inr hleft
        have h := key (PlaneMap.insertNew env.compLess newPlanes k0
          { plane0 with fullscaleImage := none, downscaleImage := none }) _ hstep
        refine ⟨h.1, fun kp hkp => ?_, fun k plane img hmem himg => ?_⟩
        · rcases h.2.1 kp hkp with h1 | h1
          · rcases insertNew_mem _ _ _ _ kp h1 with h2 | h2
            · exact Or.inl h2
            · exact Or.inr (by rw [h2])
          · exact Or.inr h1
        · rcases List.mem_cons.1 hmem with hm | hm
          · cases hm
            rw [himg0] at himg
            cases himg
            refine Or.inl ⟨(ih _ _).1.2.1 _ ?_, hleft⟩
            simp [St.emit]
          · exact h.2.2 k plane img hm himg
      · rename_i hrest
        have hempty : RestEmpty env s.roi img0 := ⟨s.ext, by simpa using hrest⟩
        have hstep : LookupRel env s
            ({ s.emit (Event.getRestToRender img0 s.roi) with
                out := PlaneMap.insertNew env.compLess (s.emit (Event.getRestToRender img0 s.roi)).out
                  k0 img0 } : St σ) := by
          refine ⟨rfl, fun ev h => ?_, fun kp h => ?_, fun img h => ?_⟩
          · simp only [St.emit]
            exact List.mem_append_left _ h
          · rcases insertNew_mem _ _ _ _ kp h with h2 | h2
            · exact Or.inl h2
            · rw [h2]
              exact Or.inr ⟨hempty, by simp [St.emit]⟩
          · simp only [St.emit, List.mem_append, List.mem_singleton] at h
            rcases h with h | h
            · exact Or.inl h
            · cases h
        have h := key newPlanes _ hstep
        refine ⟨h.1, h.2.1, fun k plane img hmem himg => ?_⟩
        rcases List.mem_cons.1 hmem with hm | hm
        · cases hm
          rw [himg0] at himg
          cases himg
          exact Or.inr hempty
        · exact h.2.2 k plane img hm himg
    · rename_i himg0
      have h := key (PlaneMap.insertNew env.compLess newPlanes k0 plane0) s
        (LookupRel.refl_rel env s)
      refine ⟨h.1, fun kp hkp => ?_, fun k plane img hmem himg => ?_⟩
      · rcases h.2.1 kp hkp with h1 | h1
        · rcases insertNew_mem _ _ _ _ kp h1 with h2 | h2
          · exact Or.inl h2
          · exact Or.inr (by rw [h2]; exact himg0)
        · exact Or.inr h1
      · rcases List.mem_cons.1 hmem with hm | hm
        · cases hm
          rw [himg0] at himg
          cases himg
        · exact h.2.2 k plane img hm himg

theorem found_planes {σ : Type} (env : Env σ) (self : NodeId) (args : RenderRoIArgs)
    (plane : ImageComponents) (s : St σ) :
    (dropIfByPass env (lookupPlane env self args plane s)).2.planes = s.planes :=
  ((lookupPlane_keeps env self args plane s).trans_keeps
    (dropIfByPass_keeps env (lookupPlane env self args plane s))).2.1

/-- One round of the look-up loop keeps the invariant: as long as no plane is missing every
plane of the map holds an image, and once a plane is missing none does. -/
theorem lookupStep_rel {σ : Type} (env : Env σ) (self : NodeId) (args : RenderRoIArgs)
    (plane : ImageComponents) (missingPlane : Bool) (s : St σ)
    (hinv : if missingPlane = true then ∀ kp ∈ s.planes, kp.2.fullscaleImage = none
      else ∀ kp ∈ s.planes, kp.2.fullscaleImage.isSome = true) :
    LookupRel env s (lookupStep env self args plane missingPlane s).2
      ∧ (if (lookupStep env self args plane missingPlane s).1 = true then
          ∀ kp ∈ (lookupStep env self args plane missingPlane s).2.planes,
            kp.2.fullscaleImage = none
         else ∀ kp ∈ (lookupStep env self args plane missingPlane s).2.planes,
            kp.2.fullscaleImage.isSome = true) := by
  have hf := found_rel env self args plane s
  have hp := found_planes env self args plane s
  unfold lookupStep
  dsimp only
  split
  · exact ⟨LookupRel.refl_rel env s, hinv⟩
  · split
    · rename_i img himg
      split
      · rename_i hmiss
        rw [if_pos hmiss] at hinv
        split
        · rename_i hrest
          refine ⟨hf.trans_rel ?_, ?_⟩
          · refine ⟨rfl, fun ev h => ?_, fun kp h => Or.inl h, fun im h => ?_⟩
            · simp only [insertPlane]
              exact List.mem_append_left _ h
            · simp only [insertPlane, List.mem_append, List.mem_cons, List.mem_singleton,
                List.not_mem_nil, or_false] at h
              rcases h with h | h | h
              · exact Or.inl h
              · cases h
              · simp only [Event.removeFromNodeCache.injEq, Option.some.injEq] at h
                subst h
                exact Or.inr ⟨_, by simpa using hrest⟩
          · try rw [if_pos hmiss]
            intro kp hkp
            simp only [insertPlane, hp] at hkp
            rcases insertNew_mem _ _ _ _ kp hkp with h | h
            · exact hinv kp h
            · rw [h]
        · rename_i hrest
          refine ⟨hf.trans_rel ?_, ?_⟩
          · refine ⟨rfl, fun ev h => List.mem_append_left _ h, fun kp h => ?_, fun im h => ?_⟩
            · rcases insertNew_mem _ _ _ _ kp h with h2 | h2
              · exact Or.inl h2
              · rw [h2]
                exact Or.inr ⟨⟨_, by simpa using hrest⟩, by simp⟩
            · simp only [List.mem_append, List.mem_singleton] at h
              rcases h with h | h
              · exact Or.inl h
              · cases h
          · try rw [if_pos hmiss]
            intro kp hkp
            simp only [hp] at hkp
            exact hinv kp hkp
      · rename_i hmiss
        rw [if_neg hmiss] at hinv
        refine ⟨hf.trans_rel (insertPlane_rel env plane _ _), ?_⟩
        try rw [if_neg hmiss]
        intro kp hkp
        simp only [insertPlane, hp] at hkp
        rcases insertNew_mem _ _ _ _ kp hkp with h | h
        · exact hinv kp h
        · rw [h]
          rfl
    · rename_i himg
      split
      · rename_i hmiss
        have hr := recheckPlanes_rel env
          (dropIfByPass env (lookupPlane env self args plane s)).2.planes []
          (dropIfByPass env (lookupPlane env self args plane s)).2
        refine ⟨hf.trans_rel (hr.1.trans_rel ?_), ?_⟩
        · exact LookupRel.of_quiet env _ _ [] rfl rfl (by simp [insertPlane]) (by simp)
        · try rw [if_pos rfl]
          intro kp hkp
          simp only [insertPlane] at hkp
          rcases insertNew_mem _ _ _ _ kp hkp with h | h
          · rcases hr.2.1 kp h with h1 | h1
            · simp at h1
            · exact h1
          · rw [h]
      · rename_i hmiss
        have hm : missingPlane = true := by simpa using hmiss
        rw [if_pos hm] at hinv
        refine ⟨hf.trans_rel (insertPlane_rel env plane _ _), ?_⟩
        try rw [if_pos hm]
        intro kp hkp
        simp only [insertPlane, hp] at hkp
        rcases insertNew_mem _ _ _ _ kp hkp with h | h
        · exact hinv kp h
        · rw [h]

theorem lookupLoop_rel {σ : Type} (env : Env σ) (self : NodeId) (args : RenderRoIArgs)
    (l : List ImageComponents) (missingPlane : Bool) (s : St σ)
    (hinv : if missingPlane = true then ∀ kp ∈ s.planes, kp.2.fullscaleImage = none
      else ∀ kp ∈ s.planes, kp.2.fullscaleImage.isSome = true) :
    LookupRel env s (lookupLoop env self args l missingPlane s)
      ∧ AllOrNothing (lookupLoop env self args l missingPlane s).planes := by
  induction l generalizing missingPlane s with
  | nil =>
    refine ⟨LookupRel.refl_rel env s, ?_⟩
    simp only [lookupLoop]
    split at hinv
    · exact Or.inr hinv
    · exact Or.inl hinv
  | cons plane rest ih =>
    simp only [lookupLoop]
    have h1 := lookupStep_rel env self args plane missingPlane s hinv
    have h2 := ih _ _ h1.2
    exact ⟨h1.1.trans_rel h2.1, h2.2⟩

theorem atLookup_start {σ : Type} (env : Env σ) (recCall : RecCall σ) (self : NodeId)
    (args : RenderRoIArgs) (outputPlanes : PlaneMap Image) (ext : σ) :
    (atLookup env recCall self args outputPlanes ext).Post
      (fun s => s.planes = [] ∧ Within (fun j => j ≤ 7) s.trace) (fun _ => True) := by
  unfold atLookup
  have h0 := (atStorage_post env recCall self args outputPlanes ext (fun j => j ≤ 7)
    (fun j hj => by omega)).andThen_post
    (fun s hs => chooseStorage_post env self args s (fun j => j ≤ 7) (by decide) hs)
  have h1 := h0.step_within 7 (openGLRenderScale_steps env args) (by decide)
  refine (h1.mono_post (fun _ h => h) (fun _ _ => trivial)).andThen_post ?_
  intro s hs
  unfold prepareLookup
  exact ⟨rfl, hs⟩

theorem not_removal_of_stage {e : Event} (h : ∃ j ∈ e.stages, j ≤ 7) (img : Option Image) :
    e ≠ Event.removeFromNodeCache img := by
  obtain ⟨j, hj, hle⟩ := h
  intro he
  subst he
  simp [Event.stages] at hj
  omega

theorem renderRoIBody_eq_atReturn {σ : Type} (env : Env σ) (recCall : RecCall σ) (fuel : Nat)
    (self : NodeId) (args : RenderRoIArgs) (outputPlanes : PlaneMap Image) (ext : σ) :
    renderRoIBody env recCall fuel self args outputPlanes ext
      = ((atReturn env recCall fuel self args outputPlanes ext).andThen
          (returnPlanes env args)).result := by
  rw [renderRoIBody_eq_atFinish]
  simp only [atReturn, Flow.andThen_assoc]
  rfl

theorem insertNew_mono {V : Type} (lt : ImageComponents → ImageComponents → Bool)
    (m : PlaneMap V) (k : ImageComponents) (v : V) (kp : ImageComponents × V) (h : kp ∈ m) :
    kp ∈ PlaneMap.insertNew lt m k v := by
  induction m with
  | nil => simp at h
  | cons hd tl ih =>
    obtain ⟨k0, v0⟩ := hd
    simp only [PlaneMap.insertNew]
    split
    · exact List.mem_cons_of_mem _ h
    · split
      · rcases List.mem_cons.1 h with h1 | h1
        · exact List.mem_cons.2 (Or.inl h1)
        · exact List.mem_cons.2 (Or.inr (ih h1))
      · exact h

theorem insertNew_key {V : Type} (lt : ImageComponents → ImageComponents → Bool)
    (m : PlaneMap V) (k : ImageComponents) (v : V) :
    ∃ kp ∈ PlaneMap.insertNew lt m k v, kp.1 = k ∨ (lt k kp.1 = false ∧ lt kp.1 k = false) := by
  induction m with
  | nil => exact ⟨(k, v), by simp [PlaneMap.insertNew], Or.inl rfl⟩
  | cons hd tl ih =>
    obtain ⟨k0, v0⟩ := hd
    simp only [PlaneMap.insertNew]
    split
    · exact ⟨(k, v), List.mem_cons_self _ _, Or.inl rfl⟩
    · rename_i h1
      split
      · obtain ⟨kp, hkp, h⟩ := ih
        exact ⟨kp, List.mem_cons_of_mem _ hkp, h⟩
      · rename_i h2
        exact ⟨(k0, v0), List.mem_cons_self _ _, Or.inr ⟨by simpa using h1, by simpa using h2⟩⟩

theorem swapInCache_out {σ : Type} (env : Env σ) (plane : PlaneToRender) (s : St σ) :
    (swapInCache env plane s).out = s.out := by
  unfold swapInCache
  repeat' split
  all_goals rfl

theorem downscaleCached_out {σ : Type} (env : Env σ) (args : RenderRoIArgs)
    (plane : PlaneToRender) (s : St σ) (r : PlaneToRender × St σ)
    (h : downscaleCached env args plane s = some r) : r.2.out = s.out := by
  unfold downscaleCached at h
  repeat' split at h
  all_goals first | (cases h; rfl) | cases h

theorem convertStorage_out {σ : Type} (env : Env σ) (args : RenderRoIArgs) (img : Image)
    (s : St σ) : (convertStorage env args img s).2.out = s.out := by
  unfold convertStorage
  repeat' split
  all_goals rfl

theorem returnPlane_out {σ : Type} (env : Env σ) (args : RenderRoIArgs) (k : ImageComponents)
    (plane : PlaneToRender) (s s1 : St σ) (h : returnPlane env args k plane s = some s1) :
    (requestedFormat args k = none ∧ s1.out = s.out)
      ∨ ∃ c img, requestedFormat args k = some c
          ∧ s1.out = PlaneMap.insertNew env.compLess s.out c img := by
  unfold returnPlane at h
  split at h
  · cases h
  · rename_i r hr
    have ho : r.2.out = s.out :=
      (downscaleCached_out env args plane _ r hr).trans (swapInCache_out env plane s)
    split at h
    · rename_i hnone
      cases h
      exact Or.inl ⟨hnone, ho⟩
    · rename_i c hc
      split at h
      · cases h
      · rename_i img himg
        cases h
        refine Or.inr ⟨c, (convertStorage env args
          (convertPlanesFormatsIfNeeded env img r.2.originalRoI c args.bitdepth
            (useAlpha0 env args) r.2.outputPremult r.2).1
          (convertPlanesFormatsIfNeeded env img r.2.originalRoI c args.bitdepth
            (useAlpha0 env args) r.2.outputPremult r.2).2).1, hc, ?_⟩
        unfold outputPlane
        dsimp only
        rw [convertStorage_out, convertPlanesFormatsIfNeeded_out, ho]

/-- The loop of lines 1751-1836 on `*outputPlanes`: what was there stays, what is added has
the requested key of one of the planes, and each plane that has a requested key finds it, or
an equivalent key, in `*outputPlanes` after the loop. -/
theorem returnPlanesLoop_out {σ : Type} (env : Env σ) (args : RenderRoIArgs)
    (l : List (ImageComponents × PlaneToRender)) (s s1 : St σ)
    (h : returnPlanesLoop env args l s = some s1) :
    (∀ kp ∈ s.out, kp ∈ s1.out)
      ∧ (∀ kp ∈ s1.out, kp ∈ s.out
          ∨ ∃ k plane, (k, plane) ∈ l ∧ requestedFormat args k = some kp.1)
      ∧ (∀ k plane c, (k, plane) ∈ l → requestedFormat args k = some c →
          ∃ kp ∈ s1.out, kp.1 = c
            ∨ (env.compLess c kp.1 = false ∧ env.compLess kp.1 c = false)) := by
  induction l generalizing s with
  | nil =>
    simp only [returnPlanesLoop, Option.some.injEq] at h
    subst h
    exact ⟨fun _ h => h, fun _ h => Or.inl h, fun k plane c hm => by simp at hm⟩
  | cons hd tl ih =>
    obtain ⟨k0, plane0⟩ := hd
    simp only [returnPlanesLoop] at h
    split at h
    · cases h
    · rename_i s0 hs0
      have h1 := ih s0 h
      rcases returnPlane_out env args k0 plane0 s s0 hs0 with ⟨hnone, ho⟩ | ⟨c0, img0, hc0, ho⟩
      · rw [ho] at h1
        refine ⟨h1.1, fun kp hkp => ?_, fun k plane c hm hc => ?_⟩
        · rcases h1.2.1 kp hkp with h2 | ⟨k, plane, hm, hk⟩
          · exact Or.inl h2
          · exact Or.inr ⟨k, plane, List.mem_cons_of_mem _ hm, hk⟩
        · rcases List.mem_cons.1 hm with hm | hm
          · cases hm
            rw [hnone] at hc
            cases hc
          · exact h1.2.2 k plane c hm hc
      · rw [ho] at h1
        refine ⟨fun kp hkp => h1.1 kp (insertNew_mono _ _ _ _ kp hkp), fun kp hkp => ?_,
          fun k plane c hm hc => ?_⟩
        · rcases h1.2.1 kp hkp with h2 | ⟨k, plane, hm, hk⟩
          · rcases insertNew_mem _ _ _ _ kp h2 with h3 | h3
            · exact Or.inl h3
            · exact Or.inr ⟨k0, plane0, List.mem_cons_self _ _, by rw [h3]; exact hc0⟩
          · exact Or.inr ⟨k, plane, List.mem_cons_of_mem _ hm, hk⟩
        · rcases List.mem_cons.1 hm with hm | hm
          · cases hm
            rw [hc0] at hc
            cases hc
            obtain ⟨kp, hkp, hk⟩ := insertNew_key env.compLess s.out c0 img0
            exact ⟨kp, h1.1 kp hkp, hk⟩
          · exact h1.2.2 k plane c hm hc

set_option maxRecDepth 100000 in
/-- C18, the request that refutes it: the planes RGBA and motion vectors are requested from
an effect whose components-available map holds RGBA only. The call goes through the cache
look-up and the render and returns `eRenderRoIRetCodeOk`; `*outputPlanes` holds an image for
RGBA and none for the motion vectors. -/
theorem one_image_per_plane_counterexample :
    twoPlanesArgs.components = [rgba, motion]
      ∧ (renderRoI sceneEnv 2 1 twoPlanesArgs [] 100).map
          (fun r => (r.outcome, r.planes.map Prod.fst, r.trace.countP Event.isCacheLookup,
            r.trace.countP Event.isDispatch))
        = some (.returned .eRenderRoIRetCodeOk, [rgba], 1, 4) := by
  refine ⟨rfl, ?_⟩
  decide!

/-- C18, as the code has it. The call has reached the conversion of the planes to the
requested format (line 1742) in the state `s`, and returns `eRenderRoIRetCodeOk`. Then every
plane that `*outputPlanes` held in the state `s` (on entry, fetched upstream, or taken from the
cache by the look-up loop) is still there; every other plane of `*outputPlanes` has, as its
key, the requested key of a plane of the planes to render: the plane itself when it is not a
colour plane, the first colour plane of `args.components` when it is; and for every plane of
the planes to render that has a requested key, `*outputPlanes` holds that key or an equivalent
one. A requested plane that is not in the planes to render, because the negotiation dropped it
or fetched another plane for it, gets no image from this loop. -/
theorem renderRoI_output_keys {σ : Type} (env : Env σ) (recCall : RecCall σ) (fuel : Nat)
    (self : NodeId) (args : RenderRoIArgs) (outputPlanes : PlaneMap Image) (ext : σ)
    (s : St σ) (r : Result σ)
    (hs : atReturn env recCall fuel self args outputPlanes ext = .next s)
    (hr : renderRoIBody env recCall fuel self args outputPlanes ext = some r)
    (hok : r.outcome = .returned .eRenderRoIRetCodeOk) :
    (∀ kp ∈ s.out, kp ∈ r.planes)
      ∧ (∀ kp ∈ r.planes, kp ∈ s.out
          ∨ ∃ k plane, (k, plane) ∈ s.planes ∧ requestedFormat args k = some kp.1)
      ∧ (∀ k plane c, (k, plane) ∈ s.planes → requestedFormat args k = some c →
          ∃ kp ∈ r.planes, kp.1 = c
            ∨ (env.compLess c kp.1 = false ∧ env.compLess kp.1 c = false)) := by
  rw [renderRoIBody_eq_atReturn, hs] at hr
  simp only [Flow.andThen, returnPlanes] at hr
  split at hr
  · simp only [St.endsWith, Flow.result, Option.some.injEq] at hr
    subst hr
    cases hok
  · rename_i s1 hs1
    simp only [St.returns, Flow.result, Option.some.injEq] at hr
    subst hr
    exact returnPlanesLoop_out env args s.planes s s1 hs1

set_option maxRecDepth 100000 in
/-- The planes returned on the scene `sceneEnv`. -/
theorem renderRoI_output_keys_witness :
    sceneResult.planes.map Prod.fst = [rgba]
      ∧ ∀ kp ∈ sceneResult.planes, kp ∈ sceneReturnState.out
          ∨ ∃ k plane, (k, plane) ∈ sceneReturnState.planes
              ∧ requestedFormat sceneArgs k = some kp.1 :=
  ⟨by decide!, (renderRoI_output_keys sceneEnv (renderRoI sceneEnv 1) 1 1 sceneArgs [] 100
    sceneReturnState sceneResult (by rfl) (by rfl) (by rfl)).2.1⟩

theorem St.SameGeometry.refl_geometry {σ : Type} (s : St σ) : s.SameGeometry s :=
  ⟨rfl, rfl, rfl, rfl, rfl, rfl, rfl⟩

theorem St.SameGeometry.trans_geometry {σ : Type} {s s1 s2 : St σ} (h1 : s.SameGeometry s1)
    (h2 : s1.SameGeometry s2) : s.SameGeometry s2 := by
  obtain ⟨a1, a2, a3, a4, a5, a6, a7⟩ := h1
  obtain ⟨b1, b2, b3, b4, b5, b6, b7⟩ := h2
  exact ⟨b1.trans a1, b2.trans a2, b3.trans a3, b4.trans a4, b5.trans a5, b6.trans a6,
    b7.trans a7⟩

theorem St.SameGeometry.renderBounds_eq {σ : Type} {s s' : St σ} (h : s.SameGeometry s') :
    s'.renderBounds = s.renderBounds := by
  obtain ⟨-, -, a3, a4, -, a6, -⟩ := h
  simp only [St.renderBounds, a3, a4, a6]

theorem NoTiles.of_geometry {σ : Type} {env : Env σ} {args : RenderRoIArgs} {s s' : St σ}
    (h : NoTiles env args s) (hg : s.SameGeometry s') : NoTiles env args s' := by
  have hb := hg.renderBounds_eq
  obtain ⟨a1, a2, a3, a4, a5, a6, a7⟩ := hg
  obtain ⟨n1, n2, n3, n4⟩ := h
  exact ⟨by rw [a7]; exact n1, by rw [a3, a1, a2]; exact n2, by rw [a4, a1, a2]; exact n3,
    by rw [a5, hb]; exact n4⟩

theorem NoTiles.bounds_eq {σ : Type} {env : Env σ} {args : RenderRoIArgs} {s : St σ}
    (h : NoTiles env args s) : s.renderBounds = s.mappedBounds env args := by
  obtain ⟨-, n2, n3, -⟩ := h
  unfold St.renderBounds St.mappedBounds
  split
  · rw [n2]
  · rw [n3]

theorem computeBounds_noTiles {σ : Type} (env : Env σ) (args : RenderRoIArgs) (s : St σ) :
    (computeBounds env args s).Post
      (fun s' => s'.frameArgs.tilesSupported = false → NoTiles env args s') (fun _ => True) := by
  unfold computeBounds
  dsimp only
  split
  · rename_i ht
    split
    · trivial
    · intro h
      simp only [ht] at h
      cases h
  · intro h
    refine ⟨h, rfl, rfl, ?_⟩
    simp only [St.renderBounds]

theorem chooseStorage_geometry {σ : Type} (env : Env σ) (self : NodeId) (args : RenderRoIArgs)
    (s : St σ) : (chooseStorage env self args s).Post (fun s' => s.SameGeometry s')
      (fun _ => True) := by
  unfold chooseStorage
  dsimp only
  repeat' split
  all_goals trivial

theorem openGLRenderScale_noTiles {σ : Type} (env : Env σ) (args : RenderRoIArgs) (s : St σ)
    (h : s.frameArgs.tilesSupported = false → NoTiles env args s) :
    (openGLRenderScale env args s).Post
      (fun s' => s'.frameArgs.tilesSupported = false → NoTiles env args s') (fun _ => True) := by
  unfold openGLRenderScale
  dsimp only
  split
  · split
    · rename_i ht
      split
      · trivial
      · intro h1
        simp only [ht] at h1
        cases h1
    · rename_i ht
      intro h1
      obtain ⟨n1, n2, n3, n4⟩ := h h1
      exact ⟨n1, n2, n3, by simp [St.renderBounds]⟩
  · exact h

theorem prepareLookup_geometry {σ : Type} (env : Env σ) (self : NodeId) (args : RenderRoIArgs)
    (s : St σ) : (prepareLookup env self args s).Post
      (fun s' => s.SameGeometry s' ∧ s'.rectsToRender = []) (fun _ => True) := by
  unfold prepareLookup
  exact ⟨⟨rfl, rfl, rfl, rfl, rfl, rfl, rfl⟩, rfl⟩

theorem cacheLookupOnce_geometry {σ : Type} (env : Env σ) (self : NodeId) (args : RenderRoIArgs)
    (key : ImageKey) (plane : ImageComponents) (s : St σ) :
    s.SameGeometry (cacheLookupOnce env self args key plane s).2 :=
  ⟨rfl, rfl, rfl, rfl, rfl, rfl, rfl⟩

theorem cacheLookups_geometry {σ : Type} (env : Env σ) (self : NodeId) (args : RenderRoIArgs)
    (plane : ImageComponents) (remaining n : Nat) (s : St σ) :
    s.SameGeometry (cacheLookups env self args plane remaining n s).2 := by
  induction remaining generalizing n s with
  | zero => exact St.SameGeometry.refl_geometry s
  | succ m ih =>
    simp only [cacheLookups]
    split
    · exact cacheLookupOnce_geometry env self args _ plane s
    · exact (cacheLookupOnce_geometry env self args _ plane s).trans_geometry (ih _ _)

theorem lookupPlane_geometry {σ : Type} (env : Env σ) (self : NodeId) (args : RenderRoIArgs)
    (plane : ImageComponents) (s : St σ) :
    s.SameGeometry (lookupPlane env self args plane s).2 := by
  unfold lookupPlane
  dsimp only
  split
  · exact cacheLookups_geometry env self args plane _ _ s
  · exact St.SameGeometry.refl_geometry s

theorem dropIfByPass_geometry {σ : Type} (env : Env σ) (found : Option Image × St σ) :
    found.2.SameGeometry (dropIfByPass env found).2 := by
  unfold dropIfByPass
  split
  · exact ⟨rfl, rfl, rfl, rfl, rfl, rfl, rfl⟩
  · exact St.SameGeometry.refl_geometry _

theorem recheckPlanes_geometry {σ : Type} (env : Env σ)
    (l : List (ImageComponents × PlaneToRender)) (newPlanes : PlaneMap PlaneToRender)
    (s : St σ) : s.SameGeometry (recheckPlanes env l newPlanes s).2 := by
  induction l generalizing newPlanes s with
  | nil => exact St.SameGeometry.refl_geometry s
  | cons hd tl ih =>
    obtain ⟨k, plane⟩ := hd
    have key : ∀ (np : PlaneMap PlaneToRender) (s1 : St σ), s.SameGeometry s1 →
        s.SameGeometry (recheckPlanes env tl np s1).2 :=
      fun np s1 h => h.trans_geometry (ih np s1)
    simp only [recheckPlanes]
    split
    · split
      · exact key _ _ ⟨rfl, rfl, rfl, rfl, rfl, rfl, rfl⟩
      · exact key _ _ ⟨rfl, rfl, rfl, rfl, rfl, rfl, rfl⟩
    · exact key _ _ (St.SameGeometry.refl_geometry s)

theorem lookupStep_geometry {σ : Type} (env : Env σ) (self : NodeId) (args : RenderRoIArgs)
    (plane : ImageComponents) (missingPlane : Bool) (s : St σ) :
    s.SameGeometry (lookupStep env self args plane missingPlane s).2 := by
  have hf := (lookupPlane_geometry env self args plane s).trans_geometry
    (dropIfByPass_geometry env (lookupPlane env self args plane s))
  unfold lookupStep
  dsimp only
  split
  · exact St.SameGeometry.refl_geometry s
  · split
    · split
      · split
        · exact hf.trans_geometry ⟨rfl, rfl, rfl, rfl, rfl, rfl, rfl⟩
        · exact hf.trans_geometry ⟨rfl, rfl, rfl, rfl, rfl, rfl, rfl⟩
      · exact hf.trans_geometry ⟨rfl, rfl, rfl, rfl, rfl, rfl, rfl⟩
    · split
      · exact hf.trans_geometry ((recheckPlanes_geometry env _ [] _).trans_geometry
          ⟨rfl, rfl, rfl, rfl, rfl, rfl, rfl⟩)
      · exact hf.trans_geometry ⟨rfl, rfl, rfl, rfl, rfl, rfl, rfl⟩

theorem lookupLoop_geometry {σ : Type} (env : Env σ) (self : NodeId) (args : RenderRoIArgs)
    (l : List ImageComponents) (missingPlane : Bool) (s : St σ) :
    s.SameGeometry (lookupLoop env self args l missingPlane s) := by
  induction l generalizing missingPlane s with
  | nil => exact St.SameGeometry.refl_geometry s
  | cons plane rest ih =>
    simp only [lookupLoop]
    exact (lookupStep_geometry env self args plane missingPlane s).trans_geometry (ih _ _)

theorem afterLookup_geometry {σ : Type} (env : Env σ) (self : NodeId) (args : RenderRoIArgs)
    (s : St σ) : (afterLookup env self args s).Post (fun s' => s.SameGeometry s')
      (fun _ => True) := by
  unfold afterLookup
  dsimp only
  have h1 : s.SameGeometry
      (if s.glContextLocker = true then s.emit Event.glContextLockerDettach else s) := by
    split
    · exact ⟨rfl, rfl, rfl, rfl, rfl, rfl, rfl⟩
    · exact St.SameGeometry.refl_geometry s
  generalize (if s.glContextLocker = true then s.emit Event.glContextLockerDettach else s) = s1
    at h1 ⊢
  split
  · trivial
  · refine h1.trans_geometry ?_
    split <;> exact ⟨rfl, rfl, rfl, rfl, rfl, rfl, rfl⟩

/-- What the sections between the cache look-up and the allocation keep, besides the geometry. -/
theorem paintStrokeRoD_geometry {σ : Type} (env : Env σ) (self : NodeId) (args : RenderRoIArgs)
    (s : St σ) :
    s.SameGeometry (paintStrokeRoD env self args s)
      ∧ (paintStrokeRoD env self args s).rectsToRender = s.rectsToRender
      ∧ (paintStrokeRoD env self args s).isPlaneCached = s.isPlaneCached := by
  unfold paintStrokeRoD
  dsimp only
  split <;> exact ⟨⟨rfl, rfl, rfl, rfl, rfl, rfl, rfl⟩, rfl, rfl⟩

theorem clearStrokeBitmaps_geometry {σ : Type} (env : Env σ)
    (l : List (ImageComponents × PlaneToRender)) (s : St σ) :
    s.SameGeometry (clearStrokeBitmaps env l s)
      ∧ (clearStrokeBitmaps env l s).rectsToRender = s.rectsToRender
      ∧ (clearStrokeBitmaps env l s).isPlaneCached = s.isPlaneCached := by
  induction l generalizing s with
  | nil => exact ⟨St.SameGeometry.refl_geometry s, rfl, rfl⟩
  | cons hd tl ih =>
    obtain ⟨k, plane⟩ := hd
    simp only [clearStrokeBitmaps]
    have h := ih ({ s with
      ext := env.setBitmapDirtyZone plane.fullscaleImage s.lastStrokePixelRoD
        (env.clearBitmap plane.fullscaleImage s.lastStrokePixelRoD s.ext)
      trace := s.trace ++ [Event.clearBitmap plane.fullscaleImage s.lastStrokePixelRoD,
                           Event.setBitmapDirtyZone plane.fullscaleImage s.lastStrokePixelRoD] })
    exact ⟨St.SameGeometry.trans_geometry ⟨rfl, rfl, rfl, rfl, rfl, rfl, rfl⟩ h.1, h.2.1, h.2.2⟩

theorem clearLastStroke_geometry {σ : Type} (env : Env σ) (s : St σ) :
    s.SameGeometry (clearLastStroke env s)
      ∧ (clearLastStroke env s).rectsToRender = s.rectsToRender
      ∧ (clearLastStroke env s).isPlaneCached = s.isPlaneCached := by
  unfold clearLastStroke
  split
  · have h := clearStrokeBitmaps_geometry env s.planes { s with fillGrownBoundsWithZeroes := true }
    exact ⟨St.SameGeometry.trans_geometry ⟨rfl, rfl, rfl, rfl, rfl, rfl, rfl⟩ h.1, h.2.1, h.2.2⟩
  · exact ⟨St.SameGeometry.refl_geometry s, rfl, rfl⟩

theorem queryRestToRender_geometry {σ : Type} (env : Env σ) (img : Image) (s : St σ) :
    s.SameGeometry (queryRestToRender env img s)
      ∧ (queryRestToRender env img s).rectsToRender = s.rectsToRender
      ∧ (queryRestToRender env img s).isPlaneCached = s.isPlaneCached := by
  unfold queryRestToRender
  split <;> exact ⟨⟨rfl, rfl, rfl, rfl, rfl, rfl, rfl⟩, rfl, rfl⟩

theorem strokeRestToRender_geometry {σ : Type} (env : Env σ) (s : St σ) :
    s.SameGeometry (strokeRestToRender env s)
      ∧ (strokeRestToRender env s).rectsToRender = s.rectsToRender
      ∧ (strokeRestToRender env s).isPlaneCached = s.isPlaneCached := by
  unfold strokeRestToRender
  split
  · exact ⟨⟨rfl, rfl, rfl, rfl, rfl, rfl, rfl⟩, rfl, rfl⟩
  · exact ⟨St.SameGeometry.refl_geometry s, rfl, rfl⟩

/-- Without tile support what is left to render is nothing, or the bounds of the image that is
rendered. -/
theorem rectsLeft_noTiles {σ : Type} (env : Env σ) (self : NodeId) (args : RenderRoIArgs)
    (s s' : St σ) (hn : NoTiles env args s) (h : rectsLeft env self args s = .next s') :
    s.SameGeometry s' ∧ s'.rectsToRender = s.rectsToRender
      ∧ s'.rectsLeftToRender.length ≤ 1
      ∧ ∀ r ∈ s'.rectsLeftToRender, r = s'.renderBounds := by
  have h0 := paintStrokeRoD_geometry env self args s
  unfold rectsLeft at h
  dsimp only at h
  split at h
  · simp only [Flow.next.injEq] at h
    subst h
    have htiles : (paintStrokeRoD env self args s).frameArgs.tilesSupported = false := by
      rw [h0.1.2.2.2.2.2.2]
      exact hn.1
    refine ⟨h0.1.trans_geometry ⟨rfl, rfl, rfl, rfl, rfl, rfl, rfl⟩, h0.2.1, ?_, ?_⟩
    · simp [St.fullRectsToRender]
    · intro r hr
      simp only [St.fullRectsToRender, htiles, Bool.false_eq_true, if_false,
        List.mem_singleton] at hr
      rw [hr]
      rfl
  · rename_i img heq
    simp only [Flow.next.injEq] at h
    have h1 := clearLastStroke_geometry env (paintStrokeRoD env self args s)
    have h2 := queryRestToRender_geometry env img (clearLastStroke env (paintStrokeRoD env self args s))
    have h3 := strokeRestToRender_geometry env
      (queryRestToRender env img (clearLastStroke env (paintStrokeRoD env self args s)))
    generalize strokeRestToRender env
      (queryRestToRender env img (clearLastStroke env (paintStrokeRoD env self args s))) = s3
      at h h3
    generalize queryRestToRender env img (clearLastStroke env (paintStrokeRoD env self args s)) = s2
      at h2 h3
    generalize clearLastStroke env (paintStrokeRoD env self args s) = s1 at h1 h2
    generalize paintStrokeRoD env self args s = s0 at h0 h1 heq
    have hg3 : s.SameGeometry s3 :=
      ((h0.1.trans_geometry h1.1).trans_geometry h2.1).trans_geometry h3.1
    have hr3 : s3.rectsToRender = s.rectsToRender := by
      rw [h3.2.1, h2.2.1, h1.2.1, h0.2.1]
    have hc3 : s3.isPlaneCached = some img := by
      rw [h3.2.2, h2.2.2, h1.2.2, heq]
    have hn3 : NoTiles env args s3 := hn.of_geometry hg3
    have h4 : s3.SameGeometry (dropPartialHit s3)
        ∧ (dropPartialHit s3).rectsToRender = s3.rectsToRender
        ∧ ((dropPartialHit s3).isPlaneCached = some img
          ∨ (dropPartialHit s3).rectsLeftToRender = [s3.renderBounds]) := by
      unfold dropPartialHit
      split
      · exact ⟨⟨rfl, rfl, rfl, rfl, rfl, rfl, rfl⟩, rfl, Or.inr (by simp [hn3.2.2.2])⟩
      · exact ⟨St.SameGeometry.refl_geometry s3, rfl, Or.inl hc3⟩
    generalize dropPartialHit s3 = s4 at h h4
    have hb4 : s4.renderBounds = s3.renderBounds := h4.1.renderBounds_eq
    have ht4 : s4.frameArgs.tilesSupported = false := by
      rw [h4.1.2.2.2.2.2.2]
      exact hn3.1
    subst h
    unfold noTilesRestToRender
    split
    · refine ⟨hg3.trans_geometry (h4.1.trans_geometry ⟨rfl, rfl, rfl, rfl, rfl, rfl, rfl⟩),
        by simp only []; rw [h4.2.1, hr3], by simp, ?_⟩
      intro r hr
      simp only [List.mem_singleton] at hr
      rw [hr]
      rfl
    · rename_i hcond
      refine ⟨hg3.trans_geometry h4.1, by rw [h4.2.1, hr3], ?_, ?_⟩
      · rcases h4.2.2 with h5 | h5
        · have : s4.rectsLeftToRender = [] := by
            simp only [ht4, h5, Bool.not_false, Bool.true_and, Option.isSome_some,
              Bool.and_true, Bool.not_eq_true', Bool.not_eq_false', List.isEmpty_iff] at hcond
            simpa using hcond
          simp [this]
        · simp [h5]
      · intro r hr
        rcases h4.2.2 with h5 | h5
        · have : s4.rectsLeftToRender = [] := by
            simp only [ht4, h5, Bool.not_false, Bool.true_and, Option.isSome_some,
              Bool.and_true, Bool.not_eq_true', Bool.not_eq_false', List.isEmpty_iff] at hcond
            simpa using hcond
          rw [this] at hr
          simp at hr
        · rw [h5] at hr
          simp only [List.mem_singleton] at hr
          rw [hr, hb4]

theorem rectsToRenderPhase_noTiles {σ : Type} (env : Env σ) (self : NodeId)
    (args : RenderRoIArgs) (fuel : Nat) (s : St σ) (ht : s.frameArgs.tilesSupported = false) :
    rectsToRenderPhase env self args fuel s
      = .next { s with
          tryIdentityOptim := false
          rectsToRender := s.rectsToRender ++ plainRectsToRender false s.rectsLeftToRender
          hasSomethingToRender :=
            !(s.rectsToRender ++ plainRectsToRender false s.rectsLeftToRender).isEmpty } := by
  have hp : probeInputsRoD env self args s = ({}, s) := by
    unfold probeInputsRoD
    simp [ht]
  unfold rectsToRenderPhase
  simp only [hp]
  rfl

theorem renderInputImages_geometry {σ : Type} (env : Env σ) (self : NodeId)
    (args : RenderRoIArgs) (l done : List RectToRender) (s s' : St σ)
    (h : renderInputImages env self args l done s = .next s') :
    s.SameGeometry s' ∧ s'.tryIdentityOptim = s.tryIdentityOptim
      ∧ s'.hasSomethingToRender = s.hasSomethingToRender
      ∧ s'.rectsToRender.map (fun r => (r.rect, r.isIdentity))
          = (done ++ l).map (fun r => (r.rect, r.isIdentity)) := by
  induction l generalizing done s with
  | nil =>
    simp only [renderInputImages, Flow.next.injEq] at h
    subst h
    exact ⟨⟨rfl, rfl, rfl, rfl, rfl, rfl, rfl⟩, rfl, rfl, by simp⟩
  | cons r rest ih =>
    unfold renderInputImages at h
    dsimp only at h
    split at h
    · have := ih _ _ h
      refine ⟨this.1, this.2.1, this.2.2.1, ?_⟩
      rw [this.2.2.2]
      simp
    · split at h
      · have := ih _ _ h
        refine ⟨St.SameGeometry.trans_geometry ⟨rfl, rfl, rfl, rfl, rfl, rfl, rfl⟩ this.1,
          this.2.1, this.2.2.1, ?_⟩
        rw [this.2.2.2]
        simp
      · simp [St.returns] at h
      · simp [St.endsWith] at h

/-- The rectangles of a list that holds at most the bounds of the image that is rendered. -/
theorem wholeBounds_of_map {σ : Type} (s s' : St σ) (l : List RectToRender)
    (hb : s'.renderBounds = s.renderBounds)
    (hl : l.length ≤ 1 ∧ ∀ r ∈ l, r.rect = s.renderBounds ∧ r.isIdentity = false)
    (hm : s'.rectsToRender.map (fun r => (r.rect, r.isIdentity))
      = l.map (fun r => (r.rect, r.isIdentity))) :
    WholeBounds s' ∧ s'.rectsToRender.length = l.length := by
  have hlen : s'.rectsToRender.length = l.length := by
    have := congrArg List.length hm
    simpa using this
  refine ⟨⟨by rw [hlen]; exact hl.1, fun r hr => ?_⟩, hlen⟩
  have h1 : (r.rect, r.isIdentity) ∈ l.map (fun r => (r.rect, r.isIdentity)) := by
    rw [← hm]
    exact List.mem_map.2 ⟨r, hr, rfl⟩
  obtain ⟨r0, hr0, he⟩ := List.mem_map.1 h1
  simp only [Prod.mk.injEq] at he
  have := hl.2 r0 hr0
  rw [hb, ← he.1, ← he.2]
  exact this

theorem plainRectsToRender_bounds (skipNull : Bool) (b : RectI) :
    (plainRectsToRender skipNull [b]).length ≤ 1
      ∧ (∀ r ∈ plainRectsToRender skipNull [b], r.rect = b ∧ r.isIdentity = false)
      ∧ ((skipNull && b.isNull) = false → (plainRectsToRender skipNull [b]).length = 1) := by
  unfold plainRectsToRender
  by_cases h : (skipNull && b.isNull) = true
  · simp [List.filter, h]
  · simp [List.filter, h]

theorem redoLookupLoop_geometry {σ : Type} (env : Env σ) (self : NodeId) (args : RenderRoIArgs)
    (before l : List (ImageComponents × PlaneToRender)) (s : St σ) :
    s.SameGeometry (redoLookupLoop env self args before l s).2
      ∧ (redoLookupLoop env self args before l s).2.rectsToRender = s.rectsToRender
      ∧ (redoLookupLoop env self args before l s).2.tryIdentityOptim = s.tryIdentityOptim
      ∧ (redoLookupLoop env self args before l s).2.hasSomethingToRender
          = s.hasSomethingToRender := by
  induction l generalizing before s with
  | nil => exact ⟨St.SameGeometry.refl_geometry s, rfl, rfl, rfl⟩
  | cons hd tl ih =>
    obtain ⟨k, plane⟩ := hd
    unfold redoLookupLoop
    dsimp only
    split
    · exact ih _ _
    · split
      · split
        · have := ih (before ++ [(k, { plane with
              fullscaleImage := (cacheLookupOnce env self args s.key k s).1,
              downscaleImage := (cacheLookupOnce env self args s.key k s).1 })])
            (cacheLookupOnce env self args s.key k s).2
          rename_i img himg _
          rw [himg] at this
          exact ⟨(cacheLookupOnce_geometry env self args s.key k s).trans_geometry this.1,
            this.2.1, this.2.2.1, this.2.2.2⟩
        · exact ⟨cacheLookupOnce_geometry env self args s.key k s, rfl, rfl, rfl⟩
      · exact ⟨cacheLookupOnce_geometry env self args s.key k s, rfl, rfl, rfl⟩

/-- The invariant of the rectangles to render of an effect without tile support. -/
theorem redoCacheLookupPhase_noTiles {σ : Type} (env : Env σ) (self : NodeId)
    (args : RenderRoIArgs) (fuel : Nat) (s s' : St σ)
    (ht : s.frameArgs.tilesSupported = false) (hw : WholeBounds s)
    (ho : s.tryIdentityOptim = false)
    (hh : s.hasSomethingToRender = true → s.rectsToRender.length = 1)
    (h : redoCacheLookupPhase env self args fuel s = .next s') :
    s.SameGeometry s' ∧ WholeBounds s'
      ∧ s'.hasSomethingToRender = s.hasSomethingToRender
      ∧ (s'.hasSomethingToRender = true → s'.renderBounds.isNull = false →
          s'.rectsToRender.length = 1) := by
  unfold redoCacheLookupPhase at h
  split at h
  · have hl := redoLookupLoop_geometry env self args [] s.planes s
    have ha : s.SameGeometry (afterRedoLookup (redoLookupLoop env self args [] s.planes s))
        ∧ (afterRedoLookup (redoLookupLoop env self args [] s.planes s)).rectsToRender
            = s.rectsToRender
        ∧ (afterRedoLookup (redoLookupLoop env self args [] s.planes s)).tryIdentityOptim
            = s.tryIdentityOptim
        ∧ (afterRedoLookup (redoLookupLoop env self args [] s.planes s)).hasSomethingToRender
            = s.hasSomethingToRender :=
      ⟨hl.1.trans_geometry ⟨rfl, rfl, rfl, rfl, rfl, rfl, rfl⟩, hl.2.1, hl.2.2.1, hl.2.2.2⟩
    generalize afterRedoLookup (redoLookupLoop env self args [] s.planes s) = s1 at h ha
    split at h
    · unfold renderAllAgain at h
      have hopt : (s1.tryIdentityOptim && !s1.fullRectsToRender.isEmpty) = false := by
        rw [ha.2.2.1, ho]
        rfl
      rw [hopt] at h
      simp only [Bool.false_eq_true, if_false] at h
      have hr := renderInputImages_geometry env self args _ _ _ _ h
      have ht1 : s1.frameArgs.tilesSupported = false := by
        rw [ha.1.2.2.2.2.2.2]
        exact ht
      have hfull : s1.fullRectsToRender = [s1.renderBounds] := by
        simp [St.fullRectsToRender, ht1]
      rw [hfull] at hr
      have hp := plainRectsToRender_bounds true s1.renderBounds
      have hb : s'.renderBounds = s1.renderBounds :=
        (St.SameGeometry.renderBounds_eq hr.1).trans rfl
      have hw' := wholeBounds_of_map s1 s' (plainRectsToRender true [s1.renderBounds]) hb
        ⟨hp.1, hp.2.1⟩ (by simpa using hr.2.2.2)
      refine ⟨ha.1.trans_geometry (St.SameGeometry.trans_geometry
        ⟨rfl, rfl, rfl, rfl, rfl, rfl, rfl⟩ hr.1), hw'.1, by rw [hr.2.2.1]; exact ha.2.2.2,
        fun _ hnull => ?_⟩
      rw [hw'.2]
      apply hp.2.2
      rw [hb] at hnull
      simp [hnull]
    · simp only [Flow.next.injEq] at h
      subst h
      have hb : s1.renderBounds = s.renderBounds := ha.1.renderBounds_eq
      refine ⟨ha.1, ⟨by rw [ha.2.1]; exact hw.1, fun r hr => ?_⟩, ha.2.2.2, fun h1 _ => ?_⟩
      · rw [ha.2.1] at hr
        rw [hb]
        exact hw.2 r hr
      · rw [ha.2.1]
        exact hh (by rw [← ha.2.2.2]; exact h1)
  · simp only [Flow.next.injEq] at h
    subst h
    exact ⟨St.SameGeometry.refl_geometry s, hw, rfl, fun h1 _ => hh h1⟩

theorem St.Allocates.refl_allocates {σ : Type} (s : St σ) : s.Allocates s :=
  ⟨St.SameGeometry.refl_geometry s, rfl, rfl, [], by simp, by simp⟩

theorem St.Allocates.trans_allocates {σ : Type} {s s1 s2 : St σ} (h1 : s.Allocates s1)
    (h2 : s1.Allocates s2) : s.Allocates s2 := by
  obtain ⟨g1, r1, m1, evs1, t1, a1⟩ := h1
  obtain ⟨g2, r2, m2, evs2, t2, a2⟩ := h2
  refine ⟨g1.trans_geometry g2, r2.trans r1, m2.trans m1, evs1 ++ evs2,
    by rw [t2, t1, List.append_assoc], fun ev hev c d u st cr he => ?_⟩
  rcases List.mem_append.1 hev with h | h
  · exact a1 ev h c d u st cr he
  · have := a2 ev h c d u st cr he
    rw [g1.2.2.2.1, g1.2.2.1] at this
    exact this

/-- A step that emits no allocation and keeps the rest. -/
theorem St.Allocates.of_quiet_step {σ : Type} (s s' : St σ) (evs : List Event)
    (hg : s.SameGeometry s') (hr : s'.rectsToRender = s.rectsToRender)
    (hm : s'.hasSomethingToRender = s.hasSomethingToRender) (ht : s'.trace = s.trace ++ evs)
    (he : ∀ ev ∈ evs, ev.isAllocation = false) : s.Allocates s' := by
  refine ⟨hg, hr, hm, evs, ht, fun ev hev c d u st cr h => ?_⟩
  have := he ev hev
  rw [h] at this
  simp [Event.isAllocation] at this

theorem mergeRoD_allocates {σ : Type} (env : Env σ) (img : Image) (s : St σ) :
    s.Allocates (mergeRoD env img s) := by
  unfold mergeRoD
  split
  · exact St.Allocates.of_quiet_step s _ [Event.setRoD img] ⟨rfl, rfl, rfl, rfl, rfl, rfl, rfl⟩
      rfl rfl rfl (by simp [Event.isAllocation])
  · exact St.Allocates.refl_allocates s

theorem resizeImage_allocates {σ : Type} (env : Env σ) (args : RenderRoIArgs)
    (plane : PlaneToRender) (img : Image) (s : St σ) :
    s.Allocates (resizeImage env args plane img s).2.2 := by
  unfold resizeImage
  dsimp only
  split
  · split
    · exact St.Allocates.of_quiet_step s _ [Event.copyAndResizeIfNeeded img s.renderBounds]
        ⟨rfl, rfl, rfl, rfl, rfl, rfl, rfl⟩ rfl rfl rfl (by simp [Event.isAllocation])
    · exact St.Allocates.of_quiet_step s _ [Event.copyAndResizeIfNeeded img s.renderBounds]
        ⟨rfl, rfl, rfl, rfl, rfl, rfl, rfl⟩ rfl rfl rfl (by simp [Event.isAllocation])
  · exact St.Allocates.of_quiet_step s _ [Event.ensureBounds img s.renderBounds]
      ⟨rfl, rfl, rfl, rfl, rfl, rfl, rfl⟩ rfl rfl rfl (by simp [Event.isAllocation])

theorem clearGrown_allocates {σ : Type} (env : Env σ) (hasResized : Bool)
    (plane : PlaneToRender) (s : St σ) : s.Allocates (clearGrown env hasResized plane s) := by
  unfold clearGrown
  split
  · exact St.Allocates.of_quiet_step s _ [Event.clearBitmap plane.fullscaleImage
      s.lastStrokePixelRoD] ⟨rfl, rfl, rfl, rfl, rfl, rfl, rfl⟩ rfl rfl rfl
      (by simp [Event.isAllocation])
  · exact St.Allocates.refl_allocates s

theorem makeDownscaled_allocates {σ : Type} (env : Env σ) (args : RenderRoIArgs)
    (components : ImageComponents) (plane : PlaneToRender) (s : St σ) :
    s.Allocates (makeDownscaled env args components plane s).2 := by
  unfold makeDownscaled
  split
  · split
    · exact St.Allocates.of_quiet_step s _ _ ⟨rfl, rfl, rfl, rfl, rfl, rfl, rfl⟩ rfl rfl rfl
        (by simp [Event.isAllocation])
    · exact St.Allocates.refl_allocates s
  · exact St.Allocates.refl_allocates s

theorem allocatePlane_allocates {σ : Type} (env : Env σ) (self : NodeId) (args : RenderRoIArgs)
    (components : ImageComponents) (plane : PlaneToRender) (s : St σ) :
    s.Allocates (allocatePlane env self args components plane s).2 := by
  unfold allocatePlane
  split
  · refine ⟨⟨rfl, rfl, rfl, rfl, rfl, rfl, rfl⟩, rfl, rfl, _, rfl, fun ev hev c d u st cr h => ?_⟩
    simp only [List.mem_singleton] at hev
    rw [hev] at h
    simp only [Event.allocateImagePlane.injEq] at h
    exact ⟨h.2.1.symm, h.2.2.1.symm⟩
  · unfold resizeCachedPlane
    dsimp only
    exact ((mergeRoD_allocates env _ s).trans_allocates
      (resizeImage_allocates env args plane _ _)).trans_allocates
      ((clearGrown_allocates env _ _ _).trans_allocates (makeDownscaled_allocates env args _ _ _))

theorem allocatePlanesLoop_allocates {σ : Type} (env : Env σ) (self : NodeId)
    (args : RenderRoIArgs) (l : List (ImageComponents × PlaneToRender)) (s : St σ) :
    s.Allocates (allocatePlanesLoop env self args l s).2 := by
  induction l generalizing s with
  | nil => exact St.Allocates.refl_allocates s
  | cons hd tl ih =>
    obtain ⟨k, plane⟩ := hd
    unfold allocatePlanesLoop
    split
    · exact ih s
    · exact (allocatePlane_allocates env self args _ plane s).trans_allocates (ih _)

theorem allocatePlanes_allocates {σ : Type} (env : Env σ) (self : NodeId) (args : RenderRoIArgs)
    (s s' : St σ) (h : allocatePlanes env self args s = .next s') : s.Allocates s' := by
  unfold allocatePlanes at h
  split at h
  · simp only [Flow.next.injEq] at h
    subst h
    have h1 : s.Allocates (if s.glContextLocker = true then s.emit Event.glContextLockerAttach
        else s) := by
      split
      · exact St.Allocates.of_quiet_step s _ [Event.glContextLockerAttach]
          ⟨rfl, rfl, rfl, rfl, rfl, rfl, rfl⟩ rfl rfl rfl (by simp [Event.isAllocation])
      · exact St.Allocates.refl_allocates s
    generalize (if s.glContextLocker = true then s.emit Event.glContextLockerAttach else s) = s1
      at h1 ⊢
    have h2 := allocatePlanesLoop_allocates env self args s1.planes s1
    exact h1.trans_allocates (h2.trans_allocates
      (St.Allocates.of_quiet_step _ _ [] ⟨rfl, rfl, rfl, rfl, rfl, rfl, rfl⟩ rfl rfl
        (by simp) (by simp)))
  · simp only [Flow.next.injEq] at h
    subst h
    exact St.Allocates.refl_allocates s

theorem not_allocation_of_stage {e : Event} (h : ∃ j ∈ e.stages, j ≤ 10) :
    e.isAllocation = false := by
  obtain ⟨j, hj, hle⟩ := h
  cases e <;> simp [Event.stages, Event.isAllocation] at hj ⊢
  all_goals omega

theorem within_of_next_step {σ : Type} {P : Nat → Prop} {k : Nat} {s s' : St σ} {f : Flow σ}
    (hw : Within P s.trace) (hf : f.Steps k s) (hn : f = .next s') (hk : P k) :
    Within P s'.trace := by
  subst hn
  exact within_of_emits hf.emits hk hw

theorem stage_frameArgs {σ : Type} {k : Nat} {s s' : St σ} {f : Flow σ}
    (hf : f.Steps k s) (hn : f = .next s') (hk : 2 ≤ k) : s'.frameArgs = s.frameArgs := by
  subst hn
  exact hf.frameArgs hk

/-- The state in which the render of an effect without tile support starts. -/
theorem atDispatch_noTiles {σ : Type} (env : Env σ) (recCall : RecCall σ) (fuel : Nat)
    (self : NodeId) (args : RenderRoIArgs) (outputPlanes : PlaneMap Image) (ext : σ) (s : St σ)
    (hs : atDispatch env recCall fuel self args outputPlanes ext = .next s)
    (ht : s.frameArgs.tilesSupported = false) :
    NoTiles env args s ∧ WholeBounds s
      ∧ (s.hasSomethingToRender = true → s.renderBounds.isNull = false →
          s.rectsToRender.length = 1)
      ∧ AllocatedBounds s := by
  -- the states between the sections
  unfold atDispatch at hs
  obtain ⟨sa, hsa, hall⟩ := Flow.andThen_eq_next.1 hs
  obtain ⟨sp, hsp, hredo⟩ := Flow.andThen_eq_next.1 hsa
  obtain ⟨si, hsi, hpre⟩ := Flow.andThen_eq_next.1 hsp
  have hwi := (atInputs_post env recCall fuel self args outputPlanes ext (fun j => j ≤ 10)
    (fun j hj => by omega)).of_next hsi
  have hwp := within_of_next_step hwi (preRenderInputs_steps env self args si) hpre
    (by decide : (10 : Nat) ≤ 10)
  have hwa := within_of_next_step hwp (redoCacheLookupPhase_steps env self args fuel sp) hredo
    (by decide : (10 : Nat) ≤ 10)
  unfold atInputs at hsi
  obtain ⟨st, hst, hphase⟩ := Flow.andThen_eq_next.1 hsi
  obtain ⟨sl, hsl, hleft⟩ := Flow.andThen_eq_next.1 hst
  have hinv := (atRectsLeft_inv env recCall self args outputPlanes ext).of_next hsl
  unfold atRectsLeft at hsl
  obtain ⟨sc, hsc, hafter⟩ := Flow.andThen_eq_next.1 hsl
  obtain ⟨sk, hsk, hcache⟩ := Flow.andThen_eq_next.1 hsc
  unfold atLookup at hsk
  obtain ⟨sg, hsg, hprep⟩ := Flow.andThen_eq_next.1 hsk
  obtain ⟨sh, hsh, hgl⟩ := Flow.andThen_eq_next.1 hsg
  obtain ⟨sb, hsb, hchoose⟩ := Flow.andThen_eq_next.1 hsh
  unfold atStorage at hsb
  obtain ⟨s0, -, hbounds⟩ := Flow.andThen_eq_next.1 hsb
  -- the geometry is kept from the storage selection on
  have gall := allocatePlanes_allocates env self args sa s hall
  have hta : sa.frameArgs.tilesSupported = false := by
    rw [← gall.1.2.2.2.2.2.2]
    exact ht
  have gpre : si.SameGeometry sp ∧ sp.tryIdentityOptim = si.tryIdentityOptim
      ∧ sp.hasSomethingToRender = si.hasSomethingToRender
      ∧ sp.rectsToRender.map (fun r => (r.rect, r.isIdentity))
          = si.rectsToRender.map (fun r => (r.rect, r.isIdentity)) := by
    unfold preRenderInputs at hpre
    split at hpre
    · simp [St.endsWith] at hpre
    · have := renderInputImages_geometry env self args _ _ _ _ hpre
      exact ⟨St.SameGeometry.trans_geometry ⟨rfl, rfl, rfl, rfl, rfl, rfl, rfl⟩ this.1,
        this.2.1, this.2.2.1, by simpa using this.2.2.2⟩
  -- tiles are not supported all along
  have hframe_redo : sa.frameArgs = sp.frameArgs :=
    (stage_frameArgs (redoCacheLookupPhase_steps env self args fuel sp) hredo (by decide))
  have htp : sp.frameArgs.tilesSupported = false := by
    rw [← hframe_redo]
    exact hta
  have hti : si.frameArgs.tilesSupported = false := by
    rw [← gpre.1.2.2.2.2.2.2]
    exact htp
  have hframe_phase : si.frameArgs = st.frameArgs :=
    (stage_frameArgs (rectsToRenderPhase_steps env self args fuel st) hphase (by decide))
  have htt : st.frameArgs.tilesSupported = false := by
    rw [← hframe_phase]
    exact hti
  have hframe_left : st.frameArgs = sl.frameArgs :=
    (stage_frameArgs (rectsLeft_steps env self args sl) hleft (by decide))
  have htl : sl.frameArgs.tilesSupported = false := by
    rw [← hframe_left]
    exact htt
  have gafter := (afterLookup_geometry env self args sc).of_next hafter
  have gcache : sk.SameGeometry sc := by
    unfold cacheLookup at hcache
    simp only [Flow.next.injEq] at hcache
    subst hcache
    exact lookupLoop_geometry env self args _ _ sk
  have gprep := ((prepareLookup_geometry env self args sg).of_next hprep).1
  have htg : sg.frameArgs.tilesSupported = false := by
    rw [← gprep.2.2.2.2.2.2, ← gcache.2.2.2.2.2.2, ← gafter.2.2.2.2.2.2]
    exact htl
  have hframe_gl : sg.frameArgs = sh.frameArgs :=
    (stage_frameArgs (openGLRenderScale_steps env args sh) hgl (by decide))
  have gchoose := (chooseStorage_geometry env self args sb).of_next hchoose
  have htb : sb.frameArgs.tilesSupported = false := by
    rw [← gchoose.2.2.2.2.2.2, ← hframe_gl]
    exact htg
  -- the bounds
  have nb : NoTiles env args sb := (computeBounds_noTiles env args s0).of_next hbounds htb
  have nh : NoTiles env args sh := nb.of_geometry gchoose
  have ng : NoTiles env args sg :=
    (openGLRenderScale_noTiles env args sh (fun _ => nh)).of_next hgl htg
  have nl : NoTiles env args sl :=
    ng.of_geometry ((gprep.trans_geometry gcache).trans_geometry gafter)
  -- the rectangles
  have hrl := rectsLeft_noTiles env self args sl st nl hleft
  have nt : NoTiles env args st := nl.of_geometry hrl.1
  have hrt0 : st.rectsToRender = [] := by
    rw [hrl.2.1]
    exact hinv.1
  have hsi_eq := rectsToRenderPhase_noTiles env self args fuel st htt
  rw [hphase] at hsi_eq
  simp only [Flow.next.injEq] at hsi_eq
  have hplain : (plainRectsToRender false st.rectsLeftToRender).length ≤ 1
      ∧ ∀ r ∈ plainRectsToRender false st.rectsLeftToRender,
          r.rect = st.renderBounds ∧ r.isIdentity = false := by
    unfold plainRectsToRender
    refine ⟨?_, fun r hr => ?_⟩
    · rw [List.length_map]
      exact (List.length_filter_le _ _).trans hrl.2.2.1
    · obtain ⟨b, hb, rfl⟩ := List.mem_map.1 hr
      exact ⟨hrl.2.2.2 b (List.mem_of_mem_filter hb), rfl⟩
  have ni : NoTiles env args si := by
    rw [hsi_eq]
    exact nt.of_geometry ⟨rfl, rfl, rfl, rfl, rfl, rfl, rfl⟩
  have hbi : si.renderBounds = st.renderBounds := by
    rw [hsi_eq]
    rfl
  have hri : si.rectsToRender = plainRectsToRender false st.rectsLeftToRender := by
    rw [hsi_eq]
    simp [hrt0]
  have hoi : si.tryIdentityOptim = false := by
    rw [hsi_eq]
  have hhi : si.hasSomethingToRender = true → si.rectsToRender.length = 1 := by
    intro h
    have h1 : si.hasSomethingToRender = !si.rectsToRender.isEmpty := by
      rw [hsi_eq]
    rw [h1] at h
    have h2 : si.rectsToRender.length ≤ 1 := by
      rw [hri]
      exact hplain.1
    have h3 : si.rectsToRender ≠ [] := by
      intro h4
      rw [h4] at h
      simp at h
    have h5 := List.length_pos.2 h3
    omega
  -- the inputs
  have hwp' := wholeBounds_of_map si sp si.rectsToRender gpre.1.renderBounds_eq
    ⟨by rw [hri]; exact hplain.1,
     fun r hr => by rw [hbi]; exact hplain.2 r (by rw [← hri]; exact hr)⟩ gpre.2.2.2
  have np : NoTiles env args sp := ni.of_geometry gpre.1
  -- the second look-up
  have hr2 := redoCacheLookupPhase_noTiles env self args fuel sp sa htp hwp'.1
    (by rw [gpre.2.1]; exact hoi)
    (fun h => by rw [hwp'.2]; exact hhi (by rw [← gpre.2.2.1]; exact h)) hredo
  have na : NoTiles env args sa := np.of_geometry hr2.1
  -- the allocation
  have hb : s.renderBounds = sa.renderBounds := gall.1.renderBounds_eq
  refine ⟨na.of_geometry gall.1, ⟨by rw [gall.2.1]; exact hr2.2.1.1, fun r hr => ?_⟩,
    fun h1 h2 => ?_, ?_⟩
  · rw [gall.2.1] at hr
    rw [hb]
    exact hr2.2.1.2 r hr
  · rw [gall.2.1]
    exact hr2.2.2.2 (by rw [← gall.2.2.1]; exact h1) (by rw [← hb]; exact h2)
  · obtain ⟨evs, htr, hev⟩ := gall.2.2.2
    intro c d u st cr hmem
    rw [htr] at hmem
    rcases List.mem_append.1 hmem with h | h
    · have := not_allocation_of_stage (hwa _ h)
      simp [Event.isAllocation] at this
    · have := hev _ h c d u st cr rfl
      rw [gall.1.2.2.2.1, gall.1.2.2.1]
      exact this

theorem TilesAmong.refl_tiles (l : List RectToRender) (t : List Event) : TilesAmong l t t :=
  ⟨[], by simp, by simp⟩

theorem TilesAmong.trans_tiles {l : List RectToRender} {t t1 t2 : List Event}
    (h1 : TilesAmong l t t1) (h2 : TilesAmong l t1 t2) : TilesAmong l t t2 := by
  obtain ⟨a, rfl, ha⟩ := h1
  obtain ⟨b, rfl, hb⟩ := h2
  refine ⟨a ++ b, by simp, fun rect ret h => ?_⟩
  rcases List.mem_append.1 h with h | h
  · exact ha rect ret h
  · exact hb rect ret h

theorem TilesAmong.of_emits {l : List RectToRender} {k : Nat} {t t' : List Event}
    (h : Emits k t t') (hk : k = 13 ∨ k = 14) : TilesAmong l t t' := by
  obtain ⟨evs, rfl, hevs⟩ := h
  refine ⟨evs, rfl, fun rect ret hmem => ?_⟩
  have := hevs _ hmem
  rcases hk with rfl | rfl <;> simp [Event.stages] at this

theorem St.RendersRects.refl_renders {σ : Type} (s : St σ) : s.RendersRects s :=
  ⟨rfl, TilesAmong.refl_tiles _ _⟩

theorem St.RendersRects.trans_renders {σ : Type} {s s1 s2 : St σ} (h1 : s.RendersRects s1)
    (h2 : s1.RendersRects s2) : s.RendersRects s2 := by
  refine ⟨h2.1.trans h1.1, h1.2.trans_tiles ?_⟩
  have := h2.2
  rw [h1.1] at this
  exact this

/-- A step that renders no tile. -/
theorem St.RendersRects.of_quiet_render {σ : Type} (s s' : St σ) (evs : List Event)
    (hr : s'.rectsToRender = s.rectsToRender) (ht : s'.trace = s.trace ++ evs)
    (he : ∀ rect ret, Event.tiledRenderingFunctor rect ret ∉ evs) : s.RendersRects s' :=
  ⟨hr, evs, ht, fun rect ret h => absurd h (he rect ret)⟩

theorem markPlanes_renders {σ : Type} (env : Env σ) (self : NodeId)
    (l : List (ImageComponents × PlaneToRender)) (s : St σ) :
    s.RendersRects (markPlanes env self l s) := by
  induction l generalizing s with
  | nil => exact St.RendersRects.refl_renders s
  | cons hd tl ih =>
    obtain ⟨k, plane⟩ := hd
    have key : ∀ s1 : St σ, s.RendersRects s1 → s.RendersRects (markPlanes env self tl s1) :=
      fun s1 h => h.trans_renders (ih s1)
    simp only [markPlanes]
    exact key _ (St.RendersRects.of_quiet_render s _
      [Event.markImageAsBeingRendered (renderMappedImage s.renderFullScaleThenDownscale plane)]
      rfl rfl (by simp))

theorem pickRenderInstance_renders {σ : Type} (env : Env σ) (self : NodeId) (s : St σ) :
    s.RendersRects (pickRenderInstance env self s).2 := by
  unfold pickRenderInstance
  split
  · exact St.RendersRects.of_quiet_render s _ _ rfl rfl (by simp)
  · exact St.RendersRects.refl_renders s

theorem attachGL_renders {σ : Type} (env : Env σ) (inst : NodeId) (s : St σ) :
    s.RendersRects (attachGL env inst s).2 := by
  unfold attachGL
  dsimp only
  repeat' split
  all_goals first
    | exact St.RendersRects.refl_renders s
    | exact St.RendersRects.of_quiet_render s _ [Event.attachOpenGLContext _] rfl rfl (by simp)

theorem dettachGL_renders {σ : Type} (env : Env σ) (self inst : NodeId) (s : St σ) :
    s.RendersRects (dettachGL env self inst s) := by
  unfold dettachGL
  split
  · exact St.RendersRects.of_quiet_render s _ _ rfl rfl (by simp)
  · exact St.RendersRects.refl_renders s

theorem releaseInstance_renders {σ : Type} (env : Env σ) (self inst : NodeId) (clone : Bool)
    (s : St σ) : s.RendersRects (releaseInstance env self inst clone s) := by
  unfold releaseInstance
  split
  · exact St.RendersRects.of_quiet_render s _ _ rfl rfl (by simp)
  · exact St.RendersRects.refl_renders s

theorem readAborted_renders {σ : Type} (env : Env σ) (self : NodeId) (s : St σ) :
    s.RendersRects (readAborted env self s) :=
  St.RendersRects.of_quiet_render s _ _ rfl rfl (by simp)

theorem renderTilesSequential_renders {σ : Type} (env : Env σ) (self : NodeId)
    (args : RenderRoIArgs) (level : Nat) (l : List RectToRender)
    (status : RenderingFunctorRetEnum) (s : St σ) :
    (renderTilesSequential env self args level l status s).2.rectsToRender = s.rectsToRender
      ∧ TilesAmong l s.trace (renderTilesSequential env self args level l status s).2.trace := by
  induction l generalizing status s with
  | nil => exact ⟨rfl, TilesAmong.refl_tiles _ _⟩
  | cons rect rest ih =>
    have hstep : ∀ (st : RenderingFunctorRetEnum) (s1 : St σ) (ret : RenderingFunctorRetEnum),
        s1.rectsToRender = s.rectsToRender →
        s1.trace = s.trace ++ [Event.tiledRenderingFunctor rect ret] →
        (renderTilesSequential env self args level rest st s1).2.rectsToRender = s.rectsToRender
          ∧ TilesAmong (rect :: rest) s.trace
              (renderTilesSequential env self args level rest st s1).2.trace := by
      intro st s1 ret h1 h2
      obtain ⟨hr, evs, ht, he⟩ := ih st s1
      refine ⟨hr.trans h1, Event.tiledRenderingFunctor rect ret :: evs, by rw [ht, h2]; simp,
        fun r0 ret0 hm => ?_⟩
      rcases List.mem_cons.1 hm with h | h
      · simp only [Event.tiledRenderingFunctor.injEq] at h
        rw [h.1]
        exact List.mem_cons_self _ _
      · exact List.mem_cons_of_mem _ (he r0 ret0 h)
    unfold renderTilesSequential
    dsimp only
    split
    · refine ⟨rfl, [Event.tiledRenderingFunctor rect _], rfl, fun r0 ret0 hm => ?_⟩
      simp only [List.mem_singleton, Event.tiledRenderingFunctor.injEq] at hm
      rw [hm.1]
      exact List.mem_cons_self _ _
    · split
      · exact hstep _ _ _ rfl rfl
      · exact hstep _ _ _ rfl rfl

theorem renderTilesMapped_renders {σ : Type} (env : Env σ) (self : NodeId)
    (args : RenderRoIArgs) (level : Nat) (l : List RectToRender) (s : St σ) :
    (renderTilesMapped env self args level l s).2.rectsToRender = s.rectsToRender
      ∧ TilesAmong l s.trace (renderTilesMapped env self args level l s).2.trace := by
  induction l generalizing s with
  | nil => exact ⟨rfl, TilesAmong.refl_tiles _ _⟩
  | cons rect rest ih =>
    have hstep : ∀ (s1 : St σ) (ret : RenderingFunctorRetEnum),
        s1.rectsToRender = s.rectsToRender →
        s1.trace = s.trace ++ [Event.tiledRenderingFunctor rect ret] →
        (renderTilesMapped env self args level rest s1).2.rectsToRender = s.rectsToRender
          ∧ TilesAmong (rect :: rest) s.trace
              (renderTilesMapped env self args level rest s1).2.trace := by
      intro s1 ret h1 h2
      obtain ⟨hr, evs, ht, he⟩ := ih s1
      refine ⟨hr.trans h1, Event.tiledRenderingFunctor rect ret :: evs, by rw [ht, h2]; simp,
        fun r0 ret0 hm => ?_⟩
      rcases List.mem_cons.1 hm with h | h
      · simp only [Event.tiledRenderingFunctor.injEq] at h
        rw [h.1]
        exact List.mem_cons_self _ _
      · exact List.mem_cons_of_mem _ (he r0 ret0 h)
    simp only [renderTilesMapped]
    exact hstep _ _ rfl rfl

theorem beginSequence_renders {σ : Type} (env : Env σ) (inst : NodeId) (args : RenderRoIArgs)
    (level : Nat) (s : St σ) : s.RendersRects (beginSequence env inst args level s).2 := by
  unfold beginSequence
  split
  · exact St.RendersRects.of_quiet_render s _ _ rfl rfl (by simp)
  · exact St.RendersRects.refl_renders s

theorem renderTiles_renders {σ : Type} (env : Env σ) (inst : NodeId) (args : RenderRoIArgs)
    (safety : RenderSafetyEnum) (level : Nat) (begun : RenderingFunctorRetEnum × St σ) :
    begun.2.RendersRects (renderTiles env inst args safety level begun).2 := by
  unfold renderTiles
  split
  · split
    · have h := renderTilesMapped_renders env inst args level begun.2.rectsToRender begun.2
      dsimp only
      split
      · exact ⟨h.1, h.2⟩
      · exact ⟨h.1, h.2⟩
    · exact renderTilesSequential_renders env inst args level _ _ _
  · exact St.RendersRects.refl_renders _

theorem endSequence_renders {σ : Type} (env : Env σ) (inst : NodeId) (args : RenderRoIArgs)
    (level : Nat) (rendered : RenderingFunctorRetEnum × St σ) :
    rendered.2.RendersRects (endSequence env inst args level rendered).2 := by
  unfold endSequence
  split
  · exact St.RendersRects.of_quiet_render _ _ _ rfl rfl (by simp)
  · exact St.RendersRects.refl_renders _

theorem renderRoIInternal_renders {σ : Type} (env : Env σ) (inst : NodeId)
    (args : RenderRoIArgs) (safety : RenderSafetyEnum) (s : St σ)
    (r : RenderRoIStatusEnum × St σ) (h : renderRoIInternal env inst args safety s = some r) :
    s.RendersRects r.2 := by
  unfold renderRoIInternal at h
  split at h
  · cases h
  · rename_i level _
    simp only [Option.some.injEq] at h
    subst h
    have h1 : s.RendersRects
        ({ s with
            ext := env.getFrameRange inst s.nodeHash s.ext
            trace := s.trace ++ [Event.getFrameRange] } : St σ) :=
      St.RendersRects.of_quiet_render s _ [Event.getFrameRange] rfl rfl (by simp)
    generalize ({ s with
        ext := env.getFrameRange inst s.nodeHash s.ext
        trace := s.trace ++ [Event.getFrameRange] } : St σ) = s1 at h1 ⊢
    have h2 := beginSequence_renders env inst args level s1
    have h3 := renderTiles_renders env inst args
      (effectiveSafety env inst s.frameArgs safety s.ext) level
      (beginSequence env inst args level s1)
    have h4 := endSequence_renders env inst args level
      (renderTiles env inst args (effectiveSafety env inst s.frameArgs safety s.ext) level
        (beginSequence env inst args level s1))
    exact (((h1.trans_renders h2).trans_renders h3).trans_renders h4).trans_renders
      (St.RendersRects.of_quiet_render _ _ [Event.renderRoIInternal _] rfl rfl (by simp))

theorem renderPlanes_renders {σ : Type} (env : Env σ) (self : NodeId) (args : RenderRoIArgs)
    (s : St σ) :
    (renderPlanes env self args s).Post (fun s' => s.RendersRects s')
      (fun r => TilesAmong s.rectsToRender s.trace r.trace) := by
  have h1 := pickRenderInstance_renders env self s
  have h2 := attachGL_renders env (pickRenderInstance env self s).1 (pickRenderInstance env self s).2
  have h12 := h1.trans_renders h2
  unfold renderPlanes
  dsimp only
  split
  · split
    · exact h12.2
    · rename_i r hr
      have h3 := renderRoIInternal_renders env _ args _ _ r hr
      have h4 : r.2.RendersRects ({ r.2 with renderRetCode := r.1 } : St σ) :=
        St.RendersRects.of_quiet_render _ _ [] rfl (by simp) (by simp)
      exact (((h12.trans_renders h3).trans_renders h4).trans_renders
        (dettachGL_renders env self _ _)).trans_renders (releaseInstance_renders env self _ _ _)
  · exact h12.trans_renders (releaseInstance_renders env self _ _ _)

theorem unmarkPlanes_renders {σ : Type} (env : Env σ) (self : NodeId)
    (l : List (ImageComponents × PlaneToRender)) (aborted : Bool) (s : St σ) :
    (unmarkPlanes env self l aborted s).Post (fun s' => s.RendersRects s')
      (fun r => TilesAmong s.rectsToRender s.trace r.trace) := by
  induction l generalizing aborted s with
  | nil =>
    simp only [unmarkPlanes]
    exact St.RendersRects.of_quiet_render s _ [] rfl (by simp) (by simp)
  | cons hd tl ih =>
    obtain ⟨k, plane⟩ := hd
    have key : ∀ (ab : Bool) (s1 : St σ), s.RendersRects s1 →
        (unmarkPlanes env self tl ab s1).Post (fun s' => s.RendersRects s')
          (fun r => TilesAmong s.rectsToRender s.trace r.trace) := by
      intro ab s1 h1
      refine (ih ab s1).mono_post (fun s' h => h1.trans_renders h) (fun r h => ?_)
      rw [h1.1] at h
      exact h1.2.trans_tiles h
    unfold unmarkPlanes
    dsimp only
    split
    · split
      · exact key _ _ (St.RendersRects.of_quiet_render s _ _ rfl rfl (by simp))
      · exact key _ _ (St.RendersRects.of_quiet_render s _ _ rfl rfl (by simp))
    · exact ⟨_, rfl, by simp⟩

theorem renderDispatch_renders {σ : Type} (env : Env σ) (self : NodeId) (args : RenderRoIArgs)
    (s : St σ) :
    (renderDispatch env self args s).Post (fun s' => s.RendersRects s')
      (fun r => TilesAmong s.rectsToRender s.trace r.trace) := by
  unfold renderDispatch
  dsimp only
  have h0 : s.RendersRects ({ s with renderRetCode := .eRenderRoIStatusImageAlreadyRendered }
      : St σ) := St.RendersRects.of_quiet_render s _ [] rfl (by simp) (by simp)
  split
  · exact h0.trans_renders (readAborted_renders env self _)
  · have h1 : s.RendersRects
        (if env.isCurrentFrameRenderNotAbortable s.frameArgs = true then
          markPlanes env self s.planes
            { s with renderRetCode := .eRenderRoIStatusImageAlreadyRendered }
        else { s with renderRetCode := .eRenderRoIStatusImageAlreadyRendered }) := by
      split
      · exact h0.trans_renders (markPlanes_renders env self _ _)
      · exact h0
    generalize (if env.isCurrentFrameRenderNotAbortable s.frameArgs = true then
          markPlanes env self s.planes
            { s with renderRetCode := .eRenderRoIStatusImageAlreadyRendered }
        else { s with renderRetCode := .eRenderRoIStatusImageAlreadyRendered }) = s1 at h1 ⊢
    have h2 : (if s1.hasSomethingToRender = true then renderPlanes env self args s1
        else .next s1).Post (fun s' => s.RendersRects s')
          (fun r => TilesAmong s.rectsToRender s.trace r.trace) := by
      split
      · refine (renderPlanes_renders env self args s1).mono_post
          (fun s' h => h1.trans_renders h) (fun r h => ?_)
        rw [h1.1] at h
        exact h1.2.trans_tiles h
      · exact h1
    refine h2.andThen_post (fun s2 hs2 => ?_)
    have h3 := hs2.trans_renders (readAborted_renders env self s2)
    split
    · refine (unmarkPlanes_renders env self _ _ _).mono_post
        (fun s' h => h3.trans_renders h) (fun r h => ?_)
      rw [h3.1] at h
      exact h3.2.trans_tiles h
    · exact h3

theorem Flow.Steps.tiles {σ : Type} {k : Nat} {s : St σ} {f : Flow σ} (l : List RectToRender)
    (h : f.Steps k s) (hk : k = 13 ∨ k = 14) :
    f.Post (fun s' => TilesAmong l s.trace s'.trace) (fun r => TilesAmong l s.trace r.trace) := by
  cases f with
  | next s' => exact TilesAmong.of_emits h.emits hk
  | done r => exact TilesAmong.of_emits h hk
  | outOfFuel => trivial

theorem fromDispatch_tiles {σ : Type} (env : Env σ) (recCall : RecCall σ) (self : NodeId)
    (args : RenderRoIArgs) (s : St σ) (res : Result σ)
    (h : (fromDispatch env recCall self args s).result = some res) :
    TilesAmong s.rectsToRender s.trace res.trace := by
  have hpost : (fromDispatch env recCall self args s).Post
      (fun s' => TilesAmong s.rectsToRender s.trace s'.trace)
      (fun r => TilesAmong s.rectsToRender s.trace r.trace) := by
    unfold fromDispatch fromFinish
    refine ((renderDispatch_renders env self args s).mono_post (fun s' h => h.2)
      (fun r h => h)).andThen_post (fun s2 h2 => ?_)
    refine (((finishCodes_steps env recCall self args s2).tiles s.rectsToRender
      (Or.inl rfl)).mono_post (fun s' h => h2.trans_tiles h)
      (fun r h => h2.trans_tiles h)).andThen_post (fun s3 h3 => ?_)
    exact ((returnPlanes_steps env args s3).tiles s.rectsToRender (Or.inr rfl)).mono_post
      (fun s' h => h3.trans_tiles h) (fun r h => h3.trans_tiles h)
  exact hpost.of_result h (fun s' h' => h')

theorem not_tile_of_stage {e : Event} (h : ∃ j ∈ e.stages, j ≤ 11) (rect : RectToRender)
    (ret : RenderingFunctorRetEnum) : e ≠ Event.tiledRenderingFunctor rect ret := by
  obtain ⟨j, hj, hle⟩ := h
  intro he
  subst he
  simp [Event.stages] at hj
  omega

/-- C11 (no tile support). The call has reached the render (line 1513) in the state `s`, and
the effect does not support tiles. Let `B` be the pixel-enclosing rectangle of the region of
definition at level 0 when the effect renders at full scale and downscales, at the requested
mip-map level otherwise (`s.mappedBounds`): it does not depend on the requested region. Then
the working region of interest is `B`; the rectangles handed to the tile dispatcher are at most
one rectangle, `B`, not an identity, and exactly one when there is something to render and `B`
is not null; every plane that was allocated was given, as bounds, the pixel-enclosing
rectangles of the region of definition at the requested level and at level 0, so that the image
that is rendered has the bounds `B`; and every tile that the call renders, whatever way it
ends, is the rectangle `B`. -/
theorem renderRoI_no_tile_support {σ : Type} (env : Env σ) (recCall : RecCall σ) (fuel : Nat)
    (self : NodeId) (args : RenderRoIArgs) (outputPlanes : PlaneMap Image) (ext : σ) (s : St σ)
    (hs : atDispatch env recCall fuel self args outputPlanes ext = .next s)
    (ht : s.frameArgs.tilesSupported = false) :
    s.roi = s.mappedBounds env args
      ∧ s.rectsToRender.length ≤ 1
      ∧ (∀ r ∈ s.rectsToRender, r.rect = s.mappedBounds env args ∧ r.isIdentity = false)
      ∧ (s.hasSomethingToRender = true → (s.mappedBounds env args).isNull = false →
          s.rectsToRender.length = 1)
      ∧ (∀ components downscaledBounds upscaledBounds storage createInCache,
          Event.allocateImagePlane components downscaledBounds upscaledBounds storage
            createInCache ∈ s.trace →
          downscaledBounds = env.toPixelEnclosing s.rod args.mipMapLevel s.par
            ∧ upscaledBounds = env.toPixelEnclosing s.rod 0 s.par
            ∧ (if s.renderFullScaleThenDownscale = true then upscaledBounds
               else downscaledBounds) = s.mappedBounds env args)
      ∧ ∀ res, renderRoIBody env recCall fuel self args outputPlanes ext = some res →
          ∀ rect ret, Event.tiledRenderingFunctor rect ret ∈ res.trace →
            rect.rect = s.mappedBounds env args ∧ rect.isIdentity = false := by
  obtain ⟨hn, hw, hone, halloc⟩ :=
    atDispatch_noTiles env recCall fuel self args outputPlanes ext s hs ht
  have hb := hn.bounds_eq
  refine ⟨by rw [hn.2.2.2, hb], hw.1, fun r hr => by rw [← hb]; exact hw.2 r hr,
    fun h1 h2 => hone h1 (by rw [hb]; exact h2), fun c d u st cr hmem => ?_,
    fun res hres rect ret hmem => ?_⟩
  · obtain ⟨hd, hu⟩ := halloc c d u st cr hmem
    refine ⟨hd.trans hn.2.2.1, hu.trans hn.2.1, ?_⟩
    rw [← hb, hd, hu]
    rfl
  · rw [renderRoIBody_eq_atDispatch, hs] at hres
    obtain ⟨evs, htr, hev⟩ := fromDispatch_tiles env recCall self args s res hres
    have hwithin := (atDispatch_post env recCall fuel self args outputPlanes ext
      (fun j => j ≤ 11) (fun j hj => hj)).of_next hs
    rw [htr] at hmem
    rcases List.mem_append.1 hmem with h | h
    · exact absurd rfl (not_tile_of_stage (hwithin _ h) rect ret)
    · rw [← hb]
      exact hw.2 rect (hev rect ret h)

set_option maxRecDepth 100000 in
/-- The scene `noTilesEnv`: the region of interest asked for is [0,4]x[0,4], the region of
definition is [0,8]x[0,8]; the effect renders one rectangle, [0,8]x[0,8]. -/
theorem renderRoI_no_tile_support_witness :
    sceneArgs.roi = ⟨0, 0, 4, 4⟩
      ∧ noTilesState.mappedBounds noTilesEnv sceneArgs = ⟨0, 0, 8, 8⟩
      ∧ noTilesState.roi = noTilesState.mappedBounds noTilesEnv sceneArgs
      ∧ (∀ r ∈ noTilesState.rectsToRender,
          r.rect = noTilesState.mappedBounds noTilesEnv sceneArgs ∧ r.isIdentity = false)
      ∧ noTilesState.rectsToRender.length = 1 :=
  ⟨rfl, by decide!,
    (renderRoI_no_tile_support noTilesEnv (renderRoI noTilesEnv 1) 1 1 sceneArgs [] 100
      noTilesState (by rfl) (by rfl)).1,
    (renderRoI_no_tile_support noTilesEnv (renderRoI noTilesEnv 1) 1 1 sceneArgs [] 100
      noTilesState (by rfl) (by rfl)).2.2.1, by decide!⟩

/-- Sequencing for a property of the trace that the events of the section `k` keep. -/
theorem Flow.Post.step_trace {σ : Type} {I : List Event → Prop} {f : Flow σ} {g : St σ → Flow σ}
    (k : Nat) (hf : f.Post (fun s => I s.trace) (fun r => I r.trace))
    (hg : ∀ s, (g s).Steps k s) (hk : ∀ t t', Emits k t t' → I t → I t') :
    (f.andThen g).Post (fun s => I s.trace) (fun r => I r.trace) :=
  hf.andThen_post fun s hs => by
    have h := hg s
    cases hgs : g s with
    | next s' =>
      rw [hgs] at h
      exact hk _ _ h.emits hs
    | done r =>
      rw [hgs] at h
      exact hk _ _ h hs
    | outOfFuel => trivial

/-- A property of the trace that holds of the empty trace, that the events of every section
other than the identity check (5) and the return codes (13) keep, and that these two sections
keep, holds of the trace of every activation. -/
theorem renderRoIBody_trace {σ : Type} (env : Env σ) (recCall : RecCall σ) (fuel : Nat)
    (self : NodeId) (args : RenderRoIArgs) (outputPlanes : PlaneMap Image) (ext : σ)
    (I : List Event → Prop) (hnil : I [])
    (hstep : ∀ k t t', k ≠ 5 → k ≠ 13 → Emits k t t' → I t → I t')
    (hid : ∀ s, I s.trace →
      (identityPhase env recCall self args s).Post (fun s' => I s'.trace) (fun r => I r.trace))
    (hfin : ∀ s, I s.trace →
      (finishCodes env recCall self args s).Post (fun s' => I s'.trace) (fun r => I r.trace))
    (r : Result σ) (hr : renderRoIBody env recCall fuel self args outputPlanes ext = some r) :
    I r.trace := by
  have h0 : (earlyOut env recCall self args (St.entry outputPlanes ext)).Post
      (fun s => I s.trace) (fun r => I r.trace) := by
    have h := earlyOut_steps env recCall self args (St.entry outputPlanes ext)
    cases hg : earlyOut env recCall self args (St.entry outputPlanes ext) with
    | next s' =>
      rw [hg] at h
      exact hstep 0 _ _ (by decide) (by decide) h.emits hnil
    | done r =>
      rw [hg] at h
      exact hstep 0 _ _ (by decide) (by decide) h hnil
    | outOfFuel => trivial
  have hplanes : (atPlanes env recCall self args outputPlanes ext).Post
      (fun s => I s.trace) (fun r => I r.trace) := by
    unfold atPlanes
    exact ((((h0.step_trace 1 (setupFrameArgs_steps env self args)
      (hstep 1 · · (by decide) (by decide))).step_trace 1
      (scalePolicy_steps env self args) (hstep 1 · · (by decide) (by decide))).step_trace 2
      (getRoD_steps env self args) (hstep 2 · · (by decide) (by decide))).step_trace 2
      (computeRoI_steps env args) (hstep 2 · · (by decide) (by decide))).step_trace 3
      (neededPlanes_steps env self args) (hstep 3 · · (by decide) (by decide))
  have hidentity : (atIdentity env recCall self args outputPlanes ext).Post
      (fun s => I s.trace) (fun r => I r.trace) := by
    unfold atIdentity
    exact hplanes.step_trace 4 (passThroughPlanes_steps env recCall self args)
      (hstep 4 · · (by decide) (by decide))
  have hstorage : (atStorage env recCall self args outputPlanes ext).Post
      (fun s => I s.trace) (fun r => I r.trace) := by
    unfold atStorage
    exact ((hidentity.andThen_post hid).step_trace 6 (concatenateTransforms_steps env self args)
      (hstep 6 · · (by decide) (by decide))).step_trace 7 (computeBounds_steps env args)
      (hstep 7 · · (by decide) (by decide))
  have hlookup : (atLookup env recCall self args outputPlanes ext).Post
      (fun s => I s.trace) (fun r => I r.trace) := by
    unfold atLookup
    have h1 := hstorage.andThen_post (fun s hs =>
      (chooseStorage_emits env self args s).mono_post
        (fun _ h => hstep 7 _ _ (by decide) (by decide) h hs)
        (fun _ h => hstep 7 _ _ (by decide) (by decide) h hs))
    exact (h1.step_trace 7 (openGLRenderScale_steps env args)
      (hstep 7 · · (by decide) (by decide))).step_trace 8 (prepareLookup_steps env self args)
      (hstep 8 · · (by decide) (by decide))
  have hrects : (atRectsLeft env recCall self args outputPlanes ext).Post
      (fun s => I s.trace) (fun r => I r.trace) := by
    unfold atRectsLeft
    exact (hlookup.step_trace 8 (cacheLookup_steps env self args)
      (hstep 8 · · (by decide) (by decide))).step_trace 8 (afterLookup_steps env self args)
      (hstep 8 · · (by decide) (by decide))
  have hinputs : (atInputs env recCall fuel self args outputPlanes ext).Post
      (fun s => I s.trace) (fun r => I r.trace) := by
    unfold atInputs
    exact (hrects.step_trace 9 (rectsLeft_steps env self args)
      (hstep 9 · · (by decide) (by decide))).step_trace 9
      (fun s => rectsToRenderPhase_steps env self args fuel s)
      (hstep 9 · · (by decide) (by decide))
  have hdispatch : (atDispatch env recCall fuel self args outputPlanes ext).Post
      (fun s => I s.trace) (fun r => I r.trace) := by
    unfold atDispatch
    exact ((hinputs.step_trace 10 (preRenderInputs_steps env self args)
      (hstep 10 · · (by decide) (by decide))).step_trace 10
      (fun s => redoCacheLookupPhase_steps env self args fuel s)
      (hstep 10 · · (by decide) (by decide))).step_trace 11
      (allocatePlanes_steps env self args) (hstep 11 · · (by decide) (by decide))
  have hfinish : (atFinish env recCall fuel self args outputPlanes ext).Post
      (fun s => I s.trace) (fun r => I r.trace) := by
    unfold atFinish
    exact hdispatch.step_trace 12
      (fun s => renderDispatch_steps env self args s 12 (Or.inl rfl))
      (hstep 12 · · (by decide) (by decide))
  rw [renderRoIBody_eq_atFinish] at hr
  have h2 : ((atFinish env recCall fuel self args outputPlanes ext).andThen
      (fromFinish env recCall self args)).Post (fun s => I s.trace) (fun r => I r.trace) := by
    have : fromFinish env recCall self args
        = fun s => (finishCodes env recCall self args s).andThen (returnPlanes env args) := by
      funext s
      rfl
    rw [this, ← Flow.andThen_assoc]
    exact (hfinish.andThen_post hfin).step_trace 14 (returnPlanes_steps env args)
      (hstep 14 · · (by decide) (by decide))
  exact h2.of_result hr (fun s hs => hs)

theorem not_viewZero_of_stage {e : Event} {k : Nat} (hk : k ∈ e.stages) (h5 : k ≠ 5) :
    e.isViewZero = false := by
  cases e <;> simp [Event.stages, Event.isViewZero] at hk ⊢
  rename_i site _ _ _
  cases site <;> simp [Event.stages] at hk ⊢
  all_goals omega

theorem noViewZero_of_emits {k : Nat} {t t' : List Event} (h : Emits k t t') (h5 : k ≠ 5)
    (ht : ∀ e ∈ t, e.isViewZero = false) : ∀ e ∈ t', e.isViewZero = false := by
  obtain ⟨evs, rfl, hevs⟩ := h
  intro e he
  rcases List.mem_append.1 he with h1 | h1
  · exact ht e h1
  · exact not_viewZero_of_stage (hevs e h1) h5

theorem identityRedirect_noViewZero {σ : Type} (env : Env σ) (recCall : RecCall σ)
    (self : NodeId) (args : RenderRoIArgs) (t : Int) (v : Nat) (nb : Int) (s : St σ)
    (hs : ∀ e ∈ s.trace, e.isViewZero = false) :
    (identityRedirect env recCall self args t v nb s).Post
      (fun s' => ∀ e ∈ s'.trace, e.isViewZero = false)
      (fun r => ∀ e ∈ r.trace, e.isViewZero = false) := by
  have hadd : ∀ (l : List Event), (∀ e ∈ l, e.isViewZero = false) →
      ∀ e ∈ s.trace ++ l, e.isViewZero = false := by
    intro l hl e he
    rcases List.mem_append.1 he with h1 | h1
    · exact hs e h1
    · exact hl e h1
  unfold identityRedirect
  dsimp only
  split
  · simp only [Flow.Post, St.returns]
    exact hadd _ (by simp [Event.isViewZero])
  · split
    · trivial
    · split
      · split
        · split
          · simp only [Flow.Post, St.endsWith, List.append_assoc]
            exact hadd _ (by simp [Event.isViewZero])
          · rename_i hconv
            have h := (convertIdentityPlanes_step env args _ _ _ _ _ _ 14 (Or.inr rfl) hconv).emits
            simp only [Flow.Post, St.returns]
            refine noViewZero_of_emits h (by decide) ?_
            simp only [List.append_assoc]
            exact hadd _ (by simp [Event.isViewZero])
        · simp only [Flow.Post, St.returns, List.append_assoc]
          exact hadd _ (by simp [Event.isViewZero])
      · simp only [Flow.Post, St.returns, List.append_assoc]
        exact hadd _ (by simp [Event.isViewZero])
      · simp only [Flow.Post, St.endsWith, List.append_assoc]
        exact hadd _ (by simp [Event.isViewZero])

/-- The identity check of a request for the view 0 does not redirect to the view 0. -/
theorem identityPhase_noViewZero {σ : Type} (env : Env σ) (recCall : RecCall σ) (self : NodeId)
    (args : RenderRoIArgs) (s : St σ) (hview : args.view = 0)
    (hs : ∀ e ∈ s.trace, e.isViewZero = false) :
    (identityPhase env recCall self args s).Post
      (fun s' => ∀ e ∈ s'.trace, e.isViewZero = false)
      (fun r => ∀ e ∈ r.trace, e.isViewZero = false) := by
  have hq : ∀ e ∈ (identityQuery env self args
      { s with viewInvariance := env.isViewInvariant self }).2.trace, e.isViewZero = false :=
    noViewZero_of_emits
      (identityQuery_step env self args { s with viewInvariance := env.isViewInvariant self } 9
        (Or.inr rfl)).emits (by decide) hs
  have h1 : ∀ e ∈ (scaleAfterIdentity args (identityQuery env self args
      { s with viewInvariance := env.isViewInvariant self }).2).trace, e.isViewZero = false := by
    rw [scaleAfterIdentity_trace]
    exact hq
  unfold identityPhase
  dsimp only
  split
  · exact hq
  · split
    · split
      · exact h1
      · split
        · unfold tailCall
          split
          · trivial
          · simp only [Flow.Post]
            intro e he
            rcases List.mem_append.1 he with h2 | h2
            · exact h1 e h2
            · simp only [List.mem_singleton] at h2
              subst h2
              rfl
        · exact identityRedirect_noViewZero env recCall self args _ _ _ _ h1
    · split
      · rename_i hv
        simp [hview] at hv
      · exact h1

theorem identityPhase_viewZero {σ : Type} (env : Env σ) (recCall : RecCall σ) (self : NodeId)
    (args : RenderRoIArgs) (s q : St σ) (t : Int) (v : Nat) (nb : Int)
    (hq : identityQuery env self args { s with viewInvariance := env.isViewInvariant self }
      = (some (false, t, v, nb), q))
    (hview : args.view ≠ 0)
    (hinv : env.isViewInvariant self = .eViewInvarianceOnlyPassThroughPlanesVariant) :
    identityPhase env recCall self args s
      = tailCall recCall .viewZero self
          { args with view := 0, preComputedRoD := RectD.cleared } (scaleAfterIdentity args q) := by
  have hv : q.viewInvariance = .eViewInvarianceOnlyPassThroughPlanesVariant := by
    have h2 : (identityQuery env self args
        { s with viewInvariance := env.isViewInvariant self }).2.viewInvariance
        = env.isViewInvariant self := by
      unfold identityQuery
      dsimp only
      repeat' split
      all_goals rfl
    rw [hq] at h2
    rw [← hinv]
    exact h2
  have hv1 : (scaleAfterIdentity args q).viewInvariance
      = .eViewInvarianceOnlyPassThroughPlanesVariant := by
    unfold scaleAfterIdentity
    split <;> exact hv
  unfold identityPhase
  simp only [hq, hv1]
  simp [hview]

/-- C28 (redirection to the view 0). The call has reached the identity check in the state `s`,
the identity query (the pre-pass data, or the `isIdentity` hook, which leaves the state `q`)
answers "not an identity", the requested view is not 0 and only the pass-through planes of the
effect depend on the view. Then what `renderRoI` returns is what `renderRoI` returns on the same
effect for the same request with the view 0 and the pre-computed region of definition cleared
(same `*outputPlanes`, same code or exception, same external state), that call being the last
event of the activation. And no activation of `renderRoI` for the view 0, on any effect, makes
this redirection: its trace holds no call of `renderRoI` from line 652, so the call that is
re-entered is not redirected again. -/
theorem renderRoI_view_zero_redirect {σ : Type} (env : Env σ) (recCall : RecCall σ) (fuel : Nat)
    (self : NodeId) (args : RenderRoIArgs) (outputPlanes : PlaneMap Image) (ext : σ)
    (s q : St σ) (t : Int) (v : Nat) (nb : Int)
    (hs : atIdentity env recCall self args outputPlanes ext = .next s)
    (hq : identityQuery env self args { s with viewInvariance := env.isViewInvariant self }
      = (some (false, t, v, nb), q))
    (hview : args.view ≠ 0)
    (hinv : env.isViewInvariant self = .eViewInvarianceOnlyPassThroughPlanesVariant) :
    renderRoIBody env recCall fuel self args outputPlanes ext
        = (recCall self { args with view := 0, preComputedRoD := RectD.cleared } q.out q.ext).map
            (fun r => ⟨r.outcome, r.planes,
              q.trace ++ [Event.renderRoI .viewZero self
                { args with view := 0, preComputedRoD := RectD.cleared } r.outcome], r.ext⟩)
      ∧ ∀ (recCall0 : RecCall σ) (fuel0 : Nat) (self0 : NodeId) (args0 : RenderRoIArgs)
          (outputPlanes0 : PlaneMap Image) (ext0 : σ) (r0 : Result σ),
          args0.view = 0 →
          renderRoIBody env recCall0 fuel0 self0 args0 outputPlanes0 ext0 = some r0 →
          ∀ e ∈ r0.trace, e.isViewZero = false := by
  constructor
  · have hsame := scaleAfterIdentity_same args q
    rw [renderRoIBody_eq_atIdentity, hs]
    simp only [Flow.andThen, fromIdentity]
    rw [identityPhase_viewZero env recCall self args s q t v nb hq hview hinv]
    unfold tailCall
    rw [hsame.2.2.1, hsame.2.2.2.1, hsame.2.2.2.2]
    generalize recCall self _ _ _ = rc
    cases rc <;> rfl
  · intro recCall0 fuel0 self0 args0 outputPlanes0 ext0 r0 hview0 hr0
    exact renderRoIBody_trace env recCall0 fuel0 self0 args0 outputPlanes0 ext0
      (fun t => ∀ e ∈ t, e.isViewZero = false) (by simp)
      (fun k t t' h5 _ h ht => noViewZero_of_emits h h5 ht)
      (fun s hs => identityPhase_noViewZero env recCall0 self0 args0 s hview0 hs)
      (fun s hs => by
        have h := finishCodes_steps env recCall0 self0 args0 s
        cases hg : finishCodes env recCall0 self0 args0 s with
        | next s' =>
          rw [hg] at h
          exact noViewZero_of_emits h.emits (by decide) hs
        | done r =>
          rw [hg] at h
          exact noViewZero_of_emits h (by decide) hs
        | outOfFuel => trivial)
      r0 hr0

set_option maxRecDepth 100000 in
/-- The redirection on the scene `passThroughViewEnv`, for the view 1: the call returns what the
call for the view 0 returns, and the call for the view 0 is not redirected. -/
theorem renderRoI_view_zero_redirect_witness :
    (renderRoIBody passThroughViewEnv (renderRoI passThroughViewEnv 2) 2 1 viewOneArgs [] 100).map
        (fun r => (r.outcome, r.planes, r.ext))
      = (renderRoI passThroughViewEnv 2 1 sceneArgs [] 100).map
          (fun r => (r.outcome, r.planes, r.ext))
      ∧ ∀ r0, renderRoIBody passThroughViewEnv (renderRoI passThroughViewEnv 1) 1 1 sceneArgs [] 100
            = some r0 → ∀ e ∈ r0.trace, e.isViewZero = false := by
  have h := renderRoI_view_zero_redirect passThroughViewEnv (renderRoI passThroughViewEnv 2) 2 1
    viewOneArgs [] 100 viewOneState viewOneQueried 0 1 0 (by rfl) (by rfl) (by decide) (by rfl)
  refine ⟨?_, fun r0 hr0 => h.2 (renderRoI passThroughViewEnv 1) 1 1 sceneArgs [] 100 r0 rfl hr0⟩
  have ha : ({ viewOneArgs with view := 0, preComputedRoD := RectD.cleared } : RenderRoIArgs)
      = sceneArgs := by decide
  have ho : viewOneQueried.out = [] := by rfl
  have he : viewOneQueried.ext = 100 := by rfl
  rw [h.1, ha, ho, he]
  generalize renderRoI passThroughViewEnv 2 1 sceneArgs [] 100 = rc
  cases rc <;> rfl

/-- The loop of lines 611-629 reads `*compIt` at the end of the list of requested components
whenever `*outputPlanes` holds more planes than that list. -/
theorem convertIdentityPlanes_past_end {σ : Type} (env : Env σ) (args : RenderRoIArgs)
    (alpha0 : Bool) (l : List (ImageComponents × Image)) (comps : List ImageComponents)
    (acc : PlaneMap Image) (s : St σ) (h : comps.length < l.length) :
    convertIdentityPlanes env args alpha0 l comps acc s = none := by
  induction l generalizing comps acc s with
  | nil => simp at h
  | cons hd tl ih =>
    obtain ⟨k, img⟩ := hd
    cases comps with
    | nil => simp [convertIdentityPlanes]
    | cons comp comps =>
      simp only [convertIdentityPlanes]
      split
      · rfl
      · exact ih _ _ _ (by simpa using h)

set_option maxRecDepth 100000 in
/-- C29, the loop of lines 611-629 reads the component iterator at the end of the list. On the
scene `selectorEnv` the effect 1 is an identity of its input 0, has a channel selector for that
input and needs the planes RGBA and motion vectors from it; the request is for RGBA alone. The
input returns the two planes, `*outputPlanes` then holds two planes for one requested component,
and the second round of the loop reads `*compIt` at `args.components.end()`. The same happens
whenever `*outputPlanes` holds more planes than the list of requested components. -/
theorem identity_conversion_reads_past_end :
    (renderRoI selectorEnv 2 2 selectorInputArgs [] 100).map
        (fun r => (r.outcome, r.planes.map (fun kp => kp.1)))
        = some (.returned .eRenderRoIRetCodeOk, [rgba, motion])
      ∧ sceneArgs.components = [rgba]
      ∧ (renderRoI selectorEnv 3 1 sceneArgs [] 100).map (fun r => r.outcome)
          = some .undefinedBehaviour
      ∧ ∀ (env : Env Nat) (args : RenderRoIArgs) (alpha0 : Bool)
          (l : List (ImageComponents × Image)) (comps : List ImageComponents)
          (acc : PlaneMap Image) (s : St Nat),
          comps.length < l.length → convertIdentityPlanes env args alpha0 l comps acc s = none :=
  ⟨by decide!, by decide, by decide!,
   fun env args alpha0 l comps acc s h =>
     convertIdentityPlanes_past_end env args alpha0 l comps acc s h⟩

theorem St.SameScale.refl_scale {σ : Type} (s : St σ) : s.SameScale s := ⟨rfl, rfl, rfl⟩

theorem St.SameScale.trans_scale {σ : Type} {s s1 s2 : St σ} (h1 : s.SameScale s1)
    (h2 : s1.SameScale s2) : s.SameScale s2 :=
  ⟨h2.1.trans h1.1, h2.2.1.trans h1.2.1, h2.2.2.trans h1.2.2⟩

theorem AmendedScalePolicy.of_same_scale {σ : Type} {args : RenderRoIArgs} {s s' : St σ}
    (h : AmendedScalePolicy args s) (hs : s.SameScale s') : AmendedScalePolicy args s' := by
  unfold AmendedScalePolicy at h ⊢
  rw [hs.1, hs.2.1, hs.2.2]
  exact h

theorem ClaimedScalePolicy.of_scale_before {σ : Type} {args : RenderRoIArgs} {s s' : St σ}
    (h : ClaimedScalePolicy args s) (hs : s.SameScale s') : ClaimedScalePolicy args s' := by
  unfold ClaimedScalePolicy at h ⊢
  rw [hs.1, hs.2.1, hs.2.2]
  exact h

/-- Lines 285-298 set the scale policy as the specification gives it. -/
theorem scalePolicy_scale {σ : Type} (env : Env σ) (self : NodeId) (args : RenderRoIArgs)
    (s s' : St σ) (h : scalePolicy env self args s = .next s') :
    ClaimedScalePolicy args s' ∧ ∃ e, env.supportsRenderScaleMaybe self e = s'.supportsRS := by
  unfold scalePolicy at h
  simp only [Flow.next.injEq] at h
  subst h
  refine ⟨⟨?_, rfl⟩, s.ext, rfl⟩
  simp

/-- Lines 306-342 keep the scale policy: when the support is "maybe" it is read again once the
region of definition is known. -/
theorem getRoD_scale {σ : Type} (env : Env σ) (self : NodeId) (args : RenderRoIArgs)
    (s s' : St σ) (h : getRoD env self args s = .next s')
    (hs : ClaimedScalePolicy args s ∧ ∃ e, env.supportsRenderScaleMaybe self e = s.supportsRS) :
    ClaimedScalePolicy args s' ∧ ∃ e, env.supportsRenderScaleMaybe self e = s'.supportsRS := by
  unfold getRoD at h
  dsimp only at h
  split at h
  · simp only [Flow.next.injEq] at h
    subst h
    exact hs
  · split at h
    · simp only [Flow.next.injEq] at h
      subst h
      exact hs
    · split at h
      · simp [St.returns] at h
      · split at h
        · simp [St.returns] at h
        · split at h
          · rename_i hmaybe
            simp only [Flow.next.injEq] at h
            subst h
            simp only [Bool.and_eq_true, beq_iff_eq, bne_iff_ne, ne_eq] at hmaybe
            have hoff : s.renderFullScaleThenDownscale = false := by
              cases hb : s.renderFullScaleThenDownscale
              · rfl
              · have := hs.1.1.1 hb
                rw [hmaybe.1] at this
                exact absurd this.1 (by decide)
            have hlevel : s.renderMappedMipMapLevel = args.mipMapLevel := by
              rw [hs.1.2, hoff]
              rfl
            refine ⟨⟨by simp, ?_⟩, _, rfl⟩
            dsimp only
            rw [hlevel]
          · simp only [Flow.next.injEq] at h
            subst h
            exact hs

theorem computeRoI_scale {σ : Type} (env : Env σ) (args : RenderRoIArgs) (s s' : St σ)
    (h : computeRoI env args s = .next s') : s.SameScale s' := by
  unfold computeRoI at h
  split at h <;> simp only [Flow.next.injEq] at h <;> subst h <;> exact ⟨rfl, rfl, rfl⟩

theorem neededPlanes_scale {σ : Type} (env : Env σ) (self : NodeId) (args : RenderRoIArgs)
    (s s' : St σ) (h : neededPlanes env self args s = .next s') : s.SameScale s' := by
  unfold neededPlanes at h
  dsimp only at h
  split at h
  · simp [St.returns] at h
  · split at h <;> simp only [Flow.next.injEq] at h <;> subst h <;> exact ⟨rfl, rfl, rfl⟩

theorem fetchUpstream_scale {σ : Type} (env : Env σ) (recCall : RecCall σ) (args : RenderRoIArgs)
    (l : List (ImageComponents × Option NodeId)) (s s' : St σ)
    (h : fetchUpstream env recCall args l s = .next s') : s.SameScale s' := by
  induction l generalizing s with
  | nil =>
    simp only [fetchUpstream, Flow.next.injEq] at h
    subst h
    exact ⟨rfl, rfl, rfl⟩
  | cons hd tl ih =>
    obtain ⟨comp, node⟩ := hd
    cases node with
    | none =>
      simp only [fetchUpstream] at h
      exact ih _ h
    | some node =>
      simp only [fetchUpstream] at h
      split at h
      · simp at h
      · split at h
        · split at h
          · simp [St.returns] at h
          · split at h
            · simp [St.returns] at h
            · have h1 := ih _ h
              exact St.SameScale.trans_scale ⟨rfl, rfl, rfl⟩ h1
        · simp [St.endsWith] at h

theorem passThroughPlanes_scale {σ : Type} (env : Env σ) (recCall : RecCall σ) (self : NodeId)
    (args : RenderRoIArgs) (s s' : St σ)
    (h : passThroughPlanes env recCall self args s = .next s') : s.SameScale s' := by
  unfold passThroughPlanes at h
  dsimp only at h
  obtain ⟨s2, h2, h3⟩ := Flow.andThen_eq_next.1 h
  split at h3
  · simp [St.returns] at h3
  · simp only [Flow.next.injEq] at h3
    subst h3
    have h1 := fetchUpstream_scale env recCall args _ _ _ h2
    exact St.SameScale.trans_scale ⟨rfl, rfl, rfl⟩ h1

theorem identityQuery_scale {σ : Type} (env : Env σ) (self : NodeId) (args : RenderRoIArgs)
    (s : St σ) : s.SameScale (identityQuery env self args s).2 := by
  unfold identityQuery
  dsimp only
  repeat' split
  all_goals exact ⟨rfl, rfl, rfl⟩

/-- Lines 515-520: after the identity check the mode is on exactly when the support is not
"yes" and the requested level is not 0. -/
theorem scaleAfterIdentity_scale {σ : Type} (args : RenderRoIArgs) (s : St σ)
    (hs : ClaimedScalePolicy args s) :
    AmendedScalePolicy args (scaleAfterIdentity args s)
      ∧ (scaleAfterIdentity args s).supportsRS = s.supportsRS := by
  unfold scaleAfterIdentity
  split
  · rename_i hmaybe
    simp only [Bool.and_eq_true, beq_iff_eq, bne_iff_ne, ne_eq] at hmaybe
    refine ⟨⟨?_, rfl⟩, rfl⟩
    simp [hmaybe.1, hmaybe.2]
  · rename_i hmaybe
    simp only [Bool.and_eq_true, beq_iff_eq, bne_iff_ne, ne_eq, not_and, not_not] at hmaybe
    refine ⟨⟨?_, hs.2⟩, rfl⟩
    rw [hs.1]
    constructor
    · rintro ⟨h1, h2⟩
      exact ⟨by rw [h1]; decide, h2⟩
    · rintro ⟨h1, h2⟩
      refine ⟨?_, h2⟩
      cases hrs : s.supportsRS
      · rfl
      · exact absurd hrs h1
      · exact absurd (hmaybe hrs) h2

theorem identityPhase_scale {σ : Type} (env : Env σ) (recCall : RecCall σ) (self : NodeId)
    (args : RenderRoIArgs) (s s' : St σ) (h : identityPhase env recCall self args s = .next s')
    (hs : ClaimedScalePolicy args s) :
    AmendedScalePolicy args s' ∧ s'.supportsRS = s.supportsRS := by
  have hq := identityQuery_scale env self args
    ({ s with viewInvariance := env.isViewInvariant self } : St σ)
  have hq' : ClaimedScalePolicy args (identityQuery env self args
      { s with viewInvariance := env.isViewInvariant self }).2 :=
    ClaimedScalePolicy.of_scale_before (s := { s with viewInvariance := env.isViewInvariant self }) hs hq
  have h1 := scaleAfterIdentity_scale args _ hq'
  unfold identityPhase at h
  dsimp only at h
  split at h
  · simp [St.returns] at h
  · split at h
    · split at h
      · simp [St.returns] at h
      · split at h
        · unfold tailCall at h
          split at h <;> simp at h
        · exfalso
          revert h
          unfold identityRedirect
          dsimp only
          repeat' split
          all_goals simp [St.returns, St.endsWith]
    · split at h
      · unfold tailCall at h
        split at h <;> simp at h
      · simp only [Flow.next.injEq] at h
        subst h
        exact ⟨h1.1, h1.2.trans hq.1⟩

theorem concatenateTransforms_scale {σ : Type} (env : Env σ) (self : NodeId)
    (args : RenderRoIArgs) (s s' : St σ) (h : concatenateTransforms env self args s = .next s') :
    s.SameScale s' := by
  unfold concatenateTransforms at h
  repeat' split at h
  all_goals simp only [Flow.next.injEq] at h
  all_goals subst h
  all_goals exact ⟨rfl, rfl, rfl⟩

theorem computeBounds_scale {σ : Type} (env : Env σ) (args : RenderRoIArgs) (s s' : St σ)
    (h : computeBounds env args s = .next s') : s.SameScale s' := by
  unfold computeBounds at h
  dsimp only at h
  split at h
  · split at h
    · simp [St.returns] at h
    · simp only [Flow.next.injEq] at h
      subst h
      exact ⟨rfl, rfl, rfl⟩
  · simp only [Flow.next.injEq] at h
    subst h
    exact ⟨rfl, rfl, rfl⟩

theorem chooseStorage_scale {σ : Type} (env : Env σ) (self : NodeId) (args : RenderRoIArgs)
    (s s' : St σ) (h : chooseStorage env self args s = .next s') : s.SameScale s' := by
  unfold chooseStorage at h
  dsimp only at h
  repeat' split at h
  all_goals first
    | (simp only [Flow.next.injEq] at h; subst h; exact ⟨rfl, rfl, rfl⟩)
    | simp [St.returns] at h

theorem openGLRenderScale_scale {σ : Type} (env : Env σ) (args : RenderRoIArgs) (s s' : St σ)
    (h : openGLRenderScale env args s = .next s') (hst : s.storage ≠ .eStorageModeGLTex) :
    s.SameScale s' := by
  unfold openGLRenderScale at h
  rw [if_neg (fun hc => hst hc.1)] at h
  simp only [Flow.next.injEq] at h
  subst h
  exact ⟨rfl, rfl, rfl⟩

theorem prepareLookup_scale {σ : Type} (env : Env σ) (self : NodeId) (args : RenderRoIArgs)
    (s s' : St σ) (h : prepareLookup env self args s = .next s') : s.SameScale s' := by
  unfold prepareLookup at h
  simp only [Flow.next.injEq] at h
  subst h
  exact ⟨rfl, rfl, rfl⟩

set_option maxRecDepth 100000 in
/-- C22, the claim as worded does not hold: on the scene `maybeEnv` the render-scale support of
the effect is "maybe" whenever it is asked, the request is at the mip-map level 1 and is
rendered in system memory; when the cache key is built the render-full-then-downscale mode is
on and the mip-map level of the render is 0, although the effect does not declare the support
"no". -/
theorem scale_policy_counterexample :
    atLookup maybeEnv (renderRoI maybeEnv 1) 1 halfScaleArgs [] 100 = .next maybeState
      ∧ maybeState.storage = .eStorageModeRAM
      ∧ (∀ ext, maybeEnv.supportsRenderScaleMaybe 1 ext = .eSupportsMaybe)
      ∧ maybeState.supportsRS = .eSupportsMaybe
      ∧ halfScaleArgs.mipMapLevel = 1
      ∧ maybeState.renderFullScaleThenDownscale = true
      ∧ maybeState.renderMappedMipMapLevel = 0
      ∧ maybeState.key.fullScaleWithDownscaleInputs = true
      ∧ ¬ ClaimedScalePolicy halfScaleArgs maybeState := by
  have hmode : maybeState.renderFullScaleThenDownscale = true := by rfl
  have hrs : maybeState.supportsRS = .eSupportsMaybe := by rfl
  refine ⟨by rfl, by rfl, fun _ => rfl, hrs, rfl, hmode, by rfl, by rfl, ?_⟩
  intro h
  have h1 := (h.1.1 hmode).1
  rw [hrs] at h1
  cases h1

/-- C22, amended. The call has reached the cache look-up in the state `s`, where the cache key
is built, with a storage that is not an OpenGL texture. Then the render-full-then-downscale
mode is on if and only if the requested mip-map level is not 0 and the render-scale support of
the effect, as `supportsRenderScaleMaybe` last gave it to the call, is not "yes": it is "no",
or it is "maybe" and did not resolve. The mip-map level of the render is 0 when the mode is on
and the requested level otherwise; in particular it is the requested level for an effect whose
support is "maybe" and resolves to "yes". -/
theorem renderRoI_scale_policy {σ : Type} (env : Env σ) (recCall : RecCall σ)
    (self : NodeId) (args : RenderRoIArgs) (outputPlanes : PlaneMap Image) (ext : σ) (s : St σ)
    (hs : atLookup env recCall self args outputPlanes ext = .next s)
    (hst : s.storage ≠ .eStorageModeGLTex) :
    (s.renderFullScaleThenDownscale = true
        ↔ s.supportsRS ≠ .eSupportsYes ∧ args.mipMapLevel ≠ 0)
      ∧ s.renderMappedMipMapLevel
          = (if s.renderFullScaleThenDownscale then 0 else args.mipMapLevel)
      ∧ (s.supportsRS = .eSupportsYes → s.renderMappedMipMapLevel = args.mipMapLevel)
      ∧ ∃ e, env.supportsRenderScaleMaybe self e = s.supportsRS := by
  unfold atLookup at hs
  obtain ⟨so, hso, hprep⟩ := Flow.andThen_eq_next.1 hs
  obtain ⟨sc, hsc, hogl⟩ := Flow.andThen_eq_next.1 hso
  obtain ⟨sb, hsb, hchoose⟩ := Flow.andThen_eq_next.1 hsc
  unfold atStorage at hsb
  obtain ⟨st, hst', hbounds⟩ := Flow.andThen_eq_next.1 hsb
  obtain ⟨si, hsi, hconcat⟩ := Flow.andThen_eq_next.1 hst'
  obtain ⟨sq, hsq, hident⟩ := Flow.andThen_eq_next.1 hsi
  unfold atIdentity at hsq
  obtain ⟨sp, hsp, hpass⟩ := Flow.andThen_eq_next.1 hsq
  unfold atPlanes at hsp
  obtain ⟨sn, hsn, hneeded⟩ := Flow.andThen_eq_next.1 hsp
  obtain ⟨sr, hsr, hroi⟩ := Flow.andThen_eq_next.1 hsn
  obtain ⟨sl, hsl, hrod⟩ := Flow.andThen_eq_next.1 hsr
  obtain ⟨sf, hsf, hpolicy⟩ := Flow.andThen_eq_next.1 hsl
  -- up to the identity check
  have h1 := getRoD_scale env self args sl sr hrod (scalePolicy_scale env self args sf sl hpolicy)
  have h2 := computeRoI_scale env args sr sn hroi
  have h3 := neededPlanes_scale env self args sn sp hneeded
  have h4 := passThroughPlanes_scale env recCall self args sp sq hpass
  have h14 := St.SameScale.trans_scale (St.SameScale.trans_scale h2 h3) h4
  have hclaimed : ClaimedScalePolicy args sq := ClaimedScalePolicy.of_scale_before h1.1 h14
  -- the identity check
  have h5 := identityPhase_scale env recCall self args sq si hident hclaimed
  -- up to the cache look-up
  have h6 := concatenateTransforms_scale env self args si st hconcat
  have h7 := computeBounds_scale env args st sb hbounds
  have h8 := chooseStorage_scale env self args sb sc hchoose
  have hstorage : sc.storage ≠ .eStorageModeGLTex := by
    have ha := openGLRenderScale_steps env args sc
    rw [hogl] at ha
    have hb := prepareLookup_steps env self args so
    rw [hprep] at hb
    rw [← ha.storage, ← hb.storage]
    exact hst
  have h9 := openGLRenderScale_scale env args sc so hogl hstorage
  have h10 := prepareLookup_scale env self args so s hprep
  have hall := St.SameScale.trans_scale (St.SameScale.trans_scale
    (St.SameScale.trans_scale (St.SameScale.trans_scale h6 h7) h8) h9) h10
  have hamended : AmendedScalePolicy args s := AmendedScalePolicy.of_same_scale h5.1 hall
  have hrs : s.supportsRS = sr.supportsRS := by
    rw [hall.1, h5.2, h14.1]
  refine ⟨hamended.1, hamended.2, fun hyes => ?_, ?_⟩
  · have hoff : s.renderFullScaleThenDownscale = false := by
      cases hb : s.renderFullScaleThenDownscale
      · rfl
      · exact absurd hyes (hamended.1.1 hb).1
    rw [hamended.2, hoff]
    rfl
  · obtain ⟨e, he⟩ := h1.2
    exact ⟨e, by rw [he, hrs]⟩

set_option maxRecDepth 100000 in
/-- The scale policy on the scene `resolvedEnv`, where the support of the effect is "maybe" and
resolves to "yes" once the region of definition is known: the request at the mip-map level 1 is
rendered at that level. -/
theorem renderRoI_scale_policy_witness :
    resolvedState.supportsRS = .eSupportsYes
      ∧ resolvedState.renderFullScaleThenDownscale = false
      ∧ resolvedState.renderMappedMipMapLevel = 1 := by
  have h := renderRoI_scale_policy resolvedEnv (renderRoI resolvedEnv 1) 1 halfScaleArgs [] 100
    resolvedState (by rfl) (by decide)
  have hyes : resolvedState.supportsRS = .eSupportsYes := by rfl
  refine ⟨hyes, ?_, h.2.2.1 hyes⟩
  cases hb : resolvedState.renderFullScaleThenDownscale
  · rfl
  · exact absurd hyes (h.1.1 hb).1

theorem isChain_ne_nil {σ : Type} {env : Env σ} {time : Int} {scale : RenderScale}
    {split : RectI} {view : Nat} {chain : List (NodeId × IdentityAnswer)}
    (h : IsChain env time scale split view chain) : chain ≠ [] := by
  intro hc
  subst hc
  exact h

/-- The walk along an identity branch, with more fuel than the rank of the node it starts at:
it stops, or the hook throws. -/
theorem identityChainWalk_chain {σ : Type} (env : Env σ) (time : Int) (scale : RenderScale)
    (split : RectI) (view : Nat) (rank : NodeId → Nat)
    (hrank : ∀ n i m, env.getInput n i = some m → m ≠ n → rank m < rank n)
    (fuel : Nat) (start : NodeId) (t : Int) (v : Nat) (nb : Int) (s : St σ)
    (hfuel : rank start < fuel) :
    (∃ s', identityChainWalk env time scale split view fuel start t v nb s = .threw s')
      ∨ ∃ chain last t' v' s',
          identityChainWalk env time scale split view fuel start t v nb s
              = .stopped last t' v' s'
            ∧ IsChain env time scale split view chain
            ∧ chain.head?.map (fun na => na.1) = some start
            ∧ (∃ n a, chain.getLast? = some (n, a) ∧ last = chainEnd env n a
                ∧ t' = a.2.1 ∧ v' = a.2.2.1)
            ∧ s'.trace = s.trace ++ chain.map (fun na => Event.isIdentity na.1 split time view) := by
  induction fuel generalizing start t v nb s with
  | zero => omega
  | succ n ih =>
    simp only [identityChainWalk]
    cases hr : (env.isIdentity start false 0 time scale split view t v nb s.ext).1 with
    | none => exact Or.inl ⟨_, rfl⟩
    | some a =>
      obtain ⟨identity, t1, v1, nb1⟩ := a
      have hans : WalkAnswered env time scale split view start (identity, t1, v1, nb1) :=
        ⟨s.ext, t, v, nb, hr⟩
      dsimp only
      by_cases hstop : (!identity || nb1 == -2) = true
      · rw [if_pos hstop]
        have hstop' : identity = false ∨ nb1 = -2 := by
          simpa using hstop
        refine Or.inr ⟨[(start, (identity, t1, v1, nb1))], some start, t1, v1, _, rfl,
          ⟨hans, ?_⟩, rfl, ⟨start, _, rfl, ?_, rfl, rfl⟩, rfl⟩
        · rcases hstop' with h | h
          · exact Or.inl h
          · exact Or.inr (Or.inl h)
        · simp only [chainEnd]
          rw [if_pos hstop']
      · rw [if_neg hstop]
        have hstop' : ¬ (identity = false ∨ nb1 = -2) := by
          simpa using hstop
        cases hin : env.getInput start nb1 with
        | none =>
          refine Or.inr ⟨[(start, (identity, t1, v1, nb1))], none, t1, v1, _, rfl,
            ⟨hans, Or.inr (Or.inr (Or.inl hin))⟩, rfl, ⟨start, _, rfl, ?_, rfl, rfl⟩, rfl⟩
          simp only [chainEnd]
          rw [if_neg hstop', hin]
        | some sub =>
          dsimp only
          by_cases hsame : sub = start
          · rw [if_pos hsame]
            refine Or.inr ⟨[(start, (identity, t1, v1, nb1))], some start, t1, v1, _, rfl,
              ⟨hans, Or.inr (Or.inr (Or.inr (by rw [hin, hsame])))⟩, rfl,
              ⟨start, _, rfl, ?_, rfl, rfl⟩, rfl⟩
            simp only [chainEnd]
            rw [if_neg hstop', hin, hsame]
          · rw [if_neg hsame]
            have hlt : rank sub < n := by
              have := hrank start nb1 sub hin hsame
              omega
            rcases ih sub t1 v1 nb1
              { s with ext := (env.isIdentity start false 0 time scale split view t v nb s.ext).2,
                       trace := s.trace ++ [Event.isIdentity start split time view] } hlt with
              ⟨s', hthrew⟩ | ⟨chain, last, t', v', s', hwalk, hchain, hhead, hlast, htrace⟩
            · exact Or.inl ⟨s', hthrew⟩
            · refine Or.inr ⟨(start, (identity, t1, v1, nb1)) :: chain, last, t', v', s', hwalk,
                ?_, rfl, ?_, ?_⟩
              · cases chain with
                | nil => exact absurd rfl (isChain_ne_nil hchain)
                | cons mb rest =>
                  simp only [List.head?_cons, Option.map_some', Option.some.injEq] at hhead
                  refine ⟨hans, ?_, by rw [hin, hhead], hchain⟩
                  rintro (h | h | h | h)
                  · exact hstop' (Or.inl h)
                  · exact hstop' (Or.inr h)
                  · rw [hin] at h
                    cases h
                  · rw [hin] at h
                    exact hsame (Option.some.inj h)
              · obtain ⟨m, a, hl, hrest⟩ := hlast
                refine ⟨m, a, ?_, hrest⟩
                cases chain with
                | nil => exact absurd rfl (isChain_ne_nil hchain)
                | cons mb rest =>
                  rw [List.getLast?_cons_cons]
                  exact hl
              · rw [htrace]
                simp

/-- C25 (walk along an identity branch). In `optimizeRectsToRender`, the effect `self` answers
that it is an identity over the sub-rectangle `split` (which does not intersect the
intersection of the regions of definition of the inputs) and its identity input is the node
`start`. The graph of inputs is finite and acyclic: `rank` decreases from a node to each of its
inputs. Then, with more fuel than the rank of `start`, the walk of lines 131-145 does not run
out of fuel: either a hook throws, and `optimizeRectsToRender` ends with that exception, or the
walk stops. When it stops it has asked the nodes of a chain that starts at `start`, each node
but the last being an identity whose answer is not the sentinel -2 and whose identity input is
the next node of the chain, another node; the last node is the first that is not an identity,
or answers -2, or has no identity input, or is its own identity input. The rectangle pushed for
`split` is tagged identity and holds the last node reached (null when its identity input is
missing) and the time and view of the last answer. -/
theorem optimizeSplits_chain_walk {σ : Type} (env : Env σ) (self : NodeId) (inter : RectI)
    (time : Int) (view : Nat) (scale : RenderScale) (rank : NodeId → Nat) (fuel : Nat)
    (split : RectI) (rest : List RectI) (set : Bool) (nonId : RectI) (s0 : St σ)
    (t : Int) (v : Nat) (nb : Int) (e1 : σ) (start : NodeId)
    (hrank : ∀ n i m, env.getInput n i = some m → m ≠ n → rank m < rank n)
    (hfuel : rank start < fuel)
    (hout : env.rectIIntersects split inter = false)
    (hself : env.isIdentity self false 0 time scale split view 0 view (-1) s0.ext
      = (some (true, t, v, nb), e1))
    (hin : env.getInput self nb = some start) :
    (∃ s', identityChainWalk env time scale split view fuel start t v nb
              { s0 with ext := e1, trace := s0.trace ++ [Event.isIdentity self split time view] }
            = .threw s'
          ∧ optimizeSplits env self inter time view scale fuel (split :: rest) set nonId s0
              = .threw s')
      ∨ ∃ chain last t' v' s',
          identityChainWalk env time scale split view fuel start t v nb
              { s0 with ext := e1, trace := s0.trace ++ [Event.isIdentity self split time view] }
              = .stopped last t' v' s'
            ∧ IsChain env time scale split view chain
            ∧ chain.head?.map (fun na => na.1) = some start
            ∧ (∃ n a, chain.getLast? = some (n, a) ∧ last = chainEnd env n a
                ∧ t' = a.2.1 ∧ v' = a.2.2.1)
            ∧ s'.trace = s0.trace ++ Event.isIdentity self split time view
                :: chain.map (fun na => Event.isIdentity na.1 split time view)
            ∧ optimizeSplits env self inter time view scale fuel (split :: rest) set nonId s0
                = (optimizeSplits env self inter time view scale fuel rest set nonId s').push
                    { rect := split, isIdentity := true, identityInput := last,
                      identityTime := t', identityView := v' } := by
  rcases identityChainWalk_chain env time scale split view rank hrank fuel start t v nb
      { s0 with ext := e1, trace := s0.trace ++ [Event.isIdentity self split time view] } hfuel with
    ⟨s', hthrew⟩ | ⟨chain, last, t', v', s', hwalk, hchain, hhead, hlast, htrace⟩
  · refine Or.inl ⟨s', hthrew, ?_⟩
    simp only [optimizeSplits, hout, hself, hin, hthrew]
    simp
  · refine Or.inr ⟨chain, last, t', v', s', hwalk, hchain, hhead, hlast, ?_, ?_⟩
    · rw [htrace]
      simp
    · simp only [optimizeSplits, hout, hself, hin, hwalk]
      simp

theorem chainEnv_acyclic (n : NodeId) (i : Int) (m : NodeId)
    (h : chainEnv.getInput n i = some m) (_hne : m ≠ n) : chainRank m < chainRank n := by
  simp only [chainEnv] at h
  split at h
  · rename_i h1
    simp only [Option.some.injEq] at h
    subst h
    rw [h1.1]
    decide
  · split at h
    · rename_i h1
      simp only [Option.some.injEq] at h
      subst h
      rw [h1.1]
      decide
    · cases h

set_option maxRecDepth 100000 in
/-- The walk on the scene `chainEnv`: the effect 1 is an identity of the effect 2, which is an
identity of the effect 3, which is not an identity; the rectangle pushed for the sub-rectangle
holds the effect 3 and the time that the last answer gave. -/
theorem optimizeSplits_chain_walk_witness :
    ((∃ s', identityChainWalk chainEnv 10 0 ⟨0, 0, 4, 4⟩ 0 3 2 11 0 0
              { St.entry [] 100 with
                  ext := 101, trace := [] ++ [Event.isIdentity 1 ⟨0, 0, 4, 4⟩ 10 0] }
            = .threw s'
          ∧ optimizeSplits chainEnv 1 ⟨10, 10, 12, 12⟩ 10 0 0 3 [⟨0, 0, 4, 4⟩] false default
              (St.entry [] 100) = .threw s')
      ∨ ∃ chain last t' v' s',
          identityChainWalk chainEnv 10 0 ⟨0, 0, 4, 4⟩ 0 3 2 11 0 0
              { St.entry [] 100 with
                  ext := 101, trace := [] ++ [Event.isIdentity 1 ⟨0, 0, 4, 4⟩ 10 0] }
              = .stopped last t' v' s'
            ∧ IsChain chainEnv 10 0 ⟨0, 0, 4, 4⟩ 0 chain
            ∧ chain.head?.map (fun na => na.1) = some 2
            ∧ (∃ n a, chain.getLast? = some (n, a) ∧ last = chainEnd chainEnv n a
                ∧ t' = a.2.1 ∧ v' = a.2.2.1)
            ∧ s'.trace = [] ++ Event.isIdentity 1 ⟨0, 0, 4, 4⟩ 10 0
                :: chain.map (fun na => Event.isIdentity na.1 ⟨0, 0, 4, 4⟩ 10 0)
            ∧ optimizeSplits chainEnv 1 ⟨10, 10, 12, 12⟩ 10 0 0 3 [⟨0, 0, 4, 4⟩] false default
                (St.entry [] 100)
                = (optimizeSplits chainEnv 1 ⟨10, 10, 12, 12⟩ 10 0 0 3 [] false default s').push
                    { rect := ⟨0, 0, 4, 4⟩, isIdentity := true, identityInput := last,
                      identityTime := t', identityView := v' })
      ∧ (optimizeSplits chainEnv 1 ⟨10, 10, 12, 12⟩ 10 0 0 3 [⟨0, 0, 4, 4⟩] false default
            (St.entry [] 100)).identityRects
          = [{ rect := ⟨0, 0, 4, 4⟩, isIdentity := true, identityInput := some 3,
               identityTime := 12, identityView := 0 }] :=
  ⟨optimizeSplits_chain_walk chainEnv 1 ⟨10, 10, 12, 12⟩ 10 0 0 chainRank 3 ⟨0, 0, 4, 4⟩ []
    false default (St.entry [] 100) 11 0 0 101 2 chainEnv_acyclic (by decide) (by decide)
    (by rfl) (by rfl), by rfl⟩

theorem SplitsResult.push_finished {σ : Type} {w : SplitsResult σ} {r : RectToRender}
    {ids : List RectToRender} {set : Bool} {nonId : RectI} {s' : St σ}
    (h : w.push r = .finished ids set nonId s') :
    ∃ ids', w = .finished ids' set nonId s' ∧ ids = r :: ids' := by
  cases w with
  | finished a b c d =>
    simp only [SplitsResult.push, SplitsResult.finished.injEq] at h
    obtain ⟨rfl, rfl, rfl, rfl⟩ := h
    exact ⟨a, rfl, rfl⟩
  | threw a => simp [SplitsResult.push] at h
  | outOfFuel => simp [SplitsResult.push] at h

theorem queriesOnly_nil (time : Int) (view : Nat) (P : RectI → Prop) :
    QueriesOnly time view P [] := by
  intro ev hev
  cases hev

theorem queriesOnly_append {time : Int} {view : Nat} {P : RectI → Prop} {l1 l2 : List Event}
    (h1 : QueriesOnly time view P l1) (h2 : QueriesOnly time view P l2) :
    QueriesOnly time view P (l1 ++ l2) := by
  intro ev hev
  rcases List.mem_append.1 hev with h | h
  · exact h1 ev h
  · exact h2 ev h

theorem queriesOnly_mono {time : Int} {view : Nat} {P Q : RectI → Prop} {l : List Event}
    (h : QueriesOnly time view P l) (hPQ : ∀ r, P r → Q r) : QueriesOnly time view Q l := by
  intro ev hev
  obtain ⟨node, rect, he, hp⟩ := h ev hev
  exact ⟨node, rect, he, hPQ rect hp⟩

theorem queriesOnly_one (node : NodeId) (rect : RectI) (time : Int) (view : Nat)
    (P : RectI → Prop) (h : P rect) :
    QueriesOnly time view P [Event.isIdentity node rect time view] := by
  intro ev hev
  simp only [List.mem_singleton] at hev
  exact ⟨node, rect, hev, h⟩

/-- A walk along an identity branch changes the external state and the trace only, and only
calls the `isIdentity` hook, about the sub-rectangle it is made for. -/
theorem identityChainWalk_queries {σ : Type} (env : Env σ) (time : Int) (scale : RenderScale)
    (split : RectI) (view : Nat) (fuel : Nat) (node : NodeId) (t : Int) (v : Nat) (nb : Int)
    (s : St σ) (last : Option NodeId) (t' : Int) (v' : Nat) (s' : St σ)
    (h : identityChainWalk env time scale split view fuel node t v nb s = .stopped last t' v' s') :
    ∃ e evs, s' = { s with ext := e, trace := s.trace ++ evs }
      ∧ QueriesOnly time view (fun rect => rect = split) evs := by
  induction fuel generalizing node t v nb s with
  | zero => simp [identityChainWalk] at h
  | succ n ih =>
    simp only [identityChainWalk] at h
    have hone := queriesOnly_one node split time view (fun rect => rect = split) rfl
    split at h
    · cases h
    · split at h
      · simp only [WalkResult.stopped.injEq] at h
        obtain ⟨-, -, -, rfl⟩ := h
        exact ⟨_, _, rfl, hone⟩
      · split at h
        · simp only [WalkResult.stopped.injEq] at h
          obtain ⟨-, -, -, rfl⟩ := h
          exact ⟨_, _, rfl, hone⟩
        · split at h
          · simp only [WalkResult.stopped.injEq] at h
            obtain ⟨-, -, -, rfl⟩ := h
            exact ⟨_, _, rfl, hone⟩
          · obtain ⟨e, evs, rfl, hq⟩ := ih _ _ _ _ _ h
            refine ⟨e, [Event.isIdentity node split time view] ++ evs, ?_,
              queriesOnly_append hone hq⟩
            simp only [List.append_assoc]

theorem St.frame_nil {σ : Type} (s : St σ) :
    s = { s with ext := s.ext, trace := s.trace ++ [] } := by
  cases s
  simp

theorem tagged_nil {σ : Type} (env : Env σ) (self : NodeId) (inter : RectI) (time : Int)
    (view : Nat) (scale : RenderScale) : Tagged env self inter time view scale [] [] := by
  refine ⟨rfl, ?_, ?_⟩ <;> intro p hp <;> cases hp

theorem Tagged.cons_identity {σ : Type} {env : Env σ} {self : NodeId} {inter : RectI}
    {time : Int} {view : Nat} {scale : RenderScale} {rest : List RectI}
    {tagged : List (RectI × Bool)} (h : Tagged env self inter time view scale rest tagged)
    (split : RectI) (hout : env.rectIIntersects split inter = false)
    (hans : AnswersIdentity env self time scale view split true) :
    Tagged env self inter time view scale (split :: rest) ((split, true) :: tagged) := by
  refine ⟨by simp [h.1], ?_, ?_⟩
  · intro p hp hp2
    rcases List.mem_cons.1 hp with rfl | hp'
    · exact ⟨hout, hans⟩
    · exact h.2.1 p hp' hp2
  · intro p hp hp2
    rcases List.mem_cons.1 hp with rfl | hp'
    · cases hp2
    · exact h.2.2 p hp' hp2

theorem Tagged.cons_remaining {σ : Type} {env : Env σ} {self : NodeId} {inter : RectI}
    {time : Int} {view : Nat} {scale : RenderScale} {rest : List RectI}
    {tagged : List (RectI × Bool)} (h : Tagged env self inter time view scale rest tagged)
    (split : RectI)
    (hwhy : env.rectIIntersects split inter = true
      ∨ AnswersIdentity env self time scale view split false) :
    Tagged env self inter time view scale (split :: rest) ((split, false) :: tagged) := by
  refine ⟨by simp [h.1], ?_, ?_⟩
  · intro p hp hp2
    rcases List.mem_cons.1 hp with rfl | hp'
    · cases hp2
    · exact h.2.1 p hp' hp2
  · intro p hp hp2
    rcases List.mem_cons.1 hp with rfl | hp'
    · exact hwhy
    · exact h.2.2 p hp' hp2

/-- The loop over the sub-rectangles of a rectangle, when it finishes: the tags it gave, the
identity rectangles it pushed, `nonIdentityRectSet` and `nonIdentityRect`, and what it did
towards the outside. -/
theorem optimizeSplits_tagged {σ : Type} (env : Env σ) (self : NodeId) (inter : RectI)
    (time : Int) (view : Nat) (scale : RenderScale) (fuel : Nat) (splits : List RectI)
    (set0 : Bool) (nonId0 : RectI) (s : St σ) (ids : List RectToRender) (set : Bool)
    (nonId : RectI) (s' : St σ)
    (h : optimizeSplits env self inter time view scale fuel splits set0 nonId0 s
      = .finished ids set nonId s') :
    ∃ tagged, Tagged env self inter time view scale splits tagged
      ∧ ids.map (fun r => r.rect) = identitySplits tagged
      ∧ (∀ r ∈ ids, r.isIdentity = true)
      ∧ set = (set0 || !(remainingSplits tagged).isEmpty)
      ∧ nonId = boundingRects (remainingSplits tagged) nonId0
      ∧ ∃ e evs, s' = { s with ext := e, trace := s.trace ++ evs }
          ∧ QueriesOnly time view
              (fun rect => rect ∈ splits ∧ env.rectIIntersects rect inter = false) evs := by
  induction splits generalizing set0 nonId0 s ids with
  | nil =>
    simp only [optimizeSplits, SplitsResult.finished.injEq] at h
    obtain ⟨rfl, rfl, rfl, rfl⟩ := h
    exact ⟨[], tagged_nil env self inter time view scale, rfl, by simp, by simp [remainingSplits],
      rfl, s.ext, [], St.frame_nil s, queriesOnly_nil _ _ _⟩
  | cons split rest ih =>
    simp only [optimizeSplits] at h
    have hweak : ∀ evs, QueriesOnly time view
        (fun rect => rect ∈ rest ∧ env.rectIIntersects rect inter = false) evs →
        QueriesOnly time view
          (fun rect => rect ∈ split :: rest ∧ env.rectIIntersects rect inter = false) evs :=
      fun evs hq => queriesOnly_mono hq (fun r hr => ⟨List.mem_cons_of_mem _ hr.1, hr.2⟩)
    by_cases hint : env.rectIIntersects split inter = true
    · -- the sub-rectangle intersects: it is not asked about
      simp only [hint, Bool.not_true, Bool.false_eq_true, if_false] at h
      obtain ⟨tagged, htag, hids, hall, hset, hnon, e, evs, hs', hq⟩ := ih _ _ _ _ h
      refine ⟨(split, false) :: tagged, htag.cons_remaining split (Or.inl hint), ?_, hall, ?_, ?_,
        e, evs, hs', hweak evs hq⟩
      · simpa [identitySplits] using hids
      · simp [remainingSplits, hset]
      · simpa [remainingSplits, boundingRects] using hnon
    · have hout : env.rectIIntersects split inter = false := by
        simpa using hint
      simp only [hout, Bool.not_false, if_true] at h
      have hone := queriesOnly_one self split time view
        (fun rect => rect ∈ split :: rest ∧ env.rectIIntersects rect inter = false)
        ⟨List.mem_cons_self _ _, hout⟩
      cases hr : (env.isIdentity self false 0 time scale split view 0 view (-1) s.ext).1 with
      | none =>
        rw [hr] at h
        cases h
      | some a =>
        obtain ⟨identity, t, v, nb⟩ := a
        rw [hr] at h
        dsimp only at h
        cases identity with
        | true =>
          have hans : AnswersIdentity env self time scale view split true :=
            ⟨s.ext, t, v, nb, hr⟩
          simp only [if_true] at h
          cases hin : env.getInput self nb with
          | none =>
            rw [hin] at h
            dsimp only at h
            obtain ⟨ids', h', rfl⟩ := SplitsResult.push_finished h
            obtain ⟨tagged, htag, hids, hall, hset, hnon, e, evs, hs', hq⟩ := ih _ _ _ _ h'
            refine ⟨(split, true) :: tagged, htag.cons_identity split hout hans, ?_, ?_, ?_, ?_,
              e, [Event.isIdentity self split time view] ++ evs, ?_,
              queriesOnly_append hone (hweak evs hq)⟩
            · simpa [identitySplits] using hids
            · intro r hr'
              rcases List.mem_cons.1 hr' with rfl | hr''
              · rfl
              · exact hall r hr''
            · simpa [remainingSplits] using hset
            · simpa [remainingSplits] using hnon
            · rw [hs']
              simp only [List.append_assoc]
          | some input =>
            rw [hin] at h
            dsimp only at h
            split at h
            · rename_i last t2 v2 s2 hwalk
              obtain ⟨ids', h', rfl⟩ := SplitsResult.push_finished h
              obtain ⟨e2, evs2, hs2, hq2⟩ :=
                identityChainWalk_queries env time scale split view fuel _ _ _ _ _ _ _ _ _ hwalk
              obtain ⟨tagged, htag, hids, hall, hset, hnon, e, evs, hs', hq⟩ := ih _ _ _ _ h'
              refine ⟨(split, true) :: tagged, htag.cons_identity split hout hans, ?_, ?_, ?_, ?_,
                e, [Event.isIdentity self split time view] ++ evs2 ++ evs, ?_,
                queriesOnly_append (queriesOnly_append hone
                  (queriesOnly_mono hq2 (fun r hr' => by
                    rw [hr']
                    exact ⟨List.mem_cons_self _ _, hout⟩))) (hweak evs hq)⟩
              · simpa [identitySplits] using hids
              · intro r hr'
                rcases List.mem_cons.1 hr' with rfl | hr''
                · rfl
                · exact hall r hr''
              · simpa [remainingSplits] using hset
              · simpa [remainingSplits] using hnon
              · rw [hs', hs2]
                simp only [List.append_assoc]
            · cases h
            · cases h
        | false =>
          have hans : AnswersIdentity env self time scale view split false :=
            ⟨s.ext, t, v, nb, hr⟩
          simp only [Bool.false_eq_true, if_false] at h
          obtain ⟨tagged, htag, hids, hall, hset, hnon, e, evs, hs', hq⟩ := ih _ _ _ _ h
          refine ⟨(split, false) :: tagged, htag.cons_remaining split (Or.inr hans), ?_, hall,
            ?_, ?_, e, [Event.isIdentity self split time view] ++ evs, ?_,
            queriesOnly_append hone (hweak evs hq)⟩
          · simpa [identitySplits] using hids
          · simp [remainingSplits, hset]
          · simpa [remainingSplits, boundingRects] using hnon
          · rw [hs']
            simp only [List.append_assoc]

theorem RectI.contains_refl (r : RectI) : r.contains r :=
  ⟨le_refl _, le_refl _, le_refl _, le_refl _⟩

theorem RectI.contains_trans {a b c : RectI} (h1 : a.contains b) (h2 : b.contains c) :
    a.contains c :=
  ⟨le_trans h1.1 h2.1, le_trans h1.2.1 h2.2.1, le_trans h2.2.2.1 h1.2.2.1,
    le_trans h2.2.2.2 h1.2.2.2⟩

theorem RectI.containsPixel_of_contains {a b : RectI} (h : a.contains b) {x y : Int}
    (hp : b.containsPixel x y) : a.containsPixel x y := by
  unfold RectI.contains at h
  unfold RectI.containsPixel at hp ⊢
  omega

theorem boundingRect_contains (q acc : RectI) :
    (boundingRect q acc).contains q ∧ (boundingRect q acc).contains acc := by
  simp only [boundingRect, RectI.contains]
  refine ⟨⟨?_, ?_, ?_, ?_⟩, ⟨?_, ?_, ?_, ?_⟩⟩ <;> simp

theorem boundingRect_least {q acc b : RectI} (hq : b.contains q) (hacc : b.contains acc) :
    b.contains (boundingRect q acc) := by
  simp only [boundingRect, RectI.contains] at *
  refine ⟨?_, ?_, ?_, ?_⟩ <;> simp [hq.1, hq.2.1, hq.2.2.1, hq.2.2.2, hacc.1, hacc.2.1, hacc.2.2.1,
    hacc.2.2.2]

theorem boundingRects_grows (l : List RectI) (init : RectI) :
    (boundingRects l init).contains init := by
  induction l generalizing init with
  | nil => exact RectI.contains_refl _
  | cons q tl ih =>
    simp only [boundingRects, List.foldl_cons]
    exact RectI.contains_trans (ih (boundingRect q init)) (boundingRect_contains q init).2

theorem boundingRects_mem (l : List RectI) (init : RectI) :
    ∀ q ∈ l, (boundingRects l init).contains q := by
  induction l generalizing init with
  | nil =>
    intro q hq
    cases hq
  | cons q0 tl ih =>
    intro q hq
    simp only [boundingRects, List.foldl_cons]
    rcases List.mem_cons.1 hq with rfl | hq'
    · exact RectI.contains_trans (boundingRects_grows tl (boundingRect q init))
        (boundingRect_contains q init).1
    · exact ih (boundingRect q0 init) q hq'

theorem boundingRects_least (l : List RectI) (init b : RectI) (hl : ∀ q ∈ l, b.contains q)
    (hinit : b.contains init) : b.contains (boundingRects l init) := by
  induction l generalizing init with
  | nil => exact hinit
  | cons q0 tl ih =>
    simp only [boundingRects, List.foldl_cons]
    exact ih (boundingRect q0 init) (fun q hq => hl q (List.mem_cons_of_mem _ hq))
      (boundingRect_least (hl q0 (List.mem_cons_self _ _)) hinit)

/-- The first sub-rectangle replaces the initial value of `nonIdentityRect` when its bounds are
values of the type `int`. -/
theorem boundingRect_first (q : RectI) (h : q.InIntRange) :
    boundingRect q ⟨INT_MAX, INT_MAX, INT_MIN, INT_MIN⟩ = q := by
  obtain ⟨⟨h1, h2⟩, ⟨h3, h4⟩, ⟨h5, h6⟩, ⟨h7, h8⟩⟩ := h
  cases q
  simp only [boundingRect, RectI.mk.injEq]
  simp only at h1 h2 h3 h4 h5 h6 h7 h8
  refine ⟨min_eq_left h2, min_eq_left h4, max_eq_left h5, max_eq_left h7⟩

/-- Lines 154-157 compute the smallest rectangle that contains the sub-rectangles, when there is
one at least and their bounds are values of the type `int`. -/
theorem boundingRects_smallest (l : List RectI) (hne : l ≠ [])
    (hrange : ∀ q ∈ l, q.InIntRange) :
    SmallestContaining (boundingRects l ⟨INT_MAX, INT_MAX, INT_MIN, INT_MIN⟩) l := by
  refine ⟨boundingRects_mem l _, fun b hb => ?_⟩
  cases l with
  | nil => exact absurd rfl hne
  | cons q0 tl =>
    simp only [boundingRects, List.foldl_cons]
    rw [boundingRect_first q0 (hrange q0 (List.mem_cons_self _ _))]
    exact boundingRects_least tl q0 b (fun q hq => hb q (List.mem_cons_of_mem _ hq))
      (hb q0 (List.mem_cons_self _ _))

theorem identitySplits_subset {tagged : List (RectI × Bool)} {q : RectI}
    (h : q ∈ identitySplits tagged) : q ∈ tagged.map (fun p => p.1) := by
  simp only [identitySplits, List.mem_map, List.mem_filter] at h ⊢
  obtain ⟨p, ⟨hp, -⟩, rfl⟩ := h
  exact ⟨p, hp, rfl⟩

theorem remainingSplits_subset {tagged : List (RectI × Bool)} {q : RectI}
    (h : q ∈ remainingSplits tagged) : q ∈ tagged.map (fun p => p.1) := by
  simp only [remainingSplits, List.mem_map, List.mem_filter] at h ⊢
  obtain ⟨p, ⟨hp, -⟩, rfl⟩ := h
  exact ⟨p, hp, rfl⟩

theorem mem_splits_cases {tagged : List (RectI × Bool)} {q : RectI}
    (h : q ∈ tagged.map (fun p => p.1)) :
    q ∈ identitySplits tagged ∨ q ∈ remainingSplits tagged := by
  simp only [identitySplits, remainingSplits, List.mem_map, List.mem_filter] at h ⊢
  obtain ⟨p, hp, rfl⟩ := h
  cases h2 : p.2
  · exact Or.inr ⟨p, ⟨hp, by simp [h2]⟩, rfl⟩
  · exact Or.inl ⟨p, ⟨hp, h2⟩, rfl⟩

/-- `optimizeRectsToRender`, when it finishes: what was in `*finalRectsToRender` is kept and,
for each rectangle in turn, a group of rectangles is pushed after it; the call changes the
external state and the trace only, and only calls the `isIdentity` hook, about sub-rectangles
that do not intersect the intersection of the regions of definition of the inputs. -/
theorem optimizeRectsToRender_groups {σ : Type} (env : Env σ) (self : NodeId) (inter : RectI)
    (time : Int) (view : Nat) (scale : RenderScale) (fuel : Nat) (rects : List RectI)
    (acc : List RectToRender) (s : St σ) (final : List RectToRender) (s' : St σ)
    (h : optimizeRectsToRender env self inter time view scale fuel rects acc s
      = .finished final s') :
    ∃ groups : List (List RectToRender), final = acc ++ groups.flatten
      ∧ List.Forall₂ (fun r g => PushedGroup env self inter time view scale
            (env.splitIntoSmallerRects r) g) rects groups
      ∧ ∃ e evs, s' = { s with ext := e, trace := s.trace ++ evs }
          ∧ QueriesOnly time view
              (fun rect => (∃ r ∈ rects, rect ∈ env.splitIntoSmallerRects r)
                ∧ env.rectIIntersects rect inter = false) evs := by
  induction rects generalizing acc s with
  | nil =>
    simp only [optimizeRectsToRender, OptimizeResult.finished.injEq] at h
    obtain ⟨rfl, rfl⟩ := h
    exact ⟨[], by simp, List.Forall₂.nil, s.ext, [], St.frame_nil s, queriesOnly_nil _ _ _⟩
  | cons rect rest ih =>
    simp only [optimizeRectsToRender] at h
    split at h
    · rename_i ids set nonId s1 hsplits
      obtain ⟨tagged, htag, hids, hall, hset, hnon, e1, evs1, hs1, hq1⟩ :=
        optimizeSplits_tagged env self inter time view scale fuel _ _ _ _ _ _ _ _ hsplits
      obtain ⟨groups, hfinal, hforall, e, evs, hs', hq⟩ := ih _ _ h
      refine ⟨(ids ++ (if (remainingSplits tagged).isEmpty then []
          else [{ rect := boundingRects (remainingSplits tagged) ⟨INT_MAX, INT_MAX, INT_MIN, INT_MIN⟩,
                  isIdentity := false, identityTime := 0 }])) :: groups, ?_,
        List.Forall₂.cons ⟨tagged, ids, htag, hids, hall, rfl⟩ hforall,
        e, evs1 ++ evs, ?_, queriesOnly_append ?_ ?_⟩
      · rw [hfinal, hset, hnon]
        cases hempty : (remainingSplits tagged).isEmpty <;> simp
      · rw [hs', hs1]
        simp only [List.append_assoc]
      · exact queriesOnly_mono hq1 (fun r hr => ⟨⟨rect, List.mem_cons_self _ _, hr.1⟩, hr.2⟩)
      · refine queriesOnly_mono hq (fun r hr => ⟨?_, hr.2⟩)
        obtain ⟨r0, hr0, hmem⟩ := hr.1
        exact ⟨r0, List.mem_cons_of_mem _ hr0, hmem⟩
    · cases h
    · cases h

theorem forall2_imp_mem {α β : Type} {R S : α → β → Prop} {l1 : List α} {l2 : List β}
    (h : List.Forall₂ R l1 l2) (himp : ∀ a ∈ l1, ∀ b, R a b → S a b) : List.Forall₂ S l1 l2 := by
  induction h with
  | nil => exact List.Forall₂.nil
  | cons hab _ ih =>
    exact List.Forall₂.cons (himp _ (List.mem_cons_self _ _) _ hab)
      (ih (fun a ha b hr => himp a (List.mem_cons_of_mem _ ha) b hr))

theorem forall2_mem_left {α β : Type} {R : α → β → Prop} {l1 : List α} {l2 : List β}
    (h : List.Forall₂ R l1 l2) {a : α} (ha : a ∈ l1) : ∃ b ∈ l2, R a b := by
  induction h with
  | nil => cases ha
  | cons hab _ ih =>
    rcases List.mem_cons.1 ha with rfl | ha'
    · exact ⟨_, List.mem_cons_self _ _, hab⟩
    · obtain ⟨b, hb, hr⟩ := ih ha'
      exact ⟨b, List.mem_cons_of_mem _ hb, hr⟩

/-- The group pushed for a rectangle is the one the specification describes, when the bounds of
the sub-rectangles are values of the type `int`. -/
theorem PushedGroup.merged {σ : Type} {env : Env σ} {self : NodeId} {inter : RectI}
    {time : Int} {view : Nat} {scale : RenderScale} {splits : List RectI}
    {group : List RectToRender}
    (h : PushedGroup env self inter time view scale splits group)
    (hrange : ∀ q ∈ splits, q.InIntRange) :
    MergedGroup env self inter time view scale splits group := by
  obtain ⟨tagged, ids, htag, hids, hall, hgroup⟩ := h
  refine ⟨tagged, ids, htag, hids, hall, fun hnil => ?_, fun hne => ?_⟩
  · rw [hgroup, hnil]
    simp
  · refine ⟨{ rect := boundingRects (remainingSplits tagged) ⟨INT_MAX, INT_MAX, INT_MIN, INT_MIN⟩,
              isIdentity := false, identityTime := 0 }, rfl,
      boundingRects_smallest _ hne (fun q hq => hrange q ?_), ?_⟩
    · rw [← htag.1]
      exact remainingSplits_subset hq
    · rw [hgroup]
      have : (remainingSplits tagged).isEmpty = false := by
        cases hr : remainingSplits tagged with
        | nil => exact absurd hr hne
        | cons a b => rfl
      simp [this]

/-- The group pushed for a rectangle covers it, and nothing more, when the sub-rectangles lie
within the rectangle and cover it. -/
theorem PushedGroup.covers {σ : Type} {env : Env σ} {self : NodeId} {inter : RectI}
    {time : Int} {view : Nat} {scale : RenderScale} {rect : RectI} {splits : List RectI}
    {group : List RectToRender}
    (h : PushedGroup env self inter time view scale splits group)
    (hrange : rect.InIntRange) (hsub : ∀ q ∈ splits, rect.contains q)
    (hcover : ∀ x y, rect.containsPixel x y → ∃ q ∈ splits, q.containsPixel x y) :
    CoversRect rect splits group := by
  obtain ⟨tagged, ids, htag, hids, hall, hgroup⟩ := h
  have hidmem : ∀ r ∈ ids, r.rect ∈ splits := by
    intro r hr
    rw [← htag.1]
    apply identitySplits_subset
    rw [← hids]
    exact List.mem_map_of_mem _ hr
  have hinit : rect.contains ⟨INT_MAX, INT_MAX, INT_MIN, INT_MIN⟩ := by
    obtain ⟨⟨h1, h2⟩, ⟨h3, h4⟩, ⟨h5, h6⟩, ⟨h7, h8⟩⟩ := hrange
    exact ⟨h2, h4, h5, h7⟩
  have hbox : rect.contains (boundingRects (remainingSplits tagged)
      ⟨INT_MAX, INT_MAX, INT_MIN, INT_MIN⟩) :=
    boundingRects_least _ _ _ (fun q hq => hsub q (by
      rw [← htag.1]
      exact remainingSplits_subset hq)) hinit
  have hmemgroup : ∀ r ∈ group, r ∈ ids ∨ ((remainingSplits tagged).isEmpty = false
      ∧ r = { rect := boundingRects (remainingSplits tagged) ⟨INT_MAX, INT_MAX, INT_MIN, INT_MIN⟩,
              isIdentity := false, identityTime := 0 }) := by
    intro r hr
    rw [hgroup] at hr
    rcases List.mem_append.1 hr with h1 | h1
    · exact Or.inl h1
    · cases hempty : (remainingSplits tagged).isEmpty
      · rw [hempty] at h1
        simp only [Bool.false_eq_true, if_false, List.mem_singleton] at h1
        exact Or.inr ⟨rfl, h1⟩
      · rw [hempty] at h1
        simp at h1
  have hsplitcover : ∀ q ∈ splits, ∃ r ∈ group, r.rect.contains q := by
    intro q hq
    rw [← htag.1] at hq
    rcases mem_splits_cases hq with h1 | h1
    · rw [← hids] at h1
      obtain ⟨r, hr, rfl⟩ := List.mem_map.1 h1
      exact ⟨r, by rw [hgroup]; exact List.mem_append_left _ hr, RectI.contains_refl _⟩
    · have hempty : (remainingSplits tagged).isEmpty = false := by
        cases hr : remainingSplits tagged with
        | nil => rw [hr] at h1; cases h1
        | cons a b => rfl
      refine ⟨{ rect := boundingRects (remainingSplits tagged) ⟨INT_MAX, INT_MAX, INT_MIN, INT_MIN⟩,
                isIdentity := false, identityTime := 0 }, ?_, boundingRects_mem _ _ q h1⟩
      rw [hgroup, hempty]
      simp
  refine ⟨fun r hr => ?_, fun r hr hid => ?_, hsplitcover, fun x y hp => ?_⟩
  · rcases hmemgroup r hr with h1 | ⟨-, rfl⟩
    · exact hsub _ (hidmem r h1)
    · exact hbox
  · rcases hmemgroup r hr with h1 | ⟨-, rfl⟩
    · exact hidmem r h1
    · cases hid
  · obtain ⟨q, hq, hqp⟩ := hcover x y hp
    obtain ⟨r, hr, hrq⟩ := hsplitcover q hq
    exact ⟨r, hr, RectI.containsPixel_of_contains hrq hqp⟩

/-- C24 (what `optimizeRectsToRender` pushes). `optimizeRectsToRender` has finished with the
rectangles `final`, the bounds of every sub-rectangle being values of the type `int`. Then
`final` is what was in `*finalRectsToRender` followed by one group of rectangles for each
originating rectangle, in order. The group of a rectangle holds one rectangle tagged identity
for each sub-rectangle that does not intersect the intersection of the regions of definition of
the inputs and over which the `isIdentity` hook answered that the effect is an identity, with
that sub-rectangle as its rectangle, in the order of the sub-rectangles; after them, one
rectangle not tagged identity when a sub-rectangle remains, its rectangle being the smallest
rectangle that contains all the remaining sub-rectangles, and none when every sub-rectangle is
tagged identity. A sub-rectangle that intersects the intersection is never tagged identity, and
the hook is only asked about sub-rectangles that do not intersect it. -/
theorem optimizeRectsToRender_merge {σ : Type} (env : Env σ) (self : NodeId) (inter : RectI)
    (time : Int) (view : Nat) (scale : RenderScale) (fuel : Nat) (rects : List RectI)
    (acc : List RectToRender) (s : St σ) (final : List RectToRender) (s' : St σ)
    (h : optimizeRectsToRender env self inter time view scale fuel rects acc s
      = .finished final s')
    (hrange : ∀ r ∈ rects, ∀ q ∈ env.splitIntoSmallerRects r, q.InIntRange) :
    (∃ groups : List (List RectToRender), final = acc ++ groups.flatten
        ∧ List.Forall₂ (fun r g => MergedGroup env self inter time view scale
            (env.splitIntoSmallerRects r) g) rects groups)
      ∧ ∃ evs, s'.trace = s.trace ++ evs
          ∧ QueriesOnly time view
              (fun rect => (∃ r ∈ rects, rect ∈ env.splitIntoSmallerRects r)
                ∧ env.rectIIntersects rect inter = false) evs := by
  obtain ⟨groups, hfinal, hforall, e, evs, hs', hq⟩ :=
    optimizeRectsToRender_groups env self inter time view scale fuel rects acc s final s' h
  refine ⟨⟨groups, hfinal, forall2_imp_mem hforall (fun r hr g hg => hg.merged (hrange r hr))⟩,
    evs, ?_, hq⟩
  rw [hs']

theorem halves_inIntRange :
    ∀ r ∈ [(⟨0, 0, 4, 4⟩ : RectI)], ∀ q ∈ halvesEnv.splitIntoSmallerRects r, q.InIntRange := by
  intro r hr q hq
  simp only [List.mem_singleton] at hr
  subst hr
  simp only [halvesEnv, List.mem_cons, List.mem_singleton, List.not_mem_nil, or_false] at hq
  rcases hq with rfl | rfl <;> simp [RectI.InIntRange, INT_MIN, INT_MAX]

set_option maxRecDepth 100000 in
/-- The merge on the scene `halvesEnv`: the rectangle [0,4]x[0,4] is split into its halves, the
effect is an identity over the left one only. -/
theorem optimizeRectsToRender_merge_witness :
    optimizeRectsToRender halvesEnv 1 ⟨10, 10, 12, 12⟩ 10 0 0 3 [⟨0, 0, 4, 4⟩] []
        (St.entry [] 100) = .finished halvesRects halvesFinal
      ∧ (∃ groups : List (List RectToRender), halvesRects = [] ++ groups.flatten
          ∧ List.Forall₂ (fun r g => MergedGroup halvesEnv 1 ⟨10, 10, 12, 12⟩ 10 0 0
              (halvesEnv.splitIntoSmallerRects r) g) [⟨0, 0, 4, 4⟩] groups)
      ∧ ∃ evs, halvesFinal.trace = (St.entry [] 100).trace ++ evs
          ∧ QueriesOnly 10 0
              (fun rect => (∃ r ∈ [(⟨0, 0, 4, 4⟩ : RectI)], rect ∈ halvesEnv.splitIntoSmallerRects r)
                ∧ halvesEnv.rectIIntersects rect ⟨10, 10, 12, 12⟩ = false) evs :=
  ⟨by rfl,
   optimizeRectsToRender_merge halvesEnv 1 ⟨10, 10, 12, 12⟩ 10 0 0 3 [⟨0, 0, 4, 4⟩] []
    (St.entry [] 100) halvesRects halvesFinal (by rfl) halves_inIntRange⟩

/-- C30 (coverage of `optimizeRectsToRender`). `optimizeRectsToRender` has finished with the
rectangles `final`; the bounds of every rectangle are values of the type `int`, and
`splitIntoSmallerRects` gives, for every rectangle, sub-rectangles that lie within it and
together cover it. Then `final` is what was in `*finalRectsToRender`, unchanged, followed by one
group of rectangles for each originating rectangle, in order; every rectangle of the group lies
within the originating rectangle, a rectangle tagged identity is one of the sub-rectangles,
every sub-rectangle lies within a rectangle of the group, and every pixel of the originating
rectangle is a pixel of a rectangle of the group. So every pixel of a rectangle to render is a
pixel of a rectangle of `final`, and an empty list of rectangles adds nothing. -/
theorem optimizeRectsToRender_coverage {σ : Type} (env : Env σ) (self : NodeId) (inter : RectI)
    (time : Int) (view : Nat) (scale : RenderScale) (fuel : Nat) (rects : List RectI)
    (acc : List RectToRender) (s : St σ) (final : List RectToRender) (s' : St σ)
    (h : optimizeRectsToRender env self inter time view scale fuel rects acc s
      = .finished final s')
    (hrange : ∀ r ∈ rects, r.InIntRange)
    (hsub : ∀ r ∈ rects, ∀ q ∈ env.splitIntoSmallerRects r, r.contains q)
    (hcover : ∀ r ∈ rects, ∀ x y, r.containsPixel x y →
      ∃ q ∈ env.splitIntoSmallerRects r, q.containsPixel x y) :
    (∃ groups : List (List RectToRender), final = acc ++ groups.flatten
        ∧ List.Forall₂ (fun r g => CoversRect r (env.splitIntoSmallerRects r) g) rects groups)
      ∧ (∀ r ∈ rects, ∀ x y, r.containsPixel x y → ∃ e ∈ final, e.rect.containsPixel x y)
      ∧ (rects = [] → final = acc) := by
  obtain ⟨groups, hfinal, hforall, -⟩ :=
    optimizeRectsToRender_groups env self inter time view scale fuel rects acc s final s' h
  have hcovers : List.Forall₂ (fun r g => CoversRect r (env.splitIntoSmallerRects r) g)
      rects groups :=
    forall2_imp_mem hforall
      (fun r hr g hg => hg.covers (hrange r hr) (hsub r hr) (hcover r hr))
  refine ⟨⟨groups, hfinal, hcovers⟩, fun r hr x y hp => ?_, fun hnil => ?_⟩
  · obtain ⟨g, hg, hc⟩ := forall2_mem_left hcovers hr
    obtain ⟨e, he, hpe⟩ := hc.2.2.2 x y hp
    refine ⟨e, ?_, hpe⟩
    rw [hfinal]
    exact List.mem_append_right _ (List.mem_flatten.2 ⟨g, hg, he⟩)
  · subst hnil
    cases hforall
    rw [hfinal]
    simp

theorem halves_inRange : ∀ r ∈ [(⟨0, 0, 4, 4⟩ : RectI)], r.InIntRange := by
  intro r hr
  simp only [List.mem_singleton] at hr
  subst hr
  simp [RectI.InIntRange, INT_MIN, INT_MAX]

theorem halves_within :
    ∀ r ∈ [(⟨0, 0, 4, 4⟩ : RectI)], ∀ q ∈ halvesEnv.splitIntoSmallerRects r, r.contains q := by
  intro r hr q hq
  simp only [List.mem_singleton] at hr
  subst hr
  simp only [halvesEnv, List.mem_cons, List.mem_singleton, List.not_mem_nil, or_false] at hq
  rcases hq with rfl | rfl <;> simp [RectI.contains]

theorem halves_cover :
    ∀ r ∈ [(⟨0, 0, 4, 4⟩ : RectI)], ∀ x y, r.containsPixel x y →
      ∃ q ∈ halvesEnv.splitIntoSmallerRects r, q.containsPixel x y := by
  intro r hr x y hp
  simp only [List.mem_singleton] at hr
  subst hr
  simp only [RectI.containsPixel] at hp
  by_cases hx : x < 2
  · refine ⟨⟨0, 0, 2, 4⟩, by simp [halvesEnv], ?_⟩
    simp only [RectI.containsPixel]
    omega
  · refine ⟨⟨2, 0, 4, 4⟩, by simp [halvesEnv], ?_⟩
    simp only [RectI.containsPixel]
    omega

set_option maxRecDepth 100000 in
/-- The coverage on the scene `halvesEnv`: the two halves cover the rectangle [0,4]x[0,4]. -/
theorem optimizeRectsToRender_coverage_witness :
    (∃ groups : List (List RectToRender), halvesRects = [] ++ groups.flatten
        ∧ List.Forall₂ (fun r g => CoversRect r (halvesEnv.splitIntoSmallerRects r) g)
            [⟨0, 0, 4, 4⟩] groups)
      ∧ (∀ r ∈ [(⟨0, 0, 4, 4⟩ : RectI)], ∀ x y, r.containsPixel x y →
          ∃ e ∈ halvesRects, e.rect.containsPixel x y)
      ∧ (([⟨0, 0, 4, 4⟩] : List RectI) = [] → halvesRects = []) :=
  optimizeRectsToRender_coverage halvesEnv 1 ⟨10, 10, 12, 12⟩ 10 0 0 3 [⟨0, 0, 4, 4⟩] []
    (St.entry [] 100) halvesRects halvesFinal (by rfl) halves_inRange halves_within halves_cover

theorem St.StrokeFrame.refl_stroke {σ : Type} (s : St σ) : s.StrokeFrame s :=
  ⟨s.ext, s.trace, s.rectsLeftToRender, s.isDuringPaintStroke, s.fillGrownBoundsWithZeroes,
    s.lastStrokePixelRoD, s.isBeingRenderedElsewhere, rfl⟩

theorem St.StrokeFrame.trans_stroke {σ : Type} {s s1 s2 : St σ} (h1 : s.StrokeFrame s1)
    (h2 : s1.StrokeFrame s2) : s.StrokeFrame s2 := by
  obtain ⟨e1, t1, l1, d1, f1, r1, b1, rfl⟩ := h1
  obtain ⟨e2, t2, l2, d2, f2, r2, b2, rfl⟩ := h2
  exact ⟨e2, t2, l2, d2, f2, r2, b2, rfl⟩

theorem paintStrokeRoD_frame {σ : Type} (env : Env σ) (self : NodeId) (args : RenderRoIArgs)
    (s : St σ) : s.StrokeFrame (paintStrokeRoD env self args s) := by
  unfold paintStrokeRoD
  dsimp only
  split <;> exact ⟨_, _, _, _, _, _, _, rfl⟩

theorem clearStrokeBitmaps_frame {σ : Type} (env : Env σ)
    (l : List (ImageComponents × PlaneToRender)) (s : St σ) :
    s.StrokeFrame (clearStrokeBitmaps env l s) := by
  induction l generalizing s with
  | nil => exact St.StrokeFrame.refl_stroke s
  | cons hd tl ih =>
    obtain ⟨k, plane⟩ := hd
    simp only [clearStrokeBitmaps]
    exact St.StrokeFrame.trans_stroke ⟨_, _, _, _, _, _, _, rfl⟩ (ih _)

theorem clearLastStroke_frame {σ : Type} (env : Env σ) (s : St σ) :
    s.StrokeFrame (clearLastStroke env s) := by
  unfold clearLastStroke
  split
  · exact St.StrokeFrame.trans_stroke ⟨_, _, _, _, _, _, _, rfl⟩ (clearStrokeBitmaps_frame env _ _)
  · exact St.StrokeFrame.refl_stroke s

theorem queryRestToRender_frame {σ : Type} (env : Env σ) (img : Image) (s : St σ) :
    s.StrokeFrame (queryRestToRender env img s) := by
  unfold queryRestToRender
  split <;> exact ⟨_, _, _, _, _, _, _, rfl⟩

theorem strokeRestToRender_frame {σ : Type} (env : Env σ) (s : St σ) :
    s.StrokeFrame (strokeRestToRender env s) := by
  unfold strokeRestToRender
  split
  · exact ⟨_, _, _, _, _, _, _, rfl⟩
  · exact St.StrokeFrame.refl_stroke s

/-- Up to line 1086 the call changes the external state, the trace, what is left to render and
the paint-stroke state only. -/
theorem restAfterStroke_frame {σ : Type} (env : Env σ) (self : NodeId) (args : RenderRoIArgs)
    (img : Image) (s : St σ) : s.StrokeFrame (restAfterStroke env self args img s) := by
  unfold restAfterStroke
  exact St.StrokeFrame.trans_stroke (St.StrokeFrame.trans_stroke (St.StrokeFrame.trans_stroke
    (paintStrokeRoD_frame env self args s) (clearLastStroke_frame env _))
    (queryRestToRender_frame env img _)) (strokeRestToRender_frame env _)

/-- Lines 993-1119 when a plane is cached. -/
theorem rectsLeft_cached {σ : Type} (env : Env σ) (self : NodeId) (args : RenderRoIArgs)
    (s : St σ) (img : Image) (hc : s.isPlaneCached = some img) :
    rectsLeft env self args s
      = .next (noTilesRestToRender (dropPartialHit (restAfterStroke env self args img s))) := by
  have h0 : (paintStrokeRoD env self args s).isPlaneCached = some img := by
    obtain ⟨e, t, l, d, f, r, b, h⟩ := paintStrokeRoD_frame env self args s
    rw [h]
    exact hc
  unfold rectsLeft restAfterStroke
  dsimp only
  split
  · rename_i hnone
    rw [h0] at hnone
    cases hnone
  · rename_i img' hsome
    rw [h0] at hsome
    cases hsome
    rfl

/-- Lines 993-1119 when no plane is cached. -/
theorem rectsLeft_uncached {σ : Type} (env : Env σ) (self : NodeId) (args : RenderRoIArgs)
    (s : St σ) (hc : s.isPlaneCached = none) :
    rectsLeft env self args s
      = .next { paintStrokeRoD env self args s with
          rectsLeftToRender := (paintStrokeRoD env self args s).fullRectsToRender } := by
  have h0 : (paintStrokeRoD env self args s).isPlaneCached = none := by
    obtain ⟨e, t, l, d, f, r, b, h⟩ := paintStrokeRoD_frame env self args s
    rw [h]
    exact hc
  unfold rectsLeft
  dsimp only
  split
  · rfl
  · rename_i img' hsome
    rw [h0] at hsome
    cases hsome

theorem dropPartialHit_rectsToRender {σ : Type} (s : St σ) :
    (dropPartialHit s).rectsToRender = s.rectsToRender
      ∧ (dropPartialHit s).isDuringPaintStroke = s.isDuringPaintStroke := by
  unfold dropPartialHit
  split <;> exact ⟨rfl, rfl⟩

theorem noTilesRestToRender_rectsToRender {σ : Type} (s : St σ) :
    (noTilesRestToRender s).rectsToRender = s.rectsToRender
      ∧ (noTilesRestToRender s).isDuringPaintStroke = s.isDuringPaintStroke := by
  unfold noTilesRestToRender
  split <;> exact ⟨rfl, rfl⟩

/-- Lines 993-1119 do not touch `planesToRender->rectsToRender`. -/
theorem rectsLeft_rectsToRender {σ : Type} (env : Env σ) (self : NodeId) (args : RenderRoIArgs)
    (s s' : St σ) (h : rectsLeft env self args s = .next s') :
    s'.rectsToRender = s.rectsToRender := by
  cases hc : s.isPlaneCached with
  | none =>
    rw [rectsLeft_uncached env self args s hc] at h
    simp only [Flow.next.injEq] at h
    subst h
    obtain ⟨e, t, l, d, f, r, b, h⟩ := paintStrokeRoD_frame env self args s
    rw [h]
  | some img =>
    rw [rectsLeft_cached env self args s img hc] at h
    simp only [Flow.next.injEq] at h
    subst h
    rw [(noTilesRestToRender_rectsToRender _).1, (dropPartialHit_rectsToRender _).1]
    obtain ⟨e, t, l, d, f, r, b, h⟩ := restAfterStroke_frame env self args img s
    rw [h]

/-- When the identity optimisation of the rectangles to render starts, `rectsToRender` is
empty. -/
theorem atRectsToRender_empty {σ : Type} (env : Env σ) (recCall : RecCall σ) (self : NodeId)
    (args : RenderRoIArgs) (outputPlanes : PlaneMap Image) (ext : σ) (s : St σ)
    (hs : atRectsToRender env recCall self args outputPlanes ext = .next s) :
    s.rectsToRender = [] := by
  unfold atRectsToRender at hs
  obtain ⟨s0, hs0, hrects⟩ := Flow.andThen_eq_next.1 hs
  rw [rectsLeft_rectsToRender env self args s0 s hrects]
  exact ((atRectsLeft_inv env recCall self args outputPlanes ext).of_next hs0).1

/-- The loop over the inputs changes the external state and the trace only, and does not call
the `isIdentity` hook. -/
theorem inputsRoDLoop_quiet {σ : Type} (env : Env σ) (self : NodeId) (args : RenderRoIArgs)
    (l : List Nat) (a : InputsRoD) (s : St σ) :
    ∃ e evs, (inputsRoDLoop env self args l a s).2 = { s with ext := e, trace := s.trace ++ evs }
      ∧ ∀ ev ∈ evs, ev.isIdentityQuery = false := by
  induction l generalizing a s with
  | nil => exact ⟨s.ext, [], St.frame_nil s, by simp⟩
  | cons i tl ih =>
    have key : ∀ (a' : InputsRoD) (s1 : St σ) (ev : Event), ev.isIdentityQuery = false →
        s1 = { s with ext := s1.ext, trace := s.trace ++ [ev] } →
        ∃ e evs, (inputsRoDLoop env self args tl a' s1).2
            = { s with ext := e, trace := s.trace ++ evs }
          ∧ ∀ ev ∈ evs, ev.isIdentityQuery = false := by
      intro a' s1 ev hev hs1
      obtain ⟨e, evs, h, hq⟩ := ih a' s1
      refine ⟨e, [ev] ++ evs, ?_, ?_⟩
      · rw [h, hs1]
        simp only [List.append_assoc]
      · intro ev' hev'
        rcases List.mem_append.1 hev' with h1 | h1
        · simp only [List.mem_singleton] at h1
          subst h1
          exact hev
        · exact hq ev' h1
    simp only [inputsRoDLoop]
    split
    · exact ih _ _
    · split
      · exact ih _ _
      · rename_i input hin
        split
        · exact ⟨_, [Event.getRegionOfDefinition input args.time args.view], rfl,
            by simp [Event.isIdentityQuery]⟩
        · exact key _ _ (Event.getRegionOfDefinition input args.time args.view) rfl rfl

theorem plainRectsToRender_all (l : List RectI) :
    plainRectsToRender false l = l.map fun r => { rect := r, isIdentity := false } := by
  unfold plainRectsToRender
  simp

set_option maxRecDepth 100000 in
/-- C23, the claim as worded does not hold: on the scene `maskEnv` the effect supports tiles,
the rectangle [0,4]x[0,4] is left to render, the effect has a mask input whose region of
definition is available, and no paint stroke is being drawn. The rectangle left to render is
not split and `isIdentity` is not asked: it becomes one rectangle that is not tagged identity,
and the trace is left as it is. -/
theorem identity_optim_counterexample :
    atRectsToRender maskEnv (renderRoI maskEnv 1) 1 sceneArgs [] 100 = .next maskState
      ∧ claimedIdentityOptim maskEnv 1 sceneArgs maskState
      ∧ maskState.isDuringPaintStroke = false
      ∧ maskState.rectsLeftToRender = [⟨0, 0, 4, 4⟩]
      ∧ rectsToRenderPhase maskEnv 1 sceneArgs 3 maskState
          = .next { maskState with
              tryIdentityOptim := false
              rectsToRender := [{ rect := ⟨0, 0, 4, 4⟩, isIdentity := false }]
              hasSomethingToRender := true } := by
  have hleft : maskState.rectsLeftToRender = [⟨0, 0, 4, 4⟩] := by rfl
  refine ⟨by rfl, ⟨by rfl, ?_, by rfl, Or.inl (by rfl)⟩, by rfl, hleft, by rfl⟩
  rw [hleft]
  simp

/-- C23, amended. The call has reached the identity optimisation of the rectangles to render in
the state `s`. When a paint stroke is being drawn, the effect supports tiles, a rectangle is
left to render, the region of definition of an input is available and the node has a mask input
or inputs whose regions of definition differ, the rectangles of the call are what
`optimizeRectsToRender` makes of the rectangles left to render, for the pixel rectangle of the
intersection of the regions of definition of the inputs. In every other case each rectangle
left to render becomes one rectangle that is not tagged identity, in the same order, and the
`isIdentity` hook is not called. -/
theorem rectsToRenderPhase_identity_optim {σ : Type} (env : Env σ) (recCall : RecCall σ)
    (self : NodeId) (args : RenderRoIArgs) (outputPlanes : PlaneMap Image) (ext : σ) (fuel : Nat)
    (s : St σ) (hs : atRectsToRender env recCall self args outputPlanes ext = .next s) :
    (amendedIdentityOptim env self args s →
        rectsToRenderPhase env self args fuel s
          = match optimizeRectsToRender env self
              (env.toPixelEnclosing
                (inputsRoDLoop env self args (List.range (env.getMaxInputCount self)) {}
                  s).1.inputsIntersection args.mipMapLevel s.par)
              args.time args.view (env.getScaleFromMipMapLevel s.renderMappedMipMapLevel) fuel
              s.rectsLeftToRender []
              (inputsRoDLoop env self args (List.range (env.getMaxInputCount self)) {} s).2 with
            | .finished finalRectsToRender s2 =>
              .next { s2 with
                tryIdentityOptim := true
                inputsRoDIntersectionPixel :=
                  env.toPixelEnclosing
                    (inputsRoDLoop env self args (List.range (env.getMaxInputCount self)) {}
                      s).1.inputsIntersection args.mipMapLevel s.par
                rectsToRender := finalRectsToRender
                hasSomethingToRender := !finalRectsToRender.isEmpty }
            | .threw s2 => s2.endsWith .raised
            | .outOfFuel => .outOfFuel)
      ∧ (¬ amendedIdentityOptim env self args s →
          ∃ s', rectsToRenderPhase env self args fuel s = .next s'
            ∧ s'.tryIdentityOptim = false
            ∧ s'.rectsToRender
                = s.rectsLeftToRender.map (fun r => { rect := r, isIdentity := false })
            ∧ ∃ evs, s'.trace = s.trace ++ evs ∧ ∀ ev ∈ evs, ev.isIdentityQuery = false) := by
  have hempty := atRectsToRender_empty env recCall self args outputPlanes ext s hs
  obtain ⟨e, evs, hframe, hquiet⟩ := inputsRoDLoop_quiet env self args
    (List.range (env.getMaxInputCount self)) {} s
  have hpar : (inputsRoDLoop env self args (List.range (env.getMaxInputCount self)) {} s).2.par
      = s.par := by rw [hframe]
  have hlevel : (inputsRoDLoop env self args (List.range (env.getMaxInputCount self)) {}
      s).2.renderMappedMipMapLevel = s.renderMappedMipMapLevel := by rw [hframe]
  have hleft : (inputsRoDLoop env self args (List.range (env.getMaxInputCount self)) {}
      s).2.rectsLeftToRender = s.rectsLeftToRender := by rw [hframe]
  have hrects : (inputsRoDLoop env self args (List.range (env.getMaxInputCount self)) {}
      s).2.rectsToRender = [] := by rw [hframe]; exact hempty
  have htrace : (inputsRoDLoop env self args (List.range (env.getMaxInputCount self)) {}
      s).2.trace = s.trace ++ evs := by rw [hframe]
  constructor
  · rintro ⟨hpaint, htiles, hne, hset, hmask⟩
    have hne' : s.rectsLeftToRender.isEmpty = false := by
      cases hl : s.rectsLeftToRender with
      | nil => exact absurd hl hne
      | cons a b => rfl
    have hprobe : probeInputsRoD env self args s
        = inputsRoDLoop env self args (List.range (env.getMaxInputCount self)) {} s := by
      unfold probeInputsRoD
      simp [htiles, hne', hpaint]
    have hcond : ((inputsRoDLoop env self args (List.range (env.getMaxInputCount self)) {}
          s).1.inputsIntersectionSet
        && ((inputsRoDLoop env self args (List.range (env.getMaxInputCount self)) {} s).1.hasMask
          || (inputsRoDLoop env self args (List.range (env.getMaxInputCount self)) {}
              s).1.hasDifferentRods)) = true := by
      rw [hset]
      rcases hmask with h | h <;> simp [h]
    unfold rectsToRenderPhase
    simp only [hprobe, hcond, if_true, hpar, hlevel, hleft, hrects]
  · intro hnot
    by_cases hloop : (s.frameArgs.tilesSupported && !s.rectsLeftToRender.isEmpty
        && s.isDuringPaintStroke) = true
    · have hprobe : probeInputsRoD env self args s
          = inputsRoDLoop env self args (List.range (env.getMaxInputCount self)) {} s := by
        unfold probeInputsRoD
        rw [if_pos hloop]
      have hcond : ((inputsRoDLoop env self args (List.range (env.getMaxInputCount self)) {}
            s).1.inputsIntersectionSet
          && ((inputsRoDLoop env self args (List.range (env.getMaxInputCount self)) {} s).1.hasMask
            || (inputsRoDLoop env self args (List.range (env.getMaxInputCount self)) {}
                s).1.hasDifferentRods)) = false := by
        cases hc : ((inputsRoDLoop env self args (List.range (env.getMaxInputCount self)) {}
            s).1.inputsIntersectionSet
          && ((inputsRoDLoop env self args (List.range (env.getMaxInputCount self)) {} s).1.hasMask
            || (inputsRoDLoop env self args (List.range (env.getMaxInputCount self)) {}
                s).1.hasDifferentRods))
        · rfl
        · exfalso
          apply hnot
          simp only [Bool.and_eq_true, Bool.or_eq_true, Bool.not_eq_true', ] at hc hloop
          refine ⟨hloop.2, hloop.1.1, ?_, hc.1, hc.2⟩
          intro hnil
          rw [hnil] at hloop
          simp at hloop
      unfold rectsToRenderPhase
      simp only [hprobe, hcond, Bool.false_eq_true, if_false, hrects, hleft, List.nil_append]
      exact ⟨_, rfl, rfl, plainRectsToRender_all _, evs, htrace, hquiet⟩
    · have hprobe : probeInputsRoD env self args s = ({}, s) := by
        unfold probeInputsRoD
        rw [if_neg hloop]
      unfold rectsToRenderPhase
      simp only [hprobe, Bool.false_and, Bool.false_eq_true, if_false, hempty, List.nil_append]
      exact ⟨_, rfl, rfl, plainRectsToRender_all _, [], by simp, by simp⟩

set_option maxRecDepth 100000 in
/-- The identity optimisation on the scene `paintMaskEnv`, where a paint stroke is being drawn on
an effect with a mask input: the rectangle [0,4]x[0,4] is split into its halves, and the effect
is an identity over the left one. -/
theorem rectsToRenderPhase_identity_optim_witness :
    amendedIdentityOptim paintMaskEnv 1 sceneArgs paintMaskState
      ∧ rectsToRenderPhase paintMaskEnv 1 sceneArgs 3 paintMaskState
          = (match optimizeRectsToRender paintMaskEnv 1
              (paintMaskEnv.toPixelEnclosing
                (inputsRoDLoop paintMaskEnv 1 sceneArgs
                  (List.range (paintMaskEnv.getMaxInputCount 1)) {}
                  paintMaskState).1.inputsIntersection sceneArgs.mipMapLevel paintMaskState.par)
              sceneArgs.time sceneArgs.view
              (paintMaskEnv.getScaleFromMipMapLevel paintMaskState.renderMappedMipMapLevel) 3
              paintMaskState.rectsLeftToRender []
              (inputsRoDLoop paintMaskEnv 1 sceneArgs
                (List.range (paintMaskEnv.getMaxInputCount 1)) {} paintMaskState).2 with
            | .finished finalRectsToRender s2 =>
              .next { s2 with
                tryIdentityOptim := true
                inputsRoDIntersectionPixel :=
                  paintMaskEnv.toPixelEnclosing
                    (inputsRoDLoop paintMaskEnv 1 sceneArgs
                      (List.range (paintMaskEnv.getMaxInputCount 1)) {}
                      paintMaskState).1.inputsIntersection sceneArgs.mipMapLevel paintMaskState.par
                rectsToRender := finalRectsToRender
                hasSomethingToRender := !finalRectsToRender.isEmpty }
            | .threw s2 => s2.endsWith .raised
            | .outOfFuel => .outOfFuel)
      ∧ ((rectsToRenderPhase paintMaskEnv 1 sceneArgs 3 paintMaskState).stateD
            (St.entry [] 100)).rectsToRender
          = [{ rect := ⟨0, 0, 2, 4⟩, isIdentity := true, identityInput := none, identityTime := 11,
               identityView := 0 },
             { rect := ⟨2, 0, 4, 4⟩, isIdentity := false }] := by
  have hleft : paintMaskState.rectsLeftToRender = [⟨0, 0, 4, 4⟩] := by rfl
  have hamend : amendedIdentityOptim paintMaskEnv 1 sceneArgs paintMaskState := by
    refine ⟨by rfl, by rfl, ?_, by rfl, Or.inl (by rfl)⟩
    rw [hleft]
    simp
  exact ⟨hamend,
    (rectsToRenderPhase_identity_optim paintMaskEnv (renderRoI paintMaskEnv 1) 1 sceneArgs []
      100 3 paintMaskState (by rfl)).1 hamend, by rfl⟩

theorem St.LookupFrame.refl_lookup {σ : Type} (s : St σ) : s.LookupFrame s :=
  ⟨s.ext, s.trace, s.planes, s.out, rfl⟩

theorem St.LookupFrame.trans_lookup {σ : Type} {s s1 s2 : St σ} (h1 : s.LookupFrame s1)
    (h2 : s1.LookupFrame s2) : s.LookupFrame s2 := by
  obtain ⟨e1, t1, p1, o1, rfl⟩ := h1
  obtain ⟨e2, t2, p2, o2, rfl⟩ := h2
  exact ⟨e2, t2, p2, o2, rfl⟩

theorem cacheLookupOnce_frame {σ : Type} (env : Env σ) (self : NodeId) (args : RenderRoIArgs)
    (k : ImageKey) (plane : ImageComponents) (s : St σ) :
    s.LookupFrame (cacheLookupOnce env self args k plane s).2 :=
  ⟨_, _, _, _, rfl⟩

theorem cacheLookups_frame {σ : Type} (env : Env σ) (self : NodeId) (args : RenderRoIArgs)
    (plane : ImageComponents) (remaining n : Nat) (s : St σ) :
    s.LookupFrame (cacheLookups env self args plane remaining n s).2 := by
  induction remaining generalizing n s with
  | zero => exact St.LookupFrame.refl_lookup s
  | succ m ih =>
    simp only [cacheLookups]
    split
    · exact cacheLookupOnce_frame env self args _ plane s
    · exact St.LookupFrame.trans_lookup (cacheLookupOnce_frame env self args _ plane s) (ih _ _)

theorem lookupPlane_frame {σ : Type} (env : Env σ) (self : NodeId) (args : RenderRoIArgs)
    (plane : ImageComponents) (s : St σ) :
    s.LookupFrame (lookupPlane env self args plane s).2 := by
  unfold lookupPlane
  dsimp only
  split
  · exact cacheLookups_frame env self args plane _ _ s
  · exact St.LookupFrame.refl_lookup s

theorem dropIfByPass_frame {σ : Type} (env : Env σ) (found : Option Image × St σ) :
    found.2.LookupFrame (dropIfByPass env found).2 := by
  unfold dropIfByPass
  split
  · exact ⟨_, _, _, _, rfl⟩
  · exact St.LookupFrame.refl_lookup _

theorem recheckPlanes_frame {σ : Type} (env : Env σ)
    (l : List (ImageComponents × PlaneToRender)) (newPlanes : PlaneMap PlaneToRender) (s : St σ) :
    s.LookupFrame (recheckPlanes env l newPlanes s).2 := by
  induction l generalizing newPlanes s with
  | nil => exact St.LookupFrame.refl_lookup s
  | cons hd tl ih =>
    obtain ⟨k, plane⟩ := hd
    simp only [recheckPlanes]
    split
    · split
      · exact St.LookupFrame.trans_lookup ⟨_, _, _, _, rfl⟩ (ih _ _)
      · exact St.LookupFrame.trans_lookup ⟨_, _, _, _, rfl⟩ (ih _ _)
    · exact ih _ _

theorem lookupStep_frame {σ : Type} (env : Env σ) (self : NodeId) (args : RenderRoIArgs)
    (plane : ImageComponents) (missingPlane : Bool) (s : St σ) :
    s.LookupFrame (lookupStep env self args plane missingPlane s).2 := by
  have hfound : s.LookupFrame (dropIfByPass env (lookupPlane env self args plane s)).2 :=
    St.LookupFrame.trans_lookup (lookupPlane_frame env self args plane s)
      (dropIfByPass_frame env _)
  unfold lookupStep
  dsimp only
  split
  · exact St.LookupFrame.refl_lookup s
  · split
    · split
      · split
        · exact St.LookupFrame.trans_lookup hfound ⟨_, _, _, _, rfl⟩
        · exact St.LookupFrame.trans_lookup hfound ⟨_, _, _, _, rfl⟩
      · exact St.LookupFrame.trans_lookup hfound ⟨_, _, _, _, rfl⟩
    · split
      · exact St.LookupFrame.trans_lookup hfound
          (St.LookupFrame.trans_lookup (recheckPlanes_frame env _ _ _) ⟨_, _, _, _, rfl⟩)
      · exact St.LookupFrame.trans_lookup hfound ⟨_, _, _, _, rfl⟩

/-- The look-up loop changes the external state, the trace, the planes to render and
`*outputPlanes` only. -/
theorem lookupLoop_frame {σ : Type} (env : Env σ) (self : NodeId) (args : RenderRoIArgs)
    (l : List ImageComponents) (missingPlane : Bool) (s : St σ) :
    s.LookupFrame (lookupLoop env self args l missingPlane s) := by
  induction l generalizing missingPlane s with
  | nil => exact St.LookupFrame.refl_lookup s
  | cons plane rest ih =>
    simp only [lookupLoop]
    exact St.LookupFrame.trans_lookup (lookupStep_frame env self args plane missingPlane s)
      (ih _ _)

/-- Lines 959-991: what the state holds when the rectangles left to render are about to be
determined. -/
theorem afterLookup_next {σ : Type} (env : Env σ) (self : NodeId) (args : RenderRoIArgs)
    (s : St σ) :
    (afterLookup env self args s).Post
      (fun s' => s'.cacheAlmostFull = env.isNodeCacheAlmostFull s'.ext
        ∧ s'.redoCacheLookup = false ∧ s'.useOpenGL = s.useOpenGL ∧ s'.storage = s.storage)
      (fun _ => True) := by
  unfold afterLookup
  dsimp only
  have h1 : (if s.glContextLocker = true then s.emit Event.glContextLockerDettach else s).useOpenGL
        = s.useOpenGL
      ∧ (if s.glContextLocker = true then s.emit Event.glContextLockerDettach else s).storage
        = s.storage := by
    split
    · exact ⟨rfl, rfl⟩
    · exact ⟨rfl, rfl⟩
  generalize (if s.glContextLocker = true then s.emit Event.glContextLockerDettach else s) = s1
    at h1 ⊢
  split
  · trivial
  · refine ⟨rfl, rfl, ?_, ?_⟩
    · rw [← h1.1]
      dsimp only
      split <;> rfl
    · rw [← h1.2]
      dsimp only
      split <;> rfl

/-- When the rectangles left to render are about to be determined, `useOpenGL` tells whether
the storage is an OpenGL texture, `cacheAlmostFull` is what the node cache reports, and no
second look-up is asked for. -/
theorem atRectsLeft_entry {σ : Type} (env : Env σ) (recCall : RecCall σ) (self : NodeId)
    (args : RenderRoIArgs) (outputPlanes : PlaneMap Image) (ext : σ) (s : St σ)
    (hs : atRectsLeft env recCall self args outputPlanes ext = .next s) :
    s.useOpenGL = decide (s.storage = .eStorageModeGLTex)
      ∧ s.cacheAlmostFull = env.isNodeCacheAlmostFull s.ext
      ∧ s.redoCacheLookup = false := by
  unfold atRectsLeft at hs
  obtain ⟨sc, hsc, hafter⟩ := Flow.andThen_eq_next.1 hs
  obtain ⟨sl, hsl, hlookup⟩ := Flow.andThen_eq_next.1 hsc
  unfold atLookup at hsl
  obtain ⟨so, hso, hprep⟩ := Flow.andThen_eq_next.1 hsl
  have h1 : sl.useOpenGL = decide (sl.storage = .eStorageModeGLTex) := by
    unfold prepareLookup at hprep
    simp only [Flow.next.injEq] at hprep
    subst hprep
    rfl
  have h2 : sc.useOpenGL = sl.useOpenGL ∧ sc.storage = sl.storage := by
    unfold cacheLookup at hlookup
    simp only [Flow.next.injEq] at hlookup
    subst hlookup
    obtain ⟨e, t, p, o, h⟩ := lookupLoop_frame env self args sl.requestedComponents false sl
    rw [h]
    exact ⟨rfl, rfl⟩
  have h3 := (afterLookup_next env self args sc).of_next hafter
  refine ⟨?_, h3.1, h3.2.1⟩
  rw [h3.2.2.1, h3.2.2.2, h2.1, h2.2]
  exact h1

theorem St.RectsFrame.refl_rects {σ : Type} (s : St σ) : s.RectsFrame s :=
  ⟨s.ext, s.trace, s.tryIdentityOptim, s.inputsRoDIntersectionPixel, s.rectsToRender,
    s.hasSomethingToRender, s.outputPremult, rfl⟩

theorem St.RectsFrame.trans_rects {σ : Type} {s s1 s2 : St σ} (h1 : s.RectsFrame s1)
    (h2 : s1.RectsFrame s2) : s.RectsFrame s2 := by
  obtain ⟨e1, t1, a1, b1, c1, d1, p1, rfl⟩ := h1
  obtain ⟨e2, t2, a2, b2, c2, d2, p2, rfl⟩ := h2
  exact ⟨e2, t2, a2, b2, c2, d2, p2, rfl⟩

theorem probeInputsRoD_frame {σ : Type} (env : Env σ) (self : NodeId) (args : RenderRoIArgs)
    (s : St σ) : s.RectsFrame (probeInputsRoD env self args s).2 := by
  unfold probeInputsRoD
  split
  · obtain ⟨e, evs, h, -⟩ := inputsRoDLoop_quiet env self args
      (List.range (env.getMaxInputCount self)) {} s
    rw [h]
    exact ⟨_, _, _, _, _, _, _, rfl⟩
  · exact St.RectsFrame.refl_rects s

/-- Lines 1121-1192 change the external state, the trace and the rectangles to render only. -/
theorem rectsToRenderPhase_frame {σ : Type} (env : Env σ) (self : NodeId)
    (args : RenderRoIArgs) (fuel : Nat) (s s' : St σ)
    (h : rectsToRenderPhase env self args fuel s = .next s') : s.RectsFrame s' := by
  have hp := probeInputsRoD_frame env self args s
  unfold rectsToRenderPhase at h
  dsimp only at h
  split at h
  · split at h
    · rename_i final s2 hopt
      obtain ⟨-, -, -, e, evs, hs2, -⟩ :=
        optimizeRectsToRender_groups env self _ _ _ _ _ _ _ _ _ _ hopt
      simp only [Flow.next.injEq] at h
      subst h
      refine St.RectsFrame.trans_rects hp ?_
      rw [hs2]
      exact ⟨_, _, _, _, _, _, _, rfl⟩
    · simp [St.endsWith] at h
    · cases h
  · simp only [Flow.next.injEq] at h
    subst h
    exact St.RectsFrame.trans_rects hp ⟨_, _, _, _, _, _, _, rfl⟩

theorem renderInputImages_frame {σ : Type} (env : Env σ) (self : NodeId)
    (args : RenderRoIArgs) (l done : List RectToRender) (s s' : St σ)
    (h : renderInputImages env self args l done s = .next s') : s.RectsFrame s' := by
  induction l generalizing done s with
  | nil =>
    simp only [renderInputImages, Flow.next.injEq] at h
    subst h
    exact ⟨_, _, _, _, _, _, _, rfl⟩
  | cons r rest ih =>
    simp only [renderInputImages] at h
    split at h
    · exact ih _ _ h
    · split at h
      · have h1 := ih _ _ h
        exact St.RectsFrame.trans_rects ⟨_, _, _, _, _, _, _, rfl⟩ h1
      · simp [St.returns] at h
      · simp [St.endsWith] at h

/-- Lines 1198-1261 change the external state, the trace, the rectangles to render and the
premultiplication of the output only. -/
theorem preRenderInputs_frame {σ : Type} (env : Env σ) (self : NodeId) (args : RenderRoIArgs)
    (s s' : St σ) (h : preRenderInputs env self args s = .next s') : s.RectsFrame s' := by
  unfold preRenderInputs at h
  split at h
  · simp [St.endsWith] at h
  · have h1 := renderInputImages_frame env self args _ _ _ _ h
    exact St.RectsFrame.trans_rects ⟨_, _, _, _, _, _, _, rfl⟩ h1

set_option maxRecDepth 100000 in
/-- C21, the claim as worded does not hold: on the scene `strokeEnv` the plane is cached, the
bitmap of the cached image leaves the whole region of interest to render, and the node cache is
almost full; a paint stroke is being drawn whose last stroke does not intersect the image, so
that lines 1078-1084 empty the list of rectangles left to render. The list does not become the
region of interest, the plane keeps its image, and no second look-up is asked for. -/
theorem pressure_hit_counterexample :
    atRectsLeft strokeEnv (renderRoI strokeEnv 1) 1 sceneArgs [] 100 = .next strokeState
      ∧ strokeState.isPlaneCached = some cachedImage
      ∧ (∀ e, (strokeEnv.getRestToRender_trimap cachedImage strokeState.roi e).1
          = [strokeState.roi])
      ∧ strokeEnv.isNodeCacheAlmostFull strokeState.ext = true
      ∧ ∃ s', rectsLeft strokeEnv 1 sceneArgs strokeState = .next s'
          ∧ s'.rectsLeftToRender = []
          ∧ s'.planes = strokeState.planes
          ∧ s'.planes.map (fun kp => kp.2.fullscaleImage) = [some cachedImage]
          ∧ s'.redoCacheLookup = false :=
  ⟨by rfl, by rfl, fun _ => rfl, by rfl, _, rfl, by rfl, by rfl, by rfl, by rfl⟩

/-- C21, amended. The call has reached the determination of the rectangles left to render in
the state `s`; the first plane is cached; the list of rectangles left to render at line 1086
(what the bitmap of the cached image leaves over the region of interest, restricted to the last
stroke while a paint stroke is being drawn) is not empty; and the storage is an OpenGL texture
or the node cache reports that it is almost full. Then the list of rectangles left to render
becomes the region of interest alone, every plane loses its images and keeps the address of its
full-scale image, `isPlaneCached` is reset, and a second look-up is asked for if and only if the
node cache is almost full; the planes and that request reach the second look-up of line 1267 as
they are. -/
theorem rectsLeft_hit_under_pressure {σ : Type} (env : Env σ) (recCall : RecCall σ) (self : NodeId)
    (args : RenderRoIArgs) (outputPlanes : PlaneMap Image) (ext : σ) (s : St σ) (img : Image)
    (hs : atRectsLeft env recCall self args outputPlanes ext = .next s)
    (hc : s.isPlaneCached = some img)
    (hrest : (restAfterStroke env self args img s).rectsLeftToRender ≠ [])
    (hp : s.storage = .eStorageModeGLTex ∨ env.isNodeCacheAlmostFull s.ext = true) :
    ∃ s', rectsLeft env self args s = .next s'
      ∧ s'.rectsLeftToRender = [s.roi] ∧ s'.roi = s.roi
      ∧ s'.planes = s.planes.map (fun kp => (kp.1, kp.2.released))
      ∧ (∀ kp ∈ s'.planes, kp.2.fullscaleImage = none ∧ kp.2.downscaleImage = none)
      ∧ s'.isPlaneCached = none
      ∧ (s'.redoCacheLookup = true ↔ env.isNodeCacheAlmostFull s.ext = true)
      ∧ ∀ fuel s2,
          (rectsToRenderPhase env self args fuel s').andThen (preRenderInputs env self args)
              = .next s2 →
            s2.planes = s'.planes
              ∧ (s2.redoCacheLookup = true ↔ env.isNodeCacheAlmostFull s.ext = true) := by
  obtain ⟨hgl, hfull, -⟩ := atRectsLeft_entry env recCall self args outputPlanes ext s hs
  obtain ⟨e, t, l, d, f, r, b, h4⟩ := restAfterStroke_frame env self args img s
  have hl : l ≠ [] := by
    rw [h4] at hrest
    exact hrest
  have hpressure : (s.useOpenGL || s.cacheAlmostFull) = true := by
    rw [hgl, hfull]
    rcases hp with h | h
    · simp [h]
    · simp [h]
  have hlne : l.isEmpty = false := by
    cases hl' : l with
    | nil => exact absurd hl' hl
    | cons a b => rfl
  have hdrop : noTilesRestToRender (dropPartialHit (restAfterStroke env self args img s))
      = { s with
            ext := e, trace := t, rectsLeftToRender := [s.roi], isDuringPaintStroke := d,
            fillGrownBoundsWithZeroes := f, lastStrokePixelRoD := r,
            isBeingRenderedElsewhere := b,
            planes := s.planes.map (fun kp => (kp.1, kp.2.released)),
            isPlaneCached := none, redoCacheLookup := s.cacheAlmostFull } := by
    rw [h4]
    unfold dropPartialHit
    simp only [hlne, hpressure, Bool.not_false, Bool.and_self, if_true]
    unfold noTilesRestToRender
    simp [PlaneToRender.released]
  refine ⟨{ s with
            ext := e, trace := t, rectsLeftToRender := [s.roi], isDuringPaintStroke := d,
            fillGrownBoundsWithZeroes := f, lastStrokePixelRoD := r,
            isBeingRenderedElsewhere := b,
            planes := s.planes.map (fun kp => (kp.1, kp.2.released)),
            isPlaneCached := none, redoCacheLookup := s.cacheAlmostFull },
    (rectsLeft_cached env self args s img hc).trans (by rw [hdrop]), rfl, rfl, rfl, ?_,
    rfl, ?_, ?_⟩
  · intro kp hkp
    simp only [List.mem_map] at hkp
    obtain ⟨kp0, -, rfl⟩ := hkp
    exact ⟨rfl, rfl⟩
  · rw [← hfull]
  · intro fuel s2 h2
    obtain ⟨s1, hs1, hpre⟩ := Flow.andThen_eq_next.1 h2
    obtain ⟨e1, t1, a1, b1, c1, d1, p1, hf1⟩ :=
      St.RectsFrame.trans_rects (rectsToRenderPhase_frame env self args fuel _ _ hs1)
        (preRenderInputs_frame env self args _ _ hpre)
    rw [hf1, ← hfull]
    exact ⟨rfl, Iff.rfl⟩

set_option maxRecDepth 100000 in
/-- The partial hit on the scene `pressureEnv`, where the bitmap of the cached image leaves the
rectangle [0,2]x[0,2] to render and the node cache is almost full: the whole region of interest,
[0,4]x[0,4], is to render, the plane has lost its image, and a second look-up is asked for. -/
theorem rectsLeft_hit_under_pressure_witness :
    ∃ s', rectsLeft pressureEnv 1 sceneArgs pressureState = .next s'
      ∧ s'.rectsLeftToRender = [⟨0, 0, 4, 4⟩]
      ∧ s'.planes = [(rgba, { originalCachedImage := some 7 })]
      ∧ s'.redoCacheLookup = true := by
  obtain ⟨s', h1, h2, -, h4, -, -, h7, -⟩ :=
    rectsLeft_hit_under_pressure pressureEnv (renderRoI pressureEnv 1) 1 sceneArgs [] 100
      pressureState cachedImage (by rfl) (by rfl)
      (by rw [show (restAfterStroke pressureEnv 1 sceneArgs cachedImage
            pressureState).rectsLeftToRender = [⟨0, 0, 2, 2⟩] from by rfl]; simp)
      (Or.inr (by rfl))
  refine ⟨s', h1, ?_, ?_, h7.2 (by rfl)⟩
  · rw [h2]
    rfl
  · rw [h4]
    rfl

/-! ## The status of the tiles (lines 1961-2092) -/

theorem mem_dropLast_cons {α : Type} (a t : α) (l : List α) (h : t ∈ (a :: l).dropLast) :
    t = a ∨ t ∈ l.dropLast := by
  cases l with
  | nil => simp at h
  | cons b l =>
    rw [List.dropLast_cons₂] at h
    simpa using h

theorem renderTilesSequential_tiles {σ : Type} (env : Env σ) (self : NodeId)
    (args : RenderRoIArgs) (level : Nat) :
    ∀ (l : List RectToRender) (status : RenderingFunctorRetEnum) (s : St σ),
      ∃ tiles : List (RectToRender × RenderingFunctorRetEnum),
        (renderTilesSequential env self args level l status s).2.trace
            = s.trace ++ tileEvents tiles
          ∧ tiles.map Prod.fst <+: l
          ∧ (∀ t ∈ tiles.dropLast, t.2.stops = false)
          ∧ (renderTilesSequential env self args level l status s).1
              = (match (tiles.map Prod.snd).find? RenderingFunctorRetEnum.stops with
                 | some ret => ret
                 | none =>
                   if .eRenderingFunctorRetTakeImageLock ∈ tiles.map Prod.snd then
                     .eRenderingFunctorRetOK
                   else status)
          ∧ (renderTilesSequential env self args level l status s).2.isBeingRenderedElsewhere
              = lockFlagAmended s.isBeingRenderedElsewhere (tiles.map Prod.snd)
          ∧ (.eRenderingFunctorRetTakeImageLock ∈ tiles.map Prod.snd →
              (renderTilesSequential env self args level l status s).2.isBeingRenderedElsewhere
                = true) := by
  intro l
  induction l with
  | nil =>
    intro status s
    exact ⟨[], by simp [renderTilesSequential, tileEvents], by simp, by simp,
      by simp [renderTilesSequential], by simp [renderTilesSequential, lockFlagAmended],
      by simp⟩
  | cons rect rest ih =>
    intro status s
    have key : ∀ (ret : RenderingFunctorRetEnum) (e : σ),
        env.tiledRenderingFunctor self rect s.renderFullScaleThenDownscale args.mipMapLevel
          level args.time args.view s.byPassCache s.planes s.ext = (ret, e) →
        ∃ tiles : List (RectToRender × RenderingFunctorRetEnum),
          (renderTilesSequential env self args level (rect :: rest) status s).2.trace
              = s.trace ++ tileEvents tiles
            ∧ tiles.map Prod.fst <+: rect :: rest
            ∧ (∀ t ∈ tiles.dropLast, t.2.stops = false)
            ∧ (renderTilesSequential env self args level (rect :: rest) status s).1
                = (match (tiles.map Prod.snd).find? RenderingFunctorRetEnum.stops with
                   | some ret => ret
                   | none =>
                     if .eRenderingFunctorRetTakeImageLock ∈ tiles.map Prod.snd then
                       .eRenderingFunctorRetOK
                     else status)
            ∧ (renderTilesSequential env self args level (rect :: rest) status
                  s).2.isBeingRenderedElsewhere
                = lockFlagAmended s.isBeingRenderedElsewhere (tiles.map Prod.snd)
            ∧ (.eRenderingFunctorRetTakeImageLock ∈ tiles.map Prod.snd →
                (renderTilesSequential env self args level (rect :: rest) status
                  s).2.isBeingRenderedElsewhere = true) := by
      intro ret e hret
      cases ret with
      | eRenderingFunctorRetFailed =>
        refine ⟨[(rect, .eRenderingFunctorRetFailed)], ?_, ?_, ?_, ?_, ?_, ?_⟩
        · simp [renderTilesSequential, hret, tileEvents]
        · simp
        · simp
        · simp [renderTilesSequential, hret, RenderingFunctorRetEnum.stops]
        · simp [renderTilesSequential, hret, lockFlagAmended, RenderingFunctorRetEnum.stops]
        · simp
      | eRenderingFunctorRetAborted =>
        refine ⟨[(rect, .eRenderingFunctorRetAborted)], ?_, ?_, ?_, ?_, ?_, ?_⟩
        · simp [renderTilesSequential, hret, tileEvents]
        · simp
        · simp
        · simp [renderTilesSequential, hret, RenderingFunctorRetEnum.stops]
        · simp [renderTilesSequential, hret, lockFlagAmended, RenderingFunctorRetEnum.stops]
        · simp
      | eRenderingFunctorRetOutOfGPUMemory =>
        refine ⟨[(rect, .eRenderingFunctorRetOutOfGPUMemory)], ?_, ?_, ?_, ?_, ?_, ?_⟩
        · simp [renderTilesSequential, hret, tileEvents]
        · simp
        · simp
        · simp [renderTilesSequential, hret, RenderingFunctorRetEnum.stops]
        · simp [renderTilesSequential, hret, lockFlagAmended, RenderingFunctorRetEnum.stops]
        · simp
      | eRenderingFunctorRetTakeImageLock =>
        obtain ⟨tiles, h1, h2, h3, h4, h5, -⟩ := ih .eRenderingFunctorRetOK
          { s with ext := e,
                   trace := s.trace ++ [Event.tiledRenderingFunctor rect
                     .eRenderingFunctorRetTakeImageLock],
                   isBeingRenderedElsewhere := true }
        have hflag : (renderTilesSequential env self args level (rect :: rest) status
            s).2.isBeingRenderedElsewhere = true := by
          simp only [renderTilesSequential, hret]
          simp only [reduceCtorEq, or_self, if_false, if_true]
          rw [h5]
          simp [lockFlagAmended]
        refine ⟨(rect, .eRenderingFunctorRetTakeImageLock) :: tiles, ?_, ?_, ?_, ?_, ?_,
          fun _ => hflag⟩
        · simp only [renderTilesSequential, hret]
          simp only [reduceCtorEq, or_self, if_false, if_true]
          rw [h1]
          simp [tileEvents]
        · simpa using h2
        · intro t ht
          rcases mem_dropLast_cons _ _ _ ht with rfl | ht
          · rfl
          · exact h3 t ht
        · simp only [renderTilesSequential, hret]
          simp only [reduceCtorEq, or_self, if_false, if_true]
          rw [h4]
          simp only [List.map_cons, List.find?_cons, RenderingFunctorRetEnum.stops]
          simp only [reduceCtorEq, decide_False, Bool.or_self]
          cases (List.map Prod.snd tiles).find? RenderingFunctorRetEnum.stops <;> simp
        · rw [hflag]
          simp [lockFlagAmended, RenderingFunctorRetEnum.stops]
      | eRenderingFunctorRetOK =>
        obtain ⟨tiles, h1, h2, h3, h4, h5, h6⟩ := ih status
          { s with ext := e,
                   trace := s.trace ++ [Event.tiledRenderingFunctor rect
                     .eRenderingFunctorRetOK] }
        refine ⟨(rect, .eRenderingFunctorRetOK) :: tiles, ?_, ?_, ?_, ?_, ?_, ?_⟩
        · simp only [renderTilesSequential, hret]
          simp only [reduceCtorEq, or_self, if_false]
          rw [h1]
          simp [tileEvents]
        · simpa using h2
        · intro t ht
          rcases mem_dropLast_cons _ _ _ ht with rfl | ht
          · rfl
          · exact h3 t ht
        · simp only [renderTilesSequential, hret]
          simp only [reduceCtorEq, or_self, if_false]
          rw [h4]
          simp only [List.map_cons, List.find?_cons, RenderingFunctorRetEnum.stops]
          simp only [reduceCtorEq, decide_False, Bool.or_self]
          have hm : (RenderingFunctorRetEnum.eRenderingFunctorRetTakeImageLock
                ∈ RenderingFunctorRetEnum.eRenderingFunctorRetOK :: List.map Prod.snd tiles)
              = (RenderingFunctorRetEnum.eRenderingFunctorRetTakeImageLock
                ∈ List.map Prod.snd tiles) := by
            rw [List.mem_cons]
            simp only [reduceCtorEq, false_or]
          cases (List.map Prod.snd tiles).find? RenderingFunctorRetEnum.stops with
          | some ret => rfl
          | none =>
            dsimp only
            by_cases hin : RenderingFunctorRetEnum.eRenderingFunctorRetTakeImageLock
                ∈ List.map Prod.snd tiles
            · rw [if_pos hin, if_pos (hm ▸ hin)]
            · rw [if_neg hin, if_neg (hm ▸ hin)]
        · simp only [renderTilesSequential, hret]
          simp only [reduceCtorEq, or_self, if_false]
          rw [h5]
          simp [lockFlagAmended, RenderingFunctorRetEnum.stops]
        · intro hm
          simp only [renderTilesSequential, hret]
          simp only [reduceCtorEq, or_self, if_false]
          apply h6
          simpa using hm
    exact key _ _ rfl

theorem renderTilesMapped_tiles {σ : Type} (env : Env σ) (self : NodeId)
    (args : RenderRoIArgs) (level : Nat) :
    ∀ (l : List RectToRender) (s : St σ),
      (renderTilesMapped env self args level l s).2.trace
          = s.trace ++ tileEvents (l.zip (renderTilesMapped env self args level l s).1)
        ∧ (renderTilesMapped env self args level l s).1.length = l.length
        ∧ (renderTilesMapped env self args level l s).2.isBeingRenderedElsewhere
            = s.isBeingRenderedElsewhere := by
  intro l
  induction l with
  | nil =>
    intro s
    simp [renderTilesMapped, tileEvents]
  | cons rect rest ih =>
    intro s
    obtain ⟨h1, h2, h3⟩ := ih
      { s with
          ext := (env.tiledRenderingFunctor self rect s.renderFullScaleThenDownscale
            args.mipMapLevel level args.time args.view s.byPassCache s.planes s.ext).2,
          trace := s.trace ++ [Event.tiledRenderingFunctor rect
            (env.tiledRenderingFunctor self rect s.renderFullScaleThenDownscale
              args.mipMapLevel level args.time args.view s.byPassCache s.planes s.ext).1] }
    refine ⟨?_, ?_, ?_⟩
    · simp only [renderTilesMapped]
      rw [h1]
      simp [tileEvents]
    · simp only [renderTilesMapped, List.length_cons]
      rw [h2]
    · simp only [renderTilesMapped]
      rw [h3]

theorem scanTileResults_stops :
    ∀ (rets : List RenderingFunctorRetEnum) (status : RenderingFunctorRetEnum) (lock : Bool),
      scanTileResults rets status lock
        = ((match rets.find? RenderingFunctorRetEnum.stops with
            | some .eRenderingFunctorRetOutOfGPUMemory => .eRenderingFunctorRetOutOfGPUMemory
            | some _ => .eRenderingFunctorRetFailed
            | none => status),
           lockFlagAmended lock rets) := by
  intro rets
  induction rets with
  | nil =>
    intro status lock
    simp [scanTileResults, lockFlagAmended]
  | cons ret rest ih =>
    intro status lock
    cases ret with
    | eRenderingFunctorRetFailed =>
      simp [scanTileResults, lockFlagAmended, RenderingFunctorRetEnum.stops]
    | eRenderingFunctorRetAborted =>
      simp [scanTileResults, lockFlagAmended, RenderingFunctorRetEnum.stops]
    | eRenderingFunctorRetOutOfGPUMemory =>
      simp [scanTileResults, lockFlagAmended, RenderingFunctorRetEnum.stops]
    | eRenderingFunctorRetTakeImageLock =>
      simp only [scanTileResults, reduceCtorEq, if_false, if_true]
      rw [ih]
      simp [lockFlagAmended, RenderingFunctorRetEnum.stops]
    | eRenderingFunctorRetOK =>
      simp only [scanTileResults, reduceCtorEq, if_false]
      rw [ih]
      simp [lockFlagAmended, RenderingFunctorRetEnum.stops]

/-- The status `renderRoIInternal` makes of the status of the tiles, when `beginSequenceRender`
has not failed. -/
theorem internalStatus_of_stops (rects : List RectToRender)
    (rets : List RenderingFunctorRetEnum) (ef : Bool) (st : RenderingFunctorRetEnum)
    (h : st = (match rets.find? RenderingFunctorRetEnum.stops with
               | some .eRenderingFunctorRetOutOfGPUMemory => .eRenderingFunctorRetOutOfGPUMemory
               | some _ => .eRenderingFunctorRetFailed
               | none => .eRenderingFunctorRetOK)
         ∨ st = (match rets.find? RenderingFunctorRetEnum.stops with
                 | some ret => ret
                 | none => .eRenderingFunctorRetOK)) :
    internalStatus rects (if ef = true then .eRenderingFunctorRetFailed else st)
      = tileStatusAmended false ef rets rects := by
  cases hfind : rets.find? RenderingFunctorRetEnum.stops with
  | none =>
    rw [hfind] at h
    have hst : st = .eRenderingFunctorRetOK := by
      rcases h with h | h <;> exact h
    subst hst
    cases ef <;> simp [internalStatus, tileStatusAmended, hfind]
  | some ret =>
    rw [hfind] at h
    have hstop := List.find?_some hfind
    cases ret with
    | eRenderingFunctorRetOK => simp [RenderingFunctorRetEnum.stops] at hstop
    | eRenderingFunctorRetTakeImageLock => simp [RenderingFunctorRetEnum.stops] at hstop
    | eRenderingFunctorRetFailed =>
      have hst : st = .eRenderingFunctorRetFailed := by
        rcases h with h | h <;> exact h
      subst hst
      cases ef <;> simp [internalStatus, tileStatusAmended, hfind]
    | eRenderingFunctorRetOutOfGPUMemory =>
      have hst : st = .eRenderingFunctorRetOutOfGPUMemory := by
        rcases h with h | h <;> exact h
      subst hst
      cases ef <;> simp [internalStatus, tileStatusAmended, hfind]
    | eRenderingFunctorRetAborted =>
      rcases h with h | h
      · subst h
        cases ef <;> simp [internalStatus, tileStatusAmended, hfind]
      · subst h
        cases ef <;> simp [internalStatus, tileStatusAmended, hfind]

/-- A tile that returns TakeImageLock does not change the status. -/
theorem tileStatusAmended_filter (bf ef : Bool) (rets : List RenderingFunctorRetEnum)
    (rects : List RectToRender) :
    tileStatusAmended bf ef rets rects
      = tileStatusAmended bf ef
          (rets.filter fun r => decide (r ≠ .eRenderingFunctorRetTakeImageLock)) rects := by
  have hfind : (rets.filter fun r => decide (r ≠ .eRenderingFunctorRetTakeImageLock)).find?
      RenderingFunctorRetEnum.stops = rets.find? RenderingFunctorRetEnum.stops := by
    induction rets with
    | nil => rfl
    | cons ret rest ih =>
      have s1 : RenderingFunctorRetEnum.stops .eRenderingFunctorRetFailed = true := rfl
      have s2 : RenderingFunctorRetEnum.stops .eRenderingFunctorRetAborted = true := rfl
      have s3 : RenderingFunctorRetEnum.stops .eRenderingFunctorRetOutOfGPUMemory = true := rfl
      have s4 : RenderingFunctorRetEnum.stops .eRenderingFunctorRetOK = false := rfl
      have s5 : RenderingFunctorRetEnum.stops .eRenderingFunctorRetTakeImageLock = false := rfl
      cases ret <;>
        simp only [List.filter_cons, List.find?_cons, s1, s2, s3, s4, s5, ih, ne_eq,
          reduceCtorEq, not_true_eq_false, not_false_eq_true, decide_True, decide_False,
          if_true, if_false, Bool.false_eq_true]
  unfold tileStatusAmended
  rw [hfind]

theorem beginSequence_eq {σ : Type} (env : Env σ) (inst : NodeId) (args : RenderRoIArgs)
    (level : Nat) (s : St σ) :
    beginSequence env inst args level s
      = (if beginFails env inst args level s = true then .eRenderingFunctorRetFailed
         else .eRenderingFunctorRetOK,
         if callBegin env inst = true then
           { s with
               ext := (env.beginSequenceRender inst args.time
                 (env.getScaleFromMipMapLevel level) s.frameArgs.isSequentialRender
                 s.frameArgs.isRenderResponseToUserInteraction s.frameArgs.draftMode args.view
                 s.useOpenGL s.ext).2,
               trace := s.trace ++ [Event.beginSequenceRender] }
         else s) := by
  unfold beginSequence beginFails
  by_cases hc : callBegin env inst = true
  · simp only [hc, if_true, Bool.true_and, decide_eq_true_eq]
  · simp only [hc, if_false, Bool.not_eq_true] at hc ⊢
    simp [hc]

theorem endSequence_eq {σ : Type} (env : Env σ) (inst : NodeId) (args : RenderRoIArgs)
    (level : Nat) (rendered : RenderingFunctorRetEnum × St σ) :
    endSequence env inst args level rendered
      = (if endFails env inst args level rendered.2 = true then .eRenderingFunctorRetFailed
         else rendered.1,
         if callBegin env inst = true then
           { rendered.2 with
               ext := (env.endSequenceRender inst args.time
                 (env.getScaleFromMipMapLevel level) rendered.2.frameArgs.isSequentialRender
                 rendered.2.frameArgs.isRenderResponseToUserInteraction
                 rendered.2.frameArgs.draftMode args.view rendered.2.useOpenGL rendered.2.ext).2,
               trace := rendered.2.trace ++ [Event.endSequenceRender] }
         else rendered.2) := by
  unfold endSequence endFails
  by_cases hc : callBegin env inst = true
  · simp only [hc, if_true, Bool.true_and, decide_eq_true_eq]
  · simp only [hc, if_false, Bool.not_eq_true] at hc ⊢
    simp [hc]

/-- The tiles `renderTiles` renders, when `beginSequenceRender` has not failed. -/
theorem renderTiles_tiles {σ : Type} (env : Env σ) (inst : NodeId) (args : RenderRoIArgs)
    (safety : RenderSafetyEnum) (level : Nat) (s : St σ) :
    ∃ tiles : List (RectToRender × RenderingFunctorRetEnum),
      (renderTiles env inst args safety level (.eRenderingFunctorRetOK, s)).2.trace
          = s.trace ++ tileEvents tiles
        ∧ tiles.map Prod.fst <+: s.rectsToRender
        ∧ ((renderTiles env inst args safety level (.eRenderingFunctorRetOK, s)).1
              = (match (tiles.map Prod.snd).find? RenderingFunctorRetEnum.stops with
                 | some .eRenderingFunctorRetOutOfGPUMemory =>
                   .eRenderingFunctorRetOutOfGPUMemory
                 | some _ => .eRenderingFunctorRetFailed
                 | none => .eRenderingFunctorRetOK)
            ∨ (renderTiles env inst args safety level (.eRenderingFunctorRetOK, s)).1
              = (match (tiles.map Prod.snd).find? RenderingFunctorRetEnum.stops with
                 | some ret => ret
                 | none => .eRenderingFunctorRetOK))
        ∧ (renderTiles env inst args safety level
              (.eRenderingFunctorRetOK, s)).2.isBeingRenderedElsewhere
            = lockFlagAmended s.isBeingRenderedElsewhere (tiles.map Prod.snd)
        ∧ (dispatchesMapped safety s = false →
            (∀ t ∈ tiles.dropLast, t.2.stops = false)
              ∧ (.eRenderingFunctorRetTakeImageLock ∈ tiles.map Prod.snd →
                  (renderTiles env inst args safety level
                    (.eRenderingFunctorRetOK, s)).2.isBeingRenderedElsewhere = true))
        ∧ (dispatchesMapped safety s = true → tiles.map Prod.fst = s.rectsToRender) := by
  by_cases hm : safety = .eRenderSafetyFullySafeFrame ∧ s.rectsToRender.length > 1
      ∧ s.useOpenGL = false
  · have hd : dispatchesMapped safety s = true := by
      simp [dispatchesMapped, hm.1, hm.2.1, hm.2.2]
    obtain ⟨h1, h2, h3⟩ := renderTilesMapped_tiles env inst args level s.rectsToRender s
    have hfst : (s.rectsToRender.zip
        (renderTilesMapped env inst args level s.rectsToRender s).1).map Prod.fst
          = s.rectsToRender := List.map_fst_zip _ _ (le_of_eq h2.symm)
    have hsnd : (s.rectsToRender.zip
        (renderTilesMapped env inst args level s.rectsToRender s).1).map Prod.snd
          = (renderTilesMapped env inst args level s.rectsToRender s).1 :=
      List.map_snd_zip _ _ (le_of_eq h2)
    refine ⟨s.rectsToRender.zip (renderTilesMapped env inst args level s.rectsToRender s).1,
      ?_, ?_, ?_, ?_, ?_, ?_⟩
    · unfold renderTiles
      simp only [ne_eq, reduceCtorEq, not_false_eq_true, if_true, hm, and_self]
      split
      · exact h1
      · exact h1
    · rw [hfst]
    · left
      unfold renderTiles
      simp only [ne_eq, reduceCtorEq, not_false_eq_true, if_true, hm, and_self]
      rw [scanTileResults_stops, hsnd]
    · unfold renderTiles
      simp only [ne_eq, reduceCtorEq, not_false_eq_true, if_true, hm, and_self]
      rw [scanTileResults_stops, hsnd]
      dsimp only
      split
      · rename_i hlock
        simp only [lockFlagAmended, Bool.false_or] at hlock
        simp only [lockFlagAmended, hlock, Bool.or_true]
      · rename_i hlock
        simp only [lockFlagAmended, Bool.false_or, Bool.not_eq_true] at hlock
        rw [h3]
        simp only [lockFlagAmended, hlock, Bool.or_false]
    · intro hno
      rw [hd] at hno
      exact absurd hno (by simp)
    · intro _
      exact hfst
  · have hd : dispatchesMapped safety s = false := by
      simp only [dispatchesMapped, Bool.and_eq_false_imp, Bool.and_eq_true, decide_eq_true_eq,
        Bool.not_eq_false, and_imp]
      intro h1 h2
      by_contra h3
      exact hm ⟨h1, h2, by simpa using h3⟩
    obtain ⟨tiles, h1, h2, h3, h4, h5, h6⟩ :=
      renderTilesSequential_tiles env inst args level s.rectsToRender .eRenderingFunctorRetOK s
    have heq : renderTiles env inst args safety level (.eRenderingFunctorRetOK, s)
        = renderTilesSequential env inst args level s.rectsToRender .eRenderingFunctorRetOK s := by
      unfold renderTiles
      simp only [ne_eq, reduceCtorEq, not_false_eq_true, if_true, hm, if_false]
    refine ⟨tiles, ?_, h2, ?_, ?_, ?_, ?_⟩
    · rw [heq]
      exact h1
    · right
      rw [heq, h4]
      cases (List.map Prod.snd tiles).find? RenderingFunctorRetEnum.stops with
      | some ret => rfl
      | none => simp
    · rw [heq]
      exact h5
    · intro _
      rw [heq]
      exact ⟨h3, h6⟩
    · intro hyes
      rw [hd] at hyes
      exact absurd hyes (by simp)

/-- C26, the claim as worded does not hold. On the scene `tilesEnv` the effect is frame-safe,
two tiles are left to render and the render does not use OpenGL, so that the tiles are spread
over worker threads and both are rendered. When the left tile returns OutOfGPUMemory and the
right tile returns Failed, `renderRoIInternal` returns RenderOutOfGPUMemory although a tile
returned Failed and neither `beginSequenceRender` nor `endSequenceRender` failed. When the left
tile returns Failed and the right tile returns TakeImageLock, the flag `isBeingRenderedElsewhere`
is left unset although a tile returned TakeImageLock. -/
theorem tile_status_counterexample :
    (atDispatch (tilesEnv .eRenderingFunctorRetOutOfGPUMemory .eRenderingFunctorRetFailed)
        (renderRoI (tilesEnv .eRenderingFunctorRetOutOfGPUMemory .eRenderingFunctorRetFailed) 2)
        2 1 sceneArgs [] 100
      = .next (tilesDispatch .eRenderingFunctorRetOutOfGPUMemory .eRenderingFunctorRetFailed))
    ∧ (∃ r, renderRoIInternal
          (tilesEnv .eRenderingFunctorRetOutOfGPUMemory .eRenderingFunctorRetFailed) 1 sceneArgs
          .eRenderSafetyFullySafeFrame
          (tilesState .eRenderingFunctorRetOutOfGPUMemory .eRenderingFunctorRetFailed) = some r
        ∧ r.2.trace
            = (tilesState .eRenderingFunctorRetOutOfGPUMemory .eRenderingFunctorRetFailed).trace
              ++ [Event.getFrameRange, Event.beginSequenceRender,
                  Event.tiledRenderingFunctor (plainTile leftHalf)
                    .eRenderingFunctorRetOutOfGPUMemory,
                  Event.tiledRenderingFunctor (plainTile rightHalf) .eRenderingFunctorRetFailed,
                  Event.endSequenceRender,
                  Event.renderRoIInternal .eRenderRoIStatusRenderOutOfGPUMemory]
        ∧ r.1 = .eRenderRoIStatusRenderOutOfGPUMemory
        ∧ tileStatusAsClaimed false false
            [.eRenderingFunctorRetOutOfGPUMemory, .eRenderingFunctorRetFailed]
            (tilesState .eRenderingFunctorRetOutOfGPUMemory
              .eRenderingFunctorRetFailed).rectsToRender
            = .eRenderRoIStatusRenderFailed)
    ∧ (atDispatch (tilesEnv .eRenderingFunctorRetFailed .eRenderingFunctorRetTakeImageLock)
        (renderRoI (tilesEnv .eRenderingFunctorRetFailed .eRenderingFunctorRetTakeImageLock) 2)
        2 1 sceneArgs [] 100
      = .next (tilesDispatch .eRenderingFunctorRetFailed .eRenderingFunctorRetTakeImageLock))
    ∧ (∃ r, renderRoIInternal
          (tilesEnv .eRenderingFunctorRetFailed .eRenderingFunctorRetTakeImageLock) 1 sceneArgs
          .eRenderSafetyFullySafeFrame
          (tilesState .eRenderingFunctorRetFailed .eRenderingFunctorRetTakeImageLock) = some r
        ∧ r.2.trace
            = (tilesState .eRenderingFunctorRetFailed .eRenderingFunctorRetTakeImageLock).trace
              ++ [Event.getFrameRange, Event.beginSequenceRender,
                  Event.tiledRenderingFunctor (plainTile leftHalf) .eRenderingFunctorRetFailed,
                  Event.tiledRenderingFunctor (plainTile rightHalf)
                    .eRenderingFunctorRetTakeImageLock,
                  Event.endSequenceRender,
                  Event.renderRoIInternal .eRenderRoIStatusRenderFailed]
        ∧ r.2.isBeingRenderedElsewhere = false
        ∧ lockFlagAsClaimed
            (tilesState .eRenderingFunctorRetFailed
              .eRenderingFunctorRetTakeImageLock).isBeingRenderedElsewhere
            [.eRenderingFunctorRetFailed, .eRenderingFunctorRetTakeImageLock] = true) := by
  decide!

/-- C26, amended. `renderRoIInternal` is called in the state `s`, where the image the first plane
is rendered into is at the mip-map level `level`. It returns; between `getFrameRange` and its
return it calls `beginSequenceRender` and `endSequenceRender` unless the effect is a sequential
writer, and in between it renders the tiles `tiles` of the list of rectangles to render, in the
order of the list. Its status is RenderFailed when `beginSequenceRender` or `endSequenceRender`
fails; otherwise the first result among the tiles rendered that is Failed, Aborted or
OutOfGPUMemory decides, RenderOutOfGPUMemory for OutOfGPUMemory and RenderFailed for the two
others; otherwise the image is rendered when there are rectangles to render and already rendered
when there is none. The results TakeImageLock do not change the status; the flag
`isBeingRenderedElsewhere` is set when a tile returned TakeImageLock and no tile before it
returned Failed, Aborted or OutOfGPUMemory. No tile is rendered when `beginSequenceRender`
failed. When the tiles are rendered one after the other, none is rendered after the first that
returns Failed, Aborted or OutOfGPUMemory, and every tile that returns TakeImageLock sets the
flag; when they are spread over worker threads, every tile of the list is rendered. -/
theorem renderRoIInternal_tile_status {σ : Type} (env : Env σ) (inst : NodeId)
    (args : RenderRoIArgs) (safety : RenderSafetyEnum) (s : St σ) (level : Nat)
    (hl : firstPlaneMipMapLevel s = some level) :
    ∃ (r : RenderRoIStatusEnum × St σ) (tiles : List (RectToRender × RenderingFunctorRetEnum)),
      renderRoIInternal env inst args safety s = some r
        ∧ r.2.trace = s.trace ++ [Event.getFrameRange]
            ++ (if callBegin env inst = true then [Event.beginSequenceRender] else [])
            ++ tileEvents tiles
            ++ (if callBegin env inst = true then [Event.endSequenceRender] else [])
            ++ [Event.renderRoIInternal r.1]
        ∧ tiles.map Prod.fst <+: s.rectsToRender
        ∧ r.1 = tileStatusAmended
            (beginFails env inst args level
              { s with ext := env.getFrameRange inst s.nodeHash s.ext })
            (endFails env inst args level (beforeEndSequence env inst args safety level s))
            (tiles.map Prod.snd) s.rectsToRender
        ∧ r.1 = tileStatusAmended
            (beginFails env inst args level
              { s with ext := env.getFrameRange inst s.nodeHash s.ext })
            (endFails env inst args level (beforeEndSequence env inst args safety level s))
            ((tiles.map Prod.snd).filter
              fun ret => decide (ret ≠ .eRenderingFunctorRetTakeImageLock))
            s.rectsToRender
        ∧ r.2.isBeingRenderedElsewhere
            = lockFlagAmended s.isBeingRenderedElsewhere (tiles.map Prod.snd)
        ∧ (beginFails env inst args level
              { s with ext := env.getFrameRange inst s.nodeHash s.ext } = true → tiles = [])
        ∧ (dispatchesMapped (effectiveSafety env inst s.frameArgs safety s.ext) s = false →
            (∀ t ∈ tiles.dropLast, t.2.stops = false)
              ∧ (.eRenderingFunctorRetTakeImageLock ∈ tiles.map Prod.snd →
                  r.2.isBeingRenderedElsewhere = true))
        ∧ (dispatchesMapped (effectiveSafety env inst s.frameArgs safety s.ext) s = true →
            beginFails env inst args level
              { s with ext := env.getFrameRange inst s.nodeHash s.ext } = false →
            tiles.map Prod.fst = s.rectsToRender) := by
  have hr : renderRoIInternal env inst args safety s
      = some (internalStatus s.rectsToRender
                (endSequence env inst args level
                  (renderTiles env inst args (effectiveSafety env inst s.frameArgs safety s.ext)
                    level
                    (beginSequence env inst args level
                      { s with ext := env.getFrameRange inst s.nodeHash s.ext,
                               trace := s.trace ++ [Event.getFrameRange] }))).1,
              (endSequence env inst args level
                  (renderTiles env inst args (effectiveSafety env inst s.frameArgs safety s.ext)
                    level
                    (beginSequence env inst args level
                      { s with ext := env.getFrameRange inst s.nodeHash s.ext,
                               trace := s.trace ++ [Event.getFrameRange] }))).2.emit
                (Event.renderRoIInternal (internalStatus s.rectsToRender
                  (endSequence env inst args level
                    (renderTiles env inst args
                      (effectiveSafety env inst s.frameArgs safety s.ext) level
                      (beginSequence env inst args level
                        { s with ext := env.getFrameRange inst s.nodeHash s.ext,
                                 trace := s.trace ++ [Event.getFrameRange] }))).1))) := by
    unfold renderRoIInternal
    rw [hl]
  have hef : endFails env inst args level (beforeEndSequence env inst args safety level s)
      = endFails env inst args level
          (renderTiles env inst args (effectiveSafety env inst s.frameArgs safety s.ext) level
            (beginSequence env inst args level
              { s with ext := env.getFrameRange inst s.nodeHash s.ext,
                       trace := s.trace ++ [Event.getFrameRange] })).2 := rfl
  have hbf : beginFails env inst args level
        { s with ext := env.getFrameRange inst s.nodeHash s.ext }
      = beginFails env inst args level
          { s with ext := env.getFrameRange inst s.nodeHash s.ext,
                   trace := s.trace ++ [Event.getFrameRange] } := rfl
  rw [hef, hbf]
  rw [beginSequence_eq] at hr ⊢
  generalize hsafe : effectiveSafety env inst s.frameArgs safety s.ext = safety' at hr ⊢
  generalize hbfv : beginFails env inst args level
      { s with ext := env.getFrameRange inst s.nodeHash s.ext,
               trace := s.trace ++ [Event.getFrameRange] } = bf at hr ⊢
  generalize hsb : (if callBegin env inst = true then
      ({ s with ext := env.getFrameRange inst s.nodeHash s.ext,
                trace := s.trace ++ [Event.getFrameRange] } : St σ)
      |> fun s1 => ({ s1 with
          ext := (env.beginSequenceRender inst args.time
            (env.getScaleFromMipMapLevel level) s1.frameArgs.isSequentialRender
            s1.frameArgs.isRenderResponseToUserInteraction s1.frameArgs.draftMode args.view
            s1.useOpenGL s1.ext).2,
          trace := s1.trace ++ [Event.beginSequenceRender] } : St σ)
    else { s with ext := env.getFrameRange inst s.nodeHash s.ext,
                  trace := s.trace ++ [Event.getFrameRange] }) = sb at hr ⊢
  have hsbt : sb.trace = s.trace ++ [Event.getFrameRange]
      ++ (if callBegin env inst = true then [Event.beginSequenceRender] else []) := by
    rw [← hsb]
    split <;> simp
  have hsbr : sb.rectsToRender = s.rectsToRender := by
    rw [← hsb]
    split <;> rfl
  have hsbg : sb.useOpenGL = s.useOpenGL := by
    rw [← hsb]
    split <;> rfl
  have hsbf : sb.isBeingRenderedElsewhere = s.isBeingRenderedElsewhere := by
    rw [← hsb]
    split <;> rfl
  have hmapped : dispatchesMapped safety' s = dispatchesMapped safety' sb := by
    simp only [dispatchesMapped, hsbr, hsbg]
  rw [hmapped]
  rw [endSequence_eq] at hr
  cases bf with
  | true =>
    have hrt : renderTiles env inst args safety' level (.eRenderingFunctorRetFailed, sb)
        = (.eRenderingFunctorRetFailed, sb) := by
      unfold renderTiles
      simp
    simp only [if_true] at hr ⊢
    rw [hrt] at hr ⊢
    refine ⟨_, [], hr, ?_, ?_, ?_, ?_, ?_, fun _ => rfl, fun _ => ⟨by simp, by simp⟩, ?_⟩
    · simp only [St.emit]
      by_cases hc : callBegin env inst = true
      · simp [hc, hsbt, tileEvents]
      · simp [hc, hsbt, tileEvents]
    · simp
    · simp [internalStatus, tileStatusAmended]
    · simp [internalStatus, tileStatusAmended]
    · simp only [St.emit, lockFlagAmended, List.map_nil, List.takeWhile_nil, List.not_mem_nil,
        decide_False, Bool.or_false]
      split <;> exact hsbf
    · intro _ h
      exact absurd h (by simp)
  | false =>
    simp only [Bool.false_eq_true, if_false] at hr ⊢
    obtain ⟨tiles, h1, h2, h3, h4, h5, h6⟩ := renderTiles_tiles env inst args safety' level sb
    refine ⟨_, tiles, hr, ?_, hsbr ▸ h2, ?_, ?_, ?_, ?_, ?_, ?_⟩
    · simp only [St.emit]
      by_cases hc : callBegin env inst = true
      · simp [hc, hsbt, h1]
      · simp [hc, hsbt, h1]
    · exact internalStatus_of_stops _ _ _ _ h3
    · rw [← tileStatusAmended_filter]
      exact internalStatus_of_stops _ _ _ _ h3
    · simp only [St.emit]
      rw [← hsbf, ← h4]
      split <;> rfl
    · intro h
      exact absurd h (by simp)
    · intro hno
      refine ⟨(h5 hno).1, fun hm => ?_⟩
      simp only [St.emit]
      rw [← (h5 hno).2 hm]
      split <;> rfl
    · intro hyes _
      rw [← hsbr]
      exact h6 hyes

/-- The tiles of the scene `tilesEnv` where the left tile returns OutOfGPUMemory and the right
tile returns Failed: the status is RenderOutOfGPUMemory. -/
theorem renderRoIInternal_tile_status_witness :
    ∃ r, renderRoIInternal
        (tilesEnv .eRenderingFunctorRetOutOfGPUMemory .eRenderingFunctorRetFailed) 1 sceneArgs
        .eRenderSafetyFullySafeFrame
        (tilesState .eRenderingFunctorRetOutOfGPUMemory .eRenderingFunctorRetFailed) = some r
      ∧ ∃ tiles : List (RectToRender × RenderingFunctorRetEnum),
          tiles.map Prod.fst = [plainTile leftHalf, plainTile rightHalf]
            ∧ r.1 = tileStatusAmended false false (tiles.map Prod.snd)
                [plainTile leftHalf, plainTile rightHalf] := by
  obtain ⟨r, tiles, h1, -, -, h4, -, -, -, -, h9⟩ :=
    renderRoIInternal_tile_status
      (tilesEnv .eRenderingFunctorRetOutOfGPUMemory .eRenderingFunctorRetFailed) 1 sceneArgs
      .eRenderSafetyFullySafeFrame
      (tilesState .eRenderingFunctorRetOutOfGPUMemory .eRenderingFunctorRetFailed) 0 (by rfl)
  exact ⟨r, h1, tiles, h9 (by rfl) (by rfl), h4⟩

set_option maxRecDepth 100000 in
/-- C6, the claim as worded does not hold: on a disk-cache node (line 736) the effect declares
OpenGL support "yes" and the region of interest, 4 pixels wide, exceeds the maximum texture
size, 2 pixels; the storage selected is the disk, not system memory. -/
theorem gpu_size_fallback_counterexample :
    atStorage diskCacheEnv (renderRoI diskCacheEnv 2) 1 sceneArgs [] 100 = .next diskCacheState
      ∧ diskCacheState.frameArgs.currentOpenglSupport = .ePluginOpenGLRenderSupportYes
      ∧ diskCacheState.roi.width = 4
      ∧ diskCacheEnv.getCurrentOpenGLRendererMaxTextureSize diskCacheState.ext = 2
      ∧ ∃ s', chooseStorage diskCacheEnv 1 sceneArgs diskCacheState = .next s'
          ∧ s'.storage = .eStorageModeDisk :=
  ⟨by rfl, by rfl, by rfl, by rfl, _, rfl, by rfl⟩

/-- C6, amended. The call has reached storage selection in the state `s`, the effect declares
OpenGL support "yes", and the width or the height of the region of interest exceeds the maximum
texture size. Then storage selection goes on with a storage that is not an OpenGL texture: the
disk on a disk-cache node, whose storage is always the disk, and system memory on every other
node; and the trace of the call holds no `attachOpenGLContext`. -/
theorem renderRoI_gpu_size_fallback {σ : Type} (env : Env σ) (recCall : RecCall σ) (fuel : Nat)
    (self : NodeId) (args : RenderRoIArgs) (outputPlanes : PlaneMap Image) (ext : σ) (s : St σ)
    (hs : atStorage env recCall self args outputPlanes ext = .next s)
    (hyes : s.frameArgs.currentOpenglSupport = .ePluginOpenGLRenderSupportYes)
    (hbig : s.roi.width > env.getCurrentOpenGLRendererMaxTextureSize s.ext
      ∨ s.roi.height > env.getCurrentOpenGLRendererMaxTextureSize s.ext) :
    (∃ s', chooseStorage env self args s = .next s'
        ∧ s'.storage ≠ .eStorageModeGLTex
        ∧ s'.storage = (if env.isDiskCacheNode self = true then .eStorageModeDisk
                        else .eStorageModeRAM))
      ∧ ∀ r, renderRoIBody env recCall fuel self args outputPlanes ext = some r →
          ∀ e ∈ r.trace, e.isAttach = false := by
  have hamend : amendedStorage env self args s ≠ .eStorageModeGLTex
      ∧ amendedStorage env self args s
          = (if env.isDiskCacheNode self = true then .eStorageModeDisk
             else .eStorageModeRAM) := by
    unfold amendedStorage
    by_cases hd : env.isDiskCacheNode self = true
    · simp [hd]
    · have hno : ¬ (s.glContext.isSome = true ∧
          (s.frameArgs.currentOpenglSupport = .ePluginOpenGLRenderSupportNeeded
          ∨ (s.frameArgs.currentOpenglSupport = .ePluginOpenGLRenderSupportYes
              ∧ args.allowGPURendering = true
              ∧ env.isForceCachingEnabled self = false
              ∧ s.frameArgs.visitsCount ≤ 1
              ∧ args.time = args.callerRenderTime
              ∧ s.roi.width < env.getCurrentOpenGLRendererMaxTextureSize s.ext
              ∧ s.roi.height < env.getCurrentOpenGLRendererMaxTextureSize s.ext))) := by
        rintro ⟨-, h | h⟩
        · rw [hyes] at h
          cases h
        · rcases hbig with hb | hb <;> omega
      rw [if_neg hd, if_neg hno, if_neg hd]
      simp
  have hspec := chooseStorage_spec env self args s
  have hpre : Within (fun j => j ≠ 12) s.trace :=
    (atStorage_post env recCall self args outputPlanes ext (fun j => j ≠ 12)
      (fun j hj => by omega)).of_next hs
  have hchoose : (chooseStorage env self args s).Post
      (fun s' => Within (fun j => j ≠ 12) s'.trace ∧ s'.storage ≠ .eStorageModeGLTex)
      (fun r => Within (fun j => j ≠ 12) r.trace) := by
    have h1 := chooseStorage_post env self args s (fun j => j ≠ 12) (by decide) hpre
    cases hc : chooseStorage env self args s with
    | next s' =>
      rw [hc] at h1 hspec
      exact ⟨h1, by rw [hspec.2]; exact hamend.1⟩
    | done r =>
      rw [hc] at h1
      exact h1
    | outOfFuel => trivial
  refine ⟨?_, ?_⟩
  · cases hc : chooseStorage env self args s with
    | next s' =>
      rw [hc] at hspec
      exact ⟨s', rfl, by rw [hspec.2]; exact hamend.1, by rw [hspec.2]; exact hamend.2⟩
    | done r =>
      rw [hc] at hspec
      have h := hspec.1.2.2.1
      rw [hyes] at h
      cases h
    | outOfFuel =>
      exfalso
      unfold chooseStorage at hc
      dsimp only at hc
      repeat' split at hc
      all_goals simp [St.returns] at hc
  · intro r hr e he
    apply not_attach_of_stage
    have hlookup : (atLookup env recCall self args outputPlanes ext).Post
        (fun s => Within (fun j => j ≠ 12) s.trace ∧ s.storage ≠ .eStorageModeGLTex)
        (fun r => Within (fun j => j ≠ 12) r.trace) := by
      unfold atLookup
      rw [hs]
      have h0 := Flow.Post.stepS (P := fun j => j ≠ 12)
        (Q := fun st => st ≠ StorageModeEnum.eStorageModeGLTex) 7 hchoose
        (fun s _ => openGLRenderScale_steps env args s) (by decide)
      exact Flow.Post.stepS (P := fun j => j ≠ 12)
        (Q := fun st => st ≠ StorageModeEnum.eStorageModeGLTex) 8 h0
        (fun s _ => prepareLookup_steps env self args s) (by decide)
    have h1 := atRectsLeft_postS env recCall self args outputPlanes ext (fun j => j ≠ 12)
      (fun st => st ≠ StorageModeEnum.eStorageModeGLTex) (by decide) hlookup
    have h2 := atInputs_postS env recCall fuel self args outputPlanes ext (fun j => j ≠ 12)
      (fun st => st ≠ StorageModeEnum.eStorageModeGLTex) (by decide) h1
    have h3 := atDispatch_postS env recCall fuel self args outputPlanes ext (fun j => j ≠ 12)
      (fun st => st ≠ StorageModeEnum.eStorageModeGLTex) (by decide) (by decide) h2
    have h4 := atFinish_postS env recCall fuel self args outputPlanes ext (fun j => j ≠ 12)
      (fun st => st ≠ StorageModeEnum.eStorageModeGLTex) (by decide) (fun _ h => h) h3
    exact renderRoIBody_within env recCall fuel self args outputPlanes ext (fun j => j ≠ 12)
      (fun st => st ≠ StorageModeEnum.eStorageModeGLTex) (by decide) (by decide) h4 r hr e he

set_option maxRecDepth 100000 in
/-- The fallback on the scene `smallTextureEnv`: a region of interest of 4 by 4 pixels for
textures of at most 2 by 2 is rendered in system memory, without `attachOpenGLContext`. -/
theorem renderRoI_gpu_size_fallback_witness :
    (∃ s', chooseStorage smallTextureEnv 1 sceneArgs smallTextureState = .next s'
        ∧ s'.storage = .eStorageModeRAM)
      ∧ (renderRoI smallTextureEnv 3 1 sceneArgs [] 100).map
          (fun r => (r.outcome, r.trace.all (fun e => !e.isAttach)))
        = some (.returned .eRenderRoIRetCodeOk, true) := by
  have h := renderRoI_gpu_size_fallback smallTextureEnv (renderRoI smallTextureEnv 2) 2 1
    sceneArgs [] 100 smallTextureState (by rfl) (by rfl) (Or.inl (by decide))
  obtain ⟨⟨s', hs', -, hram⟩, -⟩ := h
  exact ⟨⟨s', hs', by rw [hram]; rfl⟩, by rfl⟩

/-- The scan of the planes found before a miss (lines 929-947) looks nothing up in the cache. -/
theorem recheckPlanes_noLookup {σ : Type} (env : Env σ) :
    ∀ (l : List (ImageComponents × PlaneToRender)) (newPlanes : PlaneMap PlaneToRender)
      (s : St σ),
      ∃ evs, (recheckPlanes env l newPlanes s).2.trace = s.trace ++ evs
        ∧ ∀ e ∈ evs, e.isCacheLookup = false := by
  intro l
  induction l with
  | nil =>
    intro newPlanes s
    exact ⟨[], by simp [recheckPlanes], by simp⟩
  | cons kp rest ih =>
    intro newPlanes s
    obtain ⟨k, plane⟩ := kp
    unfold recheckPlanes
    split
    · rename_i img himg
      dsimp only
      split
      · obtain ⟨evs, h1, h2⟩ := ih
          (PlaneMap.insertNew env.compLess newPlanes k
            { plane with fullscaleImage := none, downscaleImage := none })
          { s.emit (Event.getRestToRender img s.roi) with
              ext := env.removeFromNodeCache (some img) (s.emit (Event.getRestToRender img s.roi)).ext
              trace := (s.emit (Event.getRestToRender img s.roi)).trace
                ++ [Event.removeFromNodeCache (some img)] }
        refine ⟨Event.getRestToRender img s.roi :: Event.removeFromNodeCache (some img) :: evs,
          ?_, ?_⟩
        · rw [h1]
          simp [St.emit]
        · intro e he
          simp only [List.mem_cons] at he
          rcases he with rfl | rfl | he
          · rfl
          · rfl
          · exact h2 e he
      · obtain ⟨evs, h1, h2⟩ := ih newPlanes
          { s.emit (Event.getRestToRender img s.roi) with
              out := PlaneMap.insertNew env.compLess (s.emit (Event.getRestToRender img s.roi)).out
                k img }
        refine ⟨Event.getRestToRender img s.roi :: evs, ?_, ?_⟩
        · rw [h1]
          simp [St.emit]
        · intro e he
          simp only [List.mem_cons] at he
          rcases he with rfl | he
          · rfl
          · exact h2 e he
    · exact ih _ s

/-- What `dropIfByPass` does to a hit: lines 907-912. -/
theorem dropIfByPass_hit {σ : Type} (env : Env σ) (found : Option Image × St σ) (img : Image)
    (h : found.1 = some img) :
    dropIfByPass env found
      = if found.2.byPassCache = true then
          (none, { found.2 with
                     ext := env.removeFromNodeCacheByHash found.2.key found.2.ext,
                     trace := found.2.trace ++ [Event.removeFromNodeCacheByHash found.2.key] })
        else found := by
  unfold dropIfByPass
  cases hb : found.2.byPassCache <;> simp [hb, h]

/-- The look-ups of one plane leave `byPassCache` as it is. -/
theorem lookupPlane_byPassCache {σ : Type} (env : Env σ) (self : NodeId)
    (args : RenderRoIArgs) (plane : ImageComponents) (s : St σ) :
    (lookupPlane env self args plane s).2.byPassCache = s.byPassCache
      ∧ (lookupPlane env self args plane s).2.key = s.key
      ∧ (lookupPlane env self args plane s).2.roi = s.roi := by
  obtain ⟨e, t, p, o, h⟩ := lookupPlane_frame env self args plane s
  rw [h]
  exact ⟨rfl, rfl, rfl⟩

/-- C7, amended. One round of the look-up loop, for the requested plane `plane`, in any state
`s` of the loop. A plane for which no components are found in `outputComponents` is skipped
without a look-up. Otherwise nothing is looked up when the effect is a writer and the render is
sequential; in draft mode (the node uses draft mode and the frame is rendered in draft) the
cache is looked up with the non-draft key first, and with the key of the request (the draft
key) second only when the first look-up misses; outside draft mode there is exactly one
look-up; and these are the only look-ups of the round. The image that the look-ups found (the
non-draft image when the first look-up hits) is the one used: when the request does not bypass
the cache, it becomes the image of the plane at both scales in the planes to render if no plane
was missing so far, and if a plane was missing it goes to `*outputPlanes` when nothing of it is
left to render over the region of interest and is removed from the node cache otherwise; when
the request bypasses the cache, the hit is removed from the cache by the hash of the key of the
request and the round goes on as for a miss, the plane entering the planes to render without an
image. The two keys made at lines 829-844 differ by the draft flag only, which is off in the
non-draft key. -/
theorem lookupStep_draft_preference {σ : Type} (env : Env σ) (self : NodeId)
    (args : RenderRoIArgs) (plane : ImageComponents) (missingPlane : Bool) (s : St σ) :
    (findComponents plane s.outputComponents = none →
        lookupStep env self args plane missingPlane s = (missingPlane, s))
      ∧ (findComponents plane s.outputComponents ≠ none →
          lookupPlane env self args plane s
            = (if env.isWriter self = true ∧ s.frameArgs.isSequentialRender = true then (none, s)
               else if s.draftModeSupported = true ∧ s.frameArgs.draftMode = true then
                 if (cacheLookupOnce env self args s.nonDraftKey plane s).1.isSome = true then
                   cacheLookupOnce env self args s.nonDraftKey plane s
                 else
                   cacheLookupOnce env self args s.key plane
                     (cacheLookupOnce env self args s.nonDraftKey plane s).2
               else cacheLookupOnce env self args s.nonDraftKey plane s)
          ∧ (lookupPlane env self args plane s).2.trace
            = s.trace ++
              (if env.isWriter self = true ∧ s.frameArgs.isSequentialRender = true then []
               else if s.draftModeSupported = true ∧ s.frameArgs.draftMode = true then
                 if (cacheLookupOnce env self args s.nonDraftKey plane s).1.isSome = true then
                   [Event.getImageFromCacheAndConvertIfNeeded s.nonDraftKey plane
                     (cacheLookupOnce env self args s.nonDraftKey plane s).1]
                 else
                   [Event.getImageFromCacheAndConvertIfNeeded s.nonDraftKey plane none,
                    Event.getImageFromCacheAndConvertIfNeeded s.key plane
                      (cacheLookupOnce env self args s.key plane
                        (cacheLookupOnce env self args s.nonDraftKey plane s).2).1]
               else
                 [Event.getImageFromCacheAndConvertIfNeeded s.nonDraftKey plane
                   (cacheLookupOnce env self args s.nonDraftKey plane s).1])
          ∧ (∃ evs, (lookupStep env self args plane missingPlane s).2.trace
                = (lookupPlane env self args plane s).2.trace ++ evs
              ∧ ∀ e ∈ evs, e.isCacheLookup = false)
          ∧ ∀ img, (lookupPlane env self args plane s).1 = some img →
              (s.byPassCache = false → missingPlane = false →
                lookupStep env self args plane missingPlane s
                  = (false, insertPlane env plane (some img)
                      (lookupPlane env self args plane s).2))
              ∧ (s.byPassCache = false → missingPlane = true →
                  lookupStep env self args plane missingPlane s
                    = if (env.getRestToRender img s.roi
                          (lookupPlane env self args plane s).2.ext).isEmpty = true then
                        (true,
                         { (lookupPlane env self args plane s).2 with
                             out := PlaneMap.insertNew env.compLess
                               (lookupPlane env self args plane s).2.out plane img
                             trace := (lookupPlane env self args plane s).2.trace
                               ++ [Event.getRestToRender img s.roi] })
                      else
                        (true,
                         insertPlane env plane none
                          { (lookupPlane env self args plane s).2 with
                              ext := env.removeFromNodeCache (some img)
                                (lookupPlane env self args plane s).2.ext
                              trace := (lookupPlane env self args plane s).2.trace
                                ++ [Event.getRestToRender img s.roi,
                                    Event.removeFromNodeCache (some img)] }))
              ∧ (s.byPassCache = true →
                  dropIfByPass env (lookupPlane env self args plane s)
                      = (none,
                         { (lookupPlane env self args plane s).2 with
                             ext := env.removeFromNodeCacheByHash s.key
                               (lookupPlane env self args plane s).2.ext
                             trace := (lookupPlane env self args plane s).2.trace
                               ++ [Event.removeFromNodeCacheByHash s.key] })
                    ∧ ∃ s2, lookupStep env self args plane missingPlane s
                        = (true, insertPlane env plane none s2)))
      ∧ (prepareLookup env self args s).Post
          (fun s' => s'.draftModeSupported = env.isDraftModeUsed self
            ∧ s'.frameArgs = s.frameArgs
            ∧ s'.key.draftMode = (env.isDraftModeUsed self && s.frameArgs.draftMode)
            ∧ s'.nonDraftKey = { s'.key with draftMode := false })
          (fun _ => False) := by
  have hlook : lookupPlane env self args plane s
      = (if env.isWriter self = true ∧ s.frameArgs.isSequentialRender = true then (none, s)
         else if s.draftModeSupported = true ∧ s.frameArgs.draftMode = true then
           if (cacheLookupOnce env self args s.nonDraftKey plane s).1.isSome = true then
             cacheLookupOnce env self args s.nonDraftKey plane s
           else
             cacheLookupOnce env self args s.key plane
               (cacheLookupOnce env self args s.nonDraftKey plane s).2
         else cacheLookupOnce env self args s.nonDraftKey plane s) := by
    have h2 : cacheLookups env self args plane 2 0 s
        = if (cacheLookupOnce env self args s.nonDraftKey plane s).1.isSome = true then
            cacheLookupOnce env self args s.nonDraftKey plane s
          else
            cacheLookupOnce env self args s.key plane
              (cacheLookupOnce env self args s.nonDraftKey plane s).2 := by
      simp only [cacheLookups, lookupKey, if_true]
      split
      · rfl
      · exact cacheLookups_one env self args plane 1 _
    unfold lookupPlane
    by_cases hw : env.isWriter self = true ∧ s.frameArgs.isSequentialRender = true
    · simp [hw]
    · have hw' : (!env.isWriter self || !s.frameArgs.isSequentialRender) = true := by
        cases h1 : env.isWriter self <;> cases h2 : s.frameArgs.isSequentialRender <;>
          simp_all
      by_cases hd : s.draftModeSupported = true ∧ s.frameArgs.draftMode = true
      · simp only [hw', hw, hd, if_true, if_false, Bool.and_self]
        exact h2
      · have hd' : (s.draftModeSupported && s.frameArgs.draftMode) = false := by
          cases h1 : s.draftModeSupported <;> cases h2 : s.frameArgs.draftMode <;> simp_all
        simp only [hw', hw, hd, hd', if_true, if_false]
        exact cacheLookups_one env self args plane 0 s
  refine ⟨?_, ?_, ?_⟩
  · intro h
    simp [lookupStep, h]
  · intro hcomp
    obtain ⟨c, hc⟩ := Option.ne_none_iff_exists'.1 hcomp
    obtain ⟨hbp, hkey, hroi⟩ := lookupPlane_byPassCache env self args plane s
    refine ⟨hlook, ?_, ?_, ?_⟩
    · rw [hlook]
      by_cases hw : env.isWriter self = true ∧ s.frameArgs.isSequentialRender = true
      · simp [hw]
      · by_cases hd : s.draftModeSupported = true ∧ s.frameArgs.draftMode = true
        · simp only [hw, hd, if_true, if_false, and_self]
          split
          · simp [cacheLookupOnce]
          · rename_i hmiss
            have hnone : (env.getImageFromCacheAndConvertIfNeeded self s.createInCache s.storage
                args.returnStorage s.nonDraftKey s.renderMappedMipMapLevel
                (if s.renderFullScaleThenDownscale then s.upscaledImageBoundsNc
                 else s.downscaledImageBoundsNc)
                s.rod s.roi args.bitdepth plane args.inputImagesList s.ext).1 = none := by
              simpa [cacheLookupOnce] using hmiss
            simp [cacheLookupOnce, hnone]
        · simp only [hw, hd, if_false]
          simp [cacheLookupOnce]
    · unfold lookupStep
      rw [hc]
      dsimp only
      have hdrop : ∃ evs0, (dropIfByPass env (lookupPlane env self args plane s)).2.trace
          = (lookupPlane env self args plane s).2.trace ++ evs0
            ∧ ∀ e ∈ evs0, e.isCacheLookup = false := by
        unfold dropIfByPass
        split
        · exact ⟨[Event.removeFromNodeCacheByHash _], rfl, by simp [Event.isCacheLookup]⟩
        · exact ⟨[], by simp, by simp⟩
      obtain ⟨evs0, h0, hq0⟩ := hdrop
      generalize dropIfByPass env (lookupPlane env self args plane s) = found at h0 ⊢
      split
      · rename_i img himg
        split
        · split
          · refine ⟨evs0 ++ [Event.getRestToRender img found.2.roi,
              Event.removeFromNodeCache (some img)], ?_, ?_⟩
            · simp [insertPlane, h0]
            · intro e he
              simp only [List.mem_append, List.mem_cons, List.mem_singleton,
                List.not_mem_nil, or_false] at he
              rcases he with he | rfl | rfl
              · exact hq0 e he
              · rfl
              · rfl
          · refine ⟨evs0 ++ [Event.getRestToRender img found.2.roi], ?_, ?_⟩
            · simp [h0]
            · intro e he
              simp only [List.mem_append, List.mem_singleton] at he
              rcases he with he | rfl
              · exact hq0 e he
              · rfl
        · exact ⟨evs0, by simp [insertPlane, h0], hq0⟩
      · split
        · obtain ⟨evs1, h1, hq1⟩ := recheckPlanes_noLookup env found.2.planes [] found.2
          refine ⟨evs0 ++ evs1, ?_, ?_⟩
          · simp [insertPlane, h1, h0]
          · intro e he
            rcases List.mem_append.1 he with he | he
            · exact hq0 e he
            · exact hq1 e he
        · exact ⟨evs0, by simp [insertPlane, h0], hq0⟩
    · intro img himg
      have hd := dropIfByPass_hit env (lookupPlane env self args plane s) img himg
      rw [hbp, hkey] at hd
      refine ⟨?_, ?_, ?_⟩
      · intro hno hm
        rw [hno] at hd
        simp only [Bool.false_eq_true, if_false] at hd
        unfold lookupStep
        rw [hc]
        dsimp only
        rw [hd, himg, hm]
        simp
      · intro hno hm
        rw [hno] at hd
        simp only [Bool.false_eq_true, if_false] at hd
        unfold lookupStep
        rw [hc]
        dsimp only
        rw [hd, himg, hm, hroi]
        simp only [if_true]
        by_cases hrest : (env.getRestToRender img s.roi
            (lookupPlane env self args plane s).2.ext).isEmpty = true
        · simp [hrest]
        · simp [hrest]
      · intro hyes
        rw [hyes] at hd
        simp only [if_true] at hd
        refine ⟨hd, ?_⟩
        unfold lookupStep
        rw [hc]
        dsimp only
        rw [hd]
        dsimp only
        by_cases hm : missingPlane = true
        · subst hm
          exact ⟨_, rfl⟩
        · have hm' : missingPlane = false := by simpa using hm
          subst hm'
          exact ⟨_, rfl⟩
  · simp [prepareLookup, Flow.Post]

set_option maxRecDepth 100000 in
/-- The round of the plane RGBA on the scene `draftEnv`, where the cache holds an image for the
non-draft key (at address 7) and one for the draft key (at address 8): one look-up is made, with
the non-draft key, and the plane gets the image at address 7. -/
theorem lookupStep_draft_scene :
    atLookup draftEnv (renderRoI draftEnv 2) 1 sceneArgs [] 100 = .next draftState
      ∧ (draftState.draftModeSupported && draftState.frameArgs.draftMode) = true
      ∧ (lookupStep draftEnv 1 sceneArgs rgba false draftState).2.trace
          = draftState.trace
            ++ [Event.getImageFromCacheAndConvertIfNeeded draftState.nonDraftKey rgba
                  (some ⟨7, rgba, .eImageBitDepthFloat, .eStorageModeRAM, 0⟩)]
      ∧ (lookupStep draftEnv 1 sceneArgs rgba false draftState).2.planes.map
            (fun kp => (kp.1, kp.2.fullscaleImage.map (fun i => i.ptr)))
          = [(rgba, some 7)] :=
  ⟨by rfl, by rfl, by rfl, by rfl⟩

set_option maxRecDepth 100000 in
/-- C14, a defect of the code. Of the three ways the region of definition is obtained, two are
guarded against a null region: a null pre-computed region is not used (line 312), and a null
region answered by `getRegionOfDefinition` makes `renderRoI` return at once (lines 324-330,
scene `nullHookEnv`: `eRenderRoIRetCodeOk`, nothing in `*outputPlanes`, no other event than the
query). The region taken from the pre-pass data (lines 316-318) is not checked: whatever it is,
null or not, the call goes on with it; and on the scene `nullRoDEnv`, where the pre-pass data
hold a null region of definition and the effect does not support tiles, `renderRoI` negotiates
the planes, looks the plane up in the cache, allocates it, renders a null rectangle and returns
the plane in `*outputPlanes`. -/
theorem prepass_null_rod_unchecked :
    (nullRoDEnv.getFrameViewRequest 0 10 0).map (fun d => d.rod.isNull) = some true
      ∧ (renderRoI nullRoDEnv 2 1 sceneArgs [] 100).map
          (fun r => (r.outcome, r.planes.map Prod.fst, r.trace.take 3,
            r.trace.countP Event.isAllocation, r.trace.countP Event.isDispatch))
        = some (.returned .eRenderRoIRetCodeOk, [rgba],
            [Event.getComponentsNeededAndProduced, Event.getComponentsAvailable,
             Event.getImageFromCacheAndConvertIfNeeded ⟨1, 7, false, 10, 0, false, false⟩ rgba none],
            1, 4)
      ∧ renderRoI nullHookEnv 2 1 sceneArgs [] 100
        = some ⟨.returned .eRenderRoIRetCodeOk, [], [Event.getRegionOfDefinition 1 10 0], 101⟩
      ∧ ∀ (σ : Type) (env : Env σ) (self : NodeId) (args : RenderRoIArgs) (s : St σ)
          (d : FrameViewRequest),
          args.preComputedRoD.isNull = true → s.requestPassData = some d →
          getRoD env self args s
            = .next { s with rod := d.rod, isProjectFormat := d.isProjectFormat } := by
  refine ⟨by decide, by decide!, by decide!, ?_⟩
  intro σ env self args s d hpre hdata
  unfold getRoD
  simp [hpre, hdata]

set_option maxRecDepth 100000 in
/-- C17, a defect of the code. The `isIdentity` hook is called under a `try` block in the
whole-region identity check (lines 500-513): on the scene `raisingEnv`, where the hook throws
there, `renderRoI` returns `eRenderRoIRetCodeFailed`. The calls of the same hook in
`optimizeRectsToRender` (lines 118 and 132) are not under a `try` block: on the scene
`raisingTileEnv`, where the identity optimisation of the rectangles to render is run and the
hook throws when it is asked about the first sub-rectangle, no return code is produced: the
exception leaves `renderRoI`, the last event of the call being the query that threw. -/
theorem isIdentity_exception_escapes :
    (renderRoI raisingEnv 2 1 sceneArgs [] 100).map (fun r => (r.outcome, r.trace.getLast?))
        = some (.returned .eRenderRoIRetCodeFailed, some (Event.isIdentity 1 ⟨0, 0, 8, 8⟩ 10 0))
      ∧ (renderRoI raisingTileEnv 2 1 sceneArgs [] 100).map
          (fun r => (r.outcome, r.trace.getLast?))
        = some (.raised, some (Event.isIdentity 1 ⟨0, 0, 4, 4⟩ 10 0)) := by
  decide!

set_option maxRecDepth 100000 in
/-- C13, the claim as worded does not hold: on the scene `unsupportedEnv` the planes RGB and
RGBA are requested, in this order. No entry of the components-available map equals RGB and no
entry is a supported colour plane, so RGB is dropped by the negotiation, which keeps RGBA alone
to render. The call returns `eRenderRoIRetCodeOk` and `*outputPlanes` holds one image, under the
key RGB and with the components RGB: the dropped plane has an output image, because the colour
plane rendered is returned in the format of the first colour plane of the request (lines
1785-1796). Without RGB in the request the image returned is the RGBA one, under the key
RGBA. -/
theorem dropped_plane_counterexample :
    rgbFirstArgs.components = [rgb, rgba]
      ∧ (∀ ext, ∀ e ∈ (unsupportedEnv.getComponentsAvailable 1 10 ext).1,
          e.1 ≠ rgb ∧ (rgb.isColorPlane = true → e.1.isColorPlane = true →
            unsupportedEnv.isSupportedComponent 1 e.1 = false))
      ∧ (∀ ext, negotiatePlanes unsupportedEnv 1
          (unsupportedEnv.getComponentsAvailable 1 10 ext).1 [rgb, rgba] = ([rgba], []))
      ∧ (renderRoI unsupportedEnv 2 1 rgbFirstArgs [] 100).map
          (fun r => (r.outcome, r.planes.map (fun kp => (kp.1, kp.2.components))))
        = some (.returned .eRenderRoIRetCodeOk, [(rgb, rgb)])
      ∧ (renderRoI unsupportedEnv 2 1 sceneArgs [] 100).map
          (fun r => (r.outcome, r.planes.map (fun kp => (kp.1, kp.2.components))))
        = some (.returned .eRenderRoIRetCodeOk, [(rgba, rgba)]) := by
  refine ⟨rfl, ?_, ?_, by decide!, by decide!⟩
  · intro ext e he
    simp only [unsupportedEnv, sceneEnv, List.mem_singleton] at he
    subst he
    exact ⟨by decide, fun _ _ => rfl⟩
  · intro ext
    rfl

/-! ## The look-up loop, round by round -/

theorem lookupLoop_eq_rounds {σ : Type} (env : Env σ) (self : NodeId) (args : RenderRoIArgs)
    (l : List ImageComponents) (missingPlane : Bool) (s : St σ) :
    lookupLoop env self args l missingPlane s
      = (lookupRounds env self args l (missingPlane, s)).2 := by
  induction l generalizing missingPlane s with
  | nil => rfl
  | cons plane rest ih =>
    simp only [lookupLoop, lookupRounds]
    exact ih _ _

theorem lookupRounds_append {σ : Type} (env : Env σ) (self : NodeId) (args : RenderRoIArgs)
    (pre post : List ImageComponents) (ms : Bool × St σ) :
    lookupRounds env self args (pre ++ post) ms
      = lookupRounds env self args post (lookupRounds env self args pre ms) := by
  induction pre generalizing ms with
  | nil => rfl
  | cons plane rest ih =>
    simp only [List.cons_append, lookupRounds]
    exact ih _

/-- The state that the scan of lines 931-946 leaves does not depend on the planes it has
collected. -/
theorem recheckPlanes_state {σ : Type} (env : Env σ)
    (l : List (ImageComponents × PlaneToRender)) (newPlanes newPlanes' : PlaneMap PlaneToRender)
    (s : St σ) :
    (recheckPlanes env l newPlanes s).2 = (recheckPlanes env l newPlanes' s).2 := by
  induction l generalizing newPlanes newPlanes' s with
  | nil => rfl
  | cons kp rest ih =>
    obtain ⟨k, plane⟩ := kp
    simp only [recheckPlanes]
    split
    · split
      · exact ih _ _ _
      · exact ih _ _ _
    · exact ih _ _ _

theorem recheckPlanes_append {σ : Type} (env : Env σ)
    (pre post : List (ImageComponents × PlaneToRender)) (newPlanes : PlaneMap PlaneToRender)
    (s : St σ) :
    recheckPlanes env (pre ++ post) newPlanes s
      = recheckPlanes env post (recheckPlanes env pre newPlanes s).1
          (recheckPlanes env pre newPlanes s).2 := by
  induction pre generalizing newPlanes s with
  | nil => rfl
  | cons kp rest ih =>
    obtain ⟨k, plane⟩ := kp
    simp only [List.cons_append, recheckPlanes]
    split
    · split
      · exact ih _ _
      · exact ih _ _
    · exact ih _ _

theorem recheckPlanes_roi {σ : Type} (env : Env σ)
    (l : List (ImageComponents × PlaneToRender)) (newPlanes : PlaneMap PlaneToRender)
    (s : St σ) : (recheckPlanes env l newPlanes s).2.roi = s.roi := by
  obtain ⟨e, t, p, o, h⟩ := recheckPlanes_frame env l newPlanes s
  rw [h]

/-- A plane that the scan of lines 931-946 puts in `*outputPlanes` holds an image of which
nothing was left to render when the scan came to it. -/
theorem recheckPlanes_moved {σ : Type} (env : Env σ)
    (l : List (ImageComponents × PlaneToRender)) (newPlanes : PlaneMap PlaneToRender)
    (s : St σ) (kp : ImageComponents × Image)
    (h : kp ∈ (recheckPlanes env l newPlanes s).2.out) :
    kp ∈ s.out
      ∨ ∃ pre p post, l = pre ++ (kp.1, p) :: post ∧ p.fullscaleImage = some kp.2
          ∧ (env.getRestToRender kp.2 s.roi (recheckPlanes env pre [] s).2.ext).isEmpty = true := by
  induction l generalizing newPlanes s with
  | nil => exact Or.inl h
  | cons hd rest ih =>
    obtain ⟨k, plane⟩ := hd
    simp only [recheckPlanes] at h
    split at h
    · rename_i img himg
      split at h
      · rename_i hrest
        rcases ih _ _ h with h1 | ⟨pre, p, post, hl, hp, he⟩
        · exact Or.inl h1
        · refine Or.inr ⟨(k, plane) :: pre, p, post, by rw [hl]; rfl, hp, ?_⟩
          simp only [recheckPlanes, himg]
          rw [if_pos hrest]
          rw [recheckPlanes_state env pre _ []]
          exact he
      · rename_i hrest
        rcases ih _ _ h with h1 | ⟨pre, p, post, hl, hp, he⟩
        · rcases insertNew_mem _ _ _ _ kp h1 with h2 | h2
          · exact Or.inl h2
          · subst h2
            refine Or.inr ⟨[], plane, rest, rfl, himg, ?_⟩
            simpa [recheckPlanes] using hrest
        · refine Or.inr ⟨(k, plane) :: pre, p, post, by rw [hl]; rfl, hp, ?_⟩
          simp only [recheckPlanes, himg]
          rw [if_neg hrest]
          rw [recheckPlanes_state env pre _ []]
          exact he
    · rename_i himg
      rcases ih _ _ h with h1 | ⟨pre, p, post, hl, hp, he⟩
      · exact Or.inl h1
      · refine Or.inr ⟨(k, plane) :: pre, p, post, by rw [hl]; rfl, hp, ?_⟩
        simp only [recheckPlanes]
        split
        · rename_i img' himg'
          rw [himg'] at himg
          cases himg
        · rw [recheckPlanes_state env pre _ []]
          exact he

theorem St.ExtFrame.refl_ext {σ : Type} (s : St σ) : s.ExtFrame s := ⟨s.ext, s.trace, rfl⟩

theorem St.ExtFrame.trans_ext {σ : Type} {s s1 s2 : St σ} (h1 : s.ExtFrame s1)
    (h2 : s1.ExtFrame s2) : s.ExtFrame s2 := by
  obtain ⟨e1, t1, rfl⟩ := h1
  obtain ⟨e2, t2, rfl⟩ := h2
  exact ⟨e2, t2, rfl⟩

theorem cacheLookups_ext {σ : Type} (env : Env σ) (self : NodeId) (args : RenderRoIArgs)
    (plane : ImageComponents) (remaining n : Nat) (s : St σ) :
    s.ExtFrame (cacheLookups env self args plane remaining n s).2 := by
  induction remaining generalizing n s with
  | zero => exact St.ExtFrame.refl_ext s
  | succ r ih =>
    simp only [cacheLookups]
    split
    · exact ⟨_, _, rfl⟩
    · exact St.ExtFrame.trans_ext ⟨_, _, rfl⟩ (ih _ _)

/-- The look-ups of a plane, and the removal of what they found when the cache is bypassed,
change the external state and the trace only. -/
theorem found_ext {σ : Type} (env : Env σ) (self : NodeId) (args : RenderRoIArgs)
    (plane : ImageComponents) (s : St σ) :
    s.ExtFrame (dropIfByPass env (lookupPlane env self args plane s)).2 := by
  have h1 : s.ExtFrame (lookupPlane env self args plane s).2 := by
    unfold lookupPlane
    dsimp only
    split
    · exact cacheLookups_ext env self args plane _ _ s
    · exact St.ExtFrame.refl_ext s
  refine St.ExtFrame.trans_ext h1 ?_
  unfold dropIfByPass
  split
  · exact ⟨_, _, rfl⟩
  · exact St.ExtFrame.refl_ext _

/-- An image that the scan of lines 931-946 finds with something left to render is removed
from the node cache. -/
theorem recheckPlanes_removed {σ : Type} (env : Env σ)
    (pre post : List (ImageComponents × PlaneToRender)) (k : ImageComponents)
    (p : PlaneToRender) (img : Image) (newPlanes : PlaneMap PlaneToRender) (s : St σ)
    (hp : p.fullscaleImage = some img)
    (hrest : (env.getRestToRender img s.roi (recheckPlanes env pre [] s).2.ext).isEmpty = false) :
    Event.removeFromNodeCache (some img)
      ∈ (recheckPlanes env (pre ++ (k, p) :: post) newPlanes s).2.trace := by
  rw [recheckPlanes_append]
  have hst := recheckPlanes_state env pre newPlanes [] s
  have hroi := recheckPlanes_roi env pre newPlanes s
  generalize (recheckPlanes env pre newPlanes s).1 = np1
  rw [hst]
  rw [hst] at hroi
  generalize (recheckPlanes env pre [] s).2 = sm at hrest hroi ⊢
  simp only [recheckPlanes, hp]
  rw [hroi, hrest]
  simp only [Bool.not_false, if_true]
  obtain ⟨evs, h1, -⟩ := recheckPlanes_noLookup env post
    (PlaneMap.insertNew env.compLess np1 k
      { p with fullscaleImage := none, downscaleImage := none })
    { sm.emit (Event.getRestToRender img s.roi) with
        ext := env.removeFromNodeCache (some img) (sm.emit (Event.getRestToRender img s.roi)).ext
        trace := (sm.emit (Event.getRestToRender img s.roi)).trace
          ++ [Event.removeFromNodeCache (some img)] }
  rw [h1]
  simp

/-- One round of the look-up loop lets the trace grow. -/
theorem lookupStep_trace {σ : Type} (env : Env σ) (self : NodeId) (args : RenderRoIArgs)
    (plane : ImageComponents) (missingPlane : Bool) (s : St σ) (ev : Event)
    (h : ev ∈ s.trace) : ev ∈ (lookupStep env self args plane missingPlane s).2.trace := by
  obtain ⟨evs, h1, -⟩ := (lookupStep_step env self args plane missingPlane s).emits
  rw [h1]
  exact List.mem_append_left _ h

theorem lookupRounds_trace {σ : Type} (env : Env σ) (self : NodeId) (args : RenderRoIArgs)
    (l : List ImageComponents) (ms : Bool × St σ) (ev : Event) (h : ev ∈ ms.2.trace) :
    ev ∈ (lookupRounds env self args l ms).2.trace := by
  induction l generalizing ms with
  | nil => exact h
  | cons plane rest ih =>
    simp only [lookupRounds]
    exact ih _ (lookupStep_trace env self args plane ms.1 ms.2 ev h)

theorem lookupRounds_roi {σ : Type} (env : Env σ) (self : NodeId) (args : RenderRoIArgs)
    (l : List ImageComponents) (ms : Bool × St σ) :
    (lookupRounds env self args l ms).2.roi = ms.2.roi := by
  induction l generalizing ms with
  | nil => rfl
  | cons plane rest ih =>
    simp only [lookupRounds]
    rw [ih]
    obtain ⟨e, t, p, o, h⟩ := lookupStep_frame env self args plane ms.1 ms.2
    rw [h]

/-- A plane that one round of the look-up loop puts in `*outputPlanes`. -/
theorem lookupStep_moved {σ : Type} (env : Env σ) (self : NodeId) (args : RenderRoIArgs)
    (plane : ImageComponents) (ms : Bool × St σ) (kp : ImageComponents × Image)
    (h : kp ∈ (lookupStep env self args plane ms.1 ms.2).2.out) :
    kp ∈ ms.2.out ∨ MovedInRound env self args plane ms kp := by
  obtain ⟨m, s⟩ := ms
  dsimp only at h ⊢
  obtain ⟨e, t, hf⟩ := found_ext env self args plane s
  unfold lookupStep at h
  unfold MovedInRound
  dsimp only at h ⊢
  split at h
  · exact Or.inl h
  · rename_i c hc
    rw [hc]
    simp only [Option.isSome_some, true_and]
    split at h
    · rename_i img himg
      split at h
      · rename_i hm
        split at h
        · rw [hf] at h
          exact Or.inl h
        · rename_i hrest
          rcases insertNew_mem _ _ _ _ kp h with h1 | h1
          · rw [hf] at h1
            exact Or.inl h1
          · subst h1
            refine Or.inr (Or.inl ⟨hm, rfl, himg, ?_⟩)
            have hroi : (dropIfByPass env (lookupPlane env self args plane s)).2.roi = s.roi := by
              rw [hf]
            rw [← hroi]
            simpa using hrest
      · rw [hf] at h
        exact Or.inl h
    · rename_i himg
      split at h
      · rename_i hm
        have hm' : m = false := by simpa using hm
        simp only [insertPlane] at h
        rcases recheckPlanes_moved env _ [] _ kp h with h1 | ⟨pre, p, post, hl, hp, he⟩
        · rw [hf] at h1
          exact Or.inl h1
        · refine Or.inr (Or.inr ⟨hm', himg, pre, p, post, ?_, hp, ?_⟩)
          · rw [← hl, hf]
          · have hroi : (dropIfByPass env (lookupPlane env self args plane s)).2.roi = s.roi := by
              rw [hf]
            rw [← hroi]
            exact he
      · rw [hf] at h
        exact Or.inl h

/-- The flag `missingPlane`, once set, stays set. -/
theorem lookupStep_flag {σ : Type} (env : Env σ) (self : NodeId) (args : RenderRoIArgs)
    (plane : ImageComponents) (s : St σ) :
    (lookupStep env self args plane true s).1 = true := by
  unfold lookupStep
  dsimp only
  repeat' split
  all_goals rfl

theorem lookupRounds_flag {σ : Type} (env : Env σ) (self : NodeId) (args : RenderRoIArgs)
    (l : List ImageComponents) (s : St σ) :
    (lookupRounds env self args l (true, s)).1 = true := by
  induction l generalizing s with
  | nil => rfl
  | cons plane rest ih =>
    simp only [lookupRounds]
    have h := lookupStep_flag env self args plane s
    generalize lookupStep env self args plane true s = r at h
    obtain ⟨m, s1⟩ := r
    cases h
    exact ih s1

/-- As long as no plane is missing every plane of the planes to render holds an image, and once
a plane is missing none does. -/
theorem lookupRounds_inv {σ : Type} (env : Env σ) (self : NodeId) (args : RenderRoIArgs)
    (l : List ImageComponents) (ms : Bool × St σ)
    (hinv : if ms.1 = true then ∀ kp ∈ ms.2.planes, kp.2.fullscaleImage = none
      else ∀ kp ∈ ms.2.planes, kp.2.fullscaleImage.isSome = true) :
    if (lookupRounds env self args l ms).1 = true then
      ∀ kp ∈ (lookupRounds env self args l ms).2.planes, kp.2.fullscaleImage = none
    else ∀ kp ∈ (lookupRounds env self args l ms).2.planes, kp.2.fullscaleImage.isSome = true := by
  induction l generalizing ms with
  | nil => exact hinv
  | cons plane rest ih =>
    simp only [lookupRounds]
    exact ih _ (lookupStep_rel env self args plane ms.1 ms.2 hinv).2

/-- A plane that the look-up loop puts in `*outputPlanes` is put there in one of its rounds. -/
theorem lookupRounds_moved {σ : Type} (env : Env σ) (self : NodeId) (args : RenderRoIArgs)
    (l : List ImageComponents) (ms : Bool × St σ) (kp : ImageComponents × Image)
    (h : kp ∈ (lookupRounds env self args l ms).2.out) :
    kp ∈ ms.2.out
      ∨ ∃ pre plane post, l = pre ++ plane :: post
          ∧ MovedInRound env self args plane (lookupRounds env self args pre ms) kp := by
  induction l generalizing ms with
  | nil => exact Or.inl h
  | cons plane rest ih =>
    simp only [lookupRounds] at h
    rcases ih _ h with h1 | ⟨pre, plane', post, hl, hmoved⟩
    · rcases lookupStep_moved env self args plane ms kp h1 with h2 | h2
      · exact Or.inl h2
      · exact Or.inr ⟨[], plane, rest, rfl, h2⟩
    · exact Or.inr ⟨plane :: pre, plane', post, by rw [hl]; rfl, hmoved⟩

/-- When the removal of an image from the node cache does not change what `getRestToRender`
answers, the scan of lines 931-946 does not change it either. -/
theorem recheckPlanes_stable {σ : Type} (env : Env σ)
    (hstable : ∀ img0 img roi e,
      env.getRestToRender img roi (env.removeFromNodeCache img0 e) = env.getRestToRender img roi e)
    (l : List (ImageComponents × PlaneToRender)) (newPlanes : PlaneMap PlaneToRender)
    (s : St σ) (img : Image) (roi : RectI) :
    env.getRestToRender img roi (recheckPlanes env l newPlanes s).2.ext
      = env.getRestToRender img roi s.ext := by
  induction l generalizing newPlanes s with
  | nil => rfl
  | cons hd rest ih =>
    obtain ⟨k, plane⟩ := hd
    simp only [recheckPlanes]
    split
    · split
      · rw [ih]
        exact hstable _ _ _ _
      · rw [ih]
        rfl
    · exact ih _ _

/-- C20 (all-or-nothing cache state). The call has reached the cache look-up in the state `s`.
The look-up loop over the planes to produce locally goes to its end, in the state `final`: the
state after the rounds of the planes of `requestedComponents`, started with no plane missing.
After it, either every plane of the planes to render holds an image found in the cache, or none
does, and none does when a plane was found missing. A plane of `*outputPlanes` that was not
there before the loop was put there in the round of one of the requested planes, at line 922 or
at line 941, with an image of which `getRestToRender` answered, in the external state of that
very moment, that nothing is left to render over the region of interest (`MovedInRound`). And
in the round that finds a plane missing for the first time, every plane of the planes to render
holds an image found in the cache, and each such image of which `getRestToRender` answers that
something is left to render over the region of interest, when the scan of lines 931-946 comes
to it (in the state of the miss, after the scan of the planes that come before it), is removed
from the node cache; so is, in a later round, an image found in the cache of which something is
left to render right after its look-up. The state in which the scan comes to a plane differs
from the state of the miss by the removals of the planes scanned before it, and
`getRestToRender` answers the same in both whenever the removal of an image from the node
cache does not change its answers. -/
theorem cacheLookup_all_or_nothing {σ : Type} (env : Env σ) (recCall : RecCall σ)
    (self : NodeId) (args : RenderRoIArgs) (outputPlanes : PlaneMap Image) (ext : σ) (s : St σ)
    (hs : atLookup env recCall self args outputPlanes ext = .next s) :
    ∃ final, cacheLookup env self args s = .next final
      ∧ final = (lookupRounds env self args s.requestedComponents (false, s)).2
      ∧ AllOrNothing final.planes
      ∧ ((lookupRounds env self args s.requestedComponents (false, s)).1 = true →
          ∀ kp ∈ final.planes, kp.2.fullscaleImage = none)
      ∧ (∀ kp ∈ final.out, kp ∈ s.out
          ∨ ∃ pre plane post, s.requestedComponents = pre ++ plane :: post
              ∧ (lookupRounds env self args pre (false, s)).2.roi = s.roi
              ∧ MovedInRound env self args plane (lookupRounds env self args pre (false, s)) kp)
      ∧ (∀ pre plane post, s.requestedComponents = pre ++ plane :: post →
          (findComponents plane
            (lookupRounds env self args pre (false, s)).2.outputComponents).isSome = true →
          ((lookupRounds env self args pre (false, s)).1 = false →
            (dropIfByPass env (lookupPlane env self args plane
              (lookupRounds env self args pre (false, s)).2)).1 = none →
            (∀ kp ∈ (lookupRounds env self args pre (false, s)).2.planes,
              kp.2.fullscaleImage.isSome = true)
            ∧ (∀ kp ∈ final.planes, kp.2.fullscaleImage = none)
            ∧ ∀ pre' k p post' img,
                (lookupRounds env self args pre (false, s)).2.planes = pre' ++ (k, p) :: post' →
                p.fullscaleImage = some img →
                (env.getRestToRender img s.roi
                  (recheckPlanes env pre' []
                    (dropIfByPass env (lookupPlane env self args plane
                      (lookupRounds env self args pre (false, s)).2)).2).2.ext).isEmpty = false →
                Event.removeFromNodeCache (some img) ∈ final.trace)
          ∧ ((lookupRounds env self args pre (false, s)).1 = true →
              ∀ img,
                (dropIfByPass env (lookupPlane env self args plane
                  (lookupRounds env self args pre (false, s)).2)).1 = some img →
                (env.getRestToRender img s.roi
                  (dropIfByPass env (lookupPlane env self args plane
                    (lookupRounds env self args pre (false, s)).2)).2.ext).isEmpty = false →
                Event.removeFromNodeCache (some img) ∈ final.trace))
      ∧ ((∀ img0 img roi e,
            env.getRestToRender img roi (env.removeFromNodeCache img0 e)
              = env.getRestToRender img roi e) →
          ∀ l (s0 : St σ) img roi,
            env.getRestToRender img roi (recheckPlanes env l [] s0).2.ext
              = env.getRestToRender img roi s0.ext) := by
  have hstart := (atLookup_start env recCall self args outputPlanes ext).of_next hs
  have hinv0 : if (false, s).1 = true then ∀ kp ∈ (false, s).2.planes, kp.2.fullscaleImage = none
      else ∀ kp ∈ (false, s).2.planes, kp.2.fullscaleImage.isSome = true := by
    simp [hstart.1]
  have hfinal := lookupRounds_inv env self args s.requestedComponents (false, s) hinv0
  refine ⟨_, rfl, lookupLoop_eq_rounds env self args _ _ _, ?_, ?_, ?_, ?_, ?_⟩
  · rw [lookupLoop_eq_rounds]
    split at hfinal
    · exact Or.inr hfinal
    · exact Or.inl hfinal
  · intro hflag
    rw [lookupLoop_eq_rounds]
    rw [if_pos hflag] at hfinal
    exact hfinal
  · intro kp hkp
    rw [lookupLoop_eq_rounds] at hkp
    rcases lookupRounds_moved env self args _ _ kp hkp with h | ⟨pre, plane, post, hl, hm⟩
    · exact Or.inl h
    · exact Or.inr ⟨pre, plane, post, hl, lookupRounds_roi env self args pre (false, s), hm⟩
  · intro pre plane post hl hcomp
    have hpre := lookupRounds_inv env self args pre (false, s) hinv0
    have hroi := lookupRounds_roi env self args pre (false, s)
    have hdecomp : lookupLoop env self args s.requestedComponents false s
        = (lookupRounds env self args post
            (lookupStep env self args plane (lookupRounds env self args pre (false, s)).1
              (lookupRounds env self args pre (false, s)).2)).2 := by
      rw [lookupLoop_eq_rounds, hl, lookupRounds_append]
      rfl
    generalize lookupRounds env self args pre (false, s) = ms at hpre hroi hdecomp hcomp ⊢
    obtain ⟨m, s1⟩ := ms
    dsimp only at hpre hroi hdecomp hcomp ⊢
    obtain ⟨c, hc⟩ := Option.isSome_iff_exists.1 hcomp
    obtain ⟨e, t, hf⟩ := found_ext env self args plane s1
    have hfroi : (dropIfByPass env (lookupPlane env self args plane s1)).2.roi = s.roi := by
      rw [hf]
      exact hroi
    have hfplanes : (dropIfByPass env (lookupPlane env self args plane s1)).2.planes
        = s1.planes := by rw [hf]
    refine ⟨?_, ?_⟩
    · intro hm hnone
      subst hm
      simp only [Bool.false_eq_true, if_false] at hpre
      have hstep : lookupStep env self args plane false s1
          = (true, insertPlane env plane none
              { (recheckPlanes env
                    (dropIfByPass env (lookupPlane env self args plane s1)).2.planes []
                    (dropIfByPass env (lookupPlane env self args plane s1)).2).2 with
                  planes := (recheckPlanes env
                    (dropIfByPass env (lookupPlane env self args plane s1)).2.planes []
                    (dropIfByPass env (lookupPlane env self args plane s1)).2).1 }) := by
        unfold lookupStep
        rw [hc]
        dsimp only
        rw [hnone]
        rfl
      refine ⟨hpre, ?_, ?_⟩
      · rw [hdecomp, hstep]
        have hflag := lookupRounds_flag env self args post
          (insertPlane env plane none
            { (recheckPlanes env
                  (dropIfByPass env (lookupPlane env self args plane s1)).2.planes []
                  (dropIfByPass env (lookupPlane env self args plane s1)).2).2 with
                planes := (recheckPlanes env
                  (dropIfByPass env (lookupPlane env self args plane s1)).2.planes []
                  (dropIfByPass env (lookupPlane env self args plane s1)).2).1 })
        have hstepinv := (lookupStep_rel env self args plane false s1 (by simpa using hpre)).2
        rw [hstep] at hstepinv
        have h2 := lookupRounds_inv env self args post _ hstepinv
        rw [if_pos hflag] at h2
        exact h2
      · intro pre' k p post' img hplanes hp hrest
        rw [hdecomp]
        apply lookupRounds_trace
        rw [hstep]
        simp only [insertPlane]
        rw [hfplanes, hplanes]
        apply recheckPlanes_removed env pre' post' k p img [] _ hp
        rw [hfroi]
        exact hrest
    · intro hm img himg hrest
      subst hm
      rw [hdecomp]
      apply lookupRounds_trace
      unfold lookupStep
      rw [hc]
      dsimp only
      rw [himg]
      dsimp only
      rw [hfroi, hrest]
      simp [insertPlane]
  · intro hstable l s0 img roi
    exact recheckPlanes_stable env hstable l [] s0 img roi

set_option maxRecDepth 100000 in
/-- The look-up on the scene `staleHitEnv`: the image of RGBA, found in the cache and not
rendered over the region of interest, is removed from the cache in the round that finds the
motion vectors missing, and no plane holds an image after the loop. -/
theorem cacheLookup_all_or_nothing_witness :
    ∃ final, cacheLookup staleHitEnv 1 twoPlanesArgs staleHitState = .next final
      ∧ AllOrNothing final.planes
      ∧ (∀ kp ∈ final.planes, kp.2.fullscaleImage = none)
      ∧ Event.removeFromNodeCache (some ⟨7, rgba, .eImageBitDepthFloat, .eStorageModeRAM, 0⟩)
          ∈ final.trace := by
  obtain ⟨final, h1, -, h3, -, -, h6, -⟩ :=
    cacheLookup_all_or_nothing staleHitEnv (renderRoI staleHitEnv 1) 1 twoPlanesArgs [] 100
      staleHitState (by rfl)
  obtain ⟨-, h7, h8⟩ := (h6 [rgba] motion [] (by rfl) (by rfl)).1 (by rfl) (by rfl)
  exact ⟨final, h1, h3, h7,
    h8 [] rgba
      { fullscaleImage := some ⟨7, rgba, .eImageBitDepthFloat, .eStorageModeRAM, 0⟩,
        downscaleImage := some ⟨7, rgba, .eImageBitDepthFloat, .eStorageModeRAM, 0⟩,
        isAllocatedOnTheFly := false }
      [] ⟨7, rgba, .eImageBitDepthFloat, .eStorageModeRAM, 0⟩ (by rfl) rfl (by rfl)⟩

end Natron
